import Mathlib

/-!
The reconciliation of controlled-job: the decision engine, the schedule and `Reconcile`.

A shallow embedding of `pkg/reconciliation/decision.go` (`makeDecision` and its helpers),
`pkg/reconciliation/state.go` (`buildState`), `pkg/reconciliation/reconcile.go` (`Reconcile`),
`pkg/schedule` (`cronPrev`, `findNearestEvent`, `StateFor`), `pkg/events`,
`pkg/metadata/job_metadata.go`, `pkg/metadata/job_naming.go`, `pkg/job/builder.go`,
`pkg/mutators/registry.go`, `api/v1/helpers.go` and `AsCronSpec` of
`api/v1/controlledjob_types.go`, followed by theorems about them.

Conventions of the embedding:

* Go pointers to Jobs are modelled by `JobRef`: a `JobPtr` (the identity of the pointee) together
  with the pointee. `AllJobs[i] = &childJobs.Items[i]` is the pointer `JobPtr.child i`; the Job
  allocated by the builder is `JobPtr.created k`. The Go comparison `job == chosenJob` compares
  pointers, hence compares `JobPtr`s.
* Go maps `map[string]string` are association lists; a missing key reads as the empty string.
* `time.Time` is an instant in nanoseconds since the Unix epoch plus the zone offset that the Go
  value carries for printing. `Before` and `After` compare instants.
* The standard library and external collaborators that the code calls (`time.Parse`,
  `Time.Format`, `json.Marshal` + `sha256`, `time.Now`, the registered mutators) are the fields of
  an environment record `Env`; every theorem holds for every environment.
* A `time.Time` whose location matters is a `ZonedTime`: an instant and a `Location`, which is an
  initial offset and a list of zone transitions. `time.Date`, `Truncate` and the accessors of
  the wall clock follow Go's arithmetic. `cronPrev` is a machine of single steps run with a
  bound on their number; `none` means that the search has not returned within the bound.
* The cron library (`time.LoadLocation`, `cron.ParseStandard`, `SpecSchedule.Next`) is a record
  `CronLib`, and the responses of the Kubernetes client are a record `Cluster`. A call of
  `Reconcile` yields the result, the calls that change the cluster in order, and the
  ControlledJob handed to `UpdateStatus`.
* The regular expressions of the code (`timeOfDayRegex`, `daysOfWeekRegex`, `jobNameRegex`) are
  matchers on the characters of the text. A `time.Duration` is an integer number of
  nanoseconds; `Time.Sub` limits it to the range of an int64 as Go does.
-/

namespace CJ

/-! ## Strings, maps and numbers as Go sees them -/

/-- Lexicographic comparison of two code-point sequences (strictly less). -/
def codesLess : List Nat → List Nat → Bool
  | [], [] => false
  | [], _ :: _ => true
  | _ :: _, [] => false
  | a :: as, b :: bs => if a < b then true else if b < a then false else codesLess as bs

/-- The code points of a string. Go compares strings bytewise over their UTF-8 encoding, which
orders strings exactly as their code-point sequences are ordered. -/
def codes (s : String) : List Nat := s.toList.map Char.toNat

/-- Go's `a < b` on strings. -/
def strLess (a b : String) : Bool := codesLess (codes a) (codes b)

/-- Go's `a > b` on strings. -/
def strGreater (a b : String) : Bool := strLess b a

/-- A Go `map[string]string`. -/
abbrev StringMap := List (String × String)

/-- Go's `m[k]` on a `map[string]string`: the zero value `""` when the key is absent. -/
def StringMap.get (m : StringMap) (k : String) : String :=
  match m.lookup k with
  | some v => v
  | none => ""

/-- Go's `v, ok := m[k]`. -/
def StringMap.find (m : StringMap) (k : String) : Option String := m.lookup k

/-- Go's `m[k] = v`. -/
def StringMap.set (m : StringMap) (k v : String) : StringMap :=
  (k, v) :: m.filter (fun p => !(p.1 == k))

/-- Go's `for k, v := range src { dst[k] = v }`. -/
def StringMap.copyInto (src dst : StringMap) : StringMap :=
  src.foldl (fun acc p => acc.set p.1 p.2) dst

/-- Value of a decimal digit character. -/
def digitValue (c : Char) : Option Nat :=
  if 48 ≤ c.toNat ∧ c.toNat ≤ 57 then some (c.toNat - 48) else none

/-- Value of a non-empty run of decimal digits, most significant first. -/
def digitsValue : List Char → Nat → Option Nat
  | [], acc => some acc
  | c :: cs, acc =>
    match digitValue c with
    | some d => digitsValue cs (acc * 10 + d)
    | none => none

/-- Go's `strconv.Atoi` on a 64-bit platform: an optional sign, then one or more decimal digits,
the value within the range of `int`; anything else is an error (`none`). -/
def Atoi (s : String) : Option Int :=
  let body (cs : List Char) : Option Nat :=
    match cs with
    | [] => none
    | _ :: _ => digitsValue cs 0
  let signed : Option Int :=
    match s.toList with
    | '-' :: cs => (body cs).map (fun n => -(n : Int))
    | '+' :: cs => (body cs).map (fun n => (n : Int))
    | cs => (body cs).map (fun n => (n : Int))
  match signed with
  | some v => if -(2 : Int) ^ 63 ≤ v ∧ v < (2 : Int) ^ 63 then some v else none
  | none => none

/-- Go's `fmt.Sprintf("%d", n)`. -/
def formatInt (n : Int) : String :=
  match n with
  | Int.ofNat k => Nat.repr k
  | Int.negSucc k => "-" ++ Nat.repr (k + 1)

/-- Go's `strconv.ParseBool`. -/
def ParseBool (s : String) : Option Bool :=
  if s = "1" ∨ s = "t" ∨ s = "T" ∨ s = "TRUE" ∨ s = "true" ∨ s = "True" then some true
  else if s = "0" ∨ s = "f" ∨ s = "F" ∨ s = "FALSE" ∨ s = "false" ∨ s = "False" then some false
  else none

/-- ASCII lower-casing of one character. -/
def lowerASCII (c : Char) : Char :=
  if 65 ≤ c.toNat ∧ c.toNat ≤ 90 then Char.ofNat (c.toNat + 32) else c

/-- Go's `strings.EqualFold(s, "Recreate")`. None of the letters of `Recreate` has a non-ASCII
case variant under Unicode simple folding, so the fold is the ASCII one. -/
def equalFoldRecreate (s : String) : Bool :=
  s.toList.map lowerASCII == "recreate".toList

/-! ## Time -/

/-- A Go `time.Time`: the instant, and the offset east of UTC (seconds) of its location. -/
structure Time where
  unixNano : Int
  zoneOffset : Int
  deriving DecidableEq, Repr

/-- Nanoseconds per second (`time.Second`). -/
def Second : Int := 1000000000

/-- The zero `time.Time{}`: January 1, year 1, 00:00:00 UTC. -/
def Time.zero : Time := { unixNano := -62135596800 * Second, zoneOffset := 0 }

/-- Go's `t.IsZero()`. -/
def Time.IsZero (t : Time) : Bool := t.unixNano == Time.zero.unixNano

/-- Go's `t.Before(u)`. -/
def Time.Before (t u : Time) : Bool := decide (t.unixNano < u.unixNano)

/-- Go's `t.After(u)`. -/
def Time.After (t u : Time) : Bool := decide (u.unixNano < t.unixNano)

/-- Go's `t.Add(d)` for a duration `d` in nanoseconds. -/
def Time.Add (t : Time) (d : Int) : Time := { t with unixNano := t.unixNano + d }

/-- Go's `t.Sub(u)` in nanoseconds: the difference if it fits a `time.Duration` (an int64),
the least Duration if it lies below that range and the greatest if it lies above. -/
def Time.Sub (t u : Time) : Int :=
  let d := t.unixNano - u.unixNano
  if -(2 : Int) ^ 63 ≤ d ∧ d < (2 : Int) ^ 63 then d
  else if t.Before u then -(2 : Int) ^ 63
  else (2 : Int) ^ 63 - 1

/-- Go's `t.Unix()`: whole seconds since the epoch, rounded down. -/
def Time.Unix (t : Time) : Int := t.unixNano / Second

/-- An instant given in whole seconds since the epoch, in UTC. -/
def Time.ofUnix (sec : Int) : Time := { unixNano := sec * Second, zoneOffset := 0 }

/-! ## Kubernetes objects (the fields the operator reads or writes) -/

/-- The code's `metav1.ConditionStatus` and `corev1.ConditionStatus`: strings. -/
abbrev ConditionStatus := String

def ConditionTrue : ConditionStatus := "True"

def ConditionFalse : ConditionStatus := "False"

def ConditionUnknown : ConditionStatus := "Unknown"

/-- The code's `kbatch.JobConditionType` values used by the operator. -/
def JobComplete : String := "Complete"

def JobFailed : String := "Failed"

/-- A `kbatch.JobCondition`. -/
structure JobCondition where
  type : String
  status : ConditionStatus
  deriving DecidableEq, Repr

/-- A `kbatch.JobSpec`: the suspend flag, and everything else as one opaque payload. -/
structure JobSpec where
  suspend : Option Bool
  payload : String
  deriving DecidableEq, Repr

/-- A `kbatch.JobStatus`. -/
structure JobStatus where
  conditions : List JobCondition
  ready : Option Int
  active : Int
  deriving DecidableEq, Repr

/-- A `metav1.OwnerReference`. -/
structure OwnerReference where
  apiVersion : String
  kind : String
  name : String
  uid : String
  controller : Option Bool
  blockOwnerDeletion : Option Bool
  deriving DecidableEq, Repr

/-- A `kbatch.Job`. -/
structure Job where
  name : String
  ns : String
  uid : String
  resourceVersion : String
  labels : StringMap
  annotations : StringMap
  deletionTimestamp : Option Time
  ownerReferences : List OwnerReference
  spec : JobSpec
  status : JobStatus
  deriving DecidableEq, Repr

/-- The identity of a Job pointer. -/
inductive JobPtr where
  | child (i : Nat)
  | created (k : Nat)
  deriving DecidableEq, Repr

/-- A `*kbatch.Job`: the pointer and the Job it points to. -/
structure JobRef where
  ptr : JobPtr
  job : Job
  deriving DecidableEq, Repr

/-- Go's pointer comparison `a == b` on two `*kbatch.Job`. -/
def JobRef.same (a b : JobRef) : Bool := a.ptr == b.ptr

/-- A `corev1.ObjectReference`. -/
structure ObjectReference where
  kind : String
  apiVersion : String
  name : String
  ns : String
  uid : String
  resourceVersion : String
  deriving DecidableEq, Repr

/-- A `v1beta1.JobTemplateSpec`. -/
structure JobTemplateSpec where
  labels : StringMap
  annotations : StringMap
  spec : JobSpec
  deriving DecidableEq, Repr

/-! ## The ControlledJob resource (`api/v1/controlledjob_types.go`) -/

structure TimezoneSpec where
  name : String
  offsetSeconds : Int
  deriving DecidableEq, Repr

abbrev EventType := String

def EventTypeStart : EventType := "start"

def EventTypeStop : EventType := "stop"

structure FriendlyScheduleSpec where
  timeOfDay : String
  daysOfWeek : String
  deriving DecidableEq, Repr

structure EventSpec where
  action : EventType
  cronSchedule : String
  schedule : Option FriendlyScheduleSpec
  deriving DecidableEq, Repr

abbrev SpecChangePolicy := String

def IgnoreSpecChangePolicy : SpecChangePolicy := "Ignore"

def RecreateSpecChangePolicy : SpecChangePolicy := "Recreate"

structure RestartStrategy where
  specChangePolicy : SpecChangePolicy
  deriving DecidableEq, Repr

structure ControlledJobSpec where
  timezone : TimezoneSpec
  events : List EventSpec
  jobTemplate : JobTemplateSpec
  startingDeadlineSeconds : Option Int
  restartStrategy : RestartStrategy
  suspend : Option Bool
  deriving DecidableEq, Repr

/-- A `metav1.Condition`. -/
structure Condition where
  type : String
  status : ConditionStatus
  observedGeneration : Int
  lastTransitionTime : Time
  reason : String
  message : String
  deriving DecidableEq, Repr

structure ControlledJobActionHistoryEntry where
  type : String
  timestamp : Option Time
  message : String
  scheduledStartTime : Option Time
  jobIndex : Option Int
  jobName : String
  deriving DecidableEq, Repr

structure ControlledJobStatus where
  active : List ObjectReference
  lastScheduledStartTime : Option Time
  shouldBeRunning : Option Bool
  isRunning : Option Bool
  isSuspended : Option Bool
  mostRecentAction : Option ControlledJobActionHistoryEntry
  actionHistory : List ControlledJobActionHistoryEntry
  conditions : List Condition
  deriving DecidableEq, Repr

structure ControlledJob where
  name : String
  ns : String
  uid : String
  generation : Int
  annotations : StringMap
  spec : ControlledJobSpec
  status : ControlledJobStatus
  deriving DecidableEq, Repr

abbrev ControlledJobConditionType := String

def ConditionTypeShouldBeRunning : ControlledJobConditionType := "ShouldBeRunning"

def ConditionTypeSuspended : ControlledJobConditionType := "Suspended"

def ConditionTypeOutOfDate : ControlledJobConditionType := "OutOfDate"

def ConditionTypeJobManuallyScheduled : ControlledJobConditionType := "JobManuallyScheduled"

def ConditionTypeJobExists : ControlledJobConditionType := "JobExists"

def ConditionTypeJobRunning : ControlledJobConditionType := "JobRunning"

def ConditionTypeJobComplete : ControlledJobConditionType := "JobComplete"

def ConditionTypeJobFailed : ControlledJobConditionType := "JobFailed"

def ConditionTypeJobBeingDeleted : ControlledJobConditionType := "JobBeingDeleted"

def ConditionTypeJobSuspended : ControlledJobConditionType := "JobSuspended"

def ConditionTypeJobStoppedByUser : ControlledJobConditionType := "JobStoppedByUser"

def ConditionTypeStartingDeadlineExceeded : ControlledJobConditionType := "StartingDeadlineExceeded"

/-! ## The environment -/

/-- A registered `mutators.Mutator`: its name and its `Apply`, which either fails or leaves the
Job changed in place. -/
structure Mutator where
  name : String
  apply : Job → Except String Job

/-- What the code obtains from the standard library and from its external collaborators. -/
structure Env where
  /-- Go's `time.Parse(time.RFC3339, s)`; `none` is a parse error. -/
  parseRFC3339 : String → Option Time
  /-- Go's `t.Format(time.RFC3339)`. -/
  formatRFC3339 : Time → String
  /-- Go's `hex.EncodeToString(sha256.Sum256(json.Marshal(spec)))`. -/
  templateDigest : JobTemplateSpec → String
  /-- Go's `time.Now()`, read when a condition is written. -/
  timeNow : Time
  /-- The contents of `mutators.registeredMutators`, in the order the map is ranged over. -/
  registeredMutators : List Mutator

/-! ## `pkg/metadata` -/

/-- Modelled from the spec: `batch.GroupVersion.Group`, declared in a file of `api/v1` that is
not part of the sources at hand; the spec's annotation schema `<group>/scheduled-at` and the
comment in `pkg/schedule/state.go` give the group as `batch.gresearch.co.uk`. -/
def Group : String := "batch.gresearch.co.uk"

def ScheduledTimeAnnotation : String := Group ++ "/scheduled-at"

def JobRunIdAnnotation : String := Group ++ "/job-run-id"

def ControlledJobLabel : String := Group ++ "/controlled-job"

def ManualJobAnnotation : String := Group ++ "/is-manually-scheduled"

def TemplateHashAnnotation : String := Group ++ "/job-template-hash"

def SuspendReason : String := Group ++ "/suspend-reason"

def ApplyMutationsAnnotation : String := Group ++ "/apply-mutations"

def TimeZoneAnnotation : String := Group ++ "/timezone"

def TimeZoneOffsetSecondsAnnotation : String := Group ++ "/timezone-offset-seconds"

/-- The code's `metadata.CalculateHashFor`: the digest of the template with `spec.suspend` set
to nil. The argument is passed by value, so the caller's template is untouched. -/
def CalculateHashFor (env : Env) (spec : JobTemplateSpec) : String :=
  env.templateDigest { spec with spec := { spec.spec with suspend := none } }

/-- The code's `metadata.IsManuallyScheduledJob`. -/
def IsManuallyScheduledJob (job : Job) : Bool :=
  match job.annotations.find ManualJobAnnotation with
  | some v =>
    match ParseBool v with
    | some b => b
    | none => false
  | none => false

/-- The code's `metadata.GetJobCondition`: the first condition of the given type whose status is
True. -/
def GetJobCondition (job : Job) (conditionType : String) : Option JobCondition :=
  job.status.conditions.find? (fun c => c.type == conditionType && c.status == ConditionTrue)

/-- The code's `metadata.JobHasCondition`. -/
def JobHasCondition (job : Job) (conditionType : String) : Bool :=
  match GetJobCondition job conditionType with
  | none => false
  | some c => c.status == ConditionTrue

/-- The code's `metadata.IsJobCompleted`: a Complete or Failed condition with status True. -/
def IsJobCompleted (job : Job) : Bool :=
  if JobHasCondition job JobComplete || JobHasCondition job JobFailed then true else false

/-- The code's `metadata.IsJobPotentiallyRunning`. -/
def IsJobPotentiallyRunning (job : Job) : Bool := !IsJobCompleted job

/-- The code's `metadata.IsJobBeingDeleted`. -/
def IsJobBeingDeleted (job : Job) : Bool := job.deletionTimestamp.isSome

/-- The code's `metadata.IsJobSuspended`. -/
def IsJobSuspended (job : Job) : Bool :=
  match job.spec.suspend with
  | some b => b == true
  | none => false

/-- The code's `metadata.WasJobStoppedByTheUser`. -/
def WasJobStoppedByTheUser (job : Job) : Bool :=
  let suspendReason := job.annotations.get SuspendReason
  IsJobSuspended job && suspendReason == "user-stop"

/-- The code's `metadata.JobHasReadyStatus`. -/
def JobHasReadyStatus (job : Job) : Bool := job.status.ready.isSome

/-- The code's `metadata.IsJobRunning`. -/
def IsJobRunning (job : Job) : Bool :=
  if IsJobCompleted job then false
  else
    match job.status.ready with
    | some r => decide (r > 0)
    | none => decide (job.status.active > 0)

/-- The code's `metadata.GetScheduledTime`; `none` stands for the returned error. -/
def GetScheduledTime (env : Env) (job : Job) : Option Time :=
  let timeRaw := job.annotations.get ScheduledTimeAnnotation
  if timeRaw.length = 0 then none else env.parseRFC3339 timeRaw

/-- The code's `metadata.GetJobRunId`; `none` stands for the returned error. -/
def GetJobRunId (job : Job) : Option Int :=
  let idxRaw := job.annotations.get JobRunIdAnnotation
  if idxRaw.length = 0 then none else Atoi idxRaw

/-- The code's `metadata.JobName`: `fmt.Sprintf("%s-%d-%d", name, scheduledTime.Unix(), id)`. -/
def JobName (controlledJobName : String) (scheduledTime : Time) (jobRunId : Int) : String :=
  controlledJobName ++ "-" ++ formatInt scheduledTime.Unix ++ "-" ++ formatInt jobRunId

/-! ## `pkg/mutators` and `pkg/job` -/

/-- The code's `mutators.Apply`: every registered mutator in turn on a copy of the Job; the first
failure aborts with the wrapped error. -/
def mutatorsApply (env : Env) (job : Job) : Except String Job :=
  env.registeredMutators.foldl
    (fun acc m =>
      match acc with
      | .error e => .error e
      | .ok j =>
        match m.apply j with
        | .ok j2 => .ok j2
        | .error e => .error ("mutator " ++ m.name ++ " failed: " ++ e))
    (.ok job)

/-- The owner reference written by `ctrl.SetControllerReference(controlledJob, job, scheme)`.
The call cannot fail here: the Job is fresh (no owner yet) and lives in the owner's namespace. -/
def controllerReference (controlledJob : ControlledJob) : OwnerReference :=
  { apiVersion := Group ++ "/v1", kind := "ControlledJob", name := controlledJob.name,
    uid := controlledJob.uid, controller := some true, blockOwnerDeletion := some true }

/-- The first part of the code's `job.buildJob`: the Job assembled from the ControlledJob's
template, before any mutator is applied. -/
def assembleJob (env : Env) (controlledJob : ControlledJob) (scheduledTime : Time)
    (jobRunId : Int) (isManuallyScheduled startSuspended : Bool) : Job :=
  let name := JobName controlledJob.name scheduledTime jobRunId
  let annotations0 : StringMap := controlledJob.spec.jobTemplate.annotations.copyInto []
  let annotations1 := annotations0.set ScheduledTimeAnnotation (env.formatRFC3339 scheduledTime)
  let annotations2 := annotations1.set JobRunIdAnnotation (formatInt jobRunId)
  let annotations3 :=
    annotations2.set TemplateHashAnnotation (CalculateHashFor env controlledJob.spec.jobTemplate)
  let annotations4 :=
    if controlledJob.spec.timezone.name.length > 0 then
      annotations3.set TimeZoneAnnotation controlledJob.spec.timezone.name
    else annotations3
  let annotations5 :=
    if controlledJob.spec.timezone.offsetSeconds ≠ 0 then
      annotations4.set TimeZoneOffsetSecondsAnnotation (formatInt controlledJob.spec.timezone.offsetSeconds)
    else annotations4
  let annotations6 :=
    if isManuallyScheduled then annotations5.set ManualJobAnnotation "true" else annotations5
  let spec : JobSpec :=
    if startSuspended then { controlledJob.spec.jobTemplate.spec with suspend := some startSuspended }
    else controlledJob.spec.jobTemplate.spec
  let labels0 : StringMap := controlledJob.spec.jobTemplate.labels.copyInto []
  let labels1 := labels0.set ControlledJobLabel controlledJob.name
  { name := name, ns := controlledJob.ns, uid := "", resourceVersion := "",
    labels := labels1, annotations := annotations6, deletionTimestamp := none,
    ownerReferences := [controllerReference controlledJob], spec := spec,
    status := { conditions := [], ready := none, active := 0 } }

/-- The code's `job.buildJob`: the assembled Job, pushed through the registered mutators when
the ControlledJob carries `apply-mutations` with a value that lower-cases to `true`. The test
`strings.ToLower(v) == "true"` is the ASCII one: no non-ASCII letter lower-cases to a letter of
`true`. -/
def buildJob (env : Env) (controlledJob : ControlledJob) (scheduledTime : Time) (jobRunId : Int)
    (isManuallyScheduled startSuspended : Bool) : Except String Job :=
  let job := assembleJob env controlledJob scheduledTime jobRunId isManuallyScheduled startSuspended
  match controlledJob.annotations.find ApplyMutationsAnnotation with
  | some v =>
    if v.toList.map lowerASCII == "true".toList then mutatorsApply env job else .ok job
  | none => .ok job

/-- The code's `job.BuildForControlledJob`. -/
def BuildForControlledJob (env : Env) (controlledJob : ControlledJob) (scheduledTime : Time)
    (jobRunIdx : Int) (isManuallyScheduled startSuspended : Bool) : Except String Job :=
  buildJob env controlledJob scheduledTime jobRunIdx isManuallyScheduled startSuspended

/-- The code's `job.RecreateJobWithNewSpec`. When the scheduled time of the existing Job cannot
be read the code returns the error of `metadata.GetScheduledTime`; its text (which names the
Job, or is the error of `time.Parse`) is not modelled, a fixed text stands for it. -/
def RecreateJobWithNewSpec (env : Env) (existingJob : Job) (controlledJob : ControlledJob)
    (jobRunIdx : Int) (startSuspended : Bool) : Except String Job :=
  let wasManuallyScheduled := IsManuallyScheduledJob existingJob
  match GetScheduledTime env existingJob with
  | none => .error "could not read the scheduled time"
  | some oldScheduledTime =>
    buildJob env controlledJob oldScheduledTime jobRunIdx wasManuallyScheduled startSuspended

/-! ## `api/v1/helpers.go` -/

/-- The code's `v1.FindCondition`. -/
def FindCondition (status : ControlledJobStatus) (conditionType : ControlledJobConditionType) :
    Option Condition :=
  status.conditions.find? (fun c => c.type == conditionType)

/-- The in-place update of an existing condition in `v1.SetCondition`. -/
def updateCondition (existing new : Condition) : Condition :=
  let stamped :=
    if existing.status ≠ new.status ∨ existing.lastTransitionTime.IsZero then
      { existing with lastTransitionTime := new.lastTransitionTime,
                      observedGeneration := new.observedGeneration }
    else existing
  { stamped with status := new.status, reason := new.reason, message := new.message }

/-- Replace the first condition of the type of `new` by its update. -/
def updateFirst (new : Condition) : List Condition → List Condition
  | [] => []
  | c :: cs => if c.type == new.type then updateCondition c new :: cs else c :: updateFirst new cs

/-- The code's `v1.SetCondition`. -/
def SetCondition (env : Env) (controlledJob : ControlledJob)
    (conditionType : ControlledJobConditionType) (status : ConditionStatus)
    (reason message : String) : ControlledJob :=
  let newCondition : Condition :=
    { type := conditionType, status := status, lastTransitionTime := env.timeNow,
      observedGeneration := controlledJob.generation, reason := reason, message := message }
  match FindCondition controlledJob.status conditionType with
  | none =>
    { controlledJob with
      status := { controlledJob.status with
                  conditions := controlledJob.status.conditions ++ [newCondition] } }
  | some _ =>
    { controlledJob with
      status := { controlledJob.status with
                  conditions := updateFirst newCondition controlledJob.status.conditions } }

/-- The code's `v1.SetConditionBasedOnFlag`. -/
def SetConditionBasedOnFlag (env : Env) (controlledJob : ControlledJob)
    (conditionType : ControlledJobConditionType) (flag : Bool)
    (reasonWhenTrue messageWhenTrue reasonWhenFalse messageWhenFalse : String) : ControlledJob :=
  if flag then SetCondition env controlledJob conditionType ConditionTrue reasonWhenTrue messageWhenTrue
  else SetCondition env controlledJob conditionType ConditionFalse reasonWhenFalse messageWhenFalse

/-- The code's `v1.JobConditionToReason`. -/
def JobConditionToReason (condition : JobCondition) (pre : String) : String :=
  if condition.status == ConditionTrue then pre ++ "True"
  else if condition.status == ConditionFalse then pre ++ "False"
  else pre ++ "Unknown"

/-! ## `pkg/schedule/state.go`: the schedule state and its accessors -/

/-- The code's `schedule.ScheduledEvent`. -/
structure ScheduledEvent where
  type : EventType
  scheduledTimeUTC : Time
  deriving DecidableEq, Repr

/-- The code's `schedule.state`, the value behind the `schedule.State` interface. -/
structure ScheduleState where
  lastStopTime : Option Time
  startOfCurrentRunPeriod : Option Time
  previousEvent : Option ScheduledEvent
  nextEvent : Option ScheduledEvent
  deriving DecidableEq, Repr

def ScheduleState.NextEventTime (s : ScheduleState) : Option Time :=
  match s.nextEvent with
  | none => none
  | some e => some e.scheduledTimeUTC

def ScheduleState.ShouldBeRunning (s : ScheduleState) : Bool :=
  match s.previousEvent with
  | none => false
  | some e => e.type == EventTypeStart

def ScheduleState.LastStopTime (s : ScheduleState) : Option Time := s.lastStopTime

def ScheduleState.StartOfCurrentRunPeriod (s : ScheduleState) : Option Time :=
  s.startOfCurrentRunPeriod

/-! ## `pkg/reconciliation/state.go` -/

/-- The code's `reconciliation.state`. -/
structure State where
  IsSuspended : Bool
  ShouldBeRunning : Option Bool
  StartOfCurrentRunPeriod : Option Time
  LastStopTime : Option Time
  NextEventTime : Option Time
  AllJobs : List JobRef
  DesiredHash : String
  AutoRestartIsEnabled : Bool

/-- The code's `Decision`. -/
structure Decision where
  JobsToCreate : List JobRef
  JobsToDelete : List JobRef
  JobsToSuspend : List JobRef
  JobsToUnsuspend : List JobRef
  RequeueAt : Time
  deriving DecidableEq, Repr

/-- The errors `makeDecision` returns. -/
inductive DecisionError where
  /-- The error of `buildState`: `schedule.StateFor` failed with the given cause. -/
  | failedToCalculateSchedule (cause : String)
  /-- The error "Failed to create job" wrapping the builder's error. -/
  | failedToCreateJob (cause : String)
  /-- The error "Tried to create a job, but we have exceeded the specified
  StartingDeadlineSeconds after the scheduled start time". -/
  | startingDeadlineExceeded
  /-- The error "Tried to create a job, but the StartOfCurrentRunPeriod is nil, which was
  unexpected". -/
  | startOfCurrentRunPeriodIsNil
  deriving DecidableEq, Repr

/-- The pointers `&childJobs.Items[i]`, `&childJobs.Items[i+1]`, ... -/
def pointersFrom : Nat → List Job → List JobRef
  | _, [] => []
  | i, j :: js => { ptr := JobPtr.child i, job := j } :: pointersFrom (i + 1) js

/-- The code's `buildState`. The argument `scheduleState` is the value returned by
`schedule.StateFor(controlledJob, now)`. -/
def buildState (env : Env) (scheduleState : Except String ScheduleState)
    (controlledJob : ControlledJob) (childJobs : List Job) : Except DecisionError State :=
  match scheduleState with
  | .error e => .error (DecisionError.failedToCalculateSchedule e)
  | .ok scheduleState =>
    let allJobs := pointersFrom 0 childJobs
    let startOfCurrentRunPeriod := scheduleState.StartOfCurrentRunPeriod
    let shouldBeRunning : Option Bool :=
      match startOfCurrentRunPeriod with
      | some _ => some scheduleState.ShouldBeRunning
      | none => none
    .ok { IsSuspended :=
            (match controlledJob.spec.suspend with
              | some b => b
              | none => false),
          ShouldBeRunning := shouldBeRunning,
          StartOfCurrentRunPeriod := startOfCurrentRunPeriod,
          LastStopTime := scheduleState.LastStopTime,
          NextEventTime := scheduleState.NextEventTime,
          AllJobs := allJobs,
          DesiredHash := CalculateHashFor env controlledJob.spec.jobTemplate,
          AutoRestartIsEnabled := equalFoldRecreate controlledJob.spec.restartStrategy.specChangePolicy }

/-! ## `pkg/reconciliation/decision.go`: helpers -/

/-- Go's `int` arithmetic on a 64-bit platform wraps around. -/
def wrapInt64 (x : Int) : Int := (x + 2 ^ 63) % 2 ^ 64 - 2 ^ 63

/-- The code's `isOutOfDate`. -/
def isOutOfDate (job : Job) (state : State) : Bool :=
  let actualHash := job.annotations.get TemplateHashAnnotation
  actualHash != "" && actualHash != state.DesiredHash

/-- The code's `isBetterCandidateJob`. -/
def isBetterCandidateJob (job currentCandidate : Job) (state : State) : Bool :=
  if IsJobBeingDeleted job != IsJobBeingDeleted currentCandidate then
    !IsJobBeingDeleted job
  else
    let jobHash := job.annotations.get TemplateHashAnnotation
    let currentCandidateHash := currentCandidate.annotations.get TemplateHashAnnotation
    let desiredHash := state.DesiredHash
    if (jobHash == desiredHash) != (currentCandidateHash == desiredHash) then
      jobHash == desiredHash
    else
      strGreater job.name currentCandidate.name

/-- The code's `startingDeadlineSecondsExceeded`. The product
`time.Second * time.Duration(seconds)` is an `int64` and wraps around. -/
def startingDeadlineSecondsExceeded (controlledJob : ControlledJob)
    (scheduledStartTime : Option Time) (now : Time) : Bool :=
  match controlledJob.spec.startingDeadlineSeconds with
  | none => false
  | some seconds =>
    if seconds < 1 then false
    else
      match scheduledStartTime with
      | none => false
      | some startTime =>
        let deadline := startTime.Add (wrapInt64 (Second * seconds))
        now.After deadline

/-- The code's `setShouldBeRunningStatus`. -/
def setShouldBeRunningStatus (env : Env) (controlledJob : ControlledJob) (state : State) :
    ControlledJob :=
  match state.ShouldBeRunning with
  | some b =>
    let cj := { controlledJob with status := { controlledJob.status with shouldBeRunning := some b } }
    if b then
      SetCondition env cj ConditionTypeShouldBeRunning ConditionTrue "InsideRunPeriod"
        "Currently between a start and stop time in the schedule"
    else
      SetCondition env cj ConditionTypeShouldBeRunning ConditionFalse "OutsideRunPeriod"
        "Currently outside of a start and stop time in the schedule"
  | none =>
    let cj := { controlledJob with status := { controlledJob.status with shouldBeRunning := some false } }
    SetCondition env cj ConditionTypeShouldBeRunning ConditionUnknown "NoStartEvent"
      "No start events defined"

/-- The code's `setConditionIfTrueForAnyJob`. -/
def setConditionIfTrueForAnyJob (env : Env) (controlledJob : ControlledJob)
    (conditionType : ControlledJobConditionType) (jobs : List JobRef) (test : Job → Bool)
    (reasonWhenTrue messageWhenTrue reasonWhenFalse messageWhenFalse : String) : ControlledJob :=
  let conditionIsTrue := jobs.any (fun j => test j.job)
  SetConditionBasedOnFlag env controlledJob conditionType conditionIsTrue
    reasonWhenTrue messageWhenTrue reasonWhenFalse messageWhenFalse

/-- The code's `setConditionsForAllJobs`. -/
def setConditionsForAllJobs (env : Env) (controlledJob : ControlledJob) (allJobs : List JobRef) :
    ControlledJob :=
  if allJobs.length = 0 then
    let cj := SetCondition env controlledJob ConditionTypeJobManuallyScheduled ConditionUnknown
      "NoCurrentJob" "No jobs"
    SetCondition env cj ConditionTypeJobBeingDeleted ConditionUnknown "NoCurrentJob" "No jobs"
  else
    let cj := setConditionIfTrueForAnyJob env controlledJob ConditionTypeJobManuallyScheduled
      allJobs IsManuallyScheduledJob
      "CreatedByUser" "The user has scheduled a job manually"
      "NoManuallyScheduledJobs" "There are no manually scheduled jobs"
    setConditionIfTrueForAnyJob env cj ConditionTypeJobBeingDeleted allJobs IsJobBeingDeleted
      "JobBeingDeleted" "A job is being deleted"
      "JobNotBeingDeleted" "No jobs are being deleted"

/-- The code's `setJobConditions`. -/
def setJobConditions (env : Env) (controlledJob : ControlledJob) (job : Option JobRef) :
    ControlledJob :=
  match job with
  | none =>
    let cj := SetCondition env controlledJob ConditionTypeJobExists ConditionFalse "NoCurrentJob" "No jobs"
    let cj := SetCondition env cj ConditionTypeJobRunning ConditionUnknown "NoCurrentJob" "No jobs"
    let cj := SetCondition env cj ConditionTypeJobComplete ConditionUnknown "NoCurrentJob" "No jobs"
    let cj := SetCondition env cj ConditionTypeJobFailed ConditionUnknown "NoCurrentJob" "No jobs"
    let cj := SetCondition env cj ConditionTypeJobSuspended ConditionUnknown "NoCurrentJob" "No jobs"
    SetCondition env cj ConditionTypeJobStoppedByUser ConditionUnknown "NoCurrentJob" "No jobs"
  | some ref =>
    let job := ref.job
    let cj := SetCondition env controlledJob ConditionTypeJobExists ConditionTrue "JobExists"
      "At least one job exists"
    let cj :=
      if JobHasReadyStatus job then
        SetConditionBasedOnFlag env cj ConditionTypeJobRunning (IsJobRunning job)
          "ReadyCountSufficient" "Job has the expected number of ready pods and hasn't completed"
          "ReadyCountNotSufficient"
          "Job does not yet have the expected number of ready pods (or it's completed). It could be struggling to start"
      else
        SetCondition env cj ConditionTypeJobRunning ConditionUnknown "CannotDetermine"
          "Job has no ready status, so we can't determine if it's running"
    let cj :=
      match GetJobCondition job JobComplete with
      | some completeCondition =>
        SetCondition env cj ConditionTypeJobComplete completeCondition.status
          (JobConditionToReason completeCondition "JobComplete")
          "Relaying JobComplete status from the Job"
      | none =>
        SetCondition env cj ConditionTypeJobComplete ConditionUnknown "JobCompleteUnkown"
          "Job has not reported a complete condition yet"
    let cj :=
      match GetJobCondition job JobFailed with
      | some failedCondition =>
        SetCondition env cj ConditionTypeJobFailed failedCondition.status
          (JobConditionToReason failedCondition "JobFailed")
          "Relaying JobFailed status from the Job"
      | none =>
        SetCondition env cj ConditionTypeJobFailed ConditionUnknown "JobFailedUnkown"
          "Job has not reported a failed condition yet"
    let cj := SetConditionBasedOnFlag env cj ConditionTypeJobSuspended (IsJobSuspended job)
      "JobSuspended" "The current job is suspended"
      "JobNotSuspended" "The current job is not suspended"
    SetConditionBasedOnFlag env cj ConditionTypeJobStoppedByUser (WasJobStoppedByTheUser job)
      "JobStoppedByUser" "The current job was manually stopped by a user"
      "JobNotStoppedByUser" "The current job was not stopped by a user"

/-- The object reference that `reference.GetReference(scheme, job)` makes for a Job. -/
def GetReference (job : Job) : ObjectReference :=
  { kind := "Job", apiVersion := "batch/v1", name := job.name, ns := job.ns, uid := job.uid,
    resourceVersion := job.resourceVersion }

/-! ### The two loops of `makeDecision` over `state.AllJobs` -/

/-- The variables of the first loop of `makeDecision` (lines 87-105). -/
structure RunIdScan where
  maxJobRunId : Int
  jobToRecordMetricsAgainst : Option JobRef

/-- One iteration of the first loop: skip a Job whose run id cannot be read, otherwise raise the
high watermark and keep the better candidate. -/
def scanRunIdStep (state : State) (acc : RunIdScan) (job : JobRef) : RunIdScan :=
  match GetJobRunId job.job with
  | none => acc
  | some runId =>
    { maxJobRunId := if runId > acc.maxJobRunId then runId else acc.maxJobRunId,
      jobToRecordMetricsAgainst :=
        match acc.jobToRecordMetricsAgainst with
        | none => some job
        | some current =>
          if isBetterCandidateJob job.job current.job state then some job else some current }

/-- The first loop of `makeDecision`. -/
def scanRunIds (state : State) (jobs : List JobRef) : RunIdScan :=
  jobs.foldl (scanRunIdStep state) { maxJobRunId := -1, jobToRecordMetricsAgainst := none }

/-- The variables of the second loop of `makeDecision` (lines 114-167). -/
structure Classification where
  numberOfPotentiallyRunningJobs : Nat
  expiredJobs : List JobRef
  nonExpiredJobs : List JobRef
  chosenJob : Option JobRef
  active : List ObjectReference

/-- The test "is the job expired" of the second loop (lines 143-158): with a last stop time, a
Job whose scheduled time cannot be read, or is before the last stop time, is expired. -/
def isExpired (env : Env) (lastStopTime : Option Time) (job : Job) : Bool :=
  match lastStopTime with
  | none => false
  | some lastStopTime =>
    match GetScheduledTime env job with
    | none => true
    | some jobStartTime => jobStartTime.Before lastStopTime

/-- One iteration of the second loop. -/
def classifyStep (env : Env) (state : State) (acc : Classification) (job : JobRef) :
    Classification :=
  let acc :=
    if IsJobPotentiallyRunning job.job then
      { acc with numberOfPotentiallyRunningJobs := acc.numberOfPotentiallyRunningJobs + 1,
                 active := acc.active ++ [GetReference job.job] }
    else acc
  if isExpired env state.LastStopTime job.job then
    { acc with expiredJobs := acc.expiredJobs ++ [job] }
  else
    { acc with
      nonExpiredJobs := acc.nonExpiredJobs ++ [job],
      chosenJob :=
        match acc.chosenJob with
        | none => some job
        | some current =>
          if isBetterCandidateJob job.job current.job state then some job else some current }

/-- The second loop of `makeDecision`. -/
def classifyJobs (env : Env) (state : State) (jobs : List JobRef) : Classification :=
  jobs.foldl (classifyStep env state)
    { numberOfPotentiallyRunningJobs := 0, expiredJobs := [], nonExpiredJobs := [],
      chosenJob := none, active := [] }

/-! ### `makeDecision` -/

/-- The local variables of `makeDecision` that live across its blocks. -/
structure Locals where
  controlledJob : ControlledJob
  decision : Decision
  chosenJob : Option JobRef
  numberOfPotentiallyRunningJobs : Nat
  expiredJobs : List JobRef
  nonExpiredJobs : List JobRef

/-- What a call of `makeDecision` leaves behind: the returned `decision` and `err`, the
ControlledJob whose status it has written, and the final values of its local variables
`chosenJob` and `numberOfPotentiallyRunningJobs`. -/
structure Outcome where
  decision : Decision
  err : Option DecisionError
  controlledJob : ControlledJob
  chosenJob : Option JobRef
  numberOfPotentiallyRunningJobs : Nat

/-- The zero value of `Decision`. -/
def Decision.zero : Decision :=
  { JobsToCreate := [], JobsToDelete := [], JobsToSuspend := [], JobsToUnsuspend := [],
    RequeueAt := Time.zero }

/-- A `return` of `makeDecision` with the locals as they stand. -/
def Locals.returning (l : Locals) (err : Option DecisionError) : Outcome :=
  { decision := l.decision, err := err, controlledJob := l.controlledJob,
    chosenJob := l.chosenJob, numberOfPotentiallyRunningJobs := l.numberOfPotentiallyRunningJobs }

/-- The deferred function of lines 115-118: `Status.IsRunning = (chosenJob != nil)`. -/
def recordIsRunning (o : Outcome) : Outcome :=
  { o with
    controlledJob :=
      { o.controlledJob with
        status := { o.controlledJob.status with isRunning := some o.chosenJob.isSome } } }

/-- Lines 176-182: outside the run period a chosen job that is not manually scheduled is
dropped. -/
def stopOutsideRunPeriod (shouldBeRunning : Bool) (l : Locals) : Locals :=
  let shouldBeStopped := !shouldBeRunning
  let isNotManuallyScheduled :=
    match l.chosenJob with
    | some c => !IsManuallyScheduledJob c.job
    | none => false
  if shouldBeStopped && isNotManuallyScheduled then { l with chosenJob := none } else l

/-- Lines 187-238: the chosen job whose template hash is out of date is either left alone or
replaced by a Job with the latest spec. -/
def recreateIfOutOfDate (env : Env) (state : State) (restartOnSpecChange : Bool)
    (maxJobRunId : Int) (l : Locals) : Locals × Option DecisionError :=
  match l.chosenJob with
  | none =>
    ({ l with controlledJob := SetCondition env l.controlledJob ConditionTypeOutOfDate
                ConditionFalse "NoRunningJob" "Not currently running" }, none)
  | some chosenJob =>
    if isOutOfDate chosenJob.job state then
      if !IsJobPotentiallyRunning chosenJob.job || WasJobStoppedByTheUser chosenJob.job then
        ({ l with controlledJob := SetCondition env l.controlledJob ConditionTypeOutOfDate
                    ConditionTrue "JobIsNotRunning"
                    "Job is out of date, but is not running so ignoring" }, none)
      else if IsJobBeingDeleted chosenJob.job then
        ({ l with controlledJob := SetCondition env l.controlledJob ConditionTypeOutOfDate
                    ConditionTrue "JobIsBeingDeleted"
                    "Job is out of date, but is being deleted so ignoring" }, none)
      else if !restartOnSpecChange then
        ({ l with controlledJob := SetCondition env l.controlledJob ConditionTypeOutOfDate
                    ConditionTrue "ShouldNotAutoRestart"
                    "Job is out of date, but auto-recreation is not enabled so will leave it running as is" },
          none)
      else
        match RecreateJobWithNewSpec env chosenJob.job l.controlledJob
            (wrapInt64 (maxJobRunId + 1)) true with
        | .error e => (l, some (DecisionError.failedToCreateJob e))
        | .ok built =>
          let newJob : JobRef :=
            { ptr := JobPtr.created l.decision.JobsToCreate.length, job := built }
          ({ l with
             decision := { l.decision with JobsToCreate := l.decision.JobsToCreate ++ [newJob] },
             numberOfPotentiallyRunningJobs := l.numberOfPotentiallyRunningJobs + 1,
             nonExpiredJobs := l.nonExpiredJobs ++ [newJob],
             chosenJob := some newJob,
             controlledJob := SetCondition env l.controlledJob ConditionTypeOutOfDate
               ConditionFalse "NotOutOfDate" "Running job matches desired spec" }, none)
    else
      ({ l with controlledJob := SetCondition env l.controlledJob ConditionTypeOutOfDate
                  ConditionFalse "NotOutOfDate" "Running job matches desired spec" }, none)

/-- Lines 253-279: inside the run period with no chosen job, a new Job is built for the start
of the current run period, unless the starting deadline is exceeded. -/
def startIfAbsent (env : Env) (state : State) (now : Time) (shouldBeRunning : Bool)
    (l : Locals) : Locals × Option DecisionError :=
  if shouldBeRunning && l.chosenJob.isNone then
    if startingDeadlineSecondsExceeded l.controlledJob state.StartOfCurrentRunPeriod now then
      ({ l with controlledJob := SetCondition env l.controlledJob
                  ConditionTypeStartingDeadlineExceeded ConditionTrue "StartingDeadlineExceeded"
                  "We expect to be running, but have exceeded the starting deadline" },
        some DecisionError.startingDeadlineExceeded)
    else
      let l :=
        { l with controlledJob := SetCondition env l.controlledJob
                   ConditionTypeStartingDeadlineExceeded ConditionFalse
                   "StartingDeadlineNotExceeded" "Still in time to start a new job" }
      match state.StartOfCurrentRunPeriod with
      | none => (l, some DecisionError.startOfCurrentRunPeriodIsNil)
      | some startOfCurrentRunPeriod =>
        match BuildForControlledJob env l.controlledJob startOfCurrentRunPeriod 0 false true with
        | .error e => (l, some (DecisionError.failedToCreateJob e))
        | .ok built =>
          let newJob : JobRef :=
            { ptr := JobPtr.created l.decision.JobsToCreate.length, job := built }
          ({ l with
             decision := { l.decision with JobsToCreate := l.decision.JobsToCreate ++ [newJob] },
             numberOfPotentiallyRunningJobs := l.numberOfPotentiallyRunningJobs + 1,
             nonExpiredJobs := l.nonExpiredJobs ++ [newJob],
             chosenJob := some newJob }, none)
  else
    ({ l with controlledJob := SetCondition env l.controlledJob
                ConditionTypeStartingDeadlineExceeded ConditionUnknown "NoNewJobRequired"
                "We're not trying to start a job at the moment" }, none)

/-- Go's `job == chosenJob` for a possibly nil `chosenJob`. -/
def isChosen (chosenJob : Option JobRef) (job : JobRef) : Bool :=
  match chosenJob with
  | some c => job.same c
  | none => false

/-- Lines 287-304: every expired Job, and every non-expired Job that is neither the chosen job
nor completed, is deleted, unless it is being deleted already. -/
def deleteOthers (l : Locals) : Locals :=
  let fromExpired := l.expiredJobs.filter (fun job => !IsJobBeingDeleted job.job)
  let fromNonExpired := l.nonExpiredJobs.filter (fun job =>
    !IsJobBeingDeleted job.job && !(isChosen l.chosenJob job || IsJobCompleted job.job))
  { l with decision :=
      { l.decision with JobsToDelete := l.decision.JobsToDelete ++ fromExpired ++ fromNonExpired } }

/-- The effect of `chosenJob.Spec.Suspend = nil` on a pointer to the same Job. -/
def clearSuspendOf (chosenJob : JobRef) (job : JobRef) : JobRef :=
  if job.same chosenJob then { job with job := { job.job with spec := { job.job.spec with suspend := none } } }
  else job

/-- Lines 317-330: with exactly one potentially running job, the chosen job, if suspended, not
being deleted and not stopped by the user, is unsuspended; if it is the Job this call creates,
its suspend flag is cleared instead. -/
def unsuspendIfSafe (l : Locals) : Locals :=
  match l.chosenJob with
  | none => l
  | some chosenJob =>
    if l.numberOfPotentiallyRunningJobs == 1 && IsJobSuspended chosenJob.job &&
        !IsJobBeingDeleted chosenJob.job && !WasJobStoppedByTheUser chosenJob.job then
      match l.decision.JobsToCreate with
      | [created] =>
        if created.same chosenJob then
          { l with
            chosenJob := some (clearSuspendOf chosenJob chosenJob),
            nonExpiredJobs := l.nonExpiredJobs.map (clearSuspendOf chosenJob),
            decision := { l.decision with
                          JobsToCreate := l.decision.JobsToCreate.map (clearSuspendOf chosenJob) } }
        else
          { l with decision := { l.decision with
                                 JobsToUnsuspend := l.decision.JobsToUnsuspend ++ [chosenJob] } }
      | _ =>
        { l with decision := { l.decision with
                               JobsToUnsuspend := l.decision.JobsToUnsuspend ++ [chosenJob] } }
    else l

/-- Lines 332-335: requeue at the next event time, if there is one. -/
def setRequeueAt (state : State) (l : Locals) : Locals :=
  match state.NextEventTime with
  | some t => { l with decision := { l.decision with RequeueAt := t } }
  | none => l

/-- Lines 176-339 of `makeDecision`, from the locals as they stand after the second loop. -/
def decideForJobs (env : Env) (state : State) (now : Time) (shouldBeRunning : Bool)
    (restartOnSpecChange : Bool) (maxJobRunId : Int) (l : Locals) : Outcome :=
  let l := stopOutsideRunPeriod shouldBeRunning l
  match recreateIfOutOfDate env state restartOnSpecChange maxJobRunId l with
  | (l, some e) => l.returning (some e)
  | (l, none) =>
    match startIfAbsent env state now shouldBeRunning l with
    | (l, some e) => l.returning (some e)
    | (l, none) => (setRequeueAt state (unsuspendIfSafe (deleteOthers l))).returning none

/-- The code's `makeDecision`. The argument `scheduleState` is the value returned by
`schedule.StateFor(controlledJob, now)`; `childJobs` is `childJobs.Items`. -/
def makeDecision (env : Env) (scheduleState : Except String ScheduleState)
    (controlledJob : ControlledJob) (childJobs : List Job) (now : Time)
    (enableAutoRecreateJobsOnSpecChange : Bool) : Outcome :=
  match buildState env scheduleState controlledJob childJobs with
  | .error e =>
    { decision := Decision.zero, err := some e, controlledJob := controlledJob,
      chosenJob := none, numberOfPotentiallyRunningJobs := 0 }
  | .ok state =>
    let controlledJob :=
      { controlledJob with
        status := { controlledJob.status with
                    isSuspended := some state.IsSuspended,
                    lastScheduledStartTime := state.StartOfCurrentRunPeriod } }
    let controlledJob := setShouldBeRunningStatus env controlledJob state
    let shouldBeRunning :=
      match state.ShouldBeRunning with
      | some b => b
      | none => false
    if state.IsSuspended then
      { decision := { Decision.zero with JobsToDelete := state.AllJobs },
        err := none,
        controlledJob := SetCondition env controlledJob ConditionTypeSuspended ConditionTrue
          "Suspended" "IsSuspended flag set",
        chosenJob := none, numberOfPotentiallyRunningJobs := 0 }
    else
      let controlledJob := SetCondition env controlledJob ConditionTypeSuspended ConditionFalse
        "NotSuspended" "IsSuspended flag not set"
      let restartOnSpecChange := enableAutoRecreateJobsOnSpecChange && state.AutoRestartIsEnabled
      let scan := scanRunIds state state.AllJobs
      let controlledJob := setConditionsForAllJobs env controlledJob state.AllJobs
      let controlledJob := setJobConditions env controlledJob scan.jobToRecordMetricsAgainst
      let cls := classifyJobs env state state.AllJobs
      let controlledJob :=
        { controlledJob with status := { controlledJob.status with active := cls.active } }
      recordIsRunning
        (decideForJobs env state now shouldBeRunning restartOnSpecChange scan.maxJobRunId
          { controlledJob := controlledJob, decision := Decision.zero, chosenJob := cls.chosenJob,
            numberOfPotentiallyRunningJobs := cls.numberOfPotentiallyRunningJobs,
            expiredJobs := cls.expiredJobs, nonExpiredJobs := cls.nonExpiredJobs })

/-! ## The `time` package: locations, the calendar and the wall clock -/

/-- One zone transition of a `time.Location`: from the instant `when` (Unix seconds) on, the
offset east of UTC is `offset` seconds. -/
structure ZoneTransition where
  when : Int
  offset : Int
  deriving DecidableEq, Repr

/-- A `*time.Location`: the offset in effect before the first transition, and the transitions
in ascending order of time. `isLocal` tells whether the pointer is `time.Local`. -/
structure Location where
  isLocal : Bool
  initialOffset : Int
  transitions : List ZoneTransition
  deriving DecidableEq, Repr

/-- The result of Go's `l.lookup(sec)`: the offset in effect at `sec`, and the span
`[start, stop)` of instants over which it is in effect. -/
structure ZoneSpan where
  offset : Int
  start : Int
  stop : Int
  deriving DecidableEq, Repr

/-- Go's `alpha`, the beginning of time for `lookup`. -/
def alpha : Int := -(2 ^ 63)

/-- Go's `omega`, the end of time for `lookup`. -/
def omega : Int := 2 ^ 63 - 1

/-- The search of `lookup` through the transitions, with the offset and the start of the span
found so far. -/
def lookupFrom (offset start : Int) : List ZoneTransition → Int → ZoneSpan
  | [], _ => { offset := offset, start := start, stop := omega }
  | tr :: rest, sec =>
    if sec < tr.when then { offset := offset, start := start, stop := tr.when }
    else lookupFrom tr.offset tr.when rest sec

/-- Go's `l.lookup(sec)`. -/
def Location.lookup (l : Location) (sec : Int) : ZoneSpan :=
  lookupFrom l.initialOffset alpha l.transitions sec

/-- Go's `time.UTC`. -/
def Location.UTC : Location := { isLocal := false, initialOffset := 0, transitions := [] }

/-- The civil date (year, month, day) of the day with the given number, day 0 being
1970-01-01, in the proleptic Gregorian calendar that Go's `time` package uses: 400-year,
100-year, 4-year and 1-year cycles are cut off in turn. The computation runs on years that
start on March 1. -/
def civilOfDay (z : Int) : Int × Int × Int :=
  let z1 := z + 719468
  let era := z1 / 146097
  let doe := z1 % 146097
  let c := min (doe / 36524) 3
  let doc := doe - c * 36524
  let q := doc / 1461
  let doq := doc - q * 1461
  let a := min (doq / 365) 3
  let doy := doq - a * 365
  let mp := (5 * doy + 2) / 153
  let d := doy - (153 * mp + 2) / 5 + 1
  let m := if mp < 10 then mp + 3 else mp - 9
  let y := era * 400 + c * 100 + q * 4 + a + (if m ≤ 2 then 1 else 0)
  (y, m, d)

/-- The number of the day with the given civil date, for a month between 1 and 12. -/
def dayOfCivil (y m d : Int) : Int :=
  let y1 := if m ≤ 2 then y - 1 else y
  let era := y1 / 400
  let yoe := y1 % 400
  let mp := if m > 2 then m - 3 else m + 9
  let doy := (153 * mp + 2) / 5 + d - 1
  let doe := yoe * 365 + yoe / 4 - yoe / 100 + doy
  era * 146097 + doe - 719468

/-- A `time.Time` as the schedule package handles it: the instant, in nanoseconds since the
Unix epoch, and the location. -/
structure ZonedTime where
  unixNano : Int
  loc : Location
  deriving DecidableEq, Repr

/-- The zero `time.Time{}`. -/
def ZonedTime.zero : ZonedTime := { unixNano := Time.zero.unixNano, loc := Location.UTC }

/-- Go's `t.IsZero()`. -/
def ZonedTime.IsZero (t : ZonedTime) : Bool := t.unixNano == Time.zero.unixNano

/-- Go's `t.Unix()`. -/
def ZonedTime.Unix (t : ZonedTime) : Int := t.unixNano / Second

/-- The offset east of UTC, in seconds, in effect at `t` in its location. -/
def ZonedTime.offset (t : ZonedTime) : Int := (t.loc.lookup t.Unix).offset

/-- The wall-clock reading of `t` in its location, in seconds (Go's `t.abs()`, counted from the
Unix epoch). -/
def ZonedTime.wall (t : ZonedTime) : Int := t.Unix + t.offset

/-- The number of the local day of `t`. -/
def ZonedTime.dayNumber (t : ZonedTime) : Int := t.wall / 86400

/-- Go's `t.Year()`. -/
def ZonedTime.Year (t : ZonedTime) : Int := (civilOfDay t.dayNumber).1

/-- Go's `t.Month()`, January being 1. -/
def ZonedTime.Month (t : ZonedTime) : Int := (civilOfDay t.dayNumber).2.1

/-- Go's `t.Day()`. -/
def ZonedTime.Day (t : ZonedTime) : Int := (civilOfDay t.dayNumber).2.2

/-- Go's `t.Weekday()`, Sunday being 0. -/
def ZonedTime.Weekday (t : ZonedTime) : Int := (t.dayNumber + 4) % 7

/-- Go's `t.Hour()`. -/
def ZonedTime.Hour (t : ZonedTime) : Int := t.wall % 86400 / 3600

/-- Go's `t.Minute()`. -/
def ZonedTime.Minute (t : ZonedTime) : Int := t.wall % 3600 / 60

/-- Go's `t.Second()`. -/
def ZonedTime.Sec (t : ZonedTime) : Int := t.wall % 60

/-- Go's `t.In(loc)`: the same instant, read in another location. -/
def ZonedTime.In (t : ZonedTime) (loc : Location) : ZonedTime := { t with loc := loc }

/-- Go's `t.Add(d)` for a duration `d` in nanoseconds. -/
def ZonedTime.Add (t : ZonedTime) (d : Int) : ZonedTime := { t with unixNano := t.unixNano + d }

/-- Go's `t.Truncate(d)` for a positive duration `d` in nanoseconds: `t` rounded down to a
multiple of `d` since the zero time. It works on the instant, not on the wall clock. -/
def ZonedTime.Truncate (t : ZonedTime) (d : Int) : ZonedTime :=
  { t with unixNano := t.unixNano - (t.unixNano - Time.zero.unixNano) % d }

/-- Go's `t.Before(u)`. -/
def ZonedTime.Before (t u : ZonedTime) : Bool := decide (t.unixNano < u.unixNano)

/-- Go's `t.After(u)`. -/
def ZonedTime.After (t u : ZonedTime) : Bool := decide (u.unixNano < t.unixNano)

/-- The `time.Time` of the reconciliation model with the same instant. -/
def ZonedTime.toTime (t : ZonedTime) : Time := { unixNano := t.unixNano, zoneOffset := t.offset }

/-- Go's `time.Date(year, month, day, hour, min, sec, 0, loc)` for arguments that are in range
(the code passes the fields of an existing time, or 1 for the day and 0 for the others): the
wall-clock reading is taken as if it were UTC, the zone in effect at that instant is looked up,
and if the reading shifted by its offset falls outside the span of that zone, the zone in
effect at the shifted instant is used instead. -/
def Date (year month day hour min sec : Int) (loc : Location) : ZonedTime :=
  let unix := dayOfCivil year month day * 86400 + hour * 3600 + min * 60 + sec
  let span := loc.lookup unix
  let unix :=
    if span.offset ≠ 0 then
      let utc := unix - span.offset
      let offset :=
        if utc < span.start ∨ utc ≥ span.stop then (loc.lookup utc).offset else span.offset
      unix - offset
    else unix
  { unixNano := unix * Second, loc := loc }

/-- The cron package's `SpecSchedule`: one bit mask per field, and the location. -/
structure SpecSchedule where
  second : Nat
  minute : Nat
  hour : Nat
  dom : Nat
  month : Nat
  dow : Nat
  location : Location
  deriving DecidableEq, Repr

/-- The cron package's `starBit`: the top bit of a `uint64` mask, set if the field was `*`. -/
def starBit : Nat := 1 <<< 63

/-- The Go expression `1<<uint(n) & mask`, for `n` below 64. -/
def maskBit (n : Int) (mask : Nat) : Nat := (1 <<< n.toNat) &&& mask

/-! ## `pkg/schedule/cron_prev.go` -/

/-- The code's `dayMatches`. -/
def dayMatches (s : SpecSchedule) (t : ZonedTime) : Bool :=
  let domMatch : Bool := decide (maskBit t.Day s.dom > 0)
  let dowMatch : Bool := decide (maskBit t.Weekday s.dow > 0)
  if s.dom &&& starBit > 0 ∨ s.dow &&& starBit > 0 then domMatch && dowMatch
  else domMatch || dowMatch

/-- The places of `cronPrev` at which control can stand between two steps: the label `WRAP`
and the heads of the five loops. -/
inductive CronPrevPlace where
  | wrap
  | monthLoop
  | dayLoop
  | hourLoop
  | minuteLoop
  | secondLoop
  deriving DecidableEq, Repr

/-- What one step of `cronPrev` leads to. -/
inductive CronPrevStep where
  /-- Control moves on, with the new value of `t`. -/
  | goOn (place : CronPrevPlace) (t : ZonedTime)
  /-- The year limit is passed: `return time.Time{}`. -/
  | giveUp
  /-- All fields match: `return t.In(origLocation)`. -/
  | found (t : ZonedTime)
  deriving DecidableEq, Repr

/-- One step of `cronPrev` from the given place: the year check at `WRAP`, or one evaluation of
a loop condition followed, if the field does not match, by one run of the loop body. -/
def cronPrevStep (s : SpecSchedule) (yearLimit : Int) (place : CronPrevPlace) (t : ZonedTime) :
    CronPrevStep :=
  match place with
  | .wrap =>
    if t.Year < yearLimit then .giveUp else .goOn .monthLoop t
  | .monthLoop =>
    if maskBit t.Month s.month == 0 then
      let t := Date t.Year t.Month 1 0 0 0 t.loc
      let t := t.Add (-1 * Second)
      if t.Month == 12 then .goOn .wrap t else .goOn .monthLoop t
    else .goOn .dayLoop t
  | .dayLoop =>
    if !dayMatches s t then
      let t := Date t.Year t.Month t.Day 0 0 0 t.loc
      let needToWrapBack := t.Day == 1
      let t := t.Add (-1 * Second)
      if needToWrapBack then .goOn .wrap t else .goOn .dayLoop t
    else .goOn .hourLoop t
  | .hourLoop =>
    if maskBit t.Hour s.hour == 0 then
      let t := Date t.Year t.Month t.Day t.Hour 0 0 t.loc
      let t := t.Add (-1 * Second)
      if t.Hour == 23 then .goOn .wrap t else .goOn .hourLoop t
    else .goOn .minuteLoop t
  | .minuteLoop =>
    if maskBit t.Minute s.minute == 0 then
      let t := t.Truncate (60 * Second)
      let t := t.Add (-1 * Second)
      if t.Minute == 59 then .goOn .wrap t else .goOn .minuteLoop t
    else .goOn .secondLoop t
  | .secondLoop =>
    if maskBit t.Sec s.second == 0 then
      let t := t.Truncate Second
      let t := t.Add (-1 * Second)
      if t.Sec == 59 then .goOn .wrap t else .goOn .secondLoop t
    else .found t

/-- The steps of `cronPrev` from the given place, at most `fuel` of them; `none` when the
function has not returned by then. -/
def cronPrevFrom (s : SpecSchedule) (yearLimit : Int) :
    Nat → CronPrevPlace → ZonedTime → Option CronPrevStep
  | 0, _, _ => none
  | fuel + 1, place, t =>
    match cronPrevStep s yearLimit place t with
    | .goOn place t => cronPrevFrom s yearLimit fuel place t
    | r => some r

/-- The code's `cronPrev`, run for at most `fuel` steps: `none` when it has not returned by
then, otherwise the time it returns. -/
def cronPrev (fuel : Nat) (s : SpecSchedule) (t : ZonedTime) : Option ZonedTime :=
  let origLocation := t.loc
  let t := if s.location.isLocal then t else t.In s.location
  let yearLimit := t.Year - 5
  match cronPrevFrom s yearLimit fuel .wrap t with
  | none => none
  | some (.found r) => some (r.In origLocation)
  | some _ => some ZonedTime.zero

/-! ## `api/v1/controlledjob_types.go`: `AsCronSpec` -/

/-- How a call ends: it returns a value, it returns an error with the given text, it panics
(a nil pointer is dereferenced or an index is out of range), or it has not returned within the
number of steps allowed to `cronPrev`. -/
inductive Ending (α : Type) where
  | value (a : α)
  | error (msg : String)
  | panic
  | unfinished
  deriving DecidableEq, Repr

/-- Sequencing: what follows runs only after a value was returned. -/
def Ending.andThen {α β : Type} (r : Ending α) (f : α → Ending β) : Ending β :=
  match r with
  | .value a => f a
  | .error msg => .error msg
  | .panic => .panic
  | .unfinished => .unfinished

/-- The class `\d` of Go's `regexp`: an ASCII digit. -/
def isDigit (c : Char) : Bool := decide (48 ≤ c.toNat ∧ c.toNat ≤ 57)

/-- The class `[a-zA-Z]`. -/
def isLetter (c : Char) : Bool :=
  decide ((97 ≤ c.toNat ∧ c.toNat ≤ 122) ∨ (65 ≤ c.toNat ∧ c.toNat ≤ 90))

/-- The submatches of `timeOfDayRegex`, the pattern `^(\d{2}):(\d{2})$`: the two groups if
the text matches. -/
def timeOfDayMatches (s : String) : Option (String × String) :=
  match s.toList with
  | [h1, h2, c, m1, m2] =>
    if isDigit h1 && isDigit h2 && c == ':' && isDigit m1 && isDigit m2 then
      some (String.mk [h1, h2], String.mk [m1, m2])
    else none
  | _ => none

/-- The text `,XXX` repeated at most `n` times, `XXX` being three letters, and nothing else:
the tail `(?:,([a-zA-Z]{3}))?...$` of the first alternative of `daysOfWeekRegex`. -/
def moreDays : Nat → List Char → Bool
  | _, [] => true
  | 0, _ :: _ => false
  | n + 1, c :: x :: y :: z :: rest =>
    c == ',' && isLetter x && isLetter y && isLetter z && moreDays n rest
  | _ + 1, _ => false

/-- Whether `daysOfWeekRegex` matches: one to seven three-letter words separated by commas, or
two three-letter words separated by a hyphen. -/
def daysOfWeekMatch (s : String) : Bool :=
  match s.toList with
  | [a, b, c, d, x, y, z] =>
    isLetter a && isLetter b && isLetter c &&
      ((d == '-' && isLetter x && isLetter y && isLetter z) || moreDays 6 [d, x, y, z])
  | a :: b :: c :: rest => isLetter a && isLetter b && isLetter c && moreDays 6 rest
  | _ => false

/-- The code's `AsCronSpec`. The friendly schedule is behind a pointer, and the code reads it
without a nil check. -/
def AsCronSpec (e : EventSpec) : Ending String :=
  if e.cronSchedule ≠ "" then .value e.cronSchedule
  else
    match e.schedule with
    | none => .panic
    | some schedule =>
      if schedule.timeOfDay = "" ∨ schedule.daysOfWeek = "" then
        .error "must specify either cronSchedule or schedule"
      else
        match timeOfDayMatches schedule.timeOfDay with
        | none => .error "timeOfDay must be in the format hh:mm"
        | some (hours, minutes) =>
          if !daysOfWeekMatch schedule.daysOfWeek then
            .error "daysOfWeek must be in the format MON-FRI or SAT,SUN,TUE,WED"
          else .value (minutes ++ " " ++ hours ++ " * * " ++ schedule.daysOfWeek)

/-! ## `pkg/schedule`: the nearest event and the schedule state -/

/-- What the schedule package takes from the standard library and from the cron package. -/
structure CronLib where
  /-- Go's `time.LoadLocation(name)`; an error carries its text. -/
  loadLocation : String → Except String Location
  /-- The call `cron.ParseStandard(spec)` followed by the cast to `*cron.SpecSchedule`: an
  error carries its text, and `none` is a schedule of another type (`@every` specs), on
  which the cast fails. -/
  parseStandard : String → Except String (Option SpecSchedule)
  /-- The cron package's `SpecSchedule.Next`. -/
  next : SpecSchedule → ZonedTime → ZonedTime

/-- The code's `eventDirection`. -/
inductive EventDirection where
  | directionNext
  | directionPrevious
  deriving DecidableEq, Repr

/-- The conversion of an integer to `int32`, as Go's arithmetic on `int32` wraps. -/
def wrapInt32 (n : Int) : Int := (n + 2 ^ 31) % 2 ^ 32 - 2 ^ 31

/-- The code's `mapEventToSpecSchedule`. When the cast fails the code wraps a nil error, which
is nil: it returns a nil schedule and no error. -/
def mapEventToSpecSchedule (lib : CronLib) (event : EventSpec) (location : Location) :
    Ending (Option SpecSchedule) :=
  (AsCronSpec event).andThen fun cronSpec =>
    match lib.parseStandard cronSpec with
    | .error err => .error ("Failed to parse cron schedule: " ++ err)
    | .ok none => .value none
    | .ok (some specSchedule) => .value (some { specSchedule with location := location })

/-- The code's `eventIsNearer`. -/
def eventIsNearer (testTime referenceTime : ZonedTime) (direction : EventDirection) : Bool :=
  if referenceTime.IsZero then true
  else if direction = .directionNext then testTime.Before referenceTime
  else testTime.After referenceTime

/-- The adjacent event time of one schedule in `findNearestScheduleTime`: `specSchedule.Next(now)`
or `cronPrev(specSchedule, now)`; both dereference the schedule. -/
def adjacentEventTime (lib : CronLib) (fuel : Nat) (specSchedule : Option SpecSchedule)
    (now : ZonedTime) (direction : EventDirection) : Ending ZonedTime :=
  match specSchedule with
  | none => .panic
  | some s =>
    if direction = .directionNext then .value (lib.next s now)
    else
      match cronPrev fuel s now with
      | none => .unfinished
      | some t => .value t

/-- The loop of `findNearestScheduleTime` from index `idx` on; `now` is already shifted. -/
def nearestScheduleLoop (lib : CronLib) (fuel : Nat) (now : ZonedTime)
    (direction : EventDirection) (additionalOffsetSeconds : Int) :
    List (Option SpecSchedule) → Int → ZonedTime × Int → Ending (ZonedTime × Int)
  | [], _, nearest => .value nearest
  | specSchedule :: rest, idx, nearest =>
    (adjacentEventTime lib fuel specSchedule now direction).andThen fun adjacent =>
      if adjacent.IsZero then
        nearestScheduleLoop lib fuel now direction additionalOffsetSeconds rest (idx + 1) nearest
      else
        let adjacent := adjacent.Add (Second * wrapInt32 (-additionalOffsetSeconds))
        if eventIsNearer adjacent nearest.1 direction then
          nearestScheduleLoop lib fuel now direction additionalOffsetSeconds rest (idx + 1)
            (adjacent, idx)
        else
          nearestScheduleLoop lib fuel now direction additionalOffsetSeconds rest (idx + 1)
            nearest

/-- The code's `findNearestScheduleTime`; `additionalOffsetSeconds` is an `int32`. -/
def findNearestScheduleTime (lib : CronLib) (fuel : Nat) (schedules : List (Option SpecSchedule))
    (now : ZonedTime) (direction : EventDirection) (additionalOffsetSeconds : Int) :
    Ending (ZonedTime × Int) :=
  let now := now.Add (Second * additionalOffsetSeconds)
  nearestScheduleLoop lib fuel now direction additionalOffsetSeconds schedules 0
    (ZonedTime.zero, -1)

/-- The first loop of `findNearestEvent`: the schedules to search and the corresponding
actions, of the events that pass the filter. -/
def schedulesToSearch (lib : CronLib) (location : Location) (filter : EventSpec → Bool) :
    List EventSpec → Ending (List (Option SpecSchedule) × List EventType)
  | [] => .value ([], [])
  | event :: rest =>
    if !filter event then schedulesToSearch lib location filter rest
    else
      (mapEventToSpecSchedule lib event location).andThen fun specSchedule =>
        (schedulesToSearch lib location filter rest).andThen fun found =>
          .value (specSchedule :: found.1, event.action :: found.2)

/-- The code's `ScheduledEvent` as the schedule package handles it, the time with its
location. -/
structure ZonedScheduledEvent where
  type : EventType
  scheduledTimeUTC : ZonedTime
  deriving DecidableEq, Repr

/-- The same event with the time as the reconciliation model keeps it. -/
def ZonedScheduledEvent.toScheduledEvent (e : ZonedScheduledEvent) : ScheduledEvent :=
  { type := e.type, scheduledTimeUTC := e.scheduledTimeUTC.toTime }

/-- The code's `findNearestEvent`; the location and the offset are the two fields of its
`locationWithOffset` argument. -/
def findNearestEvent (lib : CronLib) (fuel : Nat) (schedule : List EventSpec) (now : ZonedTime)
    (location : Location) (offsetSeconds : Int) (direction : EventDirection)
    (filter : EventSpec → Bool) : Ending (Option ZonedScheduledEvent) :=
  (schedulesToSearch lib location filter schedule).andThen fun found =>
    (findNearestScheduleTime lib fuel found.1 now direction offsetSeconds).andThen fun nearest =>
      if nearest.1.IsZero then .value none
      else
        match nearest.2 with
        | Int.ofNat idx =>
          match found.2.get? idx with
          | some action => .value (some { type := action, scheduledTimeUTC := nearest.1 })
          | none => .panic
        | Int.negSucc _ => .panic

/-- The code's `findMostRecentStopTime`. -/
def findMostRecentStopTime (lib : CronLib) (fuel : Nat) (events : List EventSpec)
    (location : Location) (offsetSeconds : Int) (now : ZonedTime) :
    Ending (Option ZonedTime) :=
  (findNearestEvent lib fuel events now location offsetSeconds .directionPrevious
      (fun es => es.action == EventTypeStop)).andThen fun lastStopEvent =>
    match lastStopEvent with
    | none => .value none
    | some e => .value (some e.scheduledTimeUTC)

/-- The code's `findStartOfCurrentRunPeriod`. -/
def findStartOfCurrentRunPeriod (lib : CronLib) (fuel : Nat) (events : List EventSpec)
    (location : Location) (offsetSeconds : Int) (now : ZonedTime) :
    Ending (Option ZonedTime) :=
  (findMostRecentStopTime lib fuel events location offsetSeconds now).andThen fun lastStopTime =>
    match lastStopTime with
    | none =>
      let hasAnyStartEvent := events.any (fun event => event.action == EventTypeStart)
      if !hasAnyStartEvent then .value none
      else
        .error ("No previous stop events found, only start events. We don't currently " ++
          "support start-only schedules (as it's not clear what the semantics should be)")
    | some lastStopTime =>
      (findNearestEvent lib fuel events lastStopTime location offsetSeconds .directionNext
          (fun es => es.action == EventTypeStart)).andThen fun nextStartEvent =>
        match nextStartEvent with
        | none => .value none
        | some e => .value (some e.scheduledTimeUTC)

/-- What `errors.Wrap(err, message)` prints. -/
def wrapError {α : Type} (message : String) (r : Ending α) : Ending α :=
  match r with
  | .error err => .error (message ++ ": " ++ err)
  | r => r

/-- The code's `StateFor`. -/
def StateFor (lib : CronLib) (fuel : Nat) (controlledJob : ControlledJob) (now : ZonedTime) :
    Ending ScheduleState :=
  match lib.loadLocation controlledJob.spec.timezone.name with
  | .error err =>
    .error ("failed to resolve timezone named " ++ controlledJob.spec.timezone.name ++ ": " ++
      err)
  | .ok location =>
    let offsetSeconds := controlledJob.spec.timezone.offsetSeconds
    (wrapError "failed to find previous event in the schedule"
      (findNearestEvent lib fuel controlledJob.spec.events now location offsetSeconds
        .directionPrevious (fun _ => true))).andThen fun previousEvent =>
    (wrapError "failed to find next event in the schedule"
      (findNearestEvent lib fuel controlledJob.spec.events now location offsetSeconds
        .directionNext (fun _ => true))).andThen fun nextEvent =>
    (wrapError "failed to find most recent stop time"
      (findMostRecentStopTime lib fuel controlledJob.spec.events location offsetSeconds
        now)).andThen fun lastStopTime =>
    (wrapError "failed to find start of current run period"
      (findStartOfCurrentRunPeriod lib fuel controlledJob.spec.events location offsetSeconds
        now)).andThen fun startOfCurrentRunPeriod =>
    .value
      { lastStopTime := lastStopTime.map ZonedTime.toTime,
        startOfCurrentRunPeriod := startOfCurrentRunPeriod.map ZonedTime.toTime,
        previousEvent := previousEvent.map ZonedScheduledEvent.toScheduledEvent,
        nextEvent := nextEvent.map ZonedScheduledEvent.toScheduledEvent }

/-- The schedule state as `buildState` receives it: the state or the error of `StateFor`, if
it returns at all. -/
def Ending.toExcept {α : Type} (r : Ending α) : Option (Except String α) :=
  match r with
  | .value a => some (.ok a)
  | .error msg => some (.error msg)
  | .panic => none
  | .unfinished => none

/-! ## `pkg/events` -/

def HistoryEntriesToKeep : Nat := 16

/-- The code's `timeOrNilIfZero`. -/
def timeOrNilIfZero (time : Option Time) : Option Time :=
  match time with
  | none => none
  | some t => if t.IsZero then none else some t

/-- The code's `newActionForJob`; `nowFunc` is the value of `events.NowFunc()`. -/
def newActionForJob (nowFunc : Option Time) (eventType message jobName : String) :
    ControlledJobActionHistoryEntry :=
  { type := eventType, timestamp := timeOrNilIfZero nowFunc, message := message,
    scheduledStartTime := none, jobIndex := none, jobName := jobName }

def NewJobStartedAction (nowFunc : Option Time) (jobName : String) :
    ControlledJobActionHistoryEntry :=
  newActionForJob nowFunc "JobStarted" ("Created job: " ++ jobName) jobName

def NewJobSuspendedAction (nowFunc : Option Time) (jobName : String) :
    ControlledJobActionHistoryEntry :=
  newActionForJob nowFunc "JobSuspended" ("Suspended job: " ++ jobName) jobName

def NewJobUnsuspendedAction (nowFunc : Option Time) (jobName : String) :
    ControlledJobActionHistoryEntry :=
  newActionForJob nowFunc "JobUnsuspended" ("Unsuspended job: " ++ jobName) jobName

def NewJobStoppedAction (nowFunc : Option Time) (jobName : String) :
    ControlledJobActionHistoryEntry :=
  newActionForJob nowFunc "JobStopped" ("Deleted job: " ++ jobName) jobName

/-- An `error` as `Reconcile` handles it: its text, and the event of the `ErrorWithEvent` in
its chain, if there is one. -/
structure ReconcileError where
  text : String
  event : Option String
  deriving DecidableEq, Repr

/-- The code's `events.WrapError(err, event, message)`. -/
def WrapError (err : String) (event : String) (message : String) : ReconcileError :=
  { text := message ++ ": " ++ err, event := some event }

/-- The code's `NewFailedAction`. -/
def NewFailedAction (nowFunc : Option Time) (event : String) (err : ReconcileError) :
    ControlledJobActionHistoryEntry :=
  { type := event, timestamp := timeOrNilIfZero nowFunc, message := err.text,
    scheduledStartTime := none, jobIndex := none, jobName := "" }

/-- The code's `isSameAction`: equal but for the timestamp. -/
def isSameAction (existing proposed : Option ControlledJobActionHistoryEntry) : Bool :=
  match existing, proposed with
  | some existing, some proposed =>
    decide ({ existing with timestamp := proposed.timestamp } = proposed)
  | _, _ => false

/-- The code's `prependAndTruncateIfNeeded`. -/
def prependAndTruncateIfNeeded (existing : List ControlledJobActionHistoryEntry)
    (newEntry : ControlledJobActionHistoryEntry) (maxLength : Nat) :
    List ControlledJobActionHistoryEntry :=
  newEntry :: existing.take (min existing.length (maxLength - 1))

/-- The code's `addActionHistoryEntryImpl`. -/
def addActionHistoryEntryImpl (controlledJob : ControlledJob)
    (action : ControlledJobActionHistoryEntry) (ignoreDuplicates : Bool) : ControlledJob :=
  if ignoreDuplicates && isSameAction controlledJob.status.mostRecentAction (some action) then
    controlledJob
  else
    { controlledJob with
      status := { controlledJob.status with
                  mostRecentAction := some action,
                  actionHistory := prependAndTruncateIfNeeded controlledJob.status.actionHistory
                    action HistoryEntriesToKeep } }

/-- The code's `addActionHistoryEntry`. -/
def addActionHistoryEntry (controlledJob : ControlledJob)
    (action : ControlledJobActionHistoryEntry) : ControlledJob :=
  addActionHistoryEntryImpl controlledJob action false

/-- The code's `addActionHistoryEntryIgnoringDuplicates`. -/
def addActionHistoryEntryIgnoringDuplicates (controlledJob : ControlledJob)
    (action : ControlledJobActionHistoryEntry) : ControlledJob :=
  addActionHistoryEntryImpl controlledJob action true

/-- The effect of `defaultHandler.RecordEvent` on the ControlledJob; the Kubernetes event that
it emits through the recorder leaves the ControlledJob alone. -/
def RecordEvent (controlledJob : ControlledJob) (action : ControlledJobActionHistoryEntry) :
    ControlledJob :=
  addActionHistoryEntryIgnoringDuplicates controlledJob action

/-! ## `pkg/reconciliation/reconcile.go` -/

def ConditionTypeFailedToCreateJob : ControlledJobConditionType := "FailedToCreateJob"

def ConditionTypeFailedToSuspendJob : ControlledJobConditionType := "FailedToSuspendJob"

def ConditionTypeFailedToUnsuspendJob : ControlledJobConditionType := "FailedToUnsuspendJob"

def ConditionTypeFailedToDeleteJob : ControlledJobConditionType := "FailedToDeleteJob"

def ConditionTypeRunningExpectedly : ControlledJobConditionType := "RunningExpectedly"

def ConditionTypeRunningUnexpectedly : ControlledJobConditionType := "RunningUnexpectedly"

def ConditionTypeNotRunningExpectedly : ControlledJobConditionType := "NotRunningExpectedly"

def ConditionTypeNotRunningUnexpectedly : ControlledJobConditionType := "NotRunningUnexpectedly"

def ConditionTypeError : ControlledJobConditionType := "Error"

/-- The responses of the `ControlledJobClient` for the target of a reconcile, and the value of
`events.NowFunc()`. -/
structure Cluster where
  /-- The three results of `GetControlledJob`: the ControlledJob, `ok` and the error. -/
  getControlledJob : Option ControlledJob × Bool × Option String
  listJobsForControlledJob : Except String (List Job)
  deleteJob : Job → Option String
  createJob : Job → Option String
  suspendJob : Job → Option String
  unsuspendJob : Job → Option String
  updateStatus : ControlledJob → Option String
  nowFunc : Option Time

/-- A call that changes the cluster. -/
inductive ClusterCall where
  | deleteJob (job : JobRef)
  | createJob (job : JobRef)
  | suspendJob (job : JobRef)
  | unsuspendJob (job : JobRef)
  | updateStatus (controlledJob : ControlledJob)
  deriving DecidableEq, Repr

/-- The code's `PossiblyRetryableError`. -/
structure PossiblyRetryableError where
  error : ReconcileError
  isRetryable : Bool
  deriving DecidableEq, Repr

/-- The code's `ReconcileResult`; the duration is in nanoseconds. -/
structure ReconcileResult where
  requeueAfter : Int
  error : Option PossiblyRetryableError
  deriving DecidableEq, Repr

def TransientErrorResult (err : ReconcileError) : ReconcileResult :=
  { requeueAfter := 0, error := some { error := err, isRetryable := true } }

def NonRetryableErrorResult (err : ReconcileError) : ReconcileResult :=
  { requeueAfter := 0, error := some { error := err, isRetryable := false } }

/-- The code's `AsControllerResultAndError`: the `RequeueAfter` of the `ctrl.Result` and the
error handed to the controller runtime. -/
def ReconcileResult.AsControllerResultAndError (r : ReconcileResult) :
    Int × Option ReconcileError :=
  match r.error with
  | some e => if e.isRetryable then (0, some e.error) else (0, none)
  | none => (r.requeueAfter, none)

/-- The error value that `makeDecision` returns, as `Reconcile` sees it. -/
def DecisionError.toError (controlledJob : ControlledJob) : DecisionError → ReconcileError
  | .failedToCalculateSchedule cause =>
    WrapError cause "FailedToCalculateSchedule"
      ("Failed to calculate schedule for controlled job " ++ controlledJob.name ++
        " in namespace " ++ controlledJob.ns)
  | .failedToCreateJob cause => { text := "Failed to create job: " ++ cause, event := none }
  | .startingDeadlineExceeded =>
    { text := "Tried to create a job, but we have exceeded the specified " ++
        "StartingDeadlineSeconds after the scheduled start time", event := none }
  | .startOfCurrentRunPeriodIsNil =>
    { text := "Tried to create a job, but the StartOfCurrentRunPeriod is nil, which was " ++
        "unexpected", event := none }

/-- The code's `loadFromCluster` for the target with the given name and namespace: the
ControlledJob, the child Jobs and the error, or `none` where the code dereferences a nil
ControlledJob. -/
def loadFromCluster (cluster : Cluster) (targetName targetNamespace : String) :
    Option (Option ControlledJob × List Job × Option ReconcileError) :=
  match cluster.getControlledJob with
  | (controlledJob, false, err) =>
    match controlledJob with
    | none => some (none, [], none)
    | some _ =>
      -- `errors.Wrap` of a nil error is nil
      some (none, [],
        err.map fun e =>
          { text := "failed to find target ControlledJob " ++ targetName ++ " in namespace " ++
              targetNamespace ++ ": " ++ e, event := none })
  | (controlledJob, true, _) =>
    match cluster.listJobsForControlledJob with
    | .error e =>
      match controlledJob with
      | none => none
      | some controlledJob =>
        some (none, [],
          some (WrapError e "FailedToListJobs"
            ("Failed to list jobs for controlled job " ++ controlledJob.name ++
              " in namespace " ++ controlledJob.ns)))
    | .ok jobList => some (controlledJob, jobList, none)

/-- The four loops of `Reconcile` over the lists of a decision; they differ in the client call,
the constants and the status of the condition after a success. -/
inductive JobCallKind where
  | delete
  | create
  | suspend
  | unsuspend
  deriving DecidableEq, Repr

/-- The client call of a loop. -/
def JobCallKind.call (kind : JobCallKind) (cluster : Cluster) (job : Job) : Option String :=
  match kind with
  | .delete => cluster.deleteJob job
  | .create => cluster.createJob job
  | .suspend => cluster.suspendJob job
  | .unsuspend => cluster.unsuspendJob job

def JobCallKind.clusterCall (kind : JobCallKind) (job : JobRef) : ClusterCall :=
  match kind with
  | .delete => .deleteJob job
  | .create => .createJob job
  | .suspend => .suspendJob job
  | .unsuspend => .unsuspendJob job

/-- The condition type of a loop, which is also the warning event and the reason of its
failure. -/
def JobCallKind.conditionType (kind : JobCallKind) : ControlledJobConditionType :=
  match kind with
  | .delete => ConditionTypeFailedToDeleteJob
  | .create => ConditionTypeFailedToCreateJob
  | .suspend => ConditionTypeFailedToSuspendJob
  | .unsuspend => ConditionTypeFailedToUnsuspendJob

/-- The verb in the message of a failure. -/
def JobCallKind.verb (kind : JobCallKind) : String :=
  match kind with
  | .delete => "delete"
  | .create => "create"
  | .suspend => "suspend"
  | .unsuspend => "unsuspend"

/-- The action recorded after a success. -/
def JobCallKind.action (kind : JobCallKind) (nowFunc : Option Time) (jobName : String) :
    ControlledJobActionHistoryEntry :=
  match kind with
  | .delete => NewJobStoppedAction nowFunc jobName
  | .create => NewJobStartedAction nowFunc jobName
  | .suspend => NewJobSuspendedAction nowFunc jobName
  | .unsuspend => NewJobUnsuspendedAction nowFunc jobName

/-- The status of the condition after a success: the code writes `ConditionFalse` after a
delete or a create, and `ConditionTrue` after a suspend or an unsuspend. -/
def JobCallKind.successStatus (kind : JobCallKind) : ConditionStatus :=
  match kind with
  | .delete => ConditionFalse
  | .create => ConditionFalse
  | .suspend => ConditionTrue
  | .unsuspend => ConditionTrue

def JobCallKind.successReason (kind : JobCallKind) : String :=
  match kind with
  | .delete => "DeletedJob"
  | .create => "CreatedJob"
  | .suspend => "SuspendedJob"
  | .unsuspend => "UnsuspendedJob"

def JobCallKind.successMessage (kind : JobCallKind) : String :=
  match kind with
  | .delete => "Successfully deleted job"
  | .create => "Successfully created job"
  | .suspend => "Successfully suspended job"
  | .unsuspend => "Successfully unsuspended job"

/-- What a run of `Reconcile` carries from one cluster call to the next: the ControlledJob in
memory, the calls made so far, and the variable `err`. -/
structure RunState where
  controlledJob : ControlledJob
  calls : List ClusterCall
  err : Option ReconcileError

/-- One of the loops of `Reconcile` (lines 116-167): the first call that fails sets the
condition, and the function returns; `err` set means that it has returned. -/
def jobLoop (env : Env) (cluster : Cluster) (kind : JobCallKind) :
    List JobRef → RunState → RunState
  | [], run => run
  | job :: rest, run =>
    match run.err with
    | some _ => run
    | none =>
      match kind.call cluster job.job with
      | some e =>
        let err := WrapError e kind.conditionType
          ("failed to " ++ kind.verb ++ " job " ++ job.job.name ++ " in namespace " ++ job.job.ns)
        { controlledJob := SetCondition env run.controlledJob kind.conditionType ConditionTrue
            kind.conditionType err.text,
          calls := run.calls ++ [kind.clusterCall job],
          err := some err }
      | none =>
        let controlledJob := RecordEvent run.controlledJob (kind.action cluster.nowFunc job.job.name)
        let controlledJob := SetCondition env controlledJob kind.conditionType kind.successStatus
          kind.successReason kind.successMessage
        jobLoop env cluster kind rest
          { controlledJob := controlledJob, calls := run.calls ++ [kind.clusterCall job],
            err := none }

/-- The code's `CoerceConditionToBoolen`. -/
def CoerceConditionToBoolen (condition : Option Condition) : Bool :=
  match condition with
  | none => false
  | some c => c.status == ConditionTrue

/-- The code's `calculateOverallConditions`. -/
def calculateOverallConditions (env : Env) (controlledJob : ControlledJob)
    (err : Option ReconcileError) : ControlledJob :=
  let controlledJob :=
    match err with
    | some e => SetCondition env controlledJob ConditionTypeError ConditionTrue "Error" e.text
    | none =>
      SetCondition env controlledJob ConditionTypeError ConditionFalse "NoError"
        "No error encountered"
  let jobExists := CoerceConditionToBoolen (FindCondition controlledJob.status ConditionTypeJobExists)
  let jobFailed := CoerceConditionToBoolen (FindCondition controlledJob.status ConditionTypeJobFailed)
  let jobExistsAndNotFailed := jobExists && !jobFailed
  let shouldBeRunning :=
    CoerceConditionToBoolen (FindCondition controlledJob.status ConditionTypeShouldBeRunning)
  let jobManuallyScheduled :=
    CoerceConditionToBoolen (FindCondition controlledJob.status ConditionTypeJobManuallyScheduled)
  let runningExpectedlyIsUnknown (cj : ControlledJob) : ControlledJob :=
    SetCondition env cj ConditionTypeRunningExpectedly ConditionUnknown "CannotDetermine"
      "Job either not running, or it is running and we don't expect it to be (see other conditions for details)"
  let runningExpectedlyBecause (cj : ControlledJob) (reason message : String) : ControlledJob :=
    SetCondition env cj ConditionTypeRunningExpectedly ConditionTrue reason message
  let runningUnexpectedlyIsUnknown (cj : ControlledJob) : ControlledJob :=
    SetCondition env cj ConditionTypeRunningUnexpectedly ConditionUnknown "CannotDetermine"
      "Job either not running, or it is running and we expect it to be (see other conditions for details)"
  let runningUnexpectedlyBecause (cj : ControlledJob) (reason message : String) : ControlledJob :=
    SetCondition env cj ConditionTypeRunningUnexpectedly ConditionTrue reason message
  let notRunningExpectedlyIsUnknown (cj : ControlledJob) : ControlledJob :=
    SetCondition env cj ConditionTypeNotRunningExpectedly ConditionUnknown "CannotDetermine"
      "Job either running, or it's not running but we expect it to be (see other conditions for details)"
  let notRunningExpectedlyBecause (cj : ControlledJob) (reason message : String) :
      ControlledJob :=
    SetCondition env cj ConditionTypeNotRunningExpectedly ConditionTrue reason message
  let notRunningUnexpectedlyIsUnknown (cj : ControlledJob) : ControlledJob :=
    SetCondition env cj ConditionTypeNotRunningUnexpectedly ConditionUnknown "CannotDetermine"
      "Job either not running, or it is running and we expect it to be (see other conditions for details)"
  let notRunningUnexpectedlyBecause (cj : ControlledJob) (reason message : String) :
      ControlledJob :=
    SetCondition env cj ConditionTypeNotRunningUnexpectedly ConditionTrue reason message
  if jobExistsAndNotFailed then
    if shouldBeRunning then
      let cj := runningExpectedlyBecause controlledJob "RunningBasedOnSchedule"
        "Job is running, and that's expected because of the schedule"
      notRunningUnexpectedlyIsUnknown (notRunningExpectedlyIsUnknown
        (runningUnexpectedlyIsUnknown cj))
    else if jobManuallyScheduled then
      let cj := runningExpectedlyBecause controlledJob "RunningManually"
        "Job is running, and that's expected because the user has manually scheduled a job"
      notRunningUnexpectedlyIsUnknown (notRunningExpectedlyIsUnknown
        (runningUnexpectedlyIsUnknown cj))
    else
      let cj := runningExpectedlyIsUnknown controlledJob
      let cj := runningUnexpectedlyBecause cj "RunningUnexpectedly"
        "Job is running, but it should not be - neither inside the scheduled times, nor manually scheduled"
      notRunningUnexpectedlyIsUnknown (notRunningExpectedlyIsUnknown cj)
  else
    if shouldBeRunning then
      let cj := notRunningExpectedlyIsUnknown (runningUnexpectedlyIsUnknown
        (runningExpectedlyIsUnknown controlledJob))
      if jobFailed then
        notRunningUnexpectedlyBecause cj "JobFailed"
          "Job failed, but according to the schedule it should currently be running"
      else
        notRunningUnexpectedlyBecause cj "NoJobExists"
          "No job currently exists, but according to the schedule it should currently be running"
    else if jobManuallyScheduled then
      let cj := notRunningExpectedlyIsUnknown (runningUnexpectedlyIsUnknown
        (runningExpectedlyIsUnknown controlledJob))
      if jobFailed then
        notRunningUnexpectedlyBecause cj "JobFailed" "Job failed after the user scheduled it"
      else
        notRunningUnexpectedlyBecause cj "NoJobExists"
          "The user requested to schedule a Job, but one hasn't been created"
    else
      let cj := runningUnexpectedlyIsUnknown (runningExpectedlyIsUnknown controlledJob)
      let cj := notRunningExpectedlyBecause cj "NotRunningExpectedly"
        "No job exists, and that's expected as we're outside the scheduled times, and the user has not manually scheduled a job"
      notRunningUnexpectedlyIsUnknown cj

/-- The code's `recordFailedReconcile`, for a ControlledJob that was loaded. -/
def recordFailedReconcile (cluster : Cluster) (controlledJob : ControlledJob)
    (err : Option ReconcileError) : ControlledJob :=
  match err with
  | none => controlledJob
  | some e =>
    let event :=
      match e.event with
      | some event => event
      | none => "FailedToReconcile"
    RecordEvent controlledJob (NewFailedAction cluster.nowFunc event e)

/-- What a call of `Reconcile` leaves behind: the result, the calls that change the cluster in
the order they were made, the ControlledJob that was handed to `UpdateStatus`, and the
ControlledJob in memory at the end. -/
structure ReconcileRun where
  result : ReconcileResult
  calls : List ClusterCall
  statusWritten : Option ControlledJob
  controlledJob : Option ControlledJob

/-- The code's `ReconcileOptions`. -/
structure ReconcileOptions where
  EnableAutoRecreateJobsOnSpecChange : Bool

/-- Lines 105-169 of `Reconcile`: the decision and the four loops, up to the `return`. -/
def reconcileBody (env : Env) (cluster : Cluster) (scheduleState : Except String ScheduleState)
    (controlledJob : ControlledJob) (childJobs : List Job) (now : Time)
    (options : ReconcileOptions) : RunState × ReconcileResult :=
  let outcome := makeDecision env scheduleState controlledJob childJobs now
    options.EnableAutoRecreateJobsOnSpecChange
  match outcome.err with
  | some e =>
    let err := e.toError controlledJob
    ({ controlledJob := outcome.controlledJob, calls := [], err := some err },
      NonRetryableErrorResult err)
  | none =>
    let run : RunState := { controlledJob := outcome.controlledJob, calls := [], err := none }
    let run := jobLoop env cluster .delete outcome.decision.JobsToDelete run
    let run := jobLoop env cluster .create outcome.decision.JobsToCreate run
    let run := jobLoop env cluster .suspend outcome.decision.JobsToSuspend run
    let run := jobLoop env cluster .unsuspend outcome.decision.JobsToUnsuspend run
    match run.err with
    | some err => (run, TransientErrorResult err)
    | none => (run, { requeueAfter := outcome.decision.RequeueAt.Sub now, error := none })

/-- The code's `Reconcile` with the default event handler; `none` where the code panics or
the search of the schedule does not return within `fuel` steps. The deferred functions run in
the reverse order of their registration: first the overall conditions and the status update,
then the record of a failed reconcile. -/
def Reconcile (env : Env) (lib : CronLib) (fuel : Nat) (cluster : Cluster)
    (targetName targetNamespace : String) (now : ZonedTime) (options : ReconcileOptions) :
    Option ReconcileRun :=
  match loadFromCluster cluster targetName targetNamespace with
  | none => none
  | some (_, _, some err) =>
    some { result := TransientErrorResult err, calls := [], statusWritten := none,
           controlledJob := none }
  | some (none, _, none) =>
    some { result := { requeueAfter := 0, error := none }, calls := [], statusWritten := none,
           controlledJob := none }
  | some (some controlledJob, childJobs, none) =>
    match (StateFor lib fuel controlledJob now).toExcept with
    | none => none
    | some scheduleState =>
      let (run, result) := reconcileBody env cluster scheduleState controlledJob childJobs
        now.toTime options
      let written := calculateOverallConditions env run.controlledJob run.err
      some { result := result,
             calls := run.calls ++ [.updateStatus written],
             statusWritten := some written,
             controlledJob := some (recordFailedReconcile cluster written run.err) }

/-! ## `pkg/metadata/job_naming.go`: `ParseJobName` -/

/-- The tail `-(\d+)-(\d+)$` of `jobNameRegex` on the rest of the text: a hyphen, a run of
digits as long as it can be, a hyphen, and digits up to the end of the text. The two runs of
digits are returned. -/
def matchNumbers (cs : List Char) : Option (List Char × List Char) :=
  match cs with
  | [] => none
  | c :: rest =>
    if c = '-' then
      match rest.dropWhile isDigit with
      | [] => none
      | d :: last =>
        if d = '-' ∧ rest.takeWhile isDigit ≠ [] ∧ last ≠ [] ∧ last.all isDigit then
          some (rest.takeWhile isDigit, last)
        else none
    else none

/-- The submatches of `jobNameRegex`, the pattern
`^(?P<controlledJobName>.+)-(?P<scheduledTimeUnix>\d+)-(?P<JobRunId>\d+)$`, for a first group
of at most `k` characters. The first group is greedy, so the longest prefix that lets the rest
match is taken; `.` matches every character but the line feed. -/
def matchJobName : Nat → List Char → Option (String × String × String)
  | 0, _ => none
  | k + 1, cs =>
    let attempt :=
      if (cs.take (k + 1)).all (fun c => c != '\n') then matchNumbers (cs.drop (k + 1)) else none
    match attempt with
    | some (unix, id) => some (String.mk (cs.take (k + 1)), String.mk unix, String.mk id)
    | none => matchJobName k cs

/-- Go's `jobNameRegex.FindStringSubmatch(jobName)`: the three groups, or `none` for nil. -/
def jobNameSubmatch (jobName : String) : Option (String × String × String) :=
  matchJobName jobName.toList.length jobName.toList

/-- Go's `time.Unix(sec, 0)`: the instant `sec` seconds after the epoch, in the location
`time.Local`. -/
def Unix (localZone : Location) (sec : Int) : Time :=
  ZonedTime.toTime { unixNano := sec * Second, loc := localZone }

/-- The text of the error of `strconv.Atoi` on a run of digits: the value is out of range. -/
def atoiRangeError (digits : String) : String :=
  "strconv.Atoi: parsing \x22" ++ digits ++ "\x22: value out of range"

/-- What `ParseJobName` returns: its four named results. -/
structure ParsedJobName where
  controlledJobName : String
  scheduledTime : Option Time
  jobRunId : Option Int
  err : Option String
  deriving DecidableEq, Repr

/-- The code's `metadata.ParseJobName`; `localZone` is the location `time.Local` of the
process. The results are named, so what was assigned before an early `return` is returned with
the error. -/
def ParseJobName (localZone : Location) (jobName : String) : ParsedJobName :=
  match jobNameSubmatch jobName with
  | none =>
    { controlledJobName := "", scheduledTime := none, jobRunId := none,
      err := some ("Failed to parse " ++ jobName ++ " as a valid job name") }
  | some (controlledJobName, unix, id) =>
    match Atoi unix with
    | none =>
      { controlledJobName := controlledJobName, scheduledTime := none, jobRunId := none,
        err := some (atoiRangeError unix) }
    | some unixSeconds =>
      let parsedTime := Unix localZone unixSeconds
      match Atoi id with
      | none =>
        { controlledJobName := controlledJobName, scheduledTime := some parsedTime,
          jobRunId := none, err := some (atoiRangeError id) }
      | some parsedJobId =>
        { controlledJobName := controlledJobName, scheduledTime := some parsedTime,
          jobRunId := some parsedJobId, err := none }

/-! ## `pkg/metadata/job_metadata.go`: the call of `CalculateHashFor` in memory -/

/-- A `JobTemplateSpec` as it lies in the caller's memory: `Spec.Suspend` is a `*bool`, here the
address of a cell or nil. -/
structure StoredTemplate where
  labels : StringMap
  annotations : StringMap
  suspend : Option Nat
  payload : String
  deriving DecidableEq, Repr

/-- The template that a stored template denotes, given the `bool` cells of the memory. -/
def StoredTemplate.read (cells : Nat → Bool) (t : StoredTemplate) : JobTemplateSpec :=
  { labels := t.labels, annotations := t.annotations,
    spec := { suspend := t.suspend.map cells, payload := t.payload } }

/-- What a call `CalculateHashFor(template)` leaves behind: the returned hash, the caller's
template and the cells of the memory. -/
structure HashCall where
  hash : String
  callerTemplate : StoredTemplate
  cells : Nat → Bool

/-- The code's `metadata.CalculateHashFor` as a call in memory. The parameter `spec` is a
struct passed by value: the callee works on its own copy, which shares the cell behind
`Spec.Suspend` with the caller's. The assignment `spec.Spec.Suspend = nil` replaces the pointer
in the copy and writes to no cell; `json.Marshal` and `sha256` only read. -/
def CalculateHashForCall (env : Env) (cells : Nat → Bool) (callerTemplate : StoredTemplate) :
    HashCall :=
  let spec := callerTemplate
  let spec := { spec with suspend := none }
  { hash := env.templateDigest (spec.read cells), callerTemplate := callerTemplate,
    cells := cells }

/-! ## A concrete environment and concrete inputs for worked examples -/

/-- Days from 1970-01-01 to the given civil date (proleptic Gregorian calendar, year ≥ 1). -/
def daysFromCivil (y m d : Nat) : Int :=
  let y1 : Nat := if m ≤ 2 then y - 1 else y
  let era : Nat := y1 / 400
  let yoe : Nat := y1 - era * 400
  let mp : Nat := if m > 2 then m - 3 else m + 9
  let doy : Nat := (153 * mp + 2) / 5 + d - 1
  let doe : Nat := yoe * 365 + yoe / 4 - yoe / 100 + doy
  (era * 146097 + doe : Nat) - 719468

/-- Number of days of a month. -/
def daysIn (y m : Nat) : Nat :=
  if m = 2 then (if (y % 4 = 0 ∧ y % 100 ≠ 0) ∨ y % 400 = 0 then 29 else 28)
  else if m = 4 ∨ m = 6 ∨ m = 9 ∨ m = 11 then 30 else 31

/-- The value of a run of exactly `n` decimal digits. -/
def fixedDigits (n : Nat) (cs : List Char) : Option Nat :=
  if cs.length = n then digitsValue cs 0 else none

/-- `time.Parse(time.RFC3339, s)` on strings of the form `YYYY-MM-DDTHH:MM:SSZ`; this example
environment rejects every other string. -/
def parseRFC3339UTC (s : String) : Option Time :=
  match s.toList with
  | [y1, y2, y3, y4, '-', m1, m2, '-', d1, d2, 'T', h1, h2, ':', i1, i2, ':', s1, s2, 'Z'] =>
    match fixedDigits 4 [y1, y2, y3, y4], fixedDigits 2 [m1, m2], fixedDigits 2 [d1, d2],
        fixedDigits 2 [h1, h2], fixedDigits 2 [i1, i2], fixedDigits 2 [s1, s2] with
    | some y, some m, some d, some h, some i, some sec =>
      if 1 ≤ y ∧ 1 ≤ m ∧ m ≤ 12 ∧ 1 ≤ d ∧ d ≤ daysIn y m ∧ h < 24 ∧ i < 60 ∧ sec < 60 then
        some (Time.ofUnix (daysFromCivil y m d * 86400 + (h * 3600 + i * 60 + sec : Nat)))
      else none
    | _, _, _, _, _, _ => none
  | _ => none

/-- A decimal number padded with zeros to at least `n` digits. -/
def padded (n k : Nat) : String :=
  String.mk (List.replicate (n - (Nat.repr k).length) '0') ++ Nat.repr k

/-- The civil date `(y, m, d)` of a day counted from 1970-01-01 (for days on or after
0000-03-01). -/
def civilFromDays (z : Int) : Nat × Nat × Nat :=
  let zz : Nat := (z + 719468).toNat
  let era : Nat := zz / 146097
  let doe : Nat := zz - era * 146097
  let yoe : Nat := (doe - doe / 1460 + doe / 36524 - doe / 146096) / 365
  let doy : Nat := doe - (365 * yoe + yoe / 4 - yoe / 100)
  let mp : Nat := (5 * doy + 2) / 153
  let d : Nat := doy - (153 * mp + 2) / 5 + 1
  let m : Nat := if mp < 10 then mp + 3 else mp - 9
  let y : Nat := yoe + era * 400 + (if m ≤ 2 then 1 else 0)
  (y, m, d)

/-- `t.Format(time.RFC3339)` for a time in UTC with a year of four digits. -/
def formatRFC3339UTC (t : Time) : String :=
  let sec : Int := t.unixNano / Second
  let days : Int := sec / 86400
  let rem : Nat := (sec % 86400).toNat
  let (y, m, d) := civilFromDays days
  padded 4 y ++ "-" ++ padded 2 m ++ "-" ++ padded 2 d ++ "T" ++ padded 2 (rem / 3600) ++ ":" ++
    padded 2 (rem % 3600 / 60) ++ ":" ++ padded 2 (rem % 60) ++ "Z"

/-- The example environment: UTC timestamps, a stand-in for the SHA-256 digest that tells the
example templates apart, the clock at 2022-12-12T12:12:00Z, no mutator registered. -/
def exampleEnv : Env :=
  { parseRFC3339 := parseRFC3339UTC,
    formatRFC3339 := formatRFC3339UTC,
    templateDigest := fun t => "digest-of-" ++ t.spec.payload,
    timeNow := Time.ofUnix 1670847120,
    registeredMutators := [] }

/-- The example environment with one registered mutator that always fails (the `testMutator` of
`mutators_test.go` with an error). -/
def failingMutatorEnv : Env :=
  { exampleEnv with
    registeredMutators := [{ name := "testMutator", apply := fun _ => .error "super fatal error" }] }

/-- 2022-12-11T17:00:00Z, the stop event of the day before. -/
def exampleLastStop : Time := Time.ofUnix 1670778000

/-- 2022-12-12T09:00:00Z, the start event of the day. -/
def exampleStart : Time := Time.ofUnix 1670835600

/-- 2022-12-12T17:00:00Z, the stop event of the day. -/
def exampleNextStop : Time := Time.ofUnix 1670864400

/-- 2022-12-12T12:12:00Z. -/
def exampleNow : Time := Time.ofUnix 1670847120

/-- The schedule state of "start 09:00, stop 17:00 every day" at 2022-12-12T12:12:00Z: inside
the run period. -/
def insideRunPeriod : Except String ScheduleState :=
  .ok { lastStopTime := some exampleLastStop,
        startOfCurrentRunPeriod := some exampleStart,
        previousEvent := some { type := EventTypeStart, scheduledTimeUTC := exampleStart },
        nextEvent := some { type := EventTypeStop, scheduledTimeUTC := exampleNextStop } }

/-- The schedule state of "start 09:00, stop 17:00 every day" at 2022-12-12T07:12:00Z: outside
the run period. The start of the current run period is the first start event after the last
stop event, 2022-12-12T09:00:00Z, which is still to come. -/
def outsideRunPeriod : Except String ScheduleState :=
  .ok { lastStopTime := some exampleLastStop,
        startOfCurrentRunPeriod := some exampleStart,
        previousEvent := some { type := EventTypeStop, scheduledTimeUTC := exampleLastStop },
        nextEvent := some { type := EventTypeStart, scheduledTimeUTC := exampleStart } }

/-- 2022-12-12T07:12:00Z. -/
def exampleEarlyMorning : Time := Time.ofUnix 1670829120

/-- The job template of the examples. -/
def exampleTemplate : JobTemplateSpec :=
  { labels := [], annotations := [], spec := { suspend := none, payload := "alpine:2.2" } }

/-- A ControlledJob "basic-job" with the schedule "start 09:00, stop 17:00 every day". -/
def exampleControlledJob : ControlledJob :=
  { name := "basic-job", ns := "default", uid := "1234", generation := 1, annotations := [],
    spec := { timezone := { name := "UTC", offsetSeconds := 0 },
              events := [{ action := EventTypeStart, cronSchedule := "0 9 * * *", schedule := none },
                         { action := EventTypeStop, cronSchedule := "0 17 * * *", schedule := none }],
              jobTemplate := exampleTemplate,
              startingDeadlineSeconds := none,
              restartStrategy := { specChangePolicy := "" },
              suspend := none },
    status := { active := [], lastScheduledStartTime := none, shouldBeRunning := none,
                isRunning := none, isSuspended := none, mostRecentAction := none,
                actionHistory := [], conditions := [] } }

/-- A child Job of the example ControlledJob with the given name, `scheduled-at` value, run id
and template hash, not suspended, without conditions and not being deleted. -/
def exampleJob (name scheduledAt runId hash : String) : Job :=
  { name := name, ns := "default", uid := "uid-" ++ name, resourceVersion := "1",
    labels := [(ControlledJobLabel, "basic-job")],
    annotations := [( ScheduledTimeAnnotation, scheduledAt), ( JobRunIdAnnotation, runId),
                    ( TemplateHashAnnotation, hash)],
    deletionTimestamp := none,
    ownerReferences := [controllerReference exampleControlledJob],
    spec := { suspend := none, payload := "alpine:2.2" },
    status := { conditions := [], ready := none, active := 0 } }

/-- The state that `buildState` computes for the example ControlledJob (with the given
suspend flag, spec-change policy left empty) and the given children, inside the run period of
2022-12-12. -/
def insideState (childJobs : List Job) : State :=
  { IsSuspended := false, ShouldBeRunning := some true,
    StartOfCurrentRunPeriod := some exampleStart, LastStopTime := some exampleLastStop,
    NextEventTime := some exampleNextStop, AllJobs := pointersFrom 0 childJobs,
    DesiredHash := "digest-of-alpine:2.2", AutoRestartIsEnabled := false }

/-- The state that `buildState` computes for the example ControlledJob and the given children
in the early morning of 2022-12-12, outside the run period. -/
def outsideState (childJobs : List Job) : State :=
  { IsSuspended := false, ShouldBeRunning := some false,
    StartOfCurrentRunPeriod := some exampleStart,
    LastStopTime := some exampleLastStop,
    NextEventTime := some exampleStart, AllJobs := pointersFrom 0 childJobs,
    DesiredHash := "digest-of-alpine:2.2", AutoRestartIsEnabled := false }

/-- An up-to-date child of today's run period: scheduled at 09:00, run id 0. -/
def runningJob : Job :=
  exampleJob "basic-job-1670835600-0" "2022-12-12T09:00:00Z" "0" "digest-of-alpine:2.2"

/-- A child with a Complete condition whose `scheduled-at` annotation is empty. -/
def completedUnstampedJob : Job :=
  { exampleJob "basic-job-manual-run" "" "1" "digest-of-alpine:2.2" with
    status := { conditions := [{ type := JobComplete, status := ConditionTrue }],
                ready := none, active := 0 } }

/-- The example ControlledJob with `spec.suspend` set. -/
def suspendedControlledJob : ControlledJob :=
  { exampleControlledJob with spec := { exampleControlledJob.spec with suspend := some true } }

/-- A child of today's run period that is suspended and carries a Complete condition. -/
def suspendedCompletedJob : Job :=
  { exampleJob "basic-job-1670835600-1" "2022-12-12T09:00:00Z" "1" "digest-of-alpine:2.2" with
    spec := { suspend := some true, payload := "alpine:2.2" },
    status := { conditions := [{ type := JobComplete, status := ConditionTrue }],
                ready := none, active := 0 } }

/-- A child of yesterday's run period that is already being deleted (its deletion timestamp is
2022-12-11T17:00:01Z) and has no Complete or Failed condition. -/
def beingDeletedJob : Job :=
  { exampleJob "basic-job-1670749200-0" "2022-12-11T09:00:00Z" "0" "digest-of-alpine:2.2" with
    deletionTimestamp := some (Time.ofUnix 1670778001) }

/-- A child started by hand at 2022-12-11T20:00:00Z, after the last stop event: it carries the
annotation `is-manually-scheduled=true`. -/
def manualJob (name runId : String) : Job :=
  { name := name, ns := "default", uid := "uid-" ++ name, resourceVersion := "1",
    labels := [(ControlledJobLabel, "basic-job")],
    annotations := [( ScheduledTimeAnnotation, "2022-12-11T20:00:00Z"), ( JobRunIdAnnotation, runId),
                    ( TemplateHashAnnotation, "digest-of-alpine:2.2"),
                    ( ManualJobAnnotation, "true")],
    deletionTimestamp := none,
    ownerReferences := [controllerReference exampleControlledJob],
    spec := { suspend := none, payload := "alpine:2.2" },
    status := { conditions := [], ready := none, active := 0 } }


/-- A child of today's run period that is suspended and has no Complete or Failed condition:
the state in which the operator has just created it. -/
def suspendedJob : Job :=
  { exampleJob "basic-job-1670835600-0" "2022-12-12T09:00:00Z" "0" "digest-of-alpine:2.2" with
    spec := { suspend := some true, payload := "alpine:2.2" } }

/-- The example ControlledJob with a starting deadline of one hour. -/
def deadlineControlledJob : ControlledJob :=
  { exampleControlledJob with
    spec := { exampleControlledJob.spec with startingDeadlineSeconds := some 3600 } }

/-- The example ControlledJob with `startingDeadlineSeconds` set to 0. -/
def zeroDeadlineControlledJob : ControlledJob :=
  { exampleControlledJob with
    spec := { exampleControlledJob.spec with startingDeadlineSeconds := some 0 } }

/-- The suspended example ControlledJob, its status still carrying the condition
`StartingDeadlineExceeded = True` that an earlier reconcile wrote. -/
def staleSuspendedControlledJob : ControlledJob :=
  { suspendedControlledJob with
    status := { suspendedControlledJob.status with
                conditions := [{ type := ConditionTypeStartingDeadlineExceeded,
                                 status := ConditionTrue,
                                 observedGeneration := 1,
                                 lastTransitionTime := Time.ofUnix 1670840000,
                                 reason := "StartingDeadlineExceeded",
                                 message := "We expect to be running, but have exceeded the starting deadline" }] } }

/-- The starting deadline, in nanoseconds, fits an `int64`, so that the product
`time.Second * time.Duration(seconds)` does not wrap around. -/
def deadlineFits (controlledJob : ControlledJob) : Bool :=
  match controlledJob.spec.startingDeadlineSeconds with
  | some seconds => decide (Second * seconds < 2 ^ 63)
  | none => true

/-- The example ControlledJob with the spec-change policy `Recreate`. -/
def recreatingControlledJob : ControlledJob :=
  { exampleControlledJob with
    spec := { exampleControlledJob.spec with
              restartStrategy := { specChangePolicy := RecreateSpecChangePolicy } } }

/-- The example ControlledJob with the annotation `apply-mutations=true`. -/
def mutatedControlledJob : ControlledJob :=
  { exampleControlledJob with annotations := [( ApplyMutationsAnnotation, "true")] }

/-- The example ControlledJob with the spec-change policy `Recreate` and the annotation
`apply-mutations=true`. -/
def mutatedRecreatingControlledJob : ControlledJob :=
  { recreatingControlledJob with annotations := [( ApplyMutationsAnnotation, "true")] }

/-- A running child of today's run period built from an older template: its template hash is
not the desired one. -/
def outdatedJob : Job :=
  exampleJob "basic-job-1670835600-0" "2022-12-12T09:00:00Z" "0" "digest-of-alpine:2.1"

/-- A running child of today's run period built from an older template, whose run id is the
greatest value of an `int`. -/
def outdatedMaxIdJob : Job :=
  exampleJob "basic-job-1670835600-9223372036854775807" "2022-12-12T09:00:00Z"
    "9223372036854775807" "digest-of-alpine:2.1"

/-- The state that `buildState` computes inside the run period of 2022-12-12 for the example
ControlledJob with the spec-change policy `Recreate`. -/
def recreateState (childJobs : List Job) : State :=
  { insideState childJobs with AutoRestartIsEnabled := true }

/-- A child of yesterday's run period (2022-12-11T09:00:00Z) that is still there. -/
def yesterdaysJob : Job :=
  exampleJob "basic-job-1670749200-0" "2022-12-11T09:00:00Z" "0" "digest-of-alpine:2.2"

/-- A cluster that holds the example ControlledJob and no Job of it; every call succeeds, and
the clock of the action history reads 2022-12-12T12:12:00Z. -/
def quietCluster : Cluster :=
  { getControlledJob := (some exampleControlledJob, true, none),
    listJobsForControlledJob := .ok [],
    deleteJob := fun _ => none,
    createJob := fun _ => none,
    suspendJob := fun _ => none,
    unsuspendJob := fun _ => none,
    updateStatus := fun _ => none,
    nowFunc := some (Time.ofUnix 1670847120) }

/-- A cluster that holds the example ControlledJob and yesterday's Job; every call
succeeds. -/
def busyCluster : Cluster :=
  { quietCluster with listJobsForControlledJob := .ok [yesterdaysJob] }

/-- The options as `main.go` leaves them by default. -/
def defaultOptions : ReconcileOptions := { EnableAutoRecreateJobsOnSpecChange := false }

/-- Another child of yesterday's run period that is still there. -/
def yesterdaysOtherJob : Job :=
  exampleJob "basic-job-1670749200-1" "2022-12-11T09:00:00Z" "1" "digest-of-alpine:2.2"

/-- A cluster that holds the example ControlledJob and two Jobs of yesterday; the deletion of
the first succeeds, and that of the second fails. -/
def flakyCluster : Cluster :=
  { quietCluster with
    listJobsForControlledJob := .ok [yesterdaysJob, yesterdaysOtherJob],
    deleteJob := fun job =>
      if job.name == "basic-job-1670749200-0" then none else some "the server is busy" }

/-- The zone `America/New_York` in 2012: five hours behind UTC, and four hours behind from
2012-03-11T07:00:00Z to 2012-11-04T06:00:00Z. -/
def newYork : Location :=
  { isLocal := false, initialOffset := -18000,
    transitions := [{ when := 1331449200, offset := -14400 },
                    { when := 1352008800, offset := -18000 }] }

/-- The zone `America/Sao_Paulo` in 2018: two hours behind UTC until 2018-02-18T02:00:00Z,
three hours behind until 2018-11-04T03:00:00Z, when the clocks went forward from 00:00 to
01:00, and two hours behind after that. -/
def saoPaulo : Location :=
  { isLocal := false, initialOffset := -7200,
    transitions := [{ when := 1518919200, offset := -10800 },
                    { when := 1541300400, offset := -7200 }] }

/-- The zone `time.Local` of a machine that keeps UTC. -/
def localZone : Location := { isLocal := true, initialOffset := 0, transitions := [] }

/-- The mask of a list of values of a field. -/
def bitsOf (values : List Nat) : Nat := values.foldl (fun bits v => bits ||| 1 <<< v) 0

/-- The example ControlledJob with a job template that itself uses the keys of the operator: its
annotations carry `scheduled-at`, `job-run-id` and `job-template-hash`, its labels carry
`controlled-job`. -/
def shadowingControlledJob : ControlledJob :=
  { exampleControlledJob with
    spec := { exampleControlledJob.spec with
              jobTemplate :=
                { exampleTemplate with
                  annotations := [( ScheduledTimeAnnotation, "never"), ( JobRunIdAnnotation, "41"),
                                  ( TemplateHashAnnotation, "none")],
                  labels := [(ControlledJobLabel, "someone-else")] } } }

/-- The example ControlledJob without events. -/
def idleControlledJob : ControlledJob :=
  { exampleControlledJob with spec := { exampleControlledJob.spec with events := [] } }

/-- A cluster that holds the ControlledJob without events and no Job of it; every call
succeeds. -/
def idleCluster : Cluster :=
  { quietCluster with getControlledJob := (some idleControlledJob, true, none) }

/-- A child of today's run period without a `job-run-id` annotation; it is not being deleted. -/
def unnumberedJob : Job :=
  { exampleJob "basic-job-1670835600-0" "2022-12-12T09:00:00Z" "0" "digest-of-alpine:2.2" with
    annotations := [( ScheduledTimeAnnotation, "2022-12-12T09:00:00Z"),
                    ( TemplateHashAnnotation, "digest-of-alpine:2.2")] }

/-- A cluster that holds the example ControlledJob and the child without a run id. -/
def unnumberedCluster : Cluster :=
  { quietCluster with listJobsForControlledJob := .ok [unnumberedJob] }

/-- A cluster that holds the example ControlledJob and one child, which is being deleted. -/
def deletingCluster : Cluster :=
  { quietCluster with listJobsForControlledJob := .ok [beingDeletedJob] }

/-- The example ControlledJob as `makeDecision` leaves it inside the run period with its running
child: a status with one condition of each type that `makeDecision` writes. -/
def decidedControlledJob : ControlledJob :=
  (makeDecision exampleEnv insideRunPeriod exampleControlledJob [runningJob] exampleNow
    false).controlledJob

/-! ## Auxiliary definitions for the statements and proofs -/

/-- One step of the selection of the chosen job, as the second loop performs it on the Jobs
that are not expired. -/
def preferStep (state : State) (current : Option JobRef) (job : JobRef) : Option JobRef :=
  match current with
  | none => some job
  | some c => if isBetterCandidateJob job.job c.job state then some job else some c

/-- The selection of the chosen job over a list of candidates. -/
def selectFrom (state : State) (init : Option JobRef) (jobs : List JobRef) : Option JobRef :=
  jobs.foldl (preferStep state) init

/-- The test of `buildJob` that decides whether the registered mutators are applied: the
ControlledJob carries the annotation `apply-mutations` with a value that lower-cases to
`true`. -/
def mutationsRequested (controlledJob : ControlledJob) : Bool :=
  match controlledJob.annotations.find ApplyMutationsAnnotation with
  | some v => v.toList.map lowerASCII == "true".toList
  | none => false

/-- No mutator touches a Job built for this ControlledJob: mutations are not requested, or no
mutator is registered. -/
def noMutatorApplies (env : Env) (controlledJob : ControlledJob) : Bool :=
  !mutationsRequested controlledJob || env.registeredMutators.isEmpty

/-- The job template does not itself carry the given annotation key. -/
def templateLacks (controlledJob : ControlledJob) (key : String) : Bool :=
  controlledJob.spec.jobTemplate.annotations.all (fun p => !(p.1 == key))

/-- The claim's reading of "expired": the last stop time is set and the child's scheduled-at
is a time that precedes it. -/
def scheduledBeforeLastStop (env : Env) (lastStopTime : Option Time) (job : Job) : Bool :=
  match lastStopTime, GetScheduledTime env job with
  | some stop, some t => t.Before stop
  | _, _ => false

/-- The test of lines 198-218 under which an out-of-date chosen job is replaced: it is
potentially running, was not stopped by the user, is not being deleted, and recreation on spec
change is enabled. -/
def shouldRecreate (state : State) (restartOnSpecChange : Bool) (job : Job) : Bool :=
  isOutOfDate job state && IsJobPotentiallyRunning job && !WasJobStoppedByTheUser job &&
    !IsJobBeingDeleted job && restartOnSpecChange

/-- The test of lines 317-321 for the chosen job, given the count of potentially running
jobs. -/
def safeToUnsuspend (numberOfPotentiallyRunningJobs : Nat) (chosenJob : Job) : Bool :=
  numberOfPotentiallyRunningJobs == 1 && IsJobSuspended chosenJob &&
    !IsJobBeingDeleted chosenJob && !WasJobStoppedByTheUser chosenJob

/-- The Jobs that lines 287-304 queue for deletion, given the expired Jobs, the non-expired
Jobs and the chosen job. -/
def deletionsFor (expiredJobs nonExpiredJobs : List JobRef) (chosenJob : Option JobRef) :
    List JobRef :=
  expiredJobs.filter (fun job => !IsJobBeingDeleted job.job) ++
    nonExpiredJobs.filter (fun job =>
      !IsJobBeingDeleted job.job && !(isChosen chosenJob job || IsJobCompleted job.job))

/-- The value of `decision.RequeueAt` that lines 332-335 leave. -/
def requeueAtFor (state : State) : Time :=
  match state.NextEventTime with
  | some t => t
  | none => Time.zero

/-- Two ControlledJobs that differ in their status at most. -/
def sameButStatus (a b : ControlledJob) : Prop :=
  a.name = b.name ∧ a.ns = b.ns ∧ a.uid = b.uid ∧ a.generation = b.generation ∧
    a.annotations = b.annotations ∧ a.spec = b.spec

/-- The local variable `shouldBeRunning` of `makeDecision` (lines 67-70). -/
def shouldBeRunningOf (state : State) : Bool :=
  match state.ShouldBeRunning with
  | some b => b
  | none => false

/-- The pointer to the one Job that a call of `makeDecision` builds. -/
def createdRef (built : Job) : JobRef := { ptr := JobPtr.created 0, job := built }

/-- The Job that is emitted in `JobsToCreate` for a Job as built: with its suspend flag cleared
when lines 317-326 find it safe to unsuspend, as built otherwise. -/
def emittedRef (numberOfPotentiallyRunningJobs : Nat) (built : Job) : JobRef :=
  if safeToUnsuspend numberOfPotentiallyRunningJobs built then
    clearSuspendOf (createdRef built) (createdRef built)
  else createdRef built

/-- The outcome of a call of `makeDecision` that returns no error, field by field. -/
structure Planned (state : State) (o : Outcome) (controlledJob : ControlledJob)
    (chosenJob : Option JobRef) (numberOfPotentiallyRunningJobs : Nat)
    (jobsToCreate jobsToDelete jobsToUnsuspend : List JobRef)
    (outOfDate startingDeadlineExceeded : ConditionStatus) : Prop where
  err : o.err = none
  chosen : o.chosenJob = chosenJob
  count : o.numberOfPotentiallyRunningJobs = numberOfPotentiallyRunningJobs
  create : o.decision.JobsToCreate = jobsToCreate
  delete : o.decision.JobsToDelete = jobsToDelete
  suspend : o.decision.JobsToSuspend = []
  unsuspend : o.decision.JobsToUnsuspend = jobsToUnsuspend
  requeue : o.decision.RequeueAt = requeueAtFor state
  same : sameButStatus o.controlledJob controlledJob
  outOfDateCondition : ∃ cond, FindCondition o.controlledJob.status ConditionTypeOutOfDate =
    some cond ∧ cond.status = outOfDate
  deadlineCondition : ∃ cond, FindCondition o.controlledJob.status
    ConditionTypeStartingDeadlineExceeded = some cond ∧ cond.status = startingDeadlineExceeded

/-- The time `t` matches every field of the schedule, on the wall clock of its location. -/
def fieldsMatch (s : SpecSchedule) (t : ZonedTime) : Bool :=
  maskBit t.Month s.month != 0 && dayMatches s t && maskBit t.Hour s.hour != 0 &&
    maskBit t.Minute s.minute != 0 && maskBit t.Sec s.second != 0

/-- The location in which `cronPrev` reads the wall clock: the schedule's location, or the
location of the given time if the schedule's location is `time.Local`. -/
def searchLocation (s : SpecSchedule) (t : ZonedTime) : Location :=
  if s.location.isLocal then t.loc else s.location

/-- The whole second `u` (Unix seconds) as a time in the given location. -/
def atSecond (u : Int) (loc : Location) : ZonedTime := { unixNano := u * Second, loc := loc }

/-- What must hold of the time `t` when `cronPrev` stands at the given place: the fields
checked by the loops already left match. -/
def checkedSoFar (s : SpecSchedule) (place : CronPrevPlace) (t : ZonedTime) : Prop :=
  match place with
  | .wrap => True
  | .monthLoop => True
  | .dayLoop => maskBit t.Month s.month ≠ 0
  | .hourLoop => maskBit t.Month s.month ≠ 0 ∧ dayMatches s t = true
  | .minuteLoop => maskBit t.Month s.month ≠ 0 ∧ dayMatches s t = true ∧ maskBit t.Hour s.hour ≠ 0
  | .secondLoop =>
    maskBit t.Month s.month ≠ 0 ∧ dayMatches s t = true ∧ maskBit t.Hour s.hour ≠ 0 ∧
      maskBit t.Minute s.minute ≠ 0

/-- What holds of the time `t` at which `cronPrev` stands at `place`, when the search started
from `t0`: `t` is in the same location and not later than `t0`; the fields checked by the
loops already left match; and, for a location whose offset is a whole number of minutes, no
whole second after `t` and up to `t0` matches every field. -/
def searchInvariant (s : SpecSchedule) (t0 : ZonedTime) (place : CronPrevPlace)
    (t : ZonedTime) : Prop :=
  t.loc = t0.loc ∧ t.unixNano ≤ t0.unixNano ∧ checkedSoFar s place t ∧
    (t0.loc.initialOffset % 60 = 0 → ∀ u : Int, t.unixNano < u * Second →
      u * Second ≤ t0.unixNano → fieldsMatch s (atSecond u t0.loc) = false)

/-- The cron package's `getBits(min, max, 1)`: the mask with the bits `min` to `max` set. -/
def getBits (min max : Nat) : Nat :=
  (List.range (max + 1 - min)).foldl (fun bits i => bits ||| 1 <<< (min + i)) 0

/-- The cron package's `all(r)`: the mask of a field given as `*`. -/
def allBits (min max : Nat) : Nat := getBits min max ||| starBit

/-- The zone `America/Asuncion` around October 2017: four hours behind UTC until midnight of
Sunday 2017-10-01, when the clocks went forward from 00:00 to 01:00 (three hours behind UTC). -/
def asuncion : Location :=
  { isLocal := false, initialOffset := -14400,
    transitions := [{ when := 1506830400, offset := -10800 }] }

/-- The cron spec `0 12 30 10 *` (noon on October 30), as `cron.ParseStandard` reads it, in
`America/Asuncion`. -/
def noonOnOctober30 : SpecSchedule :=
  { second := 1 <<< 0, minute := 1 <<< 0, hour := 1 <<< 12, dom := 1 <<< 30, month := 1 <<< 10,
    dow := allBits 0 6, location := asuncion }

/-- The cron spec `30 23 * * 6` (Saturdays at 23:30), as `cron.ParseStandard` reads it, in
`America/Asuncion`. -/
def saturdayNight : SpecSchedule :=
  { second := 1 <<< 0, minute := 1 <<< 30, hour := 1 <<< 23, dom := allBits 1 31,
    month := allBits 1 12, dow := 1 <<< 6, location := asuncion }

/-- The instant 2017-10-01T13:00:00Z, which is 10:00 on the Sunday morning in Asuncion. -/
def gapSunday : ZonedTime := { unixNano := 1506862800 * Second, loc := Location.UTC }

/-! ## A concrete cron library and concrete schedules for worked examples -/

/-- The words of a text, the word being read kept in reverse. -/
def splitFields : List Char → List Char → List String
  | [], word => if word = [] then [] else [String.mk word.reverse]
  | c :: cs, word =>
    if c = ' ' then
      if word = [] then splitFields cs [] else String.mk word.reverse :: splitFields cs []
    else splitFields cs (c :: word)

/-- Go's `strings.Fields` on a text whose only white space is the blank. -/
def fieldsOf (s : String) : List String := splitFields s.toList []

/-- One field of a cron spec, for a parser that understands the star and a single number
within the bounds of the field. -/
def parseField (field : String) (min max : Nat) : Except String Nat :=
  if field = "*" then .ok (allBits min max)
  else
    match fixedDigits field.length field.toList with
    | some n =>
      if field.length = 0 then .error "empty field"
      else if n < min then .error ("beginning of range below minimum: " ++ field)
      else if max < n then .error ("end of range above maximum: " ++ field)
      else .ok (1 <<< n)
    | none => .error ("failed to parse int from " ++ field)

/-- An example of `cron.ParseStandard` followed by the cast: it reads five fields that are
stars or single numbers as the cron package does (the seconds are 0, the location is
`time.Local`), it reads `@every 1h` as a schedule of another type, and it rejects every other
text. -/
def exampleParse (spec : String) : Except String (Option SpecSchedule) :=
  if spec = "@every 1h" then .ok none
  else
    match fieldsOf spec with
    | [minute, hour, dom, month, dow] =>
      match parseField minute 0 59, parseField hour 0 23, parseField dom 1 31,
          parseField month 1 12, parseField dow 0 6 with
      | .ok minute, .ok hour, .ok dom, .ok month, .ok dow =>
        .ok (some { second := 1 <<< 0, minute := minute, hour := hour, dom := dom,
                    month := month, dow := dow,
                    location := { isLocal := true, initialOffset := 0, transitions := [] } })
      | .error e, _, _, _, _ => .error e
      | _, .error e, _, _, _ => .error e
      | _, _, .error e, _, _ => .error e
      | _, _, _, .error e, _ => .error e
      | _, _, _, _, .error e => .error e
    | fields =>
      .error ("expected exactly 5 fields, found " ++ Nat.repr fields.length ++ ": [" ++
        " ".intercalate fields ++ "]")

/-- The first second of a day, not before the second `lo` of the day, at which the hour, the
minute and the second of a schedule match. -/
def firstSecondOfDay (s : SpecSchedule) (lo : Int) : Option Int :=
  (List.range 24).findSome? fun h =>
    if maskBit h s.hour = 0 then none
    else
      (List.range 60).findSome? fun m =>
        if maskBit m s.minute = 0 then none
        else
          (List.range 60).findSome? fun sec =>
            if maskBit sec s.second = 0 then none
            else
              let x : Int := (h : Int) * 3600 + (m : Int) * 60 + (sec : Int)
              if lo ≤ x then some x else none

/-- The search of `exampleNext` over at most `days` local days from the day `day` on. -/
def nextFrom (s : SpecSchedule) (loc : Location) : Nat → Int → Int → Option Int
  | 0, _, _ => none
  | days + 1, day, lo =>
    let midnight := atSecond (day * 86400 - loc.initialOffset) loc
    let here : Option Int :=
      if maskBit midnight.Month s.month ≠ 0 ∧ dayMatches s midnight = true then
        firstSecondOfDay s lo
      else none
    match here with
    | some x => some (day * 86400 + x - loc.initialOffset)
    | none => nextFrom s loc days (day + 1) 0

/-- An example of `SpecSchedule.Next` for locations without zone transitions: the first second
after `t` that matches the schedule, looked for in the five years that follow, and the zero
time if there is none. -/
def exampleNext (s : SpecSchedule) (t : ZonedTime) : ZonedTime :=
  let loc := if s.location.isLocal then t.loc else s.location
  let wall := t.unixNano / 1000000000 + 1 + loc.initialOffset
  match nextFrom s loc 1830 (wall / 86400) (wall % 86400) with
  | some u => atSecond u t.loc
  | none => ZonedTime.zero

/-- An example of `time.LoadLocation`: it knows `UTC` (also under the empty name), `Local` (a
machine on UTC) and `America/Asuncion`. -/
def exampleLoadLocation (name : String) : Except String Location :=
  if name = "" ∨ name = "UTC" then .ok Location.UTC
  else if name = "Local" then .ok { isLocal := true, initialOffset := 0, transitions := [] }
  else if name = "America/Asuncion" then .ok asuncion
  else .error ("unknown time zone " ++ name)

/-- The example cron library. -/
def exampleLib : CronLib :=
  { loadLocation := exampleLoadLocation, parseStandard := exampleParse, next := exampleNext }

/-- The instant 2022-12-12T12:12:00Z, in UTC. -/
def exampleNoon : ZonedTime := atSecond 1670847120 Location.UTC

/-- The instant 2022-12-12T07:12:00Z, in UTC. -/
def exampleMorning : ZonedTime := atSecond 1670829120 Location.UTC

/-- The candidate of a schedule in `findNearestScheduleTime`, in the words of the
specification: the adjacent event time moved back by the offset, and none if the schedule has
no adjacent event time (the zero time). -/
def candidate (offset : Int) (adjacent : ZonedTime) : Option ZonedTime :=
  if adjacent.IsZero then none else some (adjacent.Add (Second * -offset))

/-- Whether `a` is strictly nearer than `b` in the given direction: earlier when looking for
the next event, later when looking for the previous one. -/
def nearerThan (direction : EventDirection) (a b : ZonedTime) : Prop :=
  if direction = .directionNext then a.unixNano < b.unixNano else b.unixNano < a.unixNano

/-- What the specification asks of the result of `findNearestScheduleTime` over the candidates
of the schedules: the zero time and -1 if no schedule has a candidate, and otherwise a
candidate than which none is nearer, with the index of the first schedule attaining it. -/
def IsNearestOf (direction : EventDirection) (cs : List (Option ZonedTime))
    (r : ZonedTime × Int) : Prop :=
  ((∀ c ∈ cs, c = none) ∧ r = (ZonedTime.zero, -1)) ∨
    (∃ i : Nat, cs.get? i = some (some r.1) ∧ r.2 = i ∧
      (∀ c, some c ∈ cs → ¬ nearerThan direction c r.1) ∧
      (∀ (j : Nat) (c : ZonedTime), j < i → cs.get? j = some (some c) →
        c.unixNano ≠ r.1.unixNano))

/-- A result of `findNearestScheduleTime` moved by a duration: the time moves, unless the
result is the answer "nothing found". -/
def shiftResult (d : Int) (r : ZonedTime × Int) : ZonedTime × Int :=
  if r.2 = -1 then r else (r.1.Add d, r.2)

/-- The loop of `findNearestScheduleTime` run over the candidates. -/
def pickNearest (direction : EventDirection) :
    List (Option ZonedTime) → Int → ZonedTime × Int → ZonedTime × Int
  | [], _, nearest => nearest
  | none :: rest, idx, nearest => pickNearest direction rest (idx + 1) nearest
  | some c :: rest, idx, nearest =>
    if eventIsNearer c nearest.1 direction then pickNearest direction rest (idx + 1) (c, idx)
    else pickNearest direction rest (idx + 1) nearest

/-- The accumulator of the loop is in order at index `idx`: it is the initial answer, or a
time other than the zero time with an index below `idx`. -/
def inOrder (nearest : ZonedTime × Int) (idx : Int) : Prop :=
  nearest = (ZonedTime.zero, -1) ∨ (nearest.1.IsZero = false ∧ 0 ≤ nearest.2 ∧ nearest.2 < idx)

/-- The cron spec `0 9 * * *` (every day at 09:00), as `cron.ParseStandard` reads it, in UTC. -/
def dailyAtNine : SpecSchedule :=
  { second := 1 <<< 0, minute := 1 <<< 0, hour := 1 <<< 9, dom := allBits 1 31,
    month := allBits 1 12, dow := allBits 0 6, location := Location.UTC }

/-- The cron spec `0 17 * * *` (every day at 17:00), as `cron.ParseStandard` reads it, in
UTC. -/
def dailyAtFive : SpecSchedule :=
  { second := 1 <<< 0, minute := 1 <<< 0, hour := 1 <<< 17, dom := allBits 1 31,
    month := allBits 1 12, dow := allBits 0 6, location := Location.UTC }

/-- The schedule that `mapEventToSpecSchedule` returns for an event, nil (`none`) also when it
returns none. -/
def scheduleOf (lib : CronLib) (location : Location) (event : EventSpec) : Option SpecSchedule :=
  match mapEventToSpecSchedule lib event location with
  | .value s => s
  | _ => none

/-- The event is well formed: `mapEventToSpecSchedule` returns a value for it. -/
def wellFormed (lib : CronLib) (location : Location) (event : EventSpec) : Prop :=
  ∃ s, mapEventToSpecSchedule lib event location = .value s

/-- The instant 2022-12-12T09:00:00Z, in UTC. -/
def exampleNine : ZonedTime := atSecond 1670835600 Location.UTC

/-- The event has a malformed friendly spec (`AsCronSpec` returns an error) or a malformed
cron spec (`cron.ParseStandard` returns an error). -/
def malformed (lib : CronLib) (event : EventSpec) : Prop :=
  (∃ msg, AsCronSpec event = .error msg) ∨
    (∃ cronSpec err, AsCronSpec event = .value cronSpec ∧ lib.parseStandard cronSpec = .error err)

/-- The event has neither a cron spec nor a friendly schedule. -/
def lacksSchedule (event : EventSpec) : Prop :=
  event.cronSchedule = "" ∧ event.schedule = none

/-- The filter of `findMostRecentStopTime`. -/
def isStopEvent (es : EventSpec) : Bool := es.action == EventTypeStop

/-- The filter of `findStartOfCurrentRunPeriod`. -/
def isStartEvent (es : EventSpec) : Bool := es.action == EventTypeStart

/-- A stop event "every day at 17:00". -/
def stopAtFive : EventSpec :=
  { action := EventTypeStop, cronSchedule := "0 17 * * *", schedule := none }

/-- A start event "every day at 09:00". -/
def startAtNine : EventSpec :=
  { action := EventTypeStart, cronSchedule := "0 9 * * *", schedule := none }

/-- A stop event "every day at 09:00". -/
def stopAtNine : EventSpec :=
  { action := EventTypeStop, cronSchedule := "0 9 * * *", schedule := none }

/-- The start event with the cron spec `I AM INVALID` of `nearest_event_test.go`. -/
def invalidStart : EventSpec :=
  { action := EventTypeStart, cronSchedule := "I AM INVALID", schedule := none }

/-- The example ControlledJob with the given events. -/
def withEvents (events : List EventSpec) : ControlledJob :=
  { exampleControlledJob with spec := { exampleControlledJob.spec with events := events } }

/-- The adjacent event time of a schedule, the zero time standing in where the search does
not return one. -/
def adjacentOf (lib : CronLib) (fuel : Nat) (now : ZonedTime) (direction : EventDirection)
    (s : Option SpecSchedule) : ZonedTime :=
  match adjacentEventTime lib fuel s now direction with
  | .value a => a
  | _ => ZonedTime.zero

/-- The candidate of an event in `findNearestEvent`, with the offset as the code negates
it. -/
def eventCandidate (lib : CronLib) (fuel : Nat) (location : Location) (now : ZonedTime)
    (direction : EventDirection) (o : Int) (event : EventSpec) : Option ZonedTime :=
  candidate (-wrapInt32 (-o))
    (adjacentOf lib fuel (now.Add (Second * o)) direction (scheduleOf lib location event))

/-- The example ControlledJob with a start event and a stop event that are both due every day
at 09:00, the start event listed first. -/
def startThenStop : ControlledJob := withEvents [startAtNine, stopAtNine]

/-- The same ControlledJob with the stop event listed first. -/
def stopThenStart : ControlledJob := withEvents [stopAtNine, startAtNine]

/-- A write to the status of the ControlledJob in memory, as `makeDecision` and `Reconcile`
make them. -/
inductive StatusWrite where
  | condition (type : ControlledJobConditionType) (status : ConditionStatus)
      (reason message : String)
  | isSuspended (v : Option Bool)
  | lastScheduledStartTime (v : Option Time)
  | shouldBeRunning (v : Option Bool)
  | isRunning (v : Option Bool)
  | active (v : List ObjectReference)
  | record (eventType message jobName : String)

/-- The effect of a write; `nowFunc` is the value of `events.NowFunc()`. -/
def StatusWrite.apply (env : Env) (nowFunc : Option Time) (cj : ControlledJob) :
    StatusWrite → ControlledJob
  | .condition t s r m => SetCondition env cj t s r m
  | .isSuspended v => { cj with status := { cj.status with isSuspended := v } }
  | .lastScheduledStartTime v =>
    { cj with status := { cj.status with lastScheduledStartTime := v } }
  | .shouldBeRunning v => { cj with status := { cj.status with shouldBeRunning := v } }
  | .isRunning v => { cj with status := { cj.status with isRunning := v } }
  | .active v => { cj with status := { cj.status with active := v } }
  | .record ty msg jn => RecordEvent cj (newActionForJob nowFunc ty msg jn)

/-- The writes of a list, made in order. -/
def applyWrites (env : Env) (nowFunc : Option Time) (cj : ControlledJob)
    (ws : List StatusWrite) : ControlledJob :=
  ws.foldl (fun c w => w.apply env nowFunc c) cj

/-- What a write writes to: the type of the condition, the field, or the action history. -/
def StatusWrite.key : StatusWrite → String
  | .condition t _ _ _ => "condition " ++ t
  | .isSuspended _ => "isSuspended"
  | .lastScheduledStartTime _ => "lastScheduledStartTime"
  | .shouldBeRunning _ => "shouldBeRunning"
  | .isRunning _ => "isRunning"
  | .active _ => "active"
  | .record _ _ _ => "record"

/-- The write has been made and is still in force: making it again changes nothing. -/
def StatusWrite.Holds (cj : ControlledJob) : StatusWrite → Prop
  | .condition t s r m =>
    ∃ c, FindCondition cj.status t = some c ∧ c.status = s ∧ c.reason = r ∧ c.message = m ∧
      c.lastTransitionTime.IsZero = false
  | .isSuspended v => cj.status.isSuspended = v
  | .lastScheduledStartTime v => cj.status.lastScheduledStartTime = v
  | .shouldBeRunning v => cj.status.shouldBeRunning = v
  | .isRunning v => cj.status.isRunning = v
  | .active v => cj.status.active = v
  | .record ty msg jn =>
    ∃ a, cj.status.mostRecentAction = some a ∧ a.type = ty ∧ a.message = msg ∧
      a.jobName = jn ∧ a.scheduledStartTime = none ∧ a.jobIndex = none

/-- The environment at another reading of the clock. -/
def Env.atTime (env : Env) (t : Time) : Env := { env with timeNow := t }

/-- The keys of the writes of one reconcile that makes at most one call to change a Job, in
the order in which the code makes them. -/
def reconcileKeys : List String :=
  ["isSuspended", "lastScheduledStartTime", "shouldBeRunning", "condition ShouldBeRunning",
    "condition Suspended", "condition JobManuallyScheduled", "condition JobBeingDeleted",
    "condition JobExists", "condition JobRunning", "condition JobComplete",
    "condition JobFailed", "condition JobSuspended", "condition JobStoppedByUser", "active",
    "condition OutOfDate", "condition StartingDeadlineExceeded", "isRunning", "record",
    "condition FailedToDeleteJob", "condition FailedToCreateJob",
    "condition FailedToSuspendJob", "condition FailedToUnsuspendJob", "condition Error",
    "condition RunningExpectedly", "condition RunningUnexpectedly",
    "condition NotRunningExpectedly", "condition NotRunningUnexpectedly"]

/-- The write of `v1.SetConditionBasedOnFlag`. -/
def flagWrite (t : ControlledJobConditionType) (flag : Bool) (r1 m1 r2 m2 : String) :
    StatusWrite :=
  if flag then .condition t ConditionTrue r1 m1 else .condition t ConditionFalse r2 m2

/-- The writes of `setShouldBeRunningStatus`. -/
def shouldBeRunningWrites (state : State) : List StatusWrite :=
  match state.ShouldBeRunning with
  | some b =>
    [.shouldBeRunning (some b),
      if b then
        .condition ConditionTypeShouldBeRunning ConditionTrue "InsideRunPeriod"
          "Currently between a start and stop time in the schedule"
      else
        .condition ConditionTypeShouldBeRunning ConditionFalse "OutsideRunPeriod"
          "Currently outside of a start and stop time in the schedule"]
  | none =>
    [.shouldBeRunning (some false),
      .condition ConditionTypeShouldBeRunning ConditionUnknown "NoStartEvent"
        "No start events defined"]

/-- The writes of `setConditionsForAllJobs`. -/
def allJobsWrites (allJobs : List JobRef) : List StatusWrite :=
  if allJobs.length = 0 then
    [.condition ConditionTypeJobManuallyScheduled ConditionUnknown "NoCurrentJob" "No jobs",
      .condition ConditionTypeJobBeingDeleted ConditionUnknown "NoCurrentJob" "No jobs"]
  else
    [flagWrite ConditionTypeJobManuallyScheduled
        (allJobs.any (fun j => IsManuallyScheduledJob j.job))
        "CreatedByUser" "The user has scheduled a job manually"
        "NoManuallyScheduledJobs" "There are no manually scheduled jobs",
      flagWrite ConditionTypeJobBeingDeleted (allJobs.any (fun j => IsJobBeingDeleted j.job))
        "JobBeingDeleted" "A job is being deleted"
        "JobNotBeingDeleted" "No jobs are being deleted"]

/-- The writes of `setJobConditions`. -/
def jobConditionWrites (job : Option JobRef) : List StatusWrite :=
  match job with
  | none =>
    [.condition ConditionTypeJobExists ConditionFalse "NoCurrentJob" "No jobs",
      .condition ConditionTypeJobRunning ConditionUnknown "NoCurrentJob" "No jobs",
      .condition ConditionTypeJobComplete ConditionUnknown "NoCurrentJob" "No jobs",
      .condition ConditionTypeJobFailed ConditionUnknown "NoCurrentJob" "No jobs",
      .condition ConditionTypeJobSuspended ConditionUnknown "NoCurrentJob" "No jobs",
      .condition ConditionTypeJobStoppedByUser ConditionUnknown "NoCurrentJob" "No jobs"]
  | some ref =>
    [.condition ConditionTypeJobExists ConditionTrue "JobExists" "At least one job exists",
      if JobHasReadyStatus ref.job then
        flagWrite ConditionTypeJobRunning (IsJobRunning ref.job)
          "ReadyCountSufficient" "Job has the expected number of ready pods and hasn't completed"
          "ReadyCountNotSufficient"
          "Job does not yet have the expected number of ready pods (or it's completed). It could be struggling to start"
      else
        .condition ConditionTypeJobRunning ConditionUnknown "CannotDetermine"
          "Job has no ready status, so we can't determine if it's running",
      match GetJobCondition ref.job JobComplete with
      | some completeCondition =>
        .condition ConditionTypeJobComplete completeCondition.status
          (JobConditionToReason completeCondition "JobComplete")
          "Relaying JobComplete status from the Job"
      | none =>
        .condition ConditionTypeJobComplete ConditionUnknown "JobCompleteUnkown"
          "Job has not reported a complete condition yet",
      match GetJobCondition ref.job JobFailed with
      | some failedCondition =>
        .condition ConditionTypeJobFailed failedCondition.status
          (JobConditionToReason failedCondition "JobFailed")
          "Relaying JobFailed status from the Job"
      | none =>
        .condition ConditionTypeJobFailed ConditionUnknown "JobFailedUnkown"
          "Job has not reported a failed condition yet",
      flagWrite ConditionTypeJobSuspended (IsJobSuspended ref.job)
        "JobSuspended" "The current job is suspended"
        "JobNotSuspended" "The current job is not suspended",
      flagWrite ConditionTypeJobStoppedByUser (WasJobStoppedByTheUser ref.job)
        "JobStoppedByUser" "The current job was manually stopped by a user"
        "JobNotStoppedByUser" "The current job was not stopped by a user"]

/-- The writes of `recreateIfOutOfDate`. -/
def recreateWrites (env : Env) (state : State) (restartOnSpecChange : Bool)
    (maxJobRunId : Int) (l : Locals) : List StatusWrite :=
  match l.chosenJob with
  | none => [.condition ConditionTypeOutOfDate ConditionFalse "NoRunningJob" "Not currently running"]
  | some chosenJob =>
    if isOutOfDate chosenJob.job state then
      if !IsJobPotentiallyRunning chosenJob.job || WasJobStoppedByTheUser chosenJob.job then
        [.condition ConditionTypeOutOfDate ConditionTrue "JobIsNotRunning"
          "Job is out of date, but is not running so ignoring"]
      else if IsJobBeingDeleted chosenJob.job then
        [.condition ConditionTypeOutOfDate ConditionTrue "JobIsBeingDeleted"
          "Job is out of date, but is being deleted so ignoring"]
      else if !restartOnSpecChange then
        [.condition ConditionTypeOutOfDate ConditionTrue "ShouldNotAutoRestart"
          "Job is out of date, but auto-recreation is not enabled so will leave it running as is"]
      else
        match RecreateJobWithNewSpec env chosenJob.job l.controlledJob
            (wrapInt64 (maxJobRunId + 1)) true with
        | .error _ => []
        | .ok _ =>
          [.condition ConditionTypeOutOfDate ConditionFalse "NotOutOfDate"
            "Running job matches desired spec"]
    else
      [.condition ConditionTypeOutOfDate ConditionFalse "NotOutOfDate"
        "Running job matches desired spec"]

/-- The writes of `startIfAbsent`. -/
def startWrites (state : State) (now : Time) (shouldBeRunning : Bool) (l : Locals) :
    List StatusWrite :=
  if shouldBeRunning && l.chosenJob.isNone then
    if startingDeadlineSecondsExceeded l.controlledJob state.StartOfCurrentRunPeriod now then
      [.condition ConditionTypeStartingDeadlineExceeded ConditionTrue "StartingDeadlineExceeded"
        "We expect to be running, but have exceeded the starting deadline"]
    else
      [.condition ConditionTypeStartingDeadlineExceeded ConditionFalse
        "StartingDeadlineNotExceeded" "Still in time to start a new job"]
  else
    [.condition ConditionTypeStartingDeadlineExceeded ConditionUnknown "NoNewJobRequired"
      "We're not trying to start a job at the moment"]

/-- The writes of `decideForJobs`. -/
def decideWrites (env : Env) (state : State) (now : Time) (shouldBeRunning : Bool)
    (restartOnSpecChange : Bool) (maxJobRunId : Int) (l : Locals) : List StatusWrite :=
  let l := stopOutsideRunPeriod shouldBeRunning l
  match recreateIfOutOfDate env state restartOnSpecChange maxJobRunId l with
  | (_, some _) => recreateWrites env state restartOnSpecChange maxJobRunId l
  | (l1, none) =>
    recreateWrites env state restartOnSpecChange maxJobRunId l ++
      startWrites state now shouldBeRunning l1

/-- The writes of `makeDecision` to the status of the ControlledJob, in the order in which it
makes them. -/
def decisionWrites (env : Env) (scheduleState : Except String ScheduleState)
    (controlledJob : ControlledJob) (childJobs : List Job) (now : Time)
    (enableAutoRecreateJobsOnSpecChange : Bool) : List StatusWrite :=
  match buildState env scheduleState controlledJob childJobs with
  | .error _ => []
  | .ok state =>
    [.isSuspended (some state.IsSuspended),
      .lastScheduledStartTime state.StartOfCurrentRunPeriod] ++
    shouldBeRunningWrites state ++
    if state.IsSuspended then
      [.condition ConditionTypeSuspended ConditionTrue "Suspended" "IsSuspended flag set"]
    else
      [.condition ConditionTypeSuspended ConditionFalse "NotSuspended"
        "IsSuspended flag not set"] ++
      allJobsWrites state.AllJobs ++
      jobConditionWrites (scanRunIds state state.AllJobs).jobToRecordMetricsAgainst ++
      [.active (classifyJobs env state state.AllJobs).active] ++
      decideWrites env state now
        (match state.ShouldBeRunning with
          | some b => b
          | none => false)
        (enableAutoRecreateJobsOnSpecChange && state.AutoRestartIsEnabled)
        (scanRunIds state state.AllJobs).maxJobRunId
        { controlledJob := controlledJob, decision := Decision.zero,
          chosenJob := (classifyJobs env state state.AllJobs).chosenJob,
          numberOfPotentiallyRunningJobs :=
            (classifyJobs env state state.AllJobs).numberOfPotentiallyRunningJobs,
          expiredJobs := (classifyJobs env state state.AllJobs).expiredJobs,
          nonExpiredJobs := (classifyJobs env state state.AllJobs).nonExpiredJobs } ++
      [.isRunning (some (decideForJobs env state now
        (match state.ShouldBeRunning with
          | some b => b
          | none => false)
        (enableAutoRecreateJobsOnSpecChange && state.AutoRestartIsEnabled)
        (scanRunIds state state.AllJobs).maxJobRunId
        { controlledJob := controlledJob, decision := Decision.zero,
          chosenJob := (classifyJobs env state state.AllJobs).chosenJob,
          numberOfPotentiallyRunningJobs :=
            (classifyJobs env state state.AllJobs).numberOfPotentiallyRunningJobs,
          expiredJobs := (classifyJobs env state state.AllJobs).expiredJobs,
          nonExpiredJobs := (classifyJobs env state state.AllJobs).nonExpiredJobs }).chosenJob.isSome)]

/-- The keys of the writes of `makeDecision`. -/
def decisionKeys : List String :=
  ["isSuspended", "lastScheduledStartTime", "shouldBeRunning", "condition ShouldBeRunning",
    "condition Suspended", "condition JobManuallyScheduled", "condition JobBeingDeleted",
    "condition JobExists", "condition JobRunning", "condition JobComplete",
    "condition JobFailed", "condition JobSuspended", "condition JobStoppedByUser", "active",
    "condition OutOfDate", "condition StartingDeadlineExceeded", "isRunning"]

/-- The type of the action recorded after a success of a loop of `Reconcile`. -/
def JobCallKind.actionType (kind : JobCallKind) : String :=
  match kind with
  | .delete => "JobStopped"
  | .create => "JobStarted"
  | .suspend => "JobSuspended"
  | .unsuspend => "JobUnsuspended"

/-- The message of the action recorded after a success of a loop of `Reconcile`. -/
def JobCallKind.actionMessage (kind : JobCallKind) (jobName : String) : String :=
  match kind with
  | .delete => "Deleted job: " ++ jobName
  | .create => "Created job: " ++ jobName
  | .suspend => "Suspended job: " ++ jobName
  | .unsuspend => "Unsuspended job: " ++ jobName

/-- The writes of a loop of `Reconcile` that is entered with `err` unset. -/
def loopWrites (cluster : Cluster) (kind : JobCallKind) : List JobRef → List StatusWrite
  | [] => []
  | job :: rest =>
    match kind.call cluster job.job with
    | some e =>
      [.condition kind.conditionType ConditionTrue kind.conditionType
        (WrapError e kind.conditionType
          ("failed to " ++ kind.verb ++ " job " ++ job.job.name ++ " in namespace " ++
            job.job.ns)).text]
    | none =>
      [.record kind.actionType (kind.actionMessage job.job.name) job.job.name,
        .condition kind.conditionType kind.successStatus kind.successReason
          kind.successMessage] ++ loopWrites cluster kind rest

/-- The calls of a loop of `Reconcile` that is entered with `err` unset. -/
def loopCalls (cluster : Cluster) (kind : JobCallKind) : List JobRef → List ClusterCall
  | [] => []
  | job :: rest =>
    match kind.call cluster job.job with
    | some _ => [kind.clusterCall job]
    | none => kind.clusterCall job :: loopCalls cluster kind rest

/-- The writes of a loop of `Reconcile`; after an earlier loop has failed there are none. -/
def loopWritesFrom (run : RunState) (cluster : Cluster) (kind : JobCallKind)
    (jobs : List JobRef) : List StatusWrite :=
  match run.err with
  | some _ => []
  | none => loopWrites cluster kind jobs

/-- The calls of a loop of `Reconcile`; after an earlier loop has failed there are none. -/
def loopCallsFrom (run : RunState) (cluster : Cluster) (kind : JobCallKind)
    (jobs : List JobRef) : List ClusterCall :=
  match run.err with
  | some _ => []
  | none => loopCalls cluster kind jobs

/-- The writes of lines 105-169 of `Reconcile`: those of `makeDecision` and of the four
loops. -/
def bodyWrites (env : Env) (cluster : Cluster) (scheduleState : Except String ScheduleState)
    (controlledJob : ControlledJob) (childJobs : List Job) (now : Time)
    (options : ReconcileOptions) : List StatusWrite :=
  let outcome := makeDecision env scheduleState controlledJob childJobs now
    options.EnableAutoRecreateJobsOnSpecChange
  decisionWrites env scheduleState controlledJob childJobs now
    options.EnableAutoRecreateJobsOnSpecChange ++
  match outcome.err with
  | some _ => []
  | none =>
    let run0 : RunState := { controlledJob := outcome.controlledJob, calls := [], err := none }
    let run1 := jobLoop env cluster .delete outcome.decision.JobsToDelete run0
    let run2 := jobLoop env cluster .create outcome.decision.JobsToCreate run1
    let run3 := jobLoop env cluster .suspend outcome.decision.JobsToSuspend run2
    loopWritesFrom run0 cluster .delete outcome.decision.JobsToDelete ++
      loopWritesFrom run1 cluster .create outcome.decision.JobsToCreate ++
      loopWritesFrom run2 cluster .suspend outcome.decision.JobsToSuspend ++
      loopWritesFrom run3 cluster .unsuspend outcome.decision.JobsToUnsuspend

/-- What `calculateOverallConditions` reads: whether the condition of a type is true. -/
def readFlag (controlledJob : ControlledJob) (t : ControlledJobConditionType) : Bool :=
  CoerceConditionToBoolen (FindCondition controlledJob.status t)

/-- The writes of `calculateOverallConditions` for the values it reads. -/
def overallWritesFor (err : Option ReconcileError)
    (jobExists jobFailed shouldBeRunning jobManuallyScheduled : Bool) : List StatusWrite :=
  let runningExpectedlyIsUnknown : StatusWrite :=
    .condition ConditionTypeRunningExpectedly ConditionUnknown "CannotDetermine"
      "Job either not running, or it is running and we don't expect it to be (see other conditions for details)"
  let runningUnexpectedlyIsUnknown : StatusWrite :=
    .condition ConditionTypeRunningUnexpectedly ConditionUnknown "CannotDetermine"
      "Job either not running, or it is running and we expect it to be (see other conditions for details)"
  let notRunningExpectedlyIsUnknown : StatusWrite :=
    .condition ConditionTypeNotRunningExpectedly ConditionUnknown "CannotDetermine"
      "Job either running, or it's not running but we expect it to be (see other conditions for details)"
  let notRunningUnexpectedlyIsUnknown : StatusWrite :=
    .condition ConditionTypeNotRunningUnexpectedly ConditionUnknown "CannotDetermine"
      "Job either not running, or it is running and we expect it to be (see other conditions for details)"
  (match err with
    | some e => StatusWrite.condition ConditionTypeError ConditionTrue "Error" e.text
    | none => .condition ConditionTypeError ConditionFalse "NoError" "No error encountered") ::
  if jobExists && !jobFailed then
    if shouldBeRunning then
      [.condition ConditionTypeRunningExpectedly ConditionTrue "RunningBasedOnSchedule"
          "Job is running, and that's expected because of the schedule",
        runningUnexpectedlyIsUnknown, notRunningExpectedlyIsUnknown,
        notRunningUnexpectedlyIsUnknown]
    else if jobManuallyScheduled then
      [.condition ConditionTypeRunningExpectedly ConditionTrue "RunningManually"
          "Job is running, and that's expected because the user has manually scheduled a job",
        runningUnexpectedlyIsUnknown, notRunningExpectedlyIsUnknown,
        notRunningUnexpectedlyIsUnknown]
    else
      [runningExpectedlyIsUnknown,
        .condition ConditionTypeRunningUnexpectedly ConditionTrue "RunningUnexpectedly"
          "Job is running, but it should not be - neither inside the scheduled times, nor manually scheduled",
        notRunningExpectedlyIsUnknown, notRunningUnexpectedlyIsUnknown]
  else
    if shouldBeRunning then
      [runningExpectedlyIsUnknown, runningUnexpectedlyIsUnknown, notRunningExpectedlyIsUnknown,
        if jobFailed then
          .condition ConditionTypeNotRunningUnexpectedly ConditionTrue "JobFailed"
            "Job failed, but according to the schedule it should currently be running"
        else
          .condition ConditionTypeNotRunningUnexpectedly ConditionTrue "NoJobExists"
            "No job currently exists, but according to the schedule it should currently be running"]
    else if jobManuallyScheduled then
      [runningExpectedlyIsUnknown, runningUnexpectedlyIsUnknown, notRunningExpectedlyIsUnknown,
        if jobFailed then
          .condition ConditionTypeNotRunningUnexpectedly ConditionTrue "JobFailed"
            "Job failed after the user scheduled it"
        else
          .condition ConditionTypeNotRunningUnexpectedly ConditionTrue "NoJobExists"
            "The user requested to schedule a Job, but one hasn't been created"]
    else
      [runningExpectedlyIsUnknown, runningUnexpectedlyIsUnknown,
        .condition ConditionTypeNotRunningExpectedly ConditionTrue "NotRunningExpectedly"
          "No job exists, and that's expected as we're outside the scheduled times, and the user has not manually scheduled a job",
        notRunningUnexpectedlyIsUnknown]

/-- The writes of `calculateOverallConditions` on a ControlledJob. -/
def overallWrites (err : Option ReconcileError) (controlledJob : ControlledJob) :
    List StatusWrite :=
  overallWritesFor err (readFlag controlledJob ConditionTypeJobExists)
    (readFlag controlledJob ConditionTypeJobFailed)
    (readFlag controlledJob ConditionTypeShouldBeRunning)
    (readFlag controlledJob ConditionTypeJobManuallyScheduled)

/-- The keys of the writes of `calculateOverallConditions`. -/
def overallKeys : List String :=
  ["condition Error", "condition RunningExpectedly", "condition RunningUnexpectedly",
    "condition NotRunningExpectedly", "condition NotRunningUnexpectedly"]

/-- The keys of the writes of the four loops of a reconcile that makes at most one call to
change a Job. -/
def loopKeys : List String :=
  ["record", "condition FailedToDeleteJob", "condition FailedToCreateJob",
    "condition FailedToSuspendJob", "condition FailedToUnsuspendJob"]

/-- A call that deletes, creates, suspends or unsuspends a Job. -/
def ClusterCall.isJobCall : ClusterCall → Bool
  | .updateStatus _ => false
  | _ => true

/-- The responses of the client after a reconcile whose status update has been stored: the
ControlledJob now carries the status that was written; the other responses are the same. The
clock of the action history reads `nowFunc`. -/
def Cluster.afterUpdate (cluster : Cluster) (written : ControlledJob)
    (nowFunc : Option Time) : Cluster :=
  { cluster with
    getControlledJob :=
      (some written, cluster.getControlledJob.2.1, cluster.getControlledJob.2.2),
    nowFunc := nowFunc }

/-! ## Further definitions for the statements: the friendly schedule, durations, conditions -/

/-- A time of day as the specification words it: two digits, a colon and two digits. -/
def isTimeOfDay (s : String) : Prop :=
  ∃ h1 h2 m1 m2 : Char, isDigit h1 = true ∧ isDigit h2 = true ∧ isDigit m1 = true ∧
    isDigit m2 = true ∧ s = String.mk [h1, h2, ':', m1, m2]

/-- A three-letter name. -/
def isDayName (w : List Char) : Prop := w.length = 3 ∧ ∀ c ∈ w, isLetter c = true

/-- The names of a list, each preceded by a comma. -/
def commaTail : List (List Char) → List Char
  | [] => []
  | w :: ws => ',' :: w ++ commaTail ws

/-- The names of a list, separated by commas. -/
def commaJoin : List (List Char) → List Char
  | [] => []
  | w :: ws => w ++ commaTail ws

/-- A comma-separated list of three-letter names, as the specification words it; a list has at
least one name. -/
def isDayList (s : String) : Prop :=
  ∃ names : List (List Char), names ≠ [] ∧ (∀ w ∈ names, isDayName w) ∧
    s.toList = commaJoin names

/-- A comma-separated list of at most seven three-letter names. -/
def isShortDayList (s : String) : Prop :=
  ∃ names : List (List Char), names ≠ [] ∧ names.length ≤ 7 ∧ (∀ w ∈ names, isDayName w) ∧
    s.toList = commaJoin names

/-- A single range `XXX-YYY` of three-letter names. -/
def isDayRange (s : String) : Prop :=
  ∃ a b : List Char, isDayName a ∧ isDayName b ∧ s.toList = a ++ '-' :: b

/-- A difference of two instants, in nanoseconds, limited to the range of a `time.Duration`
(an int64), as the amended requeue claim words it. -/
def clampDuration (d : Int) : Int := max (-(2 : Int) ^ 63) (min d ((2 : Int) ^ 63 - 1))

/-- What a write says about the condition of type `t`, if it is a write to it: the status, the
reason and the message. -/
def conditionWriteOf (t : ControlledJobConditionType) :
    StatusWrite → Option (ConditionStatus × String × String)
  | .condition t2 s r m => if t2 = t then some (s, r, m) else none
  | _ => none

/-- The last write of a list to the condition of type `t`: its status, reason and message. -/
def lastConditionWrite (t : ControlledJobConditionType) :
    List StatusWrite → Option (ConditionStatus × String × String)
  | [] => none
  | w :: ws => (lastConditionWrite t ws).orElse (fun _ => conditionWriteOf t w)

/-- A cluster that holds the example ControlledJob with the start event `I AM INVALID` and no
Job of it. -/
def invalidCluster : Cluster :=
  { quietCluster with getControlledJob := (some (withEvents [invalidStart]), true, none) }

/-! ## Further definitions for the statements: the execution of the plan, the action history -/

/-- A cluster that holds the example ControlledJob with the annotation `apply-mutations=true`
and yesterday's Job; every call succeeds. -/
def mutatedCluster : Cluster :=
  { busyCluster with getControlledJob := (some mutatedControlledJob, true, none) }

/-- A client that cannot reach the API server: `GetControlledJob` returns a nil ControlledJob,
`ok` false and the error of the call. -/
def unreachableCluster : Cluster :=
  { quietCluster with getControlledJob := (none, false, some "connection refused") }

/-- The example ControlledJob, its status still carrying the condition
`FailedToCreateJob = True` that an earlier reconcile wrote. -/
def staleFailedControlledJob : ControlledJob :=
  { exampleControlledJob with
    status := { exampleControlledJob.status with
                conditions := [{ type := ConditionTypeFailedToCreateJob,
                                 status := ConditionTrue,
                                 observedGeneration := 1,
                                 lastTransitionTime := Time.ofUnix 1670840000,
                                 reason := "FailedToCreateJob",
                                 message := "failed to create job basic-job-1670835600-0 in namespace default: the server is busy" }] } }

/-- A cluster that holds the example ControlledJob with the condition of the earlier failure,
and the running Job of today; every call succeeds. -/
def staleFailedCluster : Cluster :=
  { quietCluster with
    getControlledJob := (some staleFailedControlledJob, true, none),
    listJobsForControlledJob := .ok [runningJob] }

/-- A cluster that holds the example ControlledJob and today's Job, which is still suspended;
every call succeeds. -/
def suspendedChildCluster : Cluster :=
  { quietCluster with listJobsForControlledJob := .ok [suspendedJob] }

/-- A cluster that holds the ControlledJob with a start event and a stop event both due at
09:00, and no Job of it; every call succeeds. -/
def tieCluster : Cluster :=
  { quietCluster with getControlledJob := (some startThenStop, true, none) }

/-- The zone `Europe/London` in 2022: on UTC until 2022-03-27T01:00:00Z, one hour ahead of it
until 2022-10-30T01:00:00Z, when the clocks went back from 02:00 to 01:00, and on UTC after
that. -/
def london : Location :=
  { isLocal := false, initialOffset := 0,
    transitions := [{ when := 1648342800, offset := 3600 },
                    { when := 1667091600, offset := 0 }] }

/-- The cron spec `0 9 * * *` (every day at 09:00), as `cron.ParseStandard` reads it, in
`Europe/London`. -/
def londonAtNine : SpecSchedule := { dailyAtNine with location := london }

/-- The instant 2022-10-30T08:00:00Z, in UTC: 08:00 in London on the Sunday on which the clocks
went back. -/
def fallBackSunday : ZonedTime := atSecond 1667116800 Location.UTC

/-- The instant 2022-10-30T00:59:59Z in `Europe/London`: 01:59:59 on the wall clock, one second
before the clocks went back. -/
def beforeFallBack : ZonedTime := atSecond 1667091599 london

/-- Where `cronPrev` stands after the given number of steps from a place, or how it has
returned by then. -/
def cronPrevAfter (s : SpecSchedule) (yearLimit : Int) :
    Nat → CronPrevPlace → ZonedTime → CronPrevStep
  | 0, place, t => .goOn place t
  | k + 1, place, t =>
    match cronPrevStep s yearLimit place t with
    | .goOn place t => cronPrevAfter s yearLimit k place t
    | r => r

/-- Two entries of the action history are identical up to the timestamp. -/
def sameUpToTimestamp (a b : ControlledJobActionHistoryEntry) : Prop :=
  a.type = b.type ∧ a.message = b.message ∧ a.scheduledStartTime = b.scheduledStartTime ∧
    a.jobIndex = b.jobIndex ∧ a.jobName = b.jobName

/-- The stamps of the example records: 2022-12-12T12:12:00Z and the two seconds after it. -/
def exampleRecords : List ControlledJobActionHistoryEntry :=
  [NewJobStartedAction (some (Time.ofUnix 1670847120)) "basic-job-1670835600-0",
    NewJobStartedAction (some (Time.ofUnix 1670847121)) "basic-job-1670835600-0",
    NewJobStoppedAction (some (Time.ofUnix 1670847122)) "basic-job-1670835600-0"]

/-- The plan of a decision as `Reconcile` goes through it: the Jobs to delete, then the Jobs to
create, then the Jobs to suspend, then the Jobs to unsuspend, each with the kind of its call. -/
def plannedCalls (d : Decision) : List (JobCallKind × JobRef) :=
  d.JobsToDelete.map (Prod.mk JobCallKind.delete) ++
    d.JobsToCreate.map (Prod.mk JobCallKind.create) ++
    d.JobsToSuspend.map (Prod.mk JobCallKind.suspend) ++
    d.JobsToUnsuspend.map (Prod.mk JobCallKind.unsuspend)

/-- The client answers the planned call without an error. -/
def callSucceeds (cluster : Cluster) (p : JobCallKind × JobRef) : Bool :=
  (p.1.call cluster p.2.job).isNone

/-- The planned calls up to the first one that fails, that one included. -/
def untilFirstFailure (cluster : Cluster) (plan : List (JobCallKind × JobRef)) :
    List (JobCallKind × JobRef) :=
  plan.takeWhile (callSucceeds cluster) ++ (plan.dropWhile (callSucceeds cluster)).take 1

/-- The Job of a call of the given kind. -/
def JobCallKind.jobOf : JobCallKind → ClusterCall → Option JobRef
  | .delete, .deleteJob job => some job
  | .create, .createJob job => some job
  | .suspend, .suspendJob job => some job
  | .unsuspend, .unsuspendJob job => some job
  | _, _ => none

/-- The Jobs of the calls of the given kind, in the order of the calls. -/
def jobsCalled (kind : JobCallKind) (calls : List ClusterCall) : List JobRef :=
  calls.filterMap kind.jobOf

/-- A stop event "Saturdays at 23:30". -/
def stopSaturdayNight : EventSpec :=
  { action := EventTypeStop, cronSchedule := "30 23 * * 6", schedule := none }

/-- The events "start every day at 09:00, stop on Saturdays at 23:30". -/
def weekEvents : List EventSpec := [startAtNine, stopSaturdayNight]

/-- Whether the condition of type `t` is True in the status of a ControlledJob, as a reader of
the status sees it: the first condition of that type in the list has the status True. -/
def conditionIsTrue (controlledJob : ControlledJob) (t : ControlledJobConditionType) : Bool :=
  match controlledJob.status.conditions.find? (fun c => c.type == t) with
  | some c => c.status == ConditionTrue
  | none => false

/-- The example environment with one registered mutator that removes the suspend flag of the
Job it is given (a remote mutator whose patch removes `/spec/suspend`). -/
def resumingMutatorEnv : Env :=
  { exampleEnv with
    registeredMutators :=
      [{ name := "resume", apply := fun job => .ok { job with spec := { job.spec with suspend := none } } }] }

/-- The example ControlledJob with the spec-change policy `Recreate`, whose job template itself
carries the annotation `is-manually-scheduled=true`. -/
def manualTemplateControlledJob : ControlledJob :=
  { recreatingControlledJob with
    spec := { recreatingControlledJob.spec with
              jobTemplate := { exampleTemplate with annotations := [( ManualJobAnnotation, "true")] } } }

/-- The example ControlledJob with an additional offset of one minute: its events are due one
minute before the times of their cron specs. -/
def offsetControlledJob : ControlledJob :=
  { exampleControlledJob with
    spec := { exampleControlledJob.spec with timezone := { name := "UTC", offsetSeconds := 60 } } }

/-! ## The order on names -/

theorem codesLess_irrefl (a : List Nat) : codesLess a a = false := by
  induction a with
  | nil => rfl
  | cons x xs ih => simp [codesLess, ih]

theorem codesLess_trans : ∀ (a b c : List Nat),
    codesLess a b = true → codesLess b c = true → codesLess a c = true
  | [], [], _, h, _ => by simp [codesLess] at h
  | [], _ :: _, [], _, h => by simp [codesLess] at h
  | [], _ :: _, _ :: _, _, _ => by simp [codesLess]
  | _ :: _, [], _, h, _ => by simp [codesLess] at h
  | _ :: _, _ :: _, [], _, h => by simp [codesLess] at h
  | x :: xs, y :: ys, z :: zs, h1, h2 => by
    simp only [codesLess] at h1 h2 ⊢
    by_cases hxy : x < y
    · by_cases hyz : y < z
      · have : x < z := Nat.lt_trans hxy hyz
        simp [this]
      · by_cases hzy : z < y
        · simp [hyz, hzy] at h2
        · have : y = z := by omega
          subst this
          simp [hxy]
    · by_cases hyx : y < x
      · simp [hxy, hyx] at h1
      · have hxy2 : x = y := by omega
        subst hxy2
        simp only [hxy, if_false] at h1
        by_cases hxz : x < z
        · simp [hxz]
        · by_cases hzx : z < x
          · simp [hxz, hzx] at h2
          · simp only [hxz, hzx, if_false] at h2 ⊢
            exact codesLess_trans xs ys zs h1 h2

theorem codesLess_total : ∀ (a b : List Nat), a ≠ b →
    codesLess a b = true ∨ codesLess b a = true
  | [], [], h => absurd rfl h
  | [], _ :: _, _ => by simp [codesLess]
  | _ :: _, [], _ => by simp [codesLess]
  | x :: xs, y :: ys, h => by
    simp only [codesLess]
    by_cases hxy : x < y
    · simp [hxy]
    · by_cases hyx : y < x
      · simp [hyx]
      · have : x = y := by omega
        subst this
        have hne : xs ≠ ys := fun e => h (by rw [e])
        simpa [hxy] using codesLess_total xs ys hne

theorem codes_injective {a b : String} (h : codes a = codes b) : a = b := by
  apply String.ext
  have hinj : Function.Injective Char.toNat := by
    intro x y hxy
    have := congrArg Char.ofNat hxy
    simpa using this
  exact List.map_injective_iff.mpr hinj h

theorem strGreater_irrefl (a : String) : strGreater a a = false := codesLess_irrefl _

theorem strGreater_trans {a b c : String} (h1 : strGreater a b = true)
    (h2 : strGreater b c = true) : strGreater a c = true :=
  codesLess_trans _ _ _ h2 h1

theorem strGreater_total {a b : String} (h : a ≠ b) :
    strGreater a b = true ∨ strGreater b a = true := by
  have hne : codes b ≠ codes a := fun e => h (codes_injective e).symm
  exact codesLess_total _ _ hne

theorem strGreater_asymm {a b : String} (h : strGreater a b = true) : strGreater b a = false := by
  cases hba : strGreater b a with
  | false => rfl
  | true =>
    have := strGreater_trans h hba
    rw [strGreater_irrefl] at this
    exact absurd this (by simp)

/-! ## `isBetterCandidateJob` is a strict order -/

/-- The comparison that `isBetterCandidateJob` makes, on the two flags and the name. -/
theorem isBetterCandidateJob_eq (state : State) (a b : Job) :
    isBetterCandidateJob a b state =
      (if IsJobBeingDeleted a != IsJobBeingDeleted b then !IsJobBeingDeleted a
       else if (a.annotations.get TemplateHashAnnotation == state.DesiredHash) !=
            (b.annotations.get TemplateHashAnnotation == state.DesiredHash) then
          (a.annotations.get TemplateHashAnnotation == state.DesiredHash)
       else strGreater a.name b.name) := rfl

theorem isBetterCandidateJob_irrefl (state : State) (a : Job) :
    isBetterCandidateJob a a state = false := by
  simp [isBetterCandidateJob_eq, strGreater_irrefl]

theorem isBetterCandidateJob_trans (state : State) (a b c : Job)
    (h1 : isBetterCandidateJob a b state = true) (h2 : isBetterCandidateJob b c state = true) :
    isBetterCandidateJob a c state = true := by
  rw [isBetterCandidateJob_eq] at h1 h2 ⊢
  generalize IsJobBeingDeleted a = da at *
  generalize IsJobBeingDeleted b = db at *
  generalize IsJobBeingDeleted c = dc at *
  generalize (a.annotations.get TemplateHashAnnotation == state.DesiredHash) = ma at *
  generalize (b.annotations.get TemplateHashAnnotation == state.DesiredHash) = mb at *
  generalize (c.annotations.get TemplateHashAnnotation == state.DesiredHash) = mc at *
  cases da <;> cases db <;> cases dc <;> cases ma <;> cases mb <;> cases mc <;>
    simp_all <;> exact strGreater_trans h1 h2

theorem isBetterCandidateJob_total (state : State) (a b : Job) (h : a.name ≠ b.name) :
    isBetterCandidateJob a b state = true ∨ isBetterCandidateJob b a state = true := by
  rw [isBetterCandidateJob_eq, isBetterCandidateJob_eq]
  generalize IsJobBeingDeleted a = da
  generalize IsJobBeingDeleted b = db
  generalize (a.annotations.get TemplateHashAnnotation == state.DesiredHash) = ma
  generalize (b.annotations.get TemplateHashAnnotation == state.DesiredHash) = mb
  cases da <;> cases db <;> cases ma <;> cases mb <;> simp <;> exact strGreater_total h

theorem isBetterCandidateJob_asymm (state : State) (a b : Job)
    (h : isBetterCandidateJob a b state = true) : isBetterCandidateJob b a state = false := by
  cases hba : isBetterCandidateJob b a state with
  | false => rfl
  | true =>
    have := isBetterCandidateJob_trans state a b a h hba
    rw [isBetterCandidateJob_irrefl] at this
    exact absurd this (by simp)

/-! ## Conditions -/

theorem updateCondition_type (old new : Condition) :
    (updateCondition old new).type = old.type := by
  unfold updateCondition
  split <;> rfl

theorem updateCondition_status (old new : Condition) :
    (updateCondition old new).status = new.status := rfl

theorem updateCondition_reason (old new : Condition) :
    (updateCondition old new).reason = new.reason := rfl

theorem updateCondition_message (old new : Condition) :
    (updateCondition old new).message = new.message := rfl

theorem find_updateFirst_same (new : Condition) :
    ∀ (cs : List Condition) (old : Condition),
      cs.find? (fun c => c.type == new.type) = some old →
      (updateFirst new cs).find? (fun c => c.type == new.type) = some (updateCondition old new)
  | [], _, h => by simp at h
  | c :: cs, old, h => by
    rw [List.find?_cons] at h
    by_cases hc : c.type = new.type
    · have hb : (c.type == new.type) = true := by simp [hc]
      rw [hb] at h
      have hold : c = old := by simpa using h
      subst hold
      have hu : ((updateCondition c new).type == new.type) = true := by
        simp [updateCondition_type, hc]
      simp only [updateFirst, hb, if_true, List.find?_cons, hu]
    · have hb : (c.type == new.type) = false := by simp [hc]
      rw [hb] at h
      simp only [updateFirst, hb, Bool.false_eq_true, if_false, List.find?_cons]
      exact find_updateFirst_same new cs old h

theorem find_updateFirst_other (new : Condition) (t : String) (ht : t ≠ new.type) :
    ∀ (cs : List Condition),
      (updateFirst new cs).find? (fun c => c.type == t) = cs.find? (fun c => c.type == t)
  | [] => by simp [updateFirst]
  | c :: cs => by
    by_cases hc : c.type = new.type
    · have hb : (c.type == new.type) = true := by simp [hc]
      have hct : (c.type == t) = false := by
        simp only [beq_eq_false_iff_ne, ne_eq]
        exact fun e => ht (e.symm.trans hc)
      have hu : ((updateCondition c new).type == t) = false := by
        rw [updateCondition_type]; exact hct
      simp only [updateFirst, hb, if_true, List.find?_cons, hu, hct]
    · have hb : (c.type == new.type) = false := by simp [hc]
      simp only [updateFirst, hb, Bool.false_eq_true, if_false, List.find?_cons]
      rw [find_updateFirst_other new t ht cs]

/-- After `SetCondition` the condition of that type carries the given status, reason and
message. -/
theorem FindCondition_SetCondition_same (env : Env) (cj : ControlledJob)
    (t : ControlledJobConditionType) (s : ConditionStatus) (r m : String) :
    ∃ c, FindCondition (SetCondition env cj t s r m).status t = some c ∧ c.status = s ∧
      c.reason = r ∧ c.message = m ∧ c.type = t := by
  unfold SetCondition
  cases h : FindCondition cj.status t with
  | none =>
    refine ⟨{ type := t, status := s, lastTransitionTime := env.timeNow,
              observedGeneration := cj.generation, reason := r, message := m },
            ?_, rfl, rfl, rfl, rfl⟩
    simp only [FindCondition] at h ⊢
    rw [List.find?_append, h]
    simp
  | some old =>
    simp only [FindCondition] at h ⊢
    have hfind := find_updateFirst_same
      { type := t, status := s, lastTransitionTime := env.timeNow,
        observedGeneration := cj.generation, reason := r, message := m }
      cj.status.conditions old h
    refine ⟨_, hfind, rfl, rfl, rfl, ?_⟩
    rw [updateCondition_type]
    have := List.find?_some h
    simpa using this

/-- `SetCondition` leaves the conditions of every other type as they are. -/
theorem FindCondition_SetCondition_other (env : Env) (cj : ControlledJob)
    (t t2 : ControlledJobConditionType) (s : ConditionStatus) (r m : String) (ht : t2 ≠ t) :
    FindCondition (SetCondition env cj t s r m).status t2 = FindCondition cj.status t2 := by
  unfold SetCondition
  cases h : FindCondition cj.status t with
  | none =>
    simp only [FindCondition]
    rw [List.find?_append]
    cases h2 : List.find? (fun c => c.type == t2) cj.status.conditions with
    | some x => simp
    | none =>
      have hb : (t == t2) = false := by
        simp only [beq_eq_false_iff_ne, ne_eq]
        exact fun e => ht e.symm
      simp [List.find?, hb]
  | some old =>
    simp only [FindCondition]
    exact find_updateFirst_other _ t2 ht _

theorem SetCondition_sameButStatus (env : Env) (cj : ControlledJob)
    (t : ControlledJobConditionType) (s : ConditionStatus) (r m : String) :
    sameButStatus (SetCondition env cj t s r m) cj := by
  unfold SetCondition sameButStatus
  split <;> simp

/-! ## The pointers to the children -/

theorem pointersFrom_map_job : ∀ (i : Nat) (l : List Job), (pointersFrom i l).map (·.job) = l
  | _, [] => rfl
  | i, j :: js => by simp [pointersFrom, pointersFrom_map_job (i + 1) js]

theorem pointersFrom_ptr_ge : ∀ (i : Nat) (l : List Job) (c : JobRef),
    c ∈ pointersFrom i l → ∃ k, i ≤ k ∧ c.ptr = JobPtr.child k
  | _, [], c, h => by simp [pointersFrom] at h
  | i, j :: js, c, h => by
    simp only [pointersFrom, List.mem_cons] at h
    rcases h with h | h
    · exact ⟨i, Nat.le_refl i, by rw [h]⟩
    · obtain ⟨k, hk, hp⟩ := pointersFrom_ptr_ge (i + 1) js c h
      exact ⟨k, by omega, hp⟩

/-- Two pointers to children with the same identity are the same pointer. -/
theorem pointersFrom_ptr_inj : ∀ (i : Nat) (l : List Job) (a b : JobRef),
    a ∈ pointersFrom i l → b ∈ pointersFrom i l → a.ptr = b.ptr → a = b
  | _, [], a, _, h, _, _ => by simp [pointersFrom] at h
  | i, j :: js, a, b, ha, hb, hab => by
    simp only [pointersFrom, List.mem_cons] at ha hb
    rcases ha with ha | ha <;> rcases hb with hb | hb
    · rw [ha, hb]
    · obtain ⟨k, hk, hp⟩ := pointersFrom_ptr_ge (i + 1) js b hb
      rw [ha] at hab
      rw [hp] at hab
      simp at hab
      omega
    · obtain ⟨k, hk, hp⟩ := pointersFrom_ptr_ge (i + 1) js a ha
      rw [hb] at hab
      rw [hp] at hab
      simp at hab
      omega
    · exact pointersFrom_ptr_inj (i + 1) js a b ha hb hab

theorem mem_pointersFrom_job {i : Nat} {l : List Job} {c : JobRef} (h : c ∈ pointersFrom i l) :
    c.job ∈ l := by
  have : c.job ∈ (pointersFrom i l).map (·.job) := List.mem_map_of_mem _ h
  rwa [pointersFrom_map_job] at this

theorem exists_pointer_of_mem {i : Nat} {l : List Job} {j : Job} (h : j ∈ l) :
    ∃ c ∈ pointersFrom i l, c.job = j := by
  have : j ∈ (pointersFrom i l).map (·.job) := by rwa [pointersFrom_map_job]
  simpa using this

/-! ## The second loop, in closed form -/

theorem classifyJobs_foldl (env : Env) (state : State) :
    ∀ (jobs : List JobRef) (acc : Classification),
      jobs.foldl (classifyStep env state) acc =
        { numberOfPotentiallyRunningJobs := acc.numberOfPotentiallyRunningJobs +
            (jobs.filter (fun j => IsJobPotentiallyRunning j.job)).length,
          expiredJobs := acc.expiredJobs ++
            jobs.filter (fun j => isExpired env state.LastStopTime j.job),
          nonExpiredJobs := acc.nonExpiredJobs ++
            jobs.filter (fun j => !isExpired env state.LastStopTime j.job),
          chosenJob := selectFrom state acc.chosenJob
            (jobs.filter (fun j => !isExpired env state.LastStopTime j.job)),
          active := acc.active ++
            (jobs.filter (fun j => IsJobPotentiallyRunning j.job)).map (fun j => GetReference j.job) }
  | [], acc => by simp [selectFrom]
  | j :: js, acc => by
    rw [List.foldl_cons, classifyJobs_foldl env state js]
    cases hp : IsJobPotentiallyRunning j.job <;> cases he : isExpired env state.LastStopTime j.job <;>
      simp [classifyStep, hp, he, selectFrom, preferStep, Nat.add_assoc, Nat.add_comm 1]

theorem classifyJobs_eq (env : Env) (state : State) (jobs : List JobRef) :
    classifyJobs env state jobs =
      { numberOfPotentiallyRunningJobs :=
          (jobs.filter (fun j => IsJobPotentiallyRunning j.job)).length,
        expiredJobs := jobs.filter (fun j => isExpired env state.LastStopTime j.job),
        nonExpiredJobs := jobs.filter (fun j => !isExpired env state.LastStopTime j.job),
        chosenJob := selectFrom state none
          (jobs.filter (fun j => !isExpired env state.LastStopTime j.job)),
        active := (jobs.filter (fun j => IsJobPotentiallyRunning j.job)).map
          (fun j => GetReference j.job) } := by
  unfold classifyJobs
  rw [classifyJobs_foldl]
  simp

/-! ## The selection picks the maximum -/

theorem selectFrom_some_max (state : State) :
    ∀ (jobs : List JobRef) (c : JobRef),
      (∀ j ∈ jobs, j.job.name ≠ c.job.name) →
      (jobs.map (fun j => j.job.name)).Nodup →
      ∃ m, selectFrom state (some c) jobs = some m ∧ m ∈ c :: jobs ∧
        ∀ j ∈ c :: jobs, j = m ∨ isBetterCandidateJob m.job j.job state = true
  | [], c, _, _ => ⟨c, rfl, by simp, by simp⟩
  | x :: xs, c, hc, hnd => by
    have hnd2 : (xs.map (fun j => j.job.name)).Nodup := (List.nodup_cons.mp hnd).2
    have hx : ∀ j ∈ xs, j.job.name ≠ x.job.name := by
      intro j hj e
      have hnot := (List.nodup_cons.mp hnd).1
      apply hnot
      have := List.mem_map_of_mem (fun j => j.job.name) hj
      simp only [e] at this
      exact this
    have hxc : x.job.name ≠ c.job.name := hc x (List.mem_cons_self _ _)
    cases hb : isBetterCandidateJob x.job c.job state with
    | true =>
      obtain ⟨m, hm, hmem, hmax⟩ := selectFrom_some_max state xs x hx hnd2
      refine ⟨m, ?_, ?_, ?_⟩
      · simpa [selectFrom, preferStep, hb] using hm
      · exact List.mem_cons_of_mem _ hmem
      · intro j hj
        rcases List.mem_cons.mp hj with hj | hj
        · subst hj
          right
          rcases hmax x (List.mem_cons_self _ _) with h | h
          · rw [← h]; exact hb
          · exact isBetterCandidateJob_trans state _ _ _ h hb
        · exact hmax j hj
    | false =>
      have hc2 : ∀ j ∈ xs, j.job.name ≠ c.job.name :=
        fun j hj => hc j (List.mem_cons_of_mem _ hj)
      obtain ⟨m, hm, hmem, hmax⟩ := selectFrom_some_max state xs c hc2 hnd2
      have hcx : isBetterCandidateJob c.job x.job state = true := by
        rcases isBetterCandidateJob_total state x.job c.job hxc with h | h
        · rw [hb] at h; exact absurd h (by simp)
        · exact h
      refine ⟨m, ?_, ?_, ?_⟩
      · simpa [selectFrom, preferStep, hb] using hm
      · rcases List.mem_cons.mp hmem with h | h
        · rw [h]; exact List.mem_cons_self _ _
        · exact List.mem_cons_of_mem _ (List.mem_cons_of_mem _ h)
      · intro j hj
        rcases List.mem_cons.mp hj with hj | hj
        · exact hmax j (by rw [hj]; exact List.mem_cons_self _ _)
        · rcases List.mem_cons.mp hj with hj | hj
          · subst hj
            right
            rcases hmax c (List.mem_cons_self _ _) with h | h
            · rw [← h]; exact hcx
            · exact isBetterCandidateJob_trans state _ _ _ h hcx
          · exact hmax j (List.mem_cons_of_mem _ hj)

theorem selectFrom_none_nil (state : State) : selectFrom state none [] = none := rfl

theorem selectFrom_none_cons (state : State) (x : JobRef) (xs : List JobRef) :
    selectFrom state none (x :: xs) = selectFrom state (some x) xs := rfl

theorem selectFrom_none_max (state : State) (jobs : List JobRef)
    (hnd : (jobs.map (fun j => j.job.name)).Nodup) (hne : jobs ≠ []) :
    ∃ m, selectFrom state none jobs = some m ∧ m ∈ jobs ∧
      ∀ j ∈ jobs, j = m ∨ isBetterCandidateJob m.job j.job state = true := by
  cases jobs with
  | nil => exact absurd rfl hne
  | cons x xs =>
    have hx : ∀ j ∈ xs, j.job.name ≠ x.job.name := by
      intro j hj e
      have hnot := (List.nodup_cons.mp hnd).1
      apply hnot
      have := List.mem_map_of_mem (fun j => j.job.name) hj
      simp only [e] at this
      exact this
    exact selectFrom_some_max state xs x hx (List.nodup_cons.mp hnd).2

/-- The selection returns a member of the candidates (or the initial value). -/
theorem selectFrom_mem (state : State) :
    ∀ (jobs : List JobRef) (init : Option JobRef) (m : JobRef),
      selectFrom state init jobs = some m → init = some m ∨ m ∈ jobs
  | [], init, m, h => Or.inl h
  | x :: xs, init, m, h => by
    have h2 : selectFrom state (preferStep state init x) xs = some m := h
    rcases selectFrom_mem state xs _ m h2 with h3 | h3
    · cases init with
      | none =>
        simp only [preferStep, Option.some.injEq] at h3
        right; rw [h3]; exact List.mem_cons_self _ _
      | some c =>
        simp only [preferStep] at h3
        split at h3
        · simp only [Option.some.injEq] at h3
          right; rw [h3]; exact List.mem_cons_self _ _
        · left; exact h3
    · right; exact List.mem_cons_of_mem _ h3

theorem selectFrom_none_eq_none (state : State) (jobs : List JobRef) :
    selectFrom state none jobs = none ↔ jobs = [] := by
  constructor
  · intro h
    cases jobs with
    | nil => rfl
    | cons x xs =>
      exfalso
      have : ∀ (ys : List JobRef) (c : JobRef), selectFrom state (some c) ys ≠ none := by
        intro ys
        induction ys with
        | nil => intro c; simp [selectFrom]
        | cons y ys ih =>
          intro c
          show selectFrom state (preferStep state (some c) y) ys ≠ none
          simp only [preferStep]
          split
          · exact ih y
          · exact ih c
      exact this xs x h
  · intro h; rw [h]; rfl

theorem filter_pointers_map_job (i : Nat) (l : List Job) (p : Job → Bool) :
    ((pointersFrom i l).filter (fun j => p j.job)).map (·.job) = l.filter p := by
  conv => rhs; rw [← pointersFrom_map_job i l, List.filter_map]
  rfl

theorem selection_names_nodup (env : Env) (state : State) (l : List Job)
    (hnd : (l.map (·.name)).Nodup) :
    (((pointersFrom 0 l).filter
      (fun j => !isExpired env state.LastStopTime j.job)).map (fun j => j.job.name)).Nodup := by
  have h1 : ((pointersFrom 0 l).filter
      (fun j => !isExpired env state.LastStopTime j.job)).map (fun j => j.job.name) =
      (l.filter (fun j => !isExpired env state.LastStopTime j)).map (·.name) := by
    rw [← filter_pointers_map_job 0 l (fun j => !isExpired env state.LastStopTime j), List.map_map]
    rfl
  rw [h1]
  exact List.Nodup.sublist (List.Sublist.map _ (List.filter_sublist l)) hnd

/-- The job selected among the non-expired children is their maximum. -/
theorem selection_is_max (env : Env) (state : State) (l : List Job)
    (hnd : (l.map (·.name)).Nodup) (m : JobRef)
    (hm : (classifyJobs env state (pointersFrom 0 l)).chosenJob = some m) :
    m ∈ pointersFrom 0 l ∧ isExpired env state.LastStopTime m.job = false ∧
      ∀ j ∈ l, isExpired env state.LastStopTime j = false → j ≠ m.job →
        isBetterCandidateJob m.job j state = true := by
  rw [classifyJobs_eq] at hm
  simp only at hm
  have hne : (pointersFrom 0 l).filter (fun j => !isExpired env state.LastStopTime j.job) ≠ [] := by
    intro e
    rw [e] at hm
    simp [selectFrom] at hm
  obtain ⟨m2, hm2, hmem, hmax⟩ :=
    selectFrom_none_max state _ (selection_names_nodup env state l hnd) hne
  rw [hm] at hm2
  have hmm : m = m2 := by simpa using hm2
  subst hmm
  have hmem2 := List.mem_filter.mp hmem
  refine ⟨hmem2.1, by simpa using hmem2.2, ?_⟩
  intro j hj hexp hjm
  obtain ⟨c, hc, hcj⟩ := exists_pointer_of_mem (i := 0) hj
  have hcf : c ∈ (pointersFrom 0 l).filter (fun j => !isExpired env state.LastStopTime j.job) := by
    apply List.mem_filter.mpr
    refine ⟨hc, ?_⟩
    simp [hcj, hexp]
  rcases hmax c hcf with h | h
  · exact absurd (by rw [← hcj, h]) hjm
  · rw [← hcj]; exact h

theorem selection_none_iff (env : Env) (state : State) (l : List Job) :
    (classifyJobs env state (pointersFrom 0 l)).chosenJob = none ↔
      ∀ j ∈ l, isExpired env state.LastStopTime j = true := by
  rw [classifyJobs_eq]
  simp only
  rw [selectFrom_none_eq_none, List.filter_eq_nil_iff]
  constructor
  · intro h j hj
    obtain ⟨c, hc, hcj⟩ := exists_pointer_of_mem (i := 0) hj
    have := h c hc
    simpa [hcj] using this
  · intro h c hc
    have := h c.job (mem_pointersFrom_job hc)
    simp [this]

theorem selection_perm (env : Env) (state : State) (l1 l2 : List Job)
    (hnd : (l1.map (·.name)).Nodup) (hp : l1.Perm l2) :
    (classifyJobs env state (pointersFrom 0 l1)).chosenJob.map (·.job) =
      (classifyJobs env state (pointersFrom 0 l2)).chosenJob.map (·.job) := by
  have hnd2 : (l2.map (·.name)).Nodup := (List.Perm.nodup_iff (hp.map _)).mp hnd
  cases h1 : (classifyJobs env state (pointersFrom 0 l1)).chosenJob with
  | none =>
    have a1 := (selection_none_iff env state l1).mp h1
    have a2 : ∀ j ∈ l2, isExpired env state.LastStopTime j = true :=
      fun j hj => a1 j (hp.mem_iff.mpr hj)
    rw [(selection_none_iff env state l2).mpr a2]
  | some m1 =>
    obtain ⟨hm1, he1, hmax1⟩ := selection_is_max env state l1 hnd m1 h1
    cases h2 : (classifyJobs env state (pointersFrom 0 l2)).chosenJob with
    | none =>
      have a2 := (selection_none_iff env state l2).mp h2
      have := a2 m1.job (hp.mem_iff.mp (mem_pointersFrom_job hm1))
      rw [he1] at this
      exact absurd this (by simp)
    | some m2 =>
      obtain ⟨hm2, he2, hmax2⟩ := selection_is_max env state l2 hnd2 m2 h2
      simp only [Option.map_some', Option.some.injEq]
      by_contra hne
      have b1 := hmax1 m2.job (hp.mem_iff.mpr (mem_pointersFrom_job hm2)) he2 (fun e => hne e.symm)
      have b2 := hmax2 m1.job (hp.mem_iff.mp (mem_pointersFrom_job hm1)) he1 hne
      have := isBetterCandidateJob_asymm state _ _ b1
      rw [b2] at this
      exact absurd this (by simp)

/-- C3. Chosen-job selection is total and order-independent. `isBetterCandidateJob` is a strict
total order on Jobs with distinct names: it is irreflexive and transitive, any two Jobs with
different names are comparable, a Job not being deleted beats one being deleted, then a
template hash equal to the desired hash beats a mismatch, then the greater name wins. The job
that the second loop of `makeDecision` selects among the non-expired children (the variable
`chosenJob` after the loop over `state.AllJobs`, the pointers to `childJobs.Items`) is a
non-expired child that beats every other non-expired child, it exists exactly when some child
is not expired, and it is the same Job for every permutation of the child list. -/
theorem chosen_job_selection_total_and_order_independent (env : Env) (state : State) :
    (∀ a : Job, isBetterCandidateJob a a state = false) ∧
    (∀ a b c : Job, isBetterCandidateJob a b state = true →
      isBetterCandidateJob b c state = true → isBetterCandidateJob a c state = true) ∧
    (∀ a b : Job, a.name ≠ b.name →
      isBetterCandidateJob a b state = true ∨ isBetterCandidateJob b a state = true) ∧
    (∀ a b : Job, IsJobBeingDeleted a = false → IsJobBeingDeleted b = true →
      isBetterCandidateJob a b state = true) ∧
    (∀ a b : Job, IsJobBeingDeleted a = IsJobBeingDeleted b →
      a.annotations.get TemplateHashAnnotation = state.DesiredHash →
      b.annotations.get TemplateHashAnnotation ≠ state.DesiredHash →
      isBetterCandidateJob a b state = true) ∧
    (∀ a b : Job, IsJobBeingDeleted a = IsJobBeingDeleted b →
      (a.annotations.get TemplateHashAnnotation = state.DesiredHash ↔
        b.annotations.get TemplateHashAnnotation = state.DesiredHash) →
      isBetterCandidateJob a b state = strGreater a.name b.name) ∧
    (∀ childJobs : List Job, (childJobs.map (·.name)).Nodup →
      (∀ m, (classifyJobs env state (pointersFrom 0 childJobs)).chosenJob = some m →
        m ∈ pointersFrom 0 childJobs ∧ isExpired env state.LastStopTime m.job = false ∧
        ∀ j ∈ childJobs, isExpired env state.LastStopTime j = false → j ≠ m.job →
          isBetterCandidateJob m.job j state = true) ∧
      ((classifyJobs env state (pointersFrom 0 childJobs)).chosenJob = none ↔
        ∀ j ∈ childJobs, isExpired env state.LastStopTime j = true)) ∧
    (∀ l1 l2 : List Job, (l1.map (·.name)).Nodup → l1.Perm l2 →
      (classifyJobs env state (pointersFrom 0 l1)).chosenJob.map (·.job) =
        (classifyJobs env state (pointersFrom 0 l2)).chosenJob.map (·.job)) := by
  refine ⟨isBetterCandidateJob_irrefl state, isBetterCandidateJob_trans state,
    isBetterCandidateJob_total state, ?_, ?_, ?_, ?_, selection_perm env state⟩
  · intro a b ha hb
    simp [isBetterCandidateJob_eq, ha, hb]
  · intro a b hab ha hb
    simp [isBetterCandidateJob_eq, hab, ha, hb]
  · intro a b hab hm
    rw [isBetterCandidateJob_eq]
    by_cases h : a.annotations.get TemplateHashAnnotation = state.DesiredHash
    · simp [hab, h, hm.mp h]
    · have h2 : ¬ b.annotations.get TemplateHashAnnotation = state.DesiredHash :=
        fun e => h (hm.mpr e)
      simp [hab, h, h2]
  · intro childJobs hnd
    exact ⟨selection_is_max env state childJobs hnd, selection_none_iff env state childJobs⟩

/-! ## The status writes leave the rest of the ControlledJob alone -/

theorem sameButStatus_refl (a : ControlledJob) : sameButStatus a a :=
  ⟨rfl, rfl, rfl, rfl, rfl, rfl⟩

theorem sameButStatus_trans {a b c : ControlledJob} (h1 : sameButStatus a b)
    (h2 : sameButStatus b c) : sameButStatus a c :=
  ⟨h1.1.trans h2.1, h1.2.1.trans h2.2.1, h1.2.2.1.trans h2.2.2.1,
    h1.2.2.2.1.trans h2.2.2.2.1, h1.2.2.2.2.1.trans h2.2.2.2.2.1,
    h1.2.2.2.2.2.trans h2.2.2.2.2.2⟩

theorem sameButStatus_with_status (a : ControlledJob) (st : ControlledJobStatus) :
    sameButStatus { a with status := st } a :=
  ⟨rfl, rfl, rfl, rfl, rfl, rfl⟩

@[simp] theorem SetCondition_name (env : Env) (cj : ControlledJob)
    (t : ControlledJobConditionType) (s : ConditionStatus) (r m : String) :
    (SetCondition env cj t s r m).name = cj.name := (SetCondition_sameButStatus env cj t s r m).1

@[simp] theorem SetCondition_ns (env : Env) (cj : ControlledJob)
    (t : ControlledJobConditionType) (s : ConditionStatus) (r m : String) :
    (SetCondition env cj t s r m).ns = cj.ns := (SetCondition_sameButStatus env cj t s r m).2.1

@[simp] theorem SetCondition_uid (env : Env) (cj : ControlledJob)
    (t : ControlledJobConditionType) (s : ConditionStatus) (r m : String) :
    (SetCondition env cj t s r m).uid = cj.uid := (SetCondition_sameButStatus env cj t s r m).2.2.1

@[simp] theorem SetCondition_generation (env : Env) (cj : ControlledJob)
    (t : ControlledJobConditionType) (s : ConditionStatus) (r m : String) :
    (SetCondition env cj t s r m).generation = cj.generation :=
  (SetCondition_sameButStatus env cj t s r m).2.2.2.1

@[simp] theorem SetCondition_annotations (env : Env) (cj : ControlledJob)
    (t : ControlledJobConditionType) (s : ConditionStatus) (r m : String) :
    (SetCondition env cj t s r m).annotations = cj.annotations :=
  (SetCondition_sameButStatus env cj t s r m).2.2.2.2.1

@[simp] theorem SetCondition_spec (env : Env) (cj : ControlledJob)
    (t : ControlledJobConditionType) (s : ConditionStatus) (r m : String) :
    (SetCondition env cj t s r m).spec = cj.spec :=
  (SetCondition_sameButStatus env cj t s r m).2.2.2.2.2

theorem SetConditionBasedOnFlag_sameButStatus (env : Env) (cj : ControlledJob)
    (t : ControlledJobConditionType) (flag : Bool) (r1 m1 r2 m2 : String) :
    sameButStatus (SetConditionBasedOnFlag env cj t flag r1 m1 r2 m2) cj := by
  unfold SetConditionBasedOnFlag
  split <;> exact SetCondition_sameButStatus _ _ _ _ _ _

theorem setShouldBeRunningStatus_sameButStatus (env : Env) (cj : ControlledJob) (state : State) :
    sameButStatus (setShouldBeRunningStatus env cj state) cj := by
  unfold setShouldBeRunningStatus sameButStatus
  split
  · split <;> simp
  · simp

theorem setConditionsForAllJobs_sameButStatus (env : Env) (cj : ControlledJob)
    (jobs : List JobRef) : sameButStatus (setConditionsForAllJobs env cj jobs) cj := by
  unfold setConditionsForAllJobs setConditionIfTrueForAnyJob SetConditionBasedOnFlag sameButStatus
  split
  · simp
  · simp only []
    split <;> split <;> simp

theorem setJobConditions_sameButStatus (env : Env) (cj : ControlledJob) (job : Option JobRef) :
    sameButStatus (setJobConditions env cj job) cj := by
  unfold setJobConditions SetConditionBasedOnFlag sameButStatus
  cases job with
  | none => simp
  | some ref =>
    simp only []
    repeat' split
    all_goals simp

/-- `buildJob` reads nothing of the status of the ControlledJob. -/
theorem buildJob_congr (env : Env) {a b : ControlledJob} (h : sameButStatus a b)
    (t : Time) (id : Int) (manual suspended : Bool) :
    buildJob env a t id manual suspended = buildJob env b t id manual suspended := by
  obtain ⟨h1, h2, h3, _, h5, h6⟩ := h
  unfold buildJob assembleJob controllerReference
  rw [h1, h2, h3, h5, h6]

theorem startingDeadlineSecondsExceeded_congr {a b : ControlledJob} (h : sameButStatus a b)
    (start : Option Time) (now : Time) :
    startingDeadlineSecondsExceeded a start now = startingDeadlineSecondsExceeded b start now := by
  unfold startingDeadlineSecondsExceeded
  rw [h.2.2.2.2.2]

/-! ## The blocks of `makeDecision` -/

theorem stopOutsideRunPeriod_eq (sbr : Bool) (l : Locals) :
    stopOutsideRunPeriod sbr l = { l with chosenJob := (stopOutsideRunPeriod sbr l).chosenJob } := by
  unfold stopOutsideRunPeriod
  simp only []
  split <;> rfl

theorem stopOutsideRunPeriod_chosen_some (sbr : Bool) (l : Locals) (c : JobRef) :
    (stopOutsideRunPeriod sbr l).chosenJob = some c ↔
      l.chosenJob = some c ∧ (sbr = true ∨ IsManuallyScheduledJob c.job = true) := by
  unfold stopOutsideRunPeriod
  cases h : l.chosenJob with
  | none => simp [h]
  | some d =>
    cases sbr <;> cases hm : IsManuallyScheduledJob d.job <;> simp [h, hm]
    · intro e; rw [← e]; simp [hm]
    · intro e; rw [← e]; exact hm

theorem stopOutsideRunPeriod_chosen_none (sbr : Bool) (l : Locals) :
    (stopOutsideRunPeriod sbr l).chosenJob = none ↔
      l.chosenJob = none ∨
        ∃ c, l.chosenJob = some c ∧ sbr = false ∧ IsManuallyScheduledJob c.job = false := by
  unfold stopOutsideRunPeriod
  cases h : l.chosenJob with
  | none => simp [h]
  | some d =>
    cases sbr <;> cases hm : IsManuallyScheduledJob d.job <;> simp [h, hm]

theorem decideForJobs_def (env : Env) (state : State) (now : Time) (sbr restart : Bool)
    (maxId : Int) (l : Locals) :
    decideForJobs env state now sbr restart maxId l =
      match recreateIfOutOfDate env state restart maxId (stopOutsideRunPeriod sbr l) with
      | (l, some e) => l.returning (some e)
      | (l, none) =>
        match startIfAbsent env state now sbr l with
        | (l, some e) => l.returning (some e)
        | (l, none) => (setRequeueAt state (unsuspendIfSafe (deleteOthers l))).returning none :=
  rfl

theorem unsuspendIfSafe_of_not_safe (l : Locals) (c : JobRef) (hc : l.chosenJob = some c)
    (hs : safeToUnsuspend l.numberOfPotentiallyRunningJobs c.job = false) :
    unsuspendIfSafe l = l := by
  unfold unsuspendIfSafe
  unfold safeToUnsuspend at hs
  rw [hc]
  simp only [hs]
  rfl

theorem unsuspendIfSafe_of_none (l : Locals) (hc : l.chosenJob = none) :
    unsuspendIfSafe l = l := by
  unfold unsuspendIfSafe
  rw [hc]

theorem unsuspendIfSafe_no_create (l : Locals) (c : JobRef) (hc : l.chosenJob = some c)
    (hcr : l.decision.JobsToCreate = [])
    (hs : safeToUnsuspend l.numberOfPotentiallyRunningJobs c.job = true) :
    unsuspendIfSafe l =
      { l with decision := { l.decision with
                             JobsToUnsuspend := l.decision.JobsToUnsuspend ++ [c] } } := by
  unfold unsuspendIfSafe
  unfold safeToUnsuspend at hs
  rw [hc]
  simp only [hs, hcr, if_true]

theorem unsuspendIfSafe_created (l : Locals) (c : JobRef) (hc : l.chosenJob = some c)
    (hcr : l.decision.JobsToCreate = [c])
    (hs : safeToUnsuspend l.numberOfPotentiallyRunningJobs c.job = true) :
    unsuspendIfSafe l =
      { l with
        chosenJob := some (clearSuspendOf c c),
        nonExpiredJobs := l.nonExpiredJobs.map (clearSuspendOf c),
        decision := { l.decision with JobsToCreate := [clearSuspendOf c c] } } := by
  unfold unsuspendIfSafe
  unfold safeToUnsuspend at hs
  rw [hc]
  simp only [hs, hcr, if_true, JobRef.same, beq_self_eq_true, List.map_cons, List.map_nil]

/-- The last three blocks when no Job has been created and a chosen job remains. -/
theorem finish_keep (state : State) (l : Locals) (c : JobRef) (hz : l.decision = Decision.zero)
    (hc : l.chosenJob = some c) :
    ((setRequeueAt state (unsuspendIfSafe (deleteOthers l))).returning none).err = none ∧
    ((setRequeueAt state (unsuspendIfSafe (deleteOthers l))).returning none).chosenJob = some c ∧
    ((setRequeueAt state (unsuspendIfSafe (deleteOthers l))).returning none).numberOfPotentiallyRunningJobs =
      l.numberOfPotentiallyRunningJobs ∧
    ((setRequeueAt state (unsuspendIfSafe (deleteOthers l))).returning none).decision.JobsToCreate = [] ∧
    ((setRequeueAt state (unsuspendIfSafe (deleteOthers l))).returning none).decision.JobsToDelete =
      deletionsFor l.expiredJobs l.nonExpiredJobs (some c) ∧
    ((setRequeueAt state (unsuspendIfSafe (deleteOthers l))).returning none).decision.JobsToSuspend = [] ∧
    ((setRequeueAt state (unsuspendIfSafe (deleteOthers l))).returning none).decision.JobsToUnsuspend =
      (if safeToUnsuspend l.numberOfPotentiallyRunningJobs c.job then [c] else []) ∧
    ((setRequeueAt state (unsuspendIfSafe (deleteOthers l))).returning none).decision.RequeueAt =
      requeueAtFor state ∧
    ((setRequeueAt state (unsuspendIfSafe (deleteOthers l))).returning none).controlledJob =
      l.controlledJob := by
  have hc2 : (deleteOthers l).chosenJob = some c := hc
  have hcr : (deleteOthers l).decision.JobsToCreate = [] := by
    simp [deleteOthers, hz, Decision.zero]
  by_cases hsafe : safeToUnsuspend l.numberOfPotentiallyRunningJobs c.job = true
  · rw [unsuspendIfSafe_no_create (deleteOthers l) c hc2 hcr hsafe]
    cases hn : state.NextEventTime <;>
      simp [setRequeueAt, hn, Locals.returning, deleteOthers, hz, hc, Decision.zero, deletionsFor,
        requeueAtFor, hsafe]
  · have hsafe2 : safeToUnsuspend l.numberOfPotentiallyRunningJobs c.job = false := by
      simpa using hsafe
    rw [unsuspendIfSafe_of_not_safe (deleteOthers l) c hc2 hsafe2]
    cases hn : state.NextEventTime <;>
      simp [setRequeueAt, hn, Locals.returning, deleteOthers, hz, hc, Decision.zero, deletionsFor,
        requeueAtFor, hsafe2]

/-- The last three blocks when no Job has been created and no chosen job remains. -/
theorem finish_none (state : State) (l : Locals) (hz : l.decision = Decision.zero)
    (hc : l.chosenJob = none) :
    ((setRequeueAt state (unsuspendIfSafe (deleteOthers l))).returning none).err = none ∧
    ((setRequeueAt state (unsuspendIfSafe (deleteOthers l))).returning none).chosenJob = none ∧
    ((setRequeueAt state (unsuspendIfSafe (deleteOthers l))).returning none).numberOfPotentiallyRunningJobs =
      l.numberOfPotentiallyRunningJobs ∧
    ((setRequeueAt state (unsuspendIfSafe (deleteOthers l))).returning none).decision.JobsToCreate = [] ∧
    ((setRequeueAt state (unsuspendIfSafe (deleteOthers l))).returning none).decision.JobsToDelete =
      deletionsFor l.expiredJobs l.nonExpiredJobs none ∧
    ((setRequeueAt state (unsuspendIfSafe (deleteOthers l))).returning none).decision.JobsToSuspend = [] ∧
    ((setRequeueAt state (unsuspendIfSafe (deleteOthers l))).returning none).decision.JobsToUnsuspend = [] ∧
    ((setRequeueAt state (unsuspendIfSafe (deleteOthers l))).returning none).decision.RequeueAt =
      requeueAtFor state ∧
    ((setRequeueAt state (unsuspendIfSafe (deleteOthers l))).returning none).controlledJob =
      l.controlledJob := by
  have hc2 : (deleteOthers l).chosenJob = none := hc
  rw [unsuspendIfSafe_of_none (deleteOthers l) hc2]
  cases hn : state.NextEventTime <;>
    simp [setRequeueAt, hn, Locals.returning, deleteOthers, hz, hc, Decision.zero, deletionsFor,
      requeueAtFor]

/-- The Job that is emitted for creation: its suspend flag is cleared when it is safe to
unsuspend it. -/
theorem finish_created (state : State) (l : Locals) (c : JobRef)
    (hz : l.decision = { Decision.zero with JobsToCreate := [c] })
    (hc : l.chosenJob = some c) :
    ((setRequeueAt state (unsuspendIfSafe (deleteOthers l))).returning none).err = none ∧
    ((setRequeueAt state (unsuspendIfSafe (deleteOthers l))).returning none).chosenJob =
      some (if safeToUnsuspend l.numberOfPotentiallyRunningJobs c.job then clearSuspendOf c c else c) ∧
    ((setRequeueAt state (unsuspendIfSafe (deleteOthers l))).returning none).numberOfPotentiallyRunningJobs =
      l.numberOfPotentiallyRunningJobs ∧
    ((setRequeueAt state (unsuspendIfSafe (deleteOthers l))).returning none).decision.JobsToCreate =
      [if safeToUnsuspend l.numberOfPotentiallyRunningJobs c.job then clearSuspendOf c c else c] ∧
    ((setRequeueAt state (unsuspendIfSafe (deleteOthers l))).returning none).decision.JobsToDelete =
      deletionsFor l.expiredJobs l.nonExpiredJobs (some c) ∧
    ((setRequeueAt state (unsuspendIfSafe (deleteOthers l))).returning none).decision.JobsToSuspend = [] ∧
    ((setRequeueAt state (unsuspendIfSafe (deleteOthers l))).returning none).decision.JobsToUnsuspend = [] ∧
    ((setRequeueAt state (unsuspendIfSafe (deleteOthers l))).returning none).decision.RequeueAt =
      requeueAtFor state ∧
    ((setRequeueAt state (unsuspendIfSafe (deleteOthers l))).returning none).controlledJob =
      l.controlledJob := by
  have hc2 : (deleteOthers l).chosenJob = some c := hc
  have hcr : (deleteOthers l).decision.JobsToCreate = [c] := by
    simp [deleteOthers, hz, Decision.zero]
  by_cases hsafe : safeToUnsuspend l.numberOfPotentiallyRunningJobs c.job = true
  · rw [unsuspendIfSafe_created (deleteOthers l) c hc2 hcr hsafe]
    cases hn : state.NextEventTime <;>
      simp [setRequeueAt, hn, Locals.returning, deleteOthers, hz, hc, Decision.zero, deletionsFor,
        requeueAtFor, hsafe]
  · have hsafe2 : safeToUnsuspend l.numberOfPotentiallyRunningJobs c.job = false := by
      simpa using hsafe
    rw [unsuspendIfSafe_of_not_safe (deleteOthers l) c hc2 hsafe2]
    cases hn : state.NextEventTime <;>
      simp [setRequeueAt, hn, Locals.returning, deleteOthers, hz, hc, Decision.zero, deletionsFor,
        requeueAtFor, hsafe2]

/-- The outcome when the chosen job is kept: nothing is created. -/
theorem decideForJobs_keep (env : Env) (state : State) (now : Time) (sbr restart : Bool)
    (maxId : Int) (l : Locals) (c : JobRef) (hz : l.decision = Decision.zero)
    (hc : (stopOutsideRunPeriod sbr l).chosenJob = some c)
    (hk : shouldRecreate state restart c.job = false) :
    (decideForJobs env state now sbr restart maxId l).err = none ∧
    (decideForJobs env state now sbr restart maxId l).chosenJob = some c ∧
    (decideForJobs env state now sbr restart maxId l).numberOfPotentiallyRunningJobs =
      l.numberOfPotentiallyRunningJobs ∧
    (decideForJobs env state now sbr restart maxId l).decision.JobsToCreate = [] ∧
    (decideForJobs env state now sbr restart maxId l).decision.JobsToDelete =
      deletionsFor l.expiredJobs l.nonExpiredJobs (some c) ∧
    (decideForJobs env state now sbr restart maxId l).decision.JobsToSuspend = [] ∧
    (decideForJobs env state now sbr restart maxId l).decision.JobsToUnsuspend =
      (if safeToUnsuspend l.numberOfPotentiallyRunningJobs c.job then [c] else []) ∧
    (decideForJobs env state now sbr restart maxId l).decision.RequeueAt = requeueAtFor state ∧
    sameButStatus (decideForJobs env state now sbr restart maxId l).controlledJob l.controlledJob ∧
    (∃ cond, FindCondition (decideForJobs env state now sbr restart maxId l).controlledJob.status
        ConditionTypeOutOfDate = some cond ∧
      cond.status = if isOutOfDate c.job state then ConditionTrue else ConditionFalse) ∧
    (∃ cond, FindCondition (decideForJobs env state now sbr restart maxId l).controlledJob.status
        ConditionTypeStartingDeadlineExceeded = some cond ∧ cond.status = ConditionUnknown) := by
  have hl1 := stopOutsideRunPeriod_eq sbr l
  rw [hc] at hl1
  rw [decideForJobs_def, hl1]
  unfold shouldRecreate at hk
  have hcond : ∃ s r m, recreateIfOutOfDate env state restart maxId { l with chosenJob := some c } =
      ({ l with chosenJob := some c, controlledJob := SetCondition env l.controlledJob ConditionTypeOutOfDate s r m }, none) ∧
      s = if isOutOfDate c.job state then ConditionTrue else ConditionFalse := by
    unfold recreateIfOutOfDate
    simp only []
    cases h1 : isOutOfDate c.job state
    · exact ⟨ConditionFalse, "NotOutOfDate", "Running job matches desired spec", by simp, by simp⟩
    · cases h2 : IsJobPotentiallyRunning c.job
      · exact ⟨ConditionTrue, "JobIsNotRunning",
          "Job is out of date, but is not running so ignoring", by simp, by simp⟩
      · cases h3 : WasJobStoppedByTheUser c.job
        · cases h4 : IsJobBeingDeleted c.job
          · cases h5 : restart
            · exact ⟨ConditionTrue, "ShouldNotAutoRestart",
                "Job is out of date, but auto-recreation is not enabled so will leave it running as is",
                by simp, by simp⟩
            · simp [h1, h2, h3, h4, h5] at hk
          · exact ⟨ConditionTrue, "JobIsBeingDeleted",
              "Job is out of date, but is being deleted so ignoring", by simp, by simp⟩
        · exact ⟨ConditionTrue, "JobIsNotRunning",
            "Job is out of date, but is not running so ignoring", by simp, by simp⟩
  obtain ⟨s, r, m, hrec, hs⟩ := hcond
  rw [hrec]
  simp only []
  have hstart : startIfAbsent env state now sbr
      { l with chosenJob := some c, controlledJob := SetCondition env l.controlledJob ConditionTypeOutOfDate s r m } =
      ({ l with chosenJob := some c,
                controlledJob := SetCondition env (SetCondition env l.controlledJob ConditionTypeOutOfDate s r m)
                  ConditionTypeStartingDeadlineExceeded ConditionUnknown "NoNewJobRequired"
                  "We're not trying to start a job at the moment" }, none) := by
    unfold startIfAbsent
    simp
  rw [hstart]
  simp only []
  have hO : ∃ cond, FindCondition (SetCondition env (SetCondition env l.controlledJob ConditionTypeOutOfDate s r m)
      ConditionTypeStartingDeadlineExceeded ConditionUnknown "NoNewJobRequired"
      "We're not trying to start a job at the moment").status ConditionTypeOutOfDate = some cond ∧
      cond.status = if isOutOfDate c.job state then ConditionTrue else ConditionFalse := by
    rw [FindCondition_SetCondition_other _ _ _ _ _ _ _ (by decide)]
    obtain ⟨cond, h1, h2, _⟩ := FindCondition_SetCondition_same env l.controlledJob ConditionTypeOutOfDate s r m
    exact ⟨cond, h1, h2.trans hs⟩
  have hD : ∃ cond, FindCondition (SetCondition env (SetCondition env l.controlledJob ConditionTypeOutOfDate s r m)
      ConditionTypeStartingDeadlineExceeded ConditionUnknown "NoNewJobRequired"
      "We're not trying to start a job at the moment").status ConditionTypeStartingDeadlineExceeded = some cond ∧
      cond.status = ConditionUnknown := by
    obtain ⟨cond, h1, h2, _⟩ := FindCondition_SetCondition_same env (SetCondition env l.controlledJob ConditionTypeOutOfDate s r m) ConditionTypeStartingDeadlineExceeded ConditionUnknown "NoNewJobRequired"
                  "We're not trying to start a job at the moment"
    exact ⟨cond, h1, h2⟩
  have hS : sameButStatus (SetCondition env (SetCondition env l.controlledJob ConditionTypeOutOfDate s r m)
      ConditionTypeStartingDeadlineExceeded ConditionUnknown "NoNewJobRequired"
      "We're not trying to start a job at the moment") l.controlledJob :=
    sameButStatus_trans (SetCondition_sameButStatus _ _ _ _ _ _) (SetCondition_sameButStatus _ _ _ _ _ _)
  generalize SetCondition env (SetCondition env l.controlledJob ConditionTypeOutOfDate s r m)
      ConditionTypeStartingDeadlineExceeded ConditionUnknown "NoNewJobRequired"
      "We're not trying to start a job at the moment" = cj2 at hO hD hS ⊢
  obtain ⟨f1, f2, f3, f4, f5, f6, f7, f8, f9⟩ := finish_keep state
    { l with chosenJob := some c, controlledJob := cj2 } c hz rfl
  refine ⟨f1, f2, f3, f4, f5, f6, f7, f8, ?_, ?_, ?_⟩
  · rw [f9]; exact hS
  · rw [f9]; exact hO
  · rw [f9]; exact hD

theorem recreateIfOutOfDate_none (env : Env) (state : State) (restart : Bool) (maxId : Int)
    (l : Locals) (hc : l.chosenJob = none) :
    recreateIfOutOfDate env state restart maxId l =
      ({ l with controlledJob := SetCondition env l.controlledJob ConditionTypeOutOfDate
                  ConditionFalse "NoRunningJob" "Not currently running" }, none) := by
  unfold recreateIfOutOfDate
  rw [hc]

theorem recreateIfOutOfDate_recreate (env : Env) (state : State) (restart : Bool) (maxId : Int)
    (l : Locals) (c : JobRef) (hc : l.chosenJob = some c)
    (hr : shouldRecreate state restart c.job = true) :
    recreateIfOutOfDate env state restart maxId l =
      match RecreateJobWithNewSpec env c.job l.controlledJob (wrapInt64 (maxId + 1)) true with
      | .error e => (l, some (DecisionError.failedToCreateJob e))
      | .ok built =>
        ({ l with
           decision := { l.decision with
                         JobsToCreate := l.decision.JobsToCreate ++
                           [{ ptr := JobPtr.created l.decision.JobsToCreate.length, job := built }] },
           numberOfPotentiallyRunningJobs := l.numberOfPotentiallyRunningJobs + 1,
           nonExpiredJobs := l.nonExpiredJobs ++
             [{ ptr := JobPtr.created l.decision.JobsToCreate.length, job := built }],
           chosenJob := some { ptr := JobPtr.created l.decision.JobsToCreate.length, job := built },
           controlledJob := SetCondition env l.controlledJob ConditionTypeOutOfDate
             ConditionFalse "NotOutOfDate" "Running job matches desired spec" }, none) := by
  unfold shouldRecreate at hr
  simp only [Bool.and_eq_true, Bool.not_eq_true'] at hr
  obtain ⟨⟨⟨⟨h1, h2⟩, h3⟩, h4⟩, h5⟩ := hr
  unfold recreateIfOutOfDate
  rw [hc]
  simp only [h1, h2, h3, h4, h5, if_true, Bool.not_true, Bool.or_self, Bool.false_eq_true,
    if_false, Bool.not_false]

theorem startIfAbsent_skip (env : Env) (state : State) (now : Time) (sbr : Bool) (l : Locals)
    (h : sbr = false ∨ ∃ c, l.chosenJob = some c) :
    startIfAbsent env state now sbr l =
      ({ l with controlledJob := SetCondition env l.controlledJob
                  ConditionTypeStartingDeadlineExceeded ConditionUnknown "NoNewJobRequired"
                  "We're not trying to start a job at the moment" }, none) := by
  unfold startIfAbsent
  rcases h with h | ⟨c, h⟩
  · simp [h]
  · simp [h]

/-- The outcome outside the run period when no chosen job remains. -/
theorem decideForJobs_idle (env : Env) (state : State) (now : Time) (sbr restart : Bool)
    (maxId : Int) (l : Locals) (hz : l.decision = Decision.zero)
    (hc : (stopOutsideRunPeriod sbr l).chosenJob = none) (hsbr : sbr = false) :
    (decideForJobs env state now sbr restart maxId l).err = none ∧
    (decideForJobs env state now sbr restart maxId l).chosenJob = none ∧
    (decideForJobs env state now sbr restart maxId l).numberOfPotentiallyRunningJobs =
      l.numberOfPotentiallyRunningJobs ∧
    (decideForJobs env state now sbr restart maxId l).decision.JobsToCreate = [] ∧
    (decideForJobs env state now sbr restart maxId l).decision.JobsToDelete =
      deletionsFor l.expiredJobs l.nonExpiredJobs none ∧
    (decideForJobs env state now sbr restart maxId l).decision.JobsToSuspend = [] ∧
    (decideForJobs env state now sbr restart maxId l).decision.JobsToUnsuspend = [] ∧
    (decideForJobs env state now sbr restart maxId l).decision.RequeueAt = requeueAtFor state ∧
    sameButStatus (decideForJobs env state now sbr restart maxId l).controlledJob l.controlledJob ∧
    (∃ cond, FindCondition (decideForJobs env state now sbr restart maxId l).controlledJob.status
        ConditionTypeOutOfDate = some cond ∧ cond.status = ConditionFalse) ∧
    (∃ cond, FindCondition (decideForJobs env state now sbr restart maxId l).controlledJob.status
        ConditionTypeStartingDeadlineExceeded = some cond ∧ cond.status = ConditionUnknown) := by
  have hl1 := stopOutsideRunPeriod_eq sbr l
  rw [hc] at hl1
  rw [decideForJobs_def, hl1, recreateIfOutOfDate_none _ _ _ _ _ rfl]
  simp only []
  rw [startIfAbsent_skip _ _ _ _ _ (Or.inl hsbr)]
  simp only []
  obtain ⟨f1, f2, f3, f4, f5, f6, f7, f8, f9⟩ := finish_none state
    { l with chosenJob := none,
             controlledJob := SetCondition env (SetCondition env l.controlledJob
               ConditionTypeOutOfDate ConditionFalse "NoRunningJob" "Not currently running")
               ConditionTypeStartingDeadlineExceeded ConditionUnknown "NoNewJobRequired"
               "We're not trying to start a job at the moment" } hz rfl
  refine ⟨f1, f2, f3, f4, f5, f6, f7, f8, ?_, ?_, ?_⟩
  · rw [f9]
    exact sameButStatus_trans (SetCondition_sameButStatus _ _ _ _ _ _)
      (SetCondition_sameButStatus _ _ _ _ _ _)
  · rw [f9]
    simp only []
    rw [FindCondition_SetCondition_other _ _ _ _ _ _ _ (by decide)]
    obtain ⟨cond, h1, h2, _⟩ := FindCondition_SetCondition_same env l.controlledJob
      ConditionTypeOutOfDate ConditionFalse "NoRunningJob" "Not currently running"
    exact ⟨cond, h1, h2⟩
  · rw [f9]
    simp only []
    obtain ⟨cond, h1, h2, _⟩ := FindCondition_SetCondition_same env
      (SetCondition env l.controlledJob ConditionTypeOutOfDate ConditionFalse "NoRunningJob"
        "Not currently running")
      ConditionTypeStartingDeadlineExceeded ConditionUnknown "NoNewJobRequired"
      "We're not trying to start a job at the moment"
    exact ⟨cond, h1, h2⟩

/-- Inside the run period with no chosen job: the cases of the start block. -/
theorem decideForJobs_start (env : Env) (state : State) (now : Time) (restart : Bool)
    (maxId : Int) (l : Locals) (hz : l.decision = Decision.zero) (hc : l.chosenJob = none) :
    (startingDeadlineSecondsExceeded l.controlledJob state.StartOfCurrentRunPeriod now = true →
      (decideForJobs env state now true restart maxId l).err =
        some DecisionError.startingDeadlineExceeded ∧
      (decideForJobs env state now true restart maxId l).chosenJob = none ∧
      sameButStatus (decideForJobs env state now true restart maxId l).controlledJob
        l.controlledJob ∧
      ∃ cond, FindCondition (decideForJobs env state now true restart maxId l).controlledJob.status
        ConditionTypeStartingDeadlineExceeded = some cond ∧ cond.status = ConditionTrue) ∧
    (startingDeadlineSecondsExceeded l.controlledJob state.StartOfCurrentRunPeriod now = false →
      state.StartOfCurrentRunPeriod = none →
      (decideForJobs env state now true restart maxId l).err =
        some DecisionError.startOfCurrentRunPeriodIsNil) ∧
    (∀ start e,
      startingDeadlineSecondsExceeded l.controlledJob state.StartOfCurrentRunPeriod now = false →
      state.StartOfCurrentRunPeriod = some start →
      BuildForControlledJob env l.controlledJob start 0 false true = .error e →
      (decideForJobs env state now true restart maxId l).err =
        some (DecisionError.failedToCreateJob e)) ∧
    (∀ start built,
      startingDeadlineSecondsExceeded l.controlledJob state.StartOfCurrentRunPeriod now = false →
      state.StartOfCurrentRunPeriod = some start →
      BuildForControlledJob env l.controlledJob start 0 false true = .ok built →
      (decideForJobs env state now true restart maxId l).err = none ∧
      (decideForJobs env state now true restart maxId l).chosenJob =
        some (if safeToUnsuspend (l.numberOfPotentiallyRunningJobs + 1) built
          then clearSuspendOf { ptr := JobPtr.created 0, job := built }
            { ptr := JobPtr.created 0, job := built }
          else { ptr := JobPtr.created 0, job := built }) ∧
      (decideForJobs env state now true restart maxId l).numberOfPotentiallyRunningJobs =
        l.numberOfPotentiallyRunningJobs + 1 ∧
      (decideForJobs env state now true restart maxId l).decision.JobsToCreate =
        [if safeToUnsuspend (l.numberOfPotentiallyRunningJobs + 1) built
          then clearSuspendOf { ptr := JobPtr.created 0, job := built }
            { ptr := JobPtr.created 0, job := built }
          else { ptr := JobPtr.created 0, job := built }] ∧
      (decideForJobs env state now true restart maxId l).decision.JobsToDelete =
        deletionsFor l.expiredJobs (l.nonExpiredJobs ++ [{ ptr := JobPtr.created 0, job := built }])
          (some { ptr := JobPtr.created 0, job := built }) ∧
      (decideForJobs env state now true restart maxId l).decision.JobsToSuspend = [] ∧
      (decideForJobs env state now true restart maxId l).decision.JobsToUnsuspend = [] ∧
      (decideForJobs env state now true restart maxId l).decision.RequeueAt = requeueAtFor state ∧
      sameButStatus (decideForJobs env state now true restart maxId l).controlledJob
        l.controlledJob ∧
      (∃ cond, FindCondition (decideForJobs env state now true restart maxId l).controlledJob.status
        ConditionTypeOutOfDate = some cond ∧ cond.status = ConditionFalse) ∧
      (∃ cond, FindCondition (decideForJobs env state now true restart maxId l).controlledJob.status
        ConditionTypeStartingDeadlineExceeded = some cond ∧ cond.status = ConditionFalse)) := by
  have hstop : stopOutsideRunPeriod true l = l := by
    unfold stopOutsideRunPeriod
    simp
  have hsame1 : sameButStatus (SetCondition env l.controlledJob ConditionTypeOutOfDate
      ConditionFalse "NoRunningJob" "Not currently running") l.controlledJob :=
    SetCondition_sameButStatus _ _ _ _ _ _
  rw [decideForJobs_def, hstop, recreateIfOutOfDate_none _ _ _ _ _ hc]
  simp only []
  generalize hcj1 : SetCondition env l.controlledJob ConditionTypeOutOfDate
      ConditionFalse "NoRunningJob" "Not currently running" = cj1 at hsame1 ⊢
  have hO1 : ∃ cond, FindCondition cj1.status ConditionTypeOutOfDate = some cond ∧
      cond.status = ConditionFalse := by
    obtain ⟨cond, h1, h2, _⟩ := FindCondition_SetCondition_same env l.controlledJob
      ConditionTypeOutOfDate ConditionFalse "NoRunningJob" "Not currently running"
    rw [hcj1] at h1
    exact ⟨cond, h1, h2⟩
  refine ⟨?_, ?_, ?_, ?_⟩
  · intro hd
    rw [← startingDeadlineSecondsExceeded_congr hsame1] at hd
    have : startIfAbsent env state now true { l with controlledJob := cj1 } =
        ({ l with controlledJob := SetCondition env cj1
                    ConditionTypeStartingDeadlineExceeded ConditionTrue "StartingDeadlineExceeded"
                    "We expect to be running, but have exceeded the starting deadline" },
          some DecisionError.startingDeadlineExceeded) := by
      unfold startIfAbsent
      simp [hc, hd]
    rw [this]
    refine ⟨rfl, hc, ?_, ?_⟩
    · exact sameButStatus_trans (SetCondition_sameButStatus _ _ _ _ _ _) hsame1
    · obtain ⟨cond, h1, h2, _⟩ := FindCondition_SetCondition_same env cj1
        ConditionTypeStartingDeadlineExceeded ConditionTrue "StartingDeadlineExceeded"
        "We expect to be running, but have exceeded the starting deadline"
      exact ⟨cond, h1, h2⟩
  · intro hd hnil
    rw [← startingDeadlineSecondsExceeded_congr hsame1, hnil] at hd
    have : (startIfAbsent env state now true { l with controlledJob := cj1 }).2 =
        some DecisionError.startOfCurrentRunPeriodIsNil := by
      unfold startIfAbsent
      simp [hc, hd, hnil]
    revert this
    cases hres : startIfAbsent env state now true { l with controlledJob := cj1 } with
    | mk l2 e =>
      intro he
      simp only at he
      subst he
      rfl
  · intro start e hd hstart hbuild
    rw [← startingDeadlineSecondsExceeded_congr hsame1, hstart] at hd
    have hsame2 : sameButStatus (SetCondition env cj1 ConditionTypeStartingDeadlineExceeded
        ConditionFalse "StartingDeadlineNotExceeded" "Still in time to start a new job")
        l.controlledJob :=
      sameButStatus_trans (SetCondition_sameButStatus _ _ _ _ _ _) hsame1
    have hb2 : BuildForControlledJob env (SetCondition env cj1
        ConditionTypeStartingDeadlineExceeded ConditionFalse "StartingDeadlineNotExceeded"
        "Still in time to start a new job") start 0 false true = .error e := by
      unfold BuildForControlledJob at hbuild ⊢
      rw [buildJob_congr env hsame2]
      exact hbuild
    have : (startIfAbsent env state now true { l with controlledJob := cj1 }).2 =
        some (DecisionError.failedToCreateJob e) := by
      unfold startIfAbsent
      simp [hc, hd, hstart, hb2]
    revert this
    cases hres : startIfAbsent env state now true { l with controlledJob := cj1 } with
    | mk l2 e2 =>
      intro he
      simp only at he
      subst he
      rfl
  · intro start built hd hstart hbuild
    rw [← startingDeadlineSecondsExceeded_congr hsame1, hstart] at hd
    have hsame2 : sameButStatus (SetCondition env cj1 ConditionTypeStartingDeadlineExceeded
        ConditionFalse "StartingDeadlineNotExceeded" "Still in time to start a new job")
        l.controlledJob :=
      sameButStatus_trans (SetCondition_sameButStatus _ _ _ _ _ _) hsame1
    have hb2 : BuildForControlledJob env (SetCondition env cj1
        ConditionTypeStartingDeadlineExceeded ConditionFalse "StartingDeadlineNotExceeded"
        "Still in time to start a new job") start 0 false true = .ok built := by
      unfold BuildForControlledJob at hbuild ⊢
      rw [buildJob_congr env hsame2]
      exact hbuild
    have : startIfAbsent env state now true { l with controlledJob := cj1 } =
        ({ l with
           controlledJob := SetCondition env cj1 ConditionTypeStartingDeadlineExceeded
             ConditionFalse "StartingDeadlineNotExceeded" "Still in time to start a new job",
           decision := { Decision.zero with JobsToCreate := [{ ptr := JobPtr.created 0, job := built }] },
           numberOfPotentiallyRunningJobs := l.numberOfPotentiallyRunningJobs + 1,
           nonExpiredJobs := l.nonExpiredJobs ++ [{ ptr := JobPtr.created 0, job := built }],
           chosenJob := some { ptr := JobPtr.created 0, job := built } }, none) := by
      unfold startIfAbsent
      simp [hc, hd, hstart, hb2, hz, Decision.zero]
    rw [this]
    simp only []
    obtain ⟨f1, f2, f3, f4, f5, f6, f7, f8, f9⟩ := finish_created state
      { l with
        controlledJob := SetCondition env cj1 ConditionTypeStartingDeadlineExceeded
          ConditionFalse "StartingDeadlineNotExceeded" "Still in time to start a new job",
        decision := { Decision.zero with JobsToCreate := [{ ptr := JobPtr.created 0, job := built }] },
        numberOfPotentiallyRunningJobs := l.numberOfPotentiallyRunningJobs + 1,
        nonExpiredJobs := l.nonExpiredJobs ++ [{ ptr := JobPtr.created 0, job := built }],
        chosenJob := some { ptr := JobPtr.created 0, job := built } }
      { ptr := JobPtr.created 0, job := built } rfl rfl
    refine ⟨f1, f2, f3, f4, f5, f6, f7, f8, ?_, ?_, ?_⟩
    · rw [f9]; exact hsame2
    · rw [f9]
      simp only []
      rw [FindCondition_SetCondition_other _ _ _ _ _ _ _ (by decide)]
      exact hO1
    · rw [f9]
      simp only []
      obtain ⟨cond, h1, h2, _⟩ := FindCondition_SetCondition_same env cj1
        ConditionTypeStartingDeadlineExceeded ConditionFalse "StartingDeadlineNotExceeded"
        "Still in time to start a new job"
      exact ⟨cond, h1, h2⟩

/-- The chosen job is out of date and is to be replaced: the cases of the builder. -/
theorem decideForJobs_recreate (env : Env) (state : State) (now : Time) (sbr restart : Bool)
    (maxId : Int) (l : Locals) (c : JobRef) (hz : l.decision = Decision.zero)
    (hc : (stopOutsideRunPeriod sbr l).chosenJob = some c)
    (hr : shouldRecreate state restart c.job = true) :
    (∀ e, RecreateJobWithNewSpec env c.job l.controlledJob (wrapInt64 (maxId + 1)) true = .error e →
      (decideForJobs env state now sbr restart maxId l).err =
        some (DecisionError.failedToCreateJob e) ∧
      (decideForJobs env state now sbr restart maxId l).chosenJob = some c) ∧
    (∀ built,
      RecreateJobWithNewSpec env c.job l.controlledJob (wrapInt64 (maxId + 1)) true = .ok built →
      (decideForJobs env state now sbr restart maxId l).err = none ∧
      (decideForJobs env state now sbr restart maxId l).chosenJob =
        some (if safeToUnsuspend (l.numberOfPotentiallyRunningJobs + 1) built
          then clearSuspendOf { ptr := JobPtr.created 0, job := built }
            { ptr := JobPtr.created 0, job := built }
          else { ptr := JobPtr.created 0, job := built }) ∧
      (decideForJobs env state now sbr restart maxId l).numberOfPotentiallyRunningJobs =
        l.numberOfPotentiallyRunningJobs + 1 ∧
      (decideForJobs env state now sbr restart maxId l).decision.JobsToCreate =
        [if safeToUnsuspend (l.numberOfPotentiallyRunningJobs + 1) built
          then clearSuspendOf { ptr := JobPtr.created 0, job := built }
            { ptr := JobPtr.created 0, job := built }
          else { ptr := JobPtr.created 0, job := built }] ∧
      (decideForJobs env state now sbr restart maxId l).decision.JobsToDelete =
        deletionsFor l.expiredJobs (l.nonExpiredJobs ++ [{ ptr := JobPtr.created 0, job := built }])
          (some { ptr := JobPtr.created 0, job := built }) ∧
      (decideForJobs env state now sbr restart maxId l).decision.JobsToSuspend = [] ∧
      (decideForJobs env state now sbr restart maxId l).decision.JobsToUnsuspend = [] ∧
      (decideForJobs env state now sbr restart maxId l).decision.RequeueAt = requeueAtFor state ∧
      sameButStatus (decideForJobs env state now sbr restart maxId l).controlledJob
        l.controlledJob ∧
      (∃ cond, FindCondition (decideForJobs env state now sbr restart maxId l).controlledJob.status
        ConditionTypeOutOfDate = some cond ∧ cond.status = ConditionFalse) ∧
      (∃ cond, FindCondition (decideForJobs env state now sbr restart maxId l).controlledJob.status
        ConditionTypeStartingDeadlineExceeded = some cond ∧ cond.status = ConditionUnknown)) := by
  have hl1 := stopOutsideRunPeriod_eq sbr l
  rw [hc] at hl1
  rw [decideForJobs_def, hl1,
    recreateIfOutOfDate_recreate env state restart maxId { l with chosenJob := some c } c rfl hr]
  simp only [hz, Decision.zero, List.length_nil, List.nil_append]
  refine ⟨?_, ?_⟩
  · intro e he
    rw [he]
    exact ⟨rfl, rfl⟩
  · intro built hb
    rw [hb]
    simp only []
    rw [startIfAbsent_skip _ _ _ _ _ (Or.inr ⟨_, rfl⟩)]
    simp only []
    obtain ⟨f1, f2, f3, f4, f5, f6, f7, f8, f9⟩ := finish_created state
      { l with
        controlledJob := SetCondition env (SetCondition env l.controlledJob ConditionTypeOutOfDate
          ConditionFalse "NotOutOfDate" "Running job matches desired spec")
          ConditionTypeStartingDeadlineExceeded ConditionUnknown "NoNewJobRequired"
          "We're not trying to start a job at the moment",
        decision := { Decision.zero with JobsToCreate := [{ ptr := JobPtr.created 0, job := built }] },
        numberOfPotentiallyRunningJobs := l.numberOfPotentiallyRunningJobs + 1,
        nonExpiredJobs := l.nonExpiredJobs ++ [{ ptr := JobPtr.created 0, job := built }],
        chosenJob := some { ptr := JobPtr.created 0, job := built } }
      { ptr := JobPtr.created 0, job := built } rfl rfl
    refine ⟨f1, f2, f3, f4, f5, f6, f7, f8, ?_, ?_, ?_⟩
    · refine (congrArg (fun cj => sameButStatus cj l.controlledJob) f9).mpr ?_
      exact sameButStatus_trans (SetCondition_sameButStatus _ _ _ _ _ _)
        (SetCondition_sameButStatus _ _ _ _ _ _)
    · refine (congrArg (fun cj => ∃ cond, FindCondition cj.status ConditionTypeOutOfDate =
          some cond ∧ cond.status = ConditionFalse) f9).mpr ?_
      simp only []
      rw [FindCondition_SetCondition_other _ _ _ _ _ _ _ (by decide)]
      obtain ⟨cond, h1, h2, _⟩ := FindCondition_SetCondition_same env l.controlledJob
        ConditionTypeOutOfDate ConditionFalse "NotOutOfDate" "Running job matches desired spec"
      exact ⟨cond, h1, h2⟩
    · refine (congrArg (fun cj => ∃ cond, FindCondition cj.status
          ConditionTypeStartingDeadlineExceeded = some cond ∧
          cond.status = ConditionUnknown) f9).mpr ?_
      simp only []
      obtain ⟨cond, h1, h2, _⟩ := FindCondition_SetCondition_same env
        (SetCondition env l.controlledJob ConditionTypeOutOfDate
          ConditionFalse "NotOutOfDate" "Running job matches desired spec")
        ConditionTypeStartingDeadlineExceeded ConditionUnknown "NoNewJobRequired"
        "We're not trying to start a job at the moment"
      exact ⟨cond, h1, h2⟩

/-! ## `makeDecision` as a whole -/

theorem buildState_ok {env : Env} {scheduleState : Except String ScheduleState}
    {cj : ControlledJob} {childJobs : List Job} {state : State}
    (h : buildState env scheduleState cj childJobs = .ok state) :
    ∃ ss, scheduleState = .ok ss ∧
      state.AllJobs = pointersFrom 0 childJobs ∧
      state.IsSuspended = (match cj.spec.suspend with
        | some b => b
        | none => false) ∧
      state.StartOfCurrentRunPeriod = ss.startOfCurrentRunPeriod ∧
      state.LastStopTime = ss.lastStopTime ∧
      state.NextEventTime = ss.NextEventTime ∧
      state.ShouldBeRunning = (match ss.startOfCurrentRunPeriod with
        | some _ => some ss.ShouldBeRunning
        | none => none) ∧
      state.DesiredHash = CalculateHashFor env cj.spec.jobTemplate ∧
      state.AutoRestartIsEnabled = equalFoldRecreate cj.spec.restartStrategy.specChangePolicy := by
  unfold buildState at h
  cases scheduleState with
  | error e => simp at h
  | ok ss =>
    simp only [Except.ok.injEq] at h
    subst h
    exact ⟨ss, rfl, rfl, rfl, rfl, rfl, rfl, rfl, rfl, rfl⟩

theorem makeDecision_schedule_error (env : Env) (scheduleState : Except String ScheduleState)
    (cj : ControlledJob) (childJobs : List Job) (now : Time) (enable : Bool) (e : DecisionError)
    (h : buildState env scheduleState cj childJobs = .error e) :
    makeDecision env scheduleState cj childJobs now enable =
      { decision := Decision.zero, err := some e, controlledJob := cj, chosenJob := none,
        numberOfPotentiallyRunningJobs := 0 } := by
  unfold makeDecision
  rw [h]

theorem buildState_error {env : Env} {scheduleState : Except String ScheduleState}
    {cj : ControlledJob} {childJobs : List Job} {e : DecisionError}
    (h : buildState env scheduleState cj childJobs = .error e) :
    ∃ cause, e = DecisionError.failedToCalculateSchedule cause := by
  unfold buildState at h
  cases scheduleState with
  | error c => exact ⟨c, by simpa using h.symm⟩
  | ok ss => simp at h

theorem FindCondition_congr {a b : ControlledJobStatus} (h : a.conditions = b.conditions)
    (t : ControlledJobConditionType) : FindCondition a t = FindCondition b t := by
  unfold FindCondition
  rw [h]

@[simp] theorem SetCondition_isSuspended (env : Env) (cj : ControlledJob)
    (t : ControlledJobConditionType) (s : ConditionStatus) (r m : String) :
    (SetCondition env cj t s r m).status.isSuspended = cj.status.isSuspended := by
  unfold SetCondition
  split <;> rfl

theorem setShouldBeRunningStatus_isSuspended (env : Env) (cj : ControlledJob) (state : State) :
    (setShouldBeRunningStatus env cj state).status.isSuspended = cj.status.isSuspended := by
  unfold setShouldBeRunningStatus
  split
  · split <;> simp
  · simp

theorem makeDecision_suspended (env : Env) (scheduleState : Except String ScheduleState)
    (cj : ControlledJob) (childJobs : List Job) (now : Time) (enable : Bool) (state : State)
    (hstate : buildState env scheduleState cj childJobs = .ok state)
    (hs : state.IsSuspended = true) :
    (makeDecision env scheduleState cj childJobs now enable).err = none ∧
    (makeDecision env scheduleState cj childJobs now enable).decision =
      { Decision.zero with JobsToDelete := pointersFrom 0 childJobs } ∧
    (makeDecision env scheduleState cj childJobs now enable).chosenJob = none ∧
    (makeDecision env scheduleState cj childJobs now enable).controlledJob.status.isSuspended =
      some true ∧
    (∃ cond, FindCondition (makeDecision env scheduleState cj childJobs now enable).controlledJob.status
      ConditionTypeSuspended = some cond ∧ cond.status = ConditionTrue) := by
  obtain ⟨ss, _, hall, _⟩ := buildState_ok hstate
  unfold makeDecision
  rw [hstate]
  simp only [hs, if_true, true_and]
  refine ⟨by rw [hall], ?_, ?_⟩
  · rw [SetCondition_isSuspended, setShouldBeRunningStatus_isSuspended]
  · exact (FindCondition_SetCondition_same env _ ConditionTypeSuspended ConditionTrue
      "Suspended" "IsSuspended flag set").imp fun cond h => ⟨h.1, h.2.1⟩

theorem makeDecision_running (env : Env) (scheduleState : Except String ScheduleState)
    (cj : ControlledJob) (childJobs : List Job) (now : Time) (enable : Bool) (state : State)
    (hstate : buildState env scheduleState cj childJobs = .ok state)
    (hns : state.IsSuspended = false) :
    ∃ l : Locals, sameButStatus l.controlledJob cj ∧ l.decision = Decision.zero ∧
      l.chosenJob = (classifyJobs env state state.AllJobs).chosenJob ∧
      l.numberOfPotentiallyRunningJobs =
        (classifyJobs env state state.AllJobs).numberOfPotentiallyRunningJobs ∧
      l.expiredJobs = (classifyJobs env state state.AllJobs).expiredJobs ∧
      l.nonExpiredJobs = (classifyJobs env state state.AllJobs).nonExpiredJobs ∧
      makeDecision env scheduleState cj childJobs now enable =
        recordIsRunning
          (decideForJobs env state now (shouldBeRunningOf state)
            (enable && state.AutoRestartIsEnabled) (scanRunIds state state.AllJobs).maxJobRunId
            l) := by
  unfold makeDecision
  rw [hstate]
  simp only [hns, Bool.false_eq_true, if_false]
  refine ⟨_, ?_, rfl, rfl, rfl, rfl, rfl, rfl⟩
  refine sameButStatus_trans (sameButStatus_with_status _ _) ?_
  refine sameButStatus_trans (setJobConditions_sameButStatus _ _ _) ?_
  refine sameButStatus_trans (setConditionsForAllJobs_sameButStatus _ _ _) ?_
  refine sameButStatus_trans (SetCondition_sameButStatus _ _ _ _ _ _) ?_
  refine sameButStatus_trans (setShouldBeRunningStatus_sameButStatus _ _ _) ?_
  exact sameButStatus_with_status _ _

theorem RecreateJobWithNewSpec_congr (env : Env) {a b : ControlledJob} (h : sameButStatus a b)
    (existing : Job) (id : Int) (suspended : Bool) :
    RecreateJobWithNewSpec env existing a id suspended =
      RecreateJobWithNewSpec env existing b id suspended := by
  unfold RecreateJobWithNewSpec
  simp only []
  split
  · rfl
  · exact buildJob_congr env h _ _ _ _

theorem BuildForControlledJob_congr (env : Env) {a b : ControlledJob} (h : sameButStatus a b)
    (t : Time) (id : Int) (manual suspended : Bool) :
    BuildForControlledJob env a t id manual suspended =
      BuildForControlledJob env b t id manual suspended :=
  buildJob_congr env h _ _ _ _

theorem recordIsRunning_sameButStatus (o : Outcome) :
    sameButStatus (recordIsRunning o).controlledJob o.controlledJob :=
  ⟨rfl, rfl, rfl, rfl, rfl, rfl⟩

theorem recordIsRunning_FindCondition (o : Outcome) (t : ControlledJobConditionType) :
    FindCondition (recordIsRunning o).controlledJob.status t =
      FindCondition o.controlledJob.status t := rfl

/-- Every call of `makeDecision` on a ControlledJob that is not suspended ends in one of eight
ways. -/
theorem makeDecision_cases (env : Env) (scheduleState : Except String ScheduleState)
    (cj : ControlledJob) (childJobs : List Job) (now : Time) (enable : Bool) (state : State)
    (hstate : buildState env scheduleState cj childJobs = .ok state)
    (hns : state.IsSuspended = false) :
    (shouldBeRunningOf state = false ∧
      ((classifyJobs env state state.AllJobs).chosenJob = none ∨
        ∃ c, (classifyJobs env state state.AllJobs).chosenJob = some c ∧
          IsManuallyScheduledJob c.job = false) ∧
      Planned state (makeDecision env scheduleState cj childJobs now enable) cj none
        (classifyJobs env state state.AllJobs).numberOfPotentiallyRunningJobs []
        (deletionsFor (classifyJobs env state state.AllJobs).expiredJobs
          (classifyJobs env state state.AllJobs).nonExpiredJobs none)
        [] ConditionFalse ConditionUnknown) ∨
    (∃ c, (classifyJobs env state state.AllJobs).chosenJob = some c ∧
      (shouldBeRunningOf state = true ∨ IsManuallyScheduledJob c.job = true) ∧
      shouldRecreate state (enable && state.AutoRestartIsEnabled) c.job = false ∧
      Planned state (makeDecision env scheduleState cj childJobs now enable) cj (some c)
        (classifyJobs env state state.AllJobs).numberOfPotentiallyRunningJobs []
        (deletionsFor (classifyJobs env state state.AllJobs).expiredJobs
          (classifyJobs env state state.AllJobs).nonExpiredJobs (some c))
        (if safeToUnsuspend (classifyJobs env state state.AllJobs).numberOfPotentiallyRunningJobs
          c.job then [c] else [])
        (if isOutOfDate c.job state then ConditionTrue else ConditionFalse) ConditionUnknown) ∨
    (∃ c e, (classifyJobs env state state.AllJobs).chosenJob = some c ∧
      (shouldBeRunningOf state = true ∨ IsManuallyScheduledJob c.job = true) ∧
      shouldRecreate state (enable && state.AutoRestartIsEnabled) c.job = true ∧
      RecreateJobWithNewSpec env c.job cj
        (wrapInt64 ((scanRunIds state state.AllJobs).maxJobRunId + 1)) true = .error e ∧
      (makeDecision env scheduleState cj childJobs now enable).err =
        some (DecisionError.failedToCreateJob e)) ∨
    (∃ c built, (classifyJobs env state state.AllJobs).chosenJob = some c ∧
      (shouldBeRunningOf state = true ∨ IsManuallyScheduledJob c.job = true) ∧
      shouldRecreate state (enable && state.AutoRestartIsEnabled) c.job = true ∧
      RecreateJobWithNewSpec env c.job cj
        (wrapInt64 ((scanRunIds state state.AllJobs).maxJobRunId + 1)) true = .ok built ∧
      Planned state (makeDecision env scheduleState cj childJobs now enable) cj
        (some (emittedRef
          ((classifyJobs env state state.AllJobs).numberOfPotentiallyRunningJobs + 1) built))
        ((classifyJobs env state state.AllJobs).numberOfPotentiallyRunningJobs + 1)
        [emittedRef ((classifyJobs env state state.AllJobs).numberOfPotentiallyRunningJobs + 1) built]
        (deletionsFor (classifyJobs env state state.AllJobs).expiredJobs
          ((classifyJobs env state state.AllJobs).nonExpiredJobs ++ [createdRef built])
          (some (createdRef built)))
        [] ConditionFalse ConditionUnknown) ∨
    (shouldBeRunningOf state = true ∧ (classifyJobs env state state.AllJobs).chosenJob = none ∧
      startingDeadlineSecondsExceeded cj state.StartOfCurrentRunPeriod now = true ∧
      (makeDecision env scheduleState cj childJobs now enable).err =
        some DecisionError.startingDeadlineExceeded ∧
      ∃ cond, FindCondition (makeDecision env scheduleState cj childJobs now enable).controlledJob.status
        ConditionTypeStartingDeadlineExceeded = some cond ∧ cond.status = ConditionTrue) ∨
    (shouldBeRunningOf state = true ∧ (classifyJobs env state state.AllJobs).chosenJob = none ∧
      startingDeadlineSecondsExceeded cj state.StartOfCurrentRunPeriod now = false ∧
      state.StartOfCurrentRunPeriod = none ∧
      (makeDecision env scheduleState cj childJobs now enable).err =
        some DecisionError.startOfCurrentRunPeriodIsNil) ∨
    (∃ start e, shouldBeRunningOf state = true ∧
      (classifyJobs env state state.AllJobs).chosenJob = none ∧
      startingDeadlineSecondsExceeded cj state.StartOfCurrentRunPeriod now = false ∧
      state.StartOfCurrentRunPeriod = some start ∧
      BuildForControlledJob env cj start 0 false true = .error e ∧
      (makeDecision env scheduleState cj childJobs now enable).err =
        some (DecisionError.failedToCreateJob e)) ∨
    (∃ start built, shouldBeRunningOf state = true ∧
      (classifyJobs env state state.AllJobs).chosenJob = none ∧
      startingDeadlineSecondsExceeded cj state.StartOfCurrentRunPeriod now = false ∧
      state.StartOfCurrentRunPeriod = some start ∧
      BuildForControlledJob env cj start 0 false true = .ok built ∧
      Planned state (makeDecision env scheduleState cj childJobs now enable) cj
        (some (emittedRef
          ((classifyJobs env state state.AllJobs).numberOfPotentiallyRunningJobs + 1) built))
        ((classifyJobs env state state.AllJobs).numberOfPotentiallyRunningJobs + 1)
        [emittedRef ((classifyJobs env state state.AllJobs).numberOfPotentiallyRunningJobs + 1) built]
        (deletionsFor (classifyJobs env state state.AllJobs).expiredJobs
          ((classifyJobs env state state.AllJobs).nonExpiredJobs ++ [createdRef built])
          (some (createdRef built)))
        [] ConditionFalse ConditionFalse) := by
  obtain ⟨l, hsame0, hz, hch, hn, hex, hne, heq⟩ :=
    makeDecision_running env scheduleState cj childJobs now enable state hstate hns
  rw [heq, ← hch, ← hn, ← hex, ← hne]
  generalize shouldBeRunningOf state = sbr
  generalize (enable && state.AutoRestartIsEnabled) = restart
  generalize (scanRunIds state state.AllJobs).maxJobRunId = maxId
  cases hc1 : (stopOutsideRunPeriod sbr l).chosenJob with
  | none =>
    cases hsbr : sbr with
    | false =>
      left
      rw [hsbr] at hc1
      obtain ⟨f1, f2, f3, f4, f5, f6, f7, f8, f9, f10, f11⟩ :=
        decideForJobs_idle env state now false restart maxId l hz hc1 rfl
      refine ⟨rfl, ?_, ⟨f1, f2, f3, f4, f5, f6, f7, f8, ?_, f10, f11⟩⟩
      · rcases (stopOutsideRunPeriod_chosen_none false l).mp hc1 with h | ⟨c, h1, _, h3⟩
        · exact Or.inl h
        · exact Or.inr ⟨c, h1, h3⟩
      · exact sameButStatus_trans (sameButStatus_trans (recordIsRunning_sameButStatus _) f9) hsame0
    | true =>
      right; right; right; right
      rw [hsbr] at hc1
      have hnone : l.chosenJob = none := by
        rcases (stopOutsideRunPeriod_chosen_none true l).mp hc1 with h | ⟨c, _, h2, _⟩
        · exact h
        · exact absurd h2 (by simp)
      obtain ⟨s1, s2, s3, s4⟩ := decideForJobs_start env state now restart maxId l hz hnone
      rw [startingDeadlineSecondsExceeded_congr hsame0] at s1 s2 s3 s4
      cases hd : startingDeadlineSecondsExceeded cj state.StartOfCurrentRunPeriod now with
      | true =>
        left
        obtain ⟨a1, _, _, a4⟩ := s1 hd
        exact ⟨rfl, hnone, rfl, a1, a4⟩
      | false =>
        right
        cases hst : state.StartOfCurrentRunPeriod with
        | none =>
          left
          exact ⟨rfl, hnone, rfl, rfl, s2 hd hst⟩
        | some start =>
          right
          cases hb : BuildForControlledJob env cj start 0 false true with
          | error e =>
            left
            rw [← BuildForControlledJob_congr env hsame0] at hb
            exact ⟨start, e, rfl, hnone, rfl, rfl, by
              rw [BuildForControlledJob_congr env hsame0] at hb; exact hb, s3 start e hd hst hb⟩
          | ok built =>
            right
            rw [← BuildForControlledJob_congr env hsame0] at hb
            obtain ⟨f1, f2, f3, f4, f5, f6, f7, f8, f9, f10, f11⟩ := s4 start built hd hst hb
            refine ⟨start, built, rfl, hnone, rfl, rfl, by
              rw [BuildForControlledJob_congr env hsame0] at hb; exact hb,
              ⟨f1, f2, f3, f4, f5, f6, f7, f8, ?_, f10, f11⟩⟩
            exact sameButStatus_trans (sameButStatus_trans (recordIsRunning_sameButStatus _) f9)
              hsame0
  | some c =>
    right
    have hsel := (stopOutsideRunPeriod_chosen_some sbr l c).mp hc1
    cases hr : shouldRecreate state restart c.job with
    | false =>
      left
      obtain ⟨f1, f2, f3, f4, f5, f6, f7, f8, f9, f10, f11⟩ :=
        decideForJobs_keep env state now sbr restart maxId l c hz hc1 hr
      refine ⟨c, hsel.1, hsel.2, hr, ⟨f1, f2, f3, f4, f5, f6, f7, f8, ?_, f10, f11⟩⟩
      exact sameButStatus_trans (sameButStatus_trans (recordIsRunning_sameButStatus _) f9) hsame0
    | true =>
      right
      obtain ⟨r1, r2⟩ := decideForJobs_recreate env state now sbr restart maxId l c hz hc1 hr
      rw [RecreateJobWithNewSpec_congr env hsame0] at r1 r2
      cases hb : RecreateJobWithNewSpec env c.job cj (wrapInt64 (maxId + 1)) true with
      | error e =>
        left
        exact ⟨c, e, hsel.1, hsel.2, hr, hb, (r1 e hb).1⟩
      | ok built =>
        right; left
        obtain ⟨f1, f2, f3, f4, f5, f6, f7, f8, f9, f10, f11⟩ := r2 built hb
        refine ⟨c, built, hsel.1, hsel.2, hr, hb, ⟨f1, f2, f3, f4, f5, f6, f7, f8, ?_, f10, f11⟩⟩
        exact sameButStatus_trans (sameButStatus_trans (recordIsRunning_sameButStatus _) f9) hsame0

/-! ## The deletion set -/

theorem classifyJobs_expiredJobs (env : Env) (state : State) (jobs : List JobRef) :
    (classifyJobs env state jobs).expiredJobs =
      jobs.filter (fun j => isExpired env state.LastStopTime j.job) := by
  rw [classifyJobs_eq]

theorem classifyJobs_nonExpiredJobs (env : Env) (state : State) (jobs : List JobRef) :
    (classifyJobs env state jobs).nonExpiredJobs =
      jobs.filter (fun j => !isExpired env state.LastStopTime j.job) := by
  rw [classifyJobs_eq]

theorem classifyJobs_count (env : Env) (state : State) (jobs : List JobRef) :
    (classifyJobs env state jobs).numberOfPotentiallyRunningJobs =
      (jobs.filter (fun j => IsJobPotentiallyRunning j.job)).length := by
  rw [classifyJobs_eq]

theorem classifyJobs_chosen_mem (env : Env) (state : State) (jobs : List JobRef) (c : JobRef)
    (h : (classifyJobs env state jobs).chosenJob = some c) :
    c ∈ jobs ∧ isExpired env state.LastStopTime c.job = false := by
  rw [classifyJobs_eq] at h
  simp only at h
  rcases selectFrom_mem state _ none c h with h1 | h1
  · exact absurd h1 (by simp)
  · have := List.mem_filter.mp h1
    exact ⟨this.1, by simpa using this.2⟩

theorem isChosen_child_iff {i : Nat} {l : List Job} {c d : JobRef}
    (hc : c ∈ pointersFrom i l) (hd : d ∈ pointersFrom i l) :
    isChosen (some d) c = true ↔ c = d := by
  simp only [isChosen, JobRef.same, beq_iff_eq]
  constructor
  · exact pointersFrom_ptr_inj i l c d hc hd
  · intro e; rw [e]

theorem isChosen_created_child {i : Nat} {l : List Job} {c : JobRef} (built : Job)
    (hc : c ∈ pointersFrom i l) : isChosen (some (createdRef built)) c = false := by
  obtain ⟨k, _, hk⟩ := pointersFrom_ptr_ge i l c hc
  simp [isChosen, JobRef.same, createdRef, hk]

theorem emittedRef_ptr (n : Nat) (built : Job) : (emittedRef n built).ptr = JobPtr.created 0 := by
  unfold emittedRef clearSuspendOf createdRef
  split <;> simp [JobRef.same]

theorem emittedRef_ne_child {i : Nat} {l : List Job} {c : JobRef} (n : Nat) (built : Job)
    (hc : c ∈ pointersFrom i l) : emittedRef n built ≠ c := by
  intro e
  obtain ⟨k, _, hk⟩ := pointersFrom_ptr_ge i l c hc
  have := emittedRef_ptr n built
  rw [e, hk] at this
  exact absurd this (by simp)

/-- Membership of a child in the deletion set computed from the classification. -/
theorem mem_deletionsFor_child (env : Env) (state : State) (jobs : List JobRef)
    (chosen : Option JobRef) (extra : List JobRef) (c : JobRef) (hc : c ∈ jobs)
    (hextra : c ∉ extra) :
    c ∈ deletionsFor (classifyJobs env state jobs).expiredJobs
        ((classifyJobs env state jobs).nonExpiredJobs ++ extra) chosen ↔
      IsJobBeingDeleted c.job = false ∧
        (isExpired env state.LastStopTime c.job = true ∨
          (isExpired env state.LastStopTime c.job = false ∧ isChosen chosen c = false ∧
            IsJobCompleted c.job = false)) := by
  rw [classifyJobs_expiredJobs, classifyJobs_nonExpiredJobs]
  unfold deletionsFor
  simp only [List.mem_append, List.mem_filter, hc, true_and, List.filter_append, hextra,
    false_and, or_false]
  cases IsJobBeingDeleted c.job <;> cases isExpired env state.LastStopTime c.job <;>
    cases isChosen chosen c <;> cases IsJobCompleted c.job <;> simp

/-- Every member of the deletion set is a child, when the only extra candidate is the chosen
job itself. -/
theorem deletionsFor_subset (env : Env) (state : State) (jobs : List JobRef) (x : JobRef)
    (d : JobRef)
    (hd : d ∈ deletionsFor (classifyJobs env state jobs).expiredJobs
        ((classifyJobs env state jobs).nonExpiredJobs ++ [x]) (some x)) : d ∈ jobs := by
  rw [classifyJobs_expiredJobs, classifyJobs_nonExpiredJobs] at hd
  unfold deletionsFor at hd
  simp only [List.mem_append, List.mem_filter, List.filter_append] at hd
  rcases hd with hd | hd | hd
  · exact hd.1.1
  · exact hd.1.1
  · have h1 : d = x := by simpa using hd.1
    have h2 := hd.2
    rw [h1] at h2
    simp [isChosen, JobRef.same] at h2

theorem deletionsFor_subset_plain (env : Env) (state : State) (jobs : List JobRef)
    (chosen : Option JobRef) (d : JobRef)
    (hd : d ∈ deletionsFor (classifyJobs env state jobs).expiredJobs
        (classifyJobs env state jobs).nonExpiredJobs chosen) : d ∈ jobs := by
  rw [classifyJobs_expiredJobs, classifyJobs_nonExpiredJobs] at hd
  unfold deletionsFor at hd
  simp only [List.mem_append, List.mem_filter] at hd
  rcases hd with hd | hd
  · exact hd.1.1
  · exact hd.1.1

theorem isExpired_iff (env : Env) (lastStopTime : Option Time) (job : Job) :
    isExpired env lastStopTime job = true ↔
      ∃ stop, lastStopTime = some stop ∧
        (GetScheduledTime env job = none ∨
          ∃ t, GetScheduledTime env job = some t ∧ t.unixNano < stop.unixNano) := by
  unfold isExpired
  cases lastStopTime with
  | none => simp
  | some stop =>
    cases GetScheduledTime env job with
    | none => simp
    | some t => simp [Time.Before]

theorem not_suspended_of_spec {env : Env} {scheduleState : Except String ScheduleState}
    {cj : ControlledJob} {childJobs : List Job} {state : State}
    (hstate : buildState env scheduleState cj childJobs = .ok state)
    (h : cj.spec.suspend ≠ some true) : state.IsSuspended = false := by
  obtain ⟨ss, _, _, hs, _⟩ := buildState_ok hstate
  rw [hs]
  cases hsp : cj.spec.suspend with
  | none => rfl
  | some b =>
    cases b with
    | false => rfl
    | true => exact absurd hsp h

/-- Which children a successful `makeDecision` on a ControlledJob that is not suspended queues
for deletion. -/
theorem JobsToDelete_characterised (env : Env) (scheduleState : Except String ScheduleState)
    (cj : ControlledJob) (childJobs : List Job) (now : Time) (enable : Bool) (state : State)
    (hstate : buildState env scheduleState cj childJobs = .ok state)
    (hsus : state.IsSuspended = false)
    (hok : (makeDecision env scheduleState cj childJobs now enable).err = none) :
    (∀ c ∈ pointersFrom 0 childJobs,
      c ∈ (makeDecision env scheduleState cj childJobs now enable).decision.JobsToDelete ↔
        IsJobBeingDeleted c.job = false ∧
          (isExpired env state.LastStopTime c.job = true ∨
            (isExpired env state.LastStopTime c.job = false ∧
              (makeDecision env scheduleState cj childJobs now enable).chosenJob ≠ some c ∧
              IsJobCompleted c.job = false))) ∧
    (∀ d ∈ (makeDecision env scheduleState cj childJobs now enable).decision.JobsToDelete,
      d ∈ pointersFrom 0 childJobs) := by
  obtain ⟨ss, _, hall, _⟩ := buildState_ok hstate
  rcases makeDecision_cases env scheduleState cj childJobs now enable state hstate hsus with
    ⟨_, _, hp⟩ | ⟨c0, hsel, _, _, hp⟩ | ⟨_, _, _, _, _, _, herr⟩ | ⟨c0, built, _, _, _, _, hp⟩ |
    ⟨_, _, _, herr, _⟩ | ⟨_, _, _, _, herr⟩ | ⟨_, _, _, _, _, _, _, herr⟩ |
    ⟨start, built, _, _, _, _, _, hp⟩
  · rw [hp.delete, hp.chosen, hall]
    refine ⟨fun c hc => ?_, fun d hd => deletionsFor_subset_plain env state _ none d hd⟩
    have := mem_deletionsFor_child env state (pointersFrom 0 childJobs) none [] c hc (by simp)
    rw [List.append_nil] at this
    rw [this]
    simp [isChosen]
  · rw [hp.delete, hp.chosen, hall]
    refine ⟨fun c hc => ?_, fun d hd => deletionsFor_subset_plain env state _ _ d hd⟩
    have := mem_deletionsFor_child env state (pointersFrom 0 childJobs) (some c0) [] c hc
      (by simp)
    rw [List.append_nil] at this
    rw [this]
    rw [hall] at hsel
    have hc0 := (classifyJobs_chosen_mem env state _ c0 hsel).1
    have hiff := isChosen_child_iff hc hc0
    have : isChosen (some c0) c = false ↔ some c0 ≠ some c := by
      constructor
      · intro h e
        have e2 : c = c0 := by simpa using e.symm
        rw [hiff.mpr e2] at h
        exact absurd h (by simp)
      · intro h
        cases hch : isChosen (some c0) c with
        | false => rfl
        | true => exact absurd (by rw [hiff.mp hch]) h
    rw [this]
  · rw [herr] at hok; exact absurd hok (by simp)
  · rw [hp.delete, hp.chosen, hall]
    refine ⟨fun c hc => ?_, fun d hd => deletionsFor_subset env state _ _ d hd⟩
    have hne : c ∉ [createdRef built] := by
      intro h
      have e : c = createdRef built := by simpa using h
      obtain ⟨k, _, hk⟩ := pointersFrom_ptr_ge 0 childJobs c hc
      rw [e] at hk
      simp [createdRef] at hk
    rw [mem_deletionsFor_child env state (pointersFrom 0 childJobs) _ _ c hc hne,
      isChosen_created_child built hc]
    have : some (emittedRef ((classifyJobs env state
        (pointersFrom 0 childJobs)).numberOfPotentiallyRunningJobs + 1) built) ≠ some c := by
      intro e
      exact emittedRef_ne_child _ built hc (by simpa using e)
    simp [this]
  · rw [herr] at hok; exact absurd hok (by simp)
  · rw [herr] at hok; exact absurd hok (by simp)
  · rw [herr] at hok; exact absurd hok (by simp)
  · rw [hp.delete, hp.chosen, hall]
    refine ⟨fun c hc => ?_, fun d hd => deletionsFor_subset env state _ _ d hd⟩
    have hne : c ∉ [createdRef built] := by
      intro h
      have e : c = createdRef built := by simpa using h
      obtain ⟨k, _, hk⟩ := pointersFrom_ptr_ge 0 childJobs c hc
      rw [e] at hk
      simp [createdRef] at hk
    rw [mem_deletionsFor_child env state (pointersFrom 0 childJobs) _ _ c hc hne,
      isChosen_created_child built hc]
    have : some (emittedRef ((classifyJobs env state
        (pointersFrom 0 childJobs)).numberOfPotentiallyRunningJobs + 1) built) ≠ some c := by
      intro e
      exact emittedRef_ne_child _ built hc (by simpa using e)
    simp [this]

/-- C2 (amended). Deletion set. For every successful `makeDecision` on a ControlledJob that is
not suspended, `JobsToDelete` holds children only, and a child is in it exactly when it is not
already being deleted and is either expired, or is not expired, is not the final chosen job and
is not Completed/Failed. Here a child is expired when the last stop time is set and the child's
scheduled-at either cannot be read or precedes it. In particular an expired child is deleted
even when completed, and a completed child that is not expired is retained. -/
theorem deletion_set (env : Env) (scheduleState : Except String ScheduleState)
    (cj : ControlledJob) (childJobs : List Job) (now : Time) (enable : Bool) (state : State)
    (hstate : buildState env scheduleState cj childJobs = .ok state)
    (hns : cj.spec.suspend ≠ some true)
    (hok : (makeDecision env scheduleState cj childJobs now enable).err = none) :
    (∀ c ∈ pointersFrom 0 childJobs,
      c ∈ (makeDecision env scheduleState cj childJobs now enable).decision.JobsToDelete ↔
        IsJobBeingDeleted c.job = false ∧
          (isExpired env state.LastStopTime c.job = true ∨
            (isExpired env state.LastStopTime c.job = false ∧
              (makeDecision env scheduleState cj childJobs now enable).chosenJob ≠ some c ∧
              IsJobCompleted c.job = false))) ∧
    (∀ d ∈ (makeDecision env scheduleState cj childJobs now enable).decision.JobsToDelete,
      d ∈ pointersFrom 0 childJobs) ∧
    (∀ job : Job, isExpired env state.LastStopTime job = true ↔
      ∃ stop, state.LastStopTime = some stop ∧
        (GetScheduledTime env job = none ∨
          ∃ t, GetScheduledTime env job = some t ∧ t.unixNano < stop.unixNano)) ∧
    (∀ c ∈ pointersFrom 0 childJobs, isExpired env state.LastStopTime c.job = true →
      IsJobBeingDeleted c.job = false → IsJobCompleted c.job = true →
      c ∈ (makeDecision env scheduleState cj childJobs now enable).decision.JobsToDelete) ∧
    (∀ c ∈ pointersFrom 0 childJobs, isExpired env state.LastStopTime c.job = false →
      IsJobCompleted c.job = true →
      c ∉ (makeDecision env scheduleState cj childJobs now enable).decision.JobsToDelete) := by
  have hsus := not_suspended_of_spec hstate hns
  have key := JobsToDelete_characterised env scheduleState cj childJobs now enable state hstate
    hsus hok
  refine ⟨key.1, key.2, isExpired_iff env state.LastStopTime, ?_, ?_⟩
  · intro c hc he hd _
    exact (key.1 c hc).mpr ⟨hd, Or.inl he⟩
  · intro c hc he hcomp hmem
    rcases ((key.1 c hc).mp hmem).2 with h | h
    · rw [he] at h; exact absurd h (by simp)
    · rw [hcomp] at h; exact absurd h.2.2 (by simp)

/-! ## String maps -/

theorem StringMap.find_set_same (m : StringMap) (k v : String) :
    (StringMap.set m k v).find k = some v := by
  simp [StringMap.set, StringMap.find, List.lookup]

theorem lookup_filter_ne (k k2 : String) (h : k2 ≠ k) :
    ∀ m : StringMap, (m.filter (fun p => !(p.1 == k))).lookup k2 = m.lookup k2
  | [] => rfl
  | (a, b) :: m => by
    by_cases hak : a = k
    · have h1 : (k2 == a) = false := by
        simp only [beq_eq_false_iff_ne, ne_eq]
        rw [hak]; exact h
      simp [List.filter, hak, List.lookup, lookup_filter_ne k k2 h m]
      rw [hak] at h1
      simp [h1]
    · have hb : (a == k) = false := by simpa using hak
      simp only [List.filter, hb, Bool.not_false, List.lookup]
      rw [lookup_filter_ne k k2 h m]

theorem StringMap.find_set_other (m : StringMap) (k v k2 : String) (h : k2 ≠ k) :
    (StringMap.set m k v).find k2 = m.find k2 := by
  have h1 : (k2 == k) = false := by simpa using h
  simp only [StringMap.set, StringMap.find, List.lookup, h1]
  exact lookup_filter_ne k k2 h m

theorem StringMap.get_eq (m : StringMap) (k : String) :
    m.get k = (match m.find k with
      | some v => v
      | none => "") := rfl

theorem StringMap.get_set_same (m : StringMap) (k v : String) :
    (StringMap.set m k v).get k = v := by
  rw [StringMap.get_eq, StringMap.find_set_same]

theorem StringMap.get_set_other (m : StringMap) (k v k2 : String) (h : k2 ≠ k) :
    (StringMap.set m k v).get k2 = m.get k2 := by
  rw [StringMap.get_eq, StringMap.get_eq, StringMap.find_set_other m k v k2 h]

theorem StringMap.find_copyInto_absent (k : String) :
    ∀ (src dst : StringMap), src.all (fun p => !(p.1 == k)) = true →
      (StringMap.copyInto src dst).find k = dst.find k
  | [], _, _ => rfl
  | (a, b) :: src, dst, h => by
    simp only [List.all_cons, Bool.and_eq_true, Bool.not_eq_true', beq_eq_false_iff_ne,
      ne_eq] at h
    have ih := StringMap.find_copyInto_absent k src (StringMap.set dst a b)
      (by simpa using h.2)
    show (StringMap.copyInto src (StringMap.set dst a b)).find k = dst.find k
    rw [ih, StringMap.find_set_other dst a b k (fun e => h.1 e.symm)]

/-! ## The builder when no mutator applies -/

theorem mutatorsApply_of_none (env : Env) (job : Job) (h : env.registeredMutators.isEmpty = true) :
    mutatorsApply env job = .ok job := by
  unfold mutatorsApply
  have : env.registeredMutators = [] := by simpa using h
  rw [this]
  rfl

theorem assembleJob_find (env : Env) (cj : ControlledJob) (t : Time) (id : Int)
    (manual suspended : Bool) (k : String) (h1 : k ≠ TimeZoneAnnotation)
    (h2 : k ≠ TimeZoneOffsetSecondsAnnotation) (h3 : manual = false ∨ k ≠ ManualJobAnnotation) :
    (assembleJob env cj t id manual suspended).annotations.find k =
      ((((StringMap.copyInto cj.spec.jobTemplate.annotations []).set ScheduledTimeAnnotation
        (env.formatRFC3339 t)).set JobRunIdAnnotation (formatInt id)).set TemplateHashAnnotation
        (CalculateHashFor env cj.spec.jobTemplate)).find k := by
  unfold assembleJob
  simp only []
  have e1 : ∀ m : StringMap, (if manual = true then m.set ManualJobAnnotation "true" else m).find k =
      m.find k := by
    intro m
    rcases h3 with h | h
    · simp [h]
    · split
      · exact StringMap.find_set_other m _ _ k h
      · rfl
  have e2 : ∀ m : StringMap, (if cj.spec.timezone.offsetSeconds ≠ 0 then
      m.set TimeZoneOffsetSecondsAnnotation (formatInt cj.spec.timezone.offsetSeconds)
      else m).find k = m.find k := by
    intro m
    split
    · exact StringMap.find_set_other m _ _ k h2
    · rfl
  have e3 : ∀ m : StringMap, (if cj.spec.timezone.name.length > 0 then
      m.set TimeZoneAnnotation cj.spec.timezone.name else m).find k = m.find k := by
    intro m
    split
    · exact StringMap.find_set_other m _ _ k h1
    · rfl
  rw [e1, e2, e3]

/-- What `buildJob` returns when no mutator applies. -/
theorem buildJob_plain (env : Env) (cj : ControlledJob) (t : Time) (id : Int)
    (manual suspended : Bool) (h : noMutatorApplies env cj = true) :
    ∃ job, buildJob env cj t id manual suspended = .ok job ∧
      job.name = JobName cj.name t id ∧
      job.spec.suspend = (if suspended then some suspended else cj.spec.jobTemplate.spec.suspend) ∧
      job.deletionTimestamp = none ∧
      job.status.conditions = [] ∧
      job.annotations.get ScheduledTimeAnnotation = env.formatRFC3339 t ∧
      job.annotations.get JobRunIdAnnotation = formatInt id ∧
      job.annotations.get TemplateHashAnnotation = CalculateHashFor env cj.spec.jobTemplate ∧
      (manual = true → job.annotations.find ManualJobAnnotation = some "true") ∧
      (manual = false → templateLacks cj ManualJobAnnotation = true →
        job.annotations.find ManualJobAnnotation = none) ∧
      (templateLacks cj SuspendReason = true → job.annotations.get SuspendReason = "") := by
  have hres : buildJob env cj t id manual suspended =
      .ok (assembleJob env cj t id manual suspended) := by
    unfold buildJob
    unfold noMutatorApplies mutationsRequested at h
    cases hf : cj.annotations.find ApplyMutationsAnnotation with
    | none => rfl
    | some v =>
      simp only []
      split
      · rename_i hv
        rw [hf] at h
        simp only [hv, Bool.not_true, Bool.false_or] at h
        exact mutatorsApply_of_none env _ h
      · rfl
  refine ⟨_, hres, rfl, ?_, rfl, rfl, ?_, ?_, ?_, ?_, ?_, ?_⟩
  · unfold assembleJob
    cases suspended <;> simp
  · rw [StringMap.get_eq, assembleJob_find env cj t id manual suspended _ (by decide) (by decide)
      (Or.inr (by decide)),
      StringMap.find_set_other _ _ _ _ (by decide), StringMap.find_set_other _ _ _ _ (by decide),
      StringMap.find_set_same]
  · rw [StringMap.get_eq, assembleJob_find env cj t id manual suspended _ (by decide) (by decide)
      (Or.inr (by decide)),
      StringMap.find_set_other _ _ _ _ (by decide), StringMap.find_set_same]
  · rw [StringMap.get_eq, assembleJob_find env cj t id manual suspended _ (by decide) (by decide)
      (Or.inr (by decide)), StringMap.find_set_same]
  · intro hm
    subst hm
    unfold assembleJob
    simp only [if_true]
    exact StringMap.find_set_same _ _ _
  · intro hm hl
    rw [assembleJob_find env cj t id manual suspended _ (by decide) (by decide) (Or.inl hm),
      StringMap.find_set_other _ _ _ _ (by decide), StringMap.find_set_other _ _ _ _ (by decide),
      StringMap.find_set_other _ _ _ _ (by decide),
      StringMap.find_copyInto_absent _ _ _ hl]
    rfl
  · intro hl
    rw [StringMap.get_eq, assembleJob_find env cj t id manual suspended _ (by decide) (by decide)
      (Or.inr (by decide)),
      StringMap.find_set_other _ _ _ _ (by decide), StringMap.find_set_other _ _ _ _ (by decide),
      StringMap.find_set_other _ _ _ _ (by decide),
      StringMap.find_copyInto_absent _ _ _ hl]
    rfl

set_option maxRecDepth 100000 in
/-- C2, the claim as stated fails. Inside the run period the ControlledJob has an up-to-date
running child (the chosen job) and a completed child whose `scheduled-at` annotation is empty.
The completed child is not being deleted, its scheduled-at does not precede the last stop time
(it has none), it is not the chosen job and it is Completed: the claim retains it, yet
`makeDecision` queues it in `JobsToDelete`. -/
theorem deletion_set_counterexample :
    exampleControlledJob.spec.suspend ≠ some true ∧
    (makeDecision exampleEnv insideRunPeriod exampleControlledJob
      [runningJob, completedUnstampedJob] exampleNow false).err = none ∧
    IsJobBeingDeleted completedUnstampedJob = false ∧
    scheduledBeforeLastStop exampleEnv (some exampleLastStop) completedUnstampedJob = false ∧
    (makeDecision exampleEnv insideRunPeriod exampleControlledJob
      [runningJob, completedUnstampedJob] exampleNow false).chosenJob =
        some { ptr := JobPtr.child 0, job := runningJob } ∧
    IsJobCompleted completedUnstampedJob = true ∧
    (makeDecision exampleEnv insideRunPeriod exampleControlledJob
      [runningJob, completedUnstampedJob] exampleNow false).decision.JobsToDelete =
        [{ ptr := JobPtr.child 1, job := completedUnstampedJob }] := by
  decide

/-- The deletion set of the example: the amended claim applies to it. -/
theorem deletion_set_witness :
    buildState exampleEnv insideRunPeriod exampleControlledJob [runningJob, completedUnstampedJob] =
      .ok (insideState [runningJob, completedUnstampedJob]) ∧
    ∀ d ∈ (makeDecision exampleEnv insideRunPeriod exampleControlledJob
        [runningJob, completedUnstampedJob] exampleNow false).decision.JobsToDelete,
      d ∈ pointersFrom 0 [runningJob, completedUnstampedJob] :=
  ⟨rfl, (deletion_set exampleEnv insideRunPeriod exampleControlledJob
      [runningJob, completedUnstampedJob] exampleNow false
      (insideState [runningJob, completedUnstampedJob]) rfl (by decide) (by decide)).2.1⟩

/-! ## C10: the suspend short-circuit -/

/-- C10. Suspend short-circuit: if `spec.suspend` is true and the schedule is valid,
`makeDecision` returns no error, plans the deletion of every child and nothing else (no create,
no suspend, no unsuspend, no requeue time), and sets `status.isSuspended` and the `Suspended`
condition to True. -/
theorem suspend_short_circuit (env : Env) (scheduleState : Except String ScheduleState)
    (ss : ScheduleState) (cj : ControlledJob) (childJobs : List Job) (now : Time) (enable : Bool)
    (hvalid : scheduleState = .ok ss) (hsuspend : cj.spec.suspend = some true) :
    (makeDecision env scheduleState cj childJobs now enable).err = none ∧
    (makeDecision env scheduleState cj childJobs now enable).decision.JobsToDelete =
      pointersFrom 0 childJobs ∧
    (makeDecision env scheduleState cj childJobs now enable).decision.JobsToDelete.map (·.job) =
      childJobs ∧
    (makeDecision env scheduleState cj childJobs now enable).decision.JobsToCreate = [] ∧
    (makeDecision env scheduleState cj childJobs now enable).decision.JobsToSuspend = [] ∧
    (makeDecision env scheduleState cj childJobs now enable).decision.JobsToUnsuspend = [] ∧
    (makeDecision env scheduleState cj childJobs now enable).decision.RequeueAt = Time.zero ∧
    (makeDecision env scheduleState cj childJobs now enable).controlledJob.status.isSuspended =
      some true ∧
    (∃ cond, FindCondition (makeDecision env scheduleState cj childJobs now enable).controlledJob.status
      ConditionTypeSuspended = some cond ∧ cond.status = ConditionTrue) := by
  subst hvalid
  have hstate : ∃ state, buildState env (.ok ss) cj childJobs = .ok state ∧
      state.IsSuspended = true := by
    refine ⟨_, rfl, ?_⟩
    simp [hsuspend]
  obtain ⟨state, hstate, hs⟩ := hstate
  obtain ⟨h1, h2, _, h4, h5⟩ :=
    makeDecision_suspended env (.ok ss) cj childJobs now enable state hstate hs
  refine ⟨h1, ?_, ?_, ?_, ?_, ?_, ?_, h4, h5⟩ <;> rw [h2]
  · exact pointersFrom_map_job 0 childJobs
  all_goals rfl

/-- C10 at work: the suspended example ControlledJob with one running child. -/
theorem suspend_short_circuit_witness :
    suspendedControlledJob.spec.suspend = some true ∧
    (makeDecision exampleEnv insideRunPeriod suspendedControlledJob [runningJob] exampleNow
      false).decision.JobsToDelete = pointersFrom 0 [runningJob] :=
  ⟨rfl, (suspend_short_circuit exampleEnv insideRunPeriod _ suspendedControlledJob [runningJob]
    exampleNow false rfl rfl).2.1⟩

/-! ## The final chosen job, when it is a child -/

/-- When a successful `makeDecision` ends with a child as the chosen job, that child is the one
the second loop selected, it is inside the run period or manually scheduled, it is not being
replaced, and nothing is created. -/
theorem chosenJob_child (env : Env) (scheduleState : Except String ScheduleState)
    (cj : ControlledJob) (childJobs : List Job) (now : Time) (enable : Bool) (state : State)
    (hstate : buildState env scheduleState cj childJobs = .ok state)
    (hsus : state.IsSuspended = false)
    (hok : (makeDecision env scheduleState cj childJobs now enable).err = none)
    (c : JobRef) (hc : c ∈ pointersFrom 0 childJobs) :
    (makeDecision env scheduleState cj childJobs now enable).chosenJob = some c ↔
      ((classifyJobs env state state.AllJobs).chosenJob = some c ∧
        (shouldBeRunningOf state = true ∨ IsManuallyScheduledJob c.job = true) ∧
        shouldRecreate state (enable && state.AutoRestartIsEnabled) c.job = false) := by
  rcases makeDecision_cases env scheduleState cj childJobs now enable state hstate hsus with
    ⟨hs, hsel, hp⟩ | ⟨c0, hsel, hin, hre, hp⟩ | ⟨_, _, _, _, _, _, herr⟩ |
    ⟨c0, built, hsel, _, hre, _, hp⟩ |
    ⟨_, _, _, herr, _⟩ | ⟨_, _, _, _, herr⟩ | ⟨_, _, _, _, _, _, _, herr⟩ |
    ⟨start, built, _, hsel, _, _, _, hp⟩
  · rw [hp.chosen]
    constructor
    · intro h; exact absurd h (by simp)
    · rintro ⟨h1, h2, _⟩
      rcases hsel with hsel | ⟨c1, hsel, hman⟩
      · rw [hsel] at h1; exact absurd h1 (by simp)
      · rw [hsel] at h1
        have : c1 = c := by simpa using h1
        subst this
        rcases h2 with h2 | h2
        · rw [hs] at h2; exact absurd h2 (by simp)
        · rw [hman] at h2; exact absurd h2 (by simp)
  · rw [hp.chosen, hsel]
    constructor
    · intro h
      have : c0 = c := by simpa using h
      subst this
      exact ⟨rfl, hin, hre⟩
    · rintro ⟨h1, _, _⟩; exact h1
  · rw [herr] at hok; exact absurd hok (by simp)
  · rw [hp.chosen, hsel]
    constructor
    · intro h
      exact absurd (Option.some.inj h) (emittedRef_ne_child _ built hc)
    · rintro ⟨h1, _, h3⟩
      have : c0 = c := by simpa using h1
      subst this
      rw [hre] at h3; exact absurd h3 (by simp)
  · rw [herr] at hok; exact absurd hok (by simp)
  · rw [herr] at hok; exact absurd hok (by simp)
  · rw [herr] at hok; exact absurd hok (by simp)
  · rw [hp.chosen, hsel]
    constructor
    · intro h
      exact absurd (Option.some.inj h) (emittedRef_ne_child _ built hc)
    · rintro ⟨h1, _, _⟩; exact absurd h1 (by simp)

/-! ## C5: outside the run period -/

/-- C5 (amended). Stop outside the window: for every successful `makeDecision` with
`shouldBeRunning = false`, every child that is not annotated manually-scheduled is in
`JobsToDelete`, or is already being deleted, or is Completed/Failed. -/
theorem stop_outside_window (env : Env) (scheduleState : Except String ScheduleState)
    (cj : ControlledJob) (childJobs : List Job) (now : Time) (enable : Bool) (state : State)
    (hstate : buildState env scheduleState cj childJobs = .ok state)
    (hstop : shouldBeRunningOf state = false)
    (hok : (makeDecision env scheduleState cj childJobs now enable).err = none) :
    ∀ c ∈ pointersFrom 0 childJobs, IsManuallyScheduledJob c.job = false →
      c ∈ (makeDecision env scheduleState cj childJobs now enable).decision.JobsToDelete ∨
        IsJobBeingDeleted c.job = true ∨ IsJobCompleted c.job = true := by
  intro c hc hman
  cases hsus : state.IsSuspended with
  | true =>
    left
    rw [(makeDecision_suspended env scheduleState cj childJobs now enable state hstate hsus).2.1]
    exact hc
  | false =>
    have key := (JobsToDelete_characterised env scheduleState cj childJobs now enable state
      hstate hsus hok).1 c hc
    have hch := chosenJob_child env scheduleState cj childJobs now enable state hstate hsus hok
      c hc
    have hne : (makeDecision env scheduleState cj childJobs now enable).chosenJob ≠ some c := by
      intro h
      rcases (hch.mp h).2.1 with h2 | h2
      · rw [hstop] at h2; exact absurd h2 (by simp)
      · rw [hman] at h2; exact absurd h2 (by simp)
    cases hd : IsJobBeingDeleted c.job with
    | true => exact Or.inr (Or.inl rfl)
    | false =>
      cases hcomp : IsJobCompleted c.job with
      | true => exact Or.inr (Or.inr rfl)
      | false =>
        left
        rw [key]
        refine ⟨hd, ?_⟩
        cases hexp : isExpired env state.LastStopTime c.job with
        | true => exact Or.inl rfl
        | false => exact Or.inr ⟨rfl, hne, hcomp⟩

/-- C5 as stated fails: outside the run period, a child that is not manually scheduled, has no
Complete or Failed condition and is already being deleted is left out of `JobsToDelete`. -/
theorem stop_outside_window_counterexample :
    (makeDecision exampleEnv outsideRunPeriod exampleControlledJob [beingDeletedJob]
      exampleEarlyMorning false).err = none ∧
    buildState exampleEnv outsideRunPeriod exampleControlledJob [beingDeletedJob] =
      .ok (outsideState [beingDeletedJob]) ∧
    shouldBeRunningOf (outsideState [beingDeletedJob]) = false ∧
    IsManuallyScheduledJob beingDeletedJob = false ∧
    IsJobCompleted beingDeletedJob = false ∧
    (makeDecision exampleEnv outsideRunPeriod exampleControlledJob [beingDeletedJob]
      exampleEarlyMorning false).decision.JobsToDelete = [] := by
  refine ⟨?_, rfl, rfl, ?_, ?_, ?_⟩ <;> decide

/-- C5 (amended) at work: outside the run period a running child of the previous period is
deleted. -/
theorem stop_outside_window_witness :
    shouldBeRunningOf (outsideState [runningJob]) = false ∧
    ({ ptr := JobPtr.child 0, job := runningJob } ∈
        (makeDecision exampleEnv outsideRunPeriod exampleControlledJob [runningJob]
          exampleEarlyMorning false).decision.JobsToDelete ∨
      IsJobBeingDeleted runningJob = true ∨ IsJobCompleted runningJob = true) :=
  ⟨rfl, stop_outside_window exampleEnv outsideRunPeriod exampleControlledJob [runningJob]
    exampleEarlyMorning false (outsideState [runningJob]) rfl rfl (by decide)
    { ptr := JobPtr.child 0, job := runningJob } (by simp [pointersFrom]) (by decide)⟩

/-! ## C6: manually scheduled jobs outside the run period -/

/-- C6 (amended). Manually scheduled Jobs outside their window: when the ControlledJob is not
suspended, whatever the value of `shouldBeRunning` (so in particular when it is false), a
successful `makeDecision` places a non-expired child annotated `is-manually-scheduled=true`
in `JobsToDelete` exactly when it is not being deleted already, not Completed/Failed, and either is not the job the selection picks among the
non-expired children or is being replaced because its spec is out of date. In particular the
selected manual job that is not being replaced stays the chosen job and is not deleted. Once a
later stop event makes it expired it is deleted, unless it is being deleted already. -/
theorem manual_job_outside_window (env : Env) (scheduleState : Except String ScheduleState)
    (cj : ControlledJob) (childJobs : List Job) (now : Time) (enable : Bool) (state : State)
    (hstate : buildState env scheduleState cj childJobs = .ok state)
    (hns : cj.spec.suspend ≠ some true)
    (hok : (makeDecision env scheduleState cj childJobs now enable).err = none) :
    ∀ c ∈ pointersFrom 0 childJobs, IsManuallyScheduledJob c.job = true →
      (isExpired env state.LastStopTime c.job = false →
        (c ∈ (makeDecision env scheduleState cj childJobs now enable).decision.JobsToDelete ↔
          IsJobBeingDeleted c.job = false ∧ IsJobCompleted c.job = false ∧
            ((classifyJobs env state state.AllJobs).chosenJob ≠ some c ∨
              shouldRecreate state (enable && state.AutoRestartIsEnabled) c.job = true))) ∧
      (isExpired env state.LastStopTime c.job = false →
        (classifyJobs env state state.AllJobs).chosenJob = some c →
        shouldRecreate state (enable && state.AutoRestartIsEnabled) c.job = false →
        (makeDecision env scheduleState cj childJobs now enable).chosenJob = some c ∧
          c ∉ (makeDecision env scheduleState cj childJobs now enable).decision.JobsToDelete) ∧
      (isExpired env state.LastStopTime c.job = true → IsJobBeingDeleted c.job = false →
        c ∈ (makeDecision env scheduleState cj childJobs now enable).decision.JobsToDelete) := by
  intro c hc hman
  have hsus := not_suspended_of_spec hstate hns
  have key := (JobsToDelete_characterised env scheduleState cj childJobs now enable state
    hstate hsus hok).1 c hc
  have hch := chosenJob_child env scheduleState cj childJobs now enable state hstate hsus hok
    c hc
  have hiff : (makeDecision env scheduleState cj childJobs now enable).chosenJob ≠ some c ↔
      ((classifyJobs env state state.AllJobs).chosenJob ≠ some c ∨
        shouldRecreate state (enable && state.AutoRestartIsEnabled) c.job = true) := by
    rw [Ne, hch]
    constructor
    · intro h
      by_cases hsel : (classifyJobs env state state.AllJobs).chosenJob = some c
      · right
        cases hre : shouldRecreate state (enable && state.AutoRestartIsEnabled) c.job with
        | true => rfl
        | false => exact absurd ⟨hsel, Or.inr hman, hre⟩ h
      · exact Or.inl hsel
    · rintro (h | h) ⟨h1, _, h3⟩
      · exact h h1
      · rw [h] at h3; exact absurd h3 (by simp)
  refine ⟨fun hexp => ?_, fun hexp hsel hre => ?_, fun hexp hd => ?_⟩
  · rw [key, hexp, ← hiff]
    simp only [Bool.false_eq_true, false_or, true_and]
    exact and_congr_right fun _ => and_comm
  · have h1 := hch.mpr ⟨hsel, Or.inr hman, hre⟩
    refine ⟨h1, ?_⟩
    rw [key, hexp]
    simp [h1]
  · rw [key]
    exact ⟨hd, Or.inl hexp⟩

/-- C6 as stated fails: outside the run period, of two non-expired children annotated
`is-manually-scheduled=true` the one with the lesser name is placed in `JobsToDelete`. -/
theorem manual_job_outside_window_counterexample :
    (makeDecision exampleEnv outsideRunPeriod exampleControlledJob
      [manualJob "basic-job-manual-a" "0", manualJob "basic-job-manual-b" "1"]
      exampleEarlyMorning false).err = none ∧
    buildState exampleEnv outsideRunPeriod exampleControlledJob
      [manualJob "basic-job-manual-a" "0", manualJob "basic-job-manual-b" "1"] =
      .ok (outsideState [manualJob "basic-job-manual-a" "0", manualJob "basic-job-manual-b" "1"]) ∧
    shouldBeRunningOf
      (outsideState [manualJob "basic-job-manual-a" "0", manualJob "basic-job-manual-b" "1"]) =
      false ∧
    exampleControlledJob.spec.suspend = none ∧
    IsManuallyScheduledJob (manualJob "basic-job-manual-a" "0") = true ∧
    isExpired exampleEnv (some exampleLastStop) (manualJob "basic-job-manual-a" "0") = false ∧
    (makeDecision exampleEnv outsideRunPeriod exampleControlledJob
      [manualJob "basic-job-manual-a" "0", manualJob "basic-job-manual-b" "1"]
      exampleEarlyMorning false).decision.JobsToDelete =
      [{ ptr := JobPtr.child 0, job := manualJob "basic-job-manual-a" "0" }] := by
  refine ⟨?_, rfl, rfl, rfl, ?_, ?_, ?_⟩ <;> decide

/-- C6 (amended) at work: a single manually scheduled child outside the run period is kept. -/
theorem manual_job_outside_window_witness :
    shouldBeRunningOf (outsideState [manualJob "basic-job-manual-a" "0"]) = false ∧
    ((makeDecision exampleEnv outsideRunPeriod exampleControlledJob
        [manualJob "basic-job-manual-a" "0"] exampleEarlyMorning false).chosenJob =
        some { ptr := JobPtr.child 0, job := manualJob "basic-job-manual-a" "0" } ∧
      { ptr := JobPtr.child 0, job := manualJob "basic-job-manual-a" "0" } ∉
        (makeDecision exampleEnv outsideRunPeriod exampleControlledJob
          [manualJob "basic-job-manual-a" "0"] exampleEarlyMorning false).decision.JobsToDelete) :=
  ⟨rfl, (manual_job_outside_window exampleEnv outsideRunPeriod exampleControlledJob
    [manualJob "basic-job-manual-a" "0"] exampleEarlyMorning false
    (outsideState [manualJob "basic-job-manual-a" "0"]) rfl (by decide) (by decide)
    { ptr := JobPtr.child 0, job := manualJob "basic-job-manual-a" "0" }
    (by simp [pointersFrom]) (by decide)).2.1 (by decide) (by decide) (by decide)⟩

/-! ## C1: when a Job is unsuspended -/

theorem eq_of_filter_length_one {α : Type} (p : α → Bool) (l : List α)
    (h : (l.filter p).length = 1) {a b : α} (ha : a ∈ l) (hb : b ∈ l) (pa : p a = true)
    (pb : p b = true) : a = b := by
  obtain ⟨x, hx⟩ := List.length_eq_one.mp h
  have h1 : a ∈ l.filter p := List.mem_filter.mpr ⟨ha, pa⟩
  have h2 : b ∈ l.filter p := List.mem_filter.mpr ⟨hb, pb⟩
  rw [hx] at h1 h2
  rw [List.mem_singleton.mp h1, List.mem_singleton.mp h2]

theorem all_false_of_filter_length_zero {α : Type} (p : α → Bool) (l : List α)
    (h : (l.filter p).length = 0) {a : α} (ha : a ∈ l) : p a = false := by
  have hnil := List.length_eq_zero.mp h
  cases hp : p a with
  | false => rfl
  | true =>
    have : a ∈ l.filter p := List.mem_filter.mpr ⟨ha, hp⟩
    rw [hnil] at this
    exact absurd this (List.not_mem_nil a)

theorem safeToUnsuspend_iff (n : Nat) (job : Job) :
    safeToUnsuspend n job = true ↔
      n = 1 ∧ IsJobSuspended job = true ∧ IsJobBeingDeleted job = false ∧
        WasJobStoppedByTheUser job = false := by
  unfold safeToUnsuspend
  simp [and_assoc]

/-- A Job built with `startSuspended = true` that no mutator touches is suspended. -/
theorem buildJob_suspended (env : Env) (cj : ControlledJob) (t : Time) (id : Int)
    (manual : Bool) (built : Job) (h : noMutatorApplies env cj = true)
    (hb : buildJob env cj t id manual true = .ok built) : built.spec.suspend = some true := by
  obtain ⟨job, h1, _, h3, _⟩ := buildJob_plain env cj t id manual true h
  rw [h1] at hb
  have : job = built := by simpa using hb
  rw [← this, h3]
  rfl

theorem RecreateJobWithNewSpec_ok (env : Env) (old : Job) (cj : ControlledJob) (id : Int)
    (suspended : Bool) (built : Job)
    (h : RecreateJobWithNewSpec env old cj id suspended = .ok built) :
    ∃ t, GetScheduledTime env old = some t ∧
      buildJob env cj t id (IsManuallyScheduledJob old) suspended = .ok built := by
  unfold RecreateJobWithNewSpec at h
  cases ht : GetScheduledTime env old with
  | none => rw [ht] at h; exact absurd h (by simp)
  | some t => rw [ht] at h; exact ⟨t, rfl, h⟩

/-- The Job emitted for a suspended built Job has its suspend flag cleared only when the count
of potentially running jobs, the new one included, is one. -/
theorem emittedRef_suspend_none (n : Nat) (built : Job) (hb : built.spec.suspend = some true)
    (h : (emittedRef (n + 1) built).job.spec.suspend = none) : n = 0 := by
  unfold emittedRef at h
  by_cases hs : safeToUnsuspend (n + 1) built = true
  · have := ((safeToUnsuspend_iff _ _).mp hs).1
    omega
  · rw [if_neg hs] at h
    simp [createdRef, hb] at h

/-- What `makeDecision` guarantees of the Jobs it unsuspends and creates. For every successful
`makeDecision`, a Job J placed in `JobsToUnsuspend` is the chosen job, is a suspended child that is neither being deleted nor
stopped by the user, nothing is created, and exactly one child is potentially running; that
child is J itself unless J is already Completed/Failed, so that when J is potentially running
every other child has a Complete or Failed condition with status True. A Job is emitted in
`JobsToCreate` only as the chosen job, and, when no mutator rewrites the built Job, with its
suspend flag cleared only if every child has a Complete or Failed condition with status True. -/
theorem safety_unsuspend (env : Env) (scheduleState : Except String ScheduleState)
    (cj : ControlledJob) (childJobs : List Job) (now : Time) (enable : Bool)
    (hok : (makeDecision env scheduleState cj childJobs now enable).err = none) :
    (∀ J ∈ (makeDecision env scheduleState cj childJobs now enable).decision.JobsToUnsuspend,
      (makeDecision env scheduleState cj childJobs now enable).chosenJob = some J ∧
      J ∈ pointersFrom 0 childJobs ∧
      (makeDecision env scheduleState cj childJobs now enable).decision.JobsToCreate = [] ∧
      IsJobSuspended J.job = true ∧ IsJobBeingDeleted J.job = false ∧
      WasJobStoppedByTheUser J.job = false ∧
      ((pointersFrom 0 childJobs).filter (fun c => IsJobPotentiallyRunning c.job)).length = 1 ∧
      (IsJobPotentiallyRunning J.job = true →
        ∀ c ∈ pointersFrom 0 childJobs, c ≠ J → IsJobCompleted c.job = true)) ∧
    (∀ J ∈ (makeDecision env scheduleState cj childJobs now enable).decision.JobsToCreate,
      (makeDecision env scheduleState cj childJobs now enable).chosenJob = some J ∧
      (J.job.spec.suspend = none → noMutatorApplies env cj = true →
        ∀ c ∈ pointersFrom 0 childJobs, IsJobCompleted c.job = true)) := by
  cases hstate : buildState env scheduleState cj childJobs with
  | error e =>
    rw [makeDecision_schedule_error env scheduleState cj childJobs now enable e hstate] at hok
    exact absurd hok (by simp)
  | ok state =>
    obtain ⟨ss, _, hall, _⟩ := buildState_ok hstate
    have hcount := classifyJobs_count env state state.AllJobs
    rw [hall] at hcount
    have hzero : ∀ built : Job, built.spec.suspend = some true →
        (emittedRef ((classifyJobs env state state.AllJobs).numberOfPotentiallyRunningJobs + 1)
          built).job.spec.suspend = none →
        ∀ c ∈ pointersFrom 0 childJobs, IsJobCompleted c.job = true := by
      intro built hb hnone c hc
      have h0 := emittedRef_suspend_none _ built hb hnone
      rw [hall, hcount] at h0
      have := all_false_of_filter_length_zero (fun c : JobRef => IsJobPotentiallyRunning c.job)
        _ h0 hc
      simpa [IsJobPotentiallyRunning] using this
    cases hsus : state.IsSuspended with
    | true =>
      have h2 :=
        (makeDecision_suspended env scheduleState cj childJobs now enable state hstate hsus).2.1
      rw [h2]
      exact ⟨fun J hJ => absurd hJ (by simp [Decision.zero]),
        fun J hJ => absurd hJ (by simp [Decision.zero])⟩
    | false =>
      rcases makeDecision_cases env scheduleState cj childJobs now enable state hstate hsus with
        ⟨_, _, hp⟩ | ⟨c0, hsel, _, _, hp⟩ | ⟨_, _, _, _, _, _, herr⟩ |
        ⟨c0, built, _, _, _, hbuilt, hp⟩ |
        ⟨_, _, _, herr, _⟩ | ⟨_, _, _, _, herr⟩ | ⟨_, _, _, _, _, _, _, herr⟩ |
        ⟨start, built, _, _, _, _, hbuilt, hp⟩
      · rw [hp.unsuspend, hp.create]
        exact ⟨fun J hJ => absurd hJ (by simp), fun J hJ => absurd hJ (by simp)⟩
      · rw [hp.unsuspend, hp.create, hp.chosen]
        refine ⟨fun J hJ => ?_, fun J hJ => absurd hJ (by simp)⟩
        by_cases hsafe : safeToUnsuspend
            (classifyJobs env state state.AllJobs).numberOfPotentiallyRunningJobs c0.job = true
        · rw [if_pos hsafe] at hJ
          have hJ2 : J = c0 := List.mem_singleton.mp hJ
          subst hJ2
          obtain ⟨h1, h2, h3, h4⟩ := (safeToUnsuspend_iff _ _).mp hsafe
          rw [hall, hcount] at h1
          have hmem := (classifyJobs_chosen_mem env state _ J hsel).1
          rw [hall] at hmem
          refine ⟨rfl, hmem, rfl, h2, h3, h4, h1, fun hrun c hc hne => ?_⟩
          cases hcomp : IsJobCompleted c.job with
          | true => rfl
          | false =>
            have : c = J := eq_of_filter_length_one
              (fun c : JobRef => IsJobPotentiallyRunning c.job) _ h1 hc hmem
              (by simp [IsJobPotentiallyRunning, hcomp]) hrun
            exact absurd this hne
        · rw [if_neg hsafe] at hJ
          exact absurd hJ (by simp)
      · rw [herr] at hok; exact absurd hok (by simp)
      · rw [hp.unsuspend, hp.create, hp.chosen]
        refine ⟨fun J hJ => absurd hJ (by simp), fun J hJ => ?_⟩
        have hJ2 := List.mem_singleton.mp hJ
        subst hJ2
        refine ⟨rfl, fun hnone hmut => ?_⟩
        obtain ⟨t, _, hb⟩ := RecreateJobWithNewSpec_ok env _ cj _ true built hbuilt
        exact hzero built (buildJob_suspended env cj t _ _ built hmut hb) hnone
      · rw [herr] at hok; exact absurd hok (by simp)
      · rw [herr] at hok; exact absurd hok (by simp)
      · rw [herr] at hok; exact absurd hok (by simp)
      · rw [hp.unsuspend, hp.create, hp.chosen]
        refine ⟨fun J hJ => absurd hJ (by simp), fun J hJ => ?_⟩
        have hJ2 := List.mem_singleton.mp hJ
        subst hJ2
        refine ⟨rfl, fun hnone hmut => ?_⟩
        exact hzero built (buildJob_suspended env cj start 0 false built hmut hbuilt) hnone

/-- C1 at the failing input: inside the run period, with the children `basic-job-1670835600-0`
(not suspended, no Complete or Failed condition: the one potentially running job) and
`basic-job-1670835600-1` (suspended, with a Complete condition). `makeDecision` succeeds and
selects the second child; the count of potentially running jobs is one and the chosen job is
suspended, so the chosen job is placed in `JobsToUnsuspend`, although the job that was counted
is the other child, which is only queued for deletion. -/
theorem unsuspend_beside_running_child :
    (makeDecision exampleEnv insideRunPeriod exampleControlledJob
      [runningJob, suspendedCompletedJob] exampleNow false).err = none ∧
    (makeDecision exampleEnv insideRunPeriod exampleControlledJob
      [runningJob, suspendedCompletedJob] exampleNow false).chosenJob =
      some { ptr := JobPtr.child 1, job := suspendedCompletedJob } ∧
    (makeDecision exampleEnv insideRunPeriod exampleControlledJob
      [runningJob, suspendedCompletedJob] exampleNow false).decision.JobsToUnsuspend =
      [{ ptr := JobPtr.child 1, job := suspendedCompletedJob }] ∧
    (makeDecision exampleEnv insideRunPeriod exampleControlledJob
      [runningJob, suspendedCompletedJob] exampleNow false).decision.JobsToDelete =
      [{ ptr := JobPtr.child 0, job := runningJob }] ∧
    IsJobPotentiallyRunning runningJob = true ∧
    IsJobCompleted runningJob = false ∧
    IsJobPotentiallyRunning suspendedCompletedJob = false := by
  refine ⟨?_, ?_, ?_, ?_, ?_, ?_, ?_⟩ <;> decide

/-- An example: a single suspended child inside the run period is unsuspended, and it is the
chosen job. -/
theorem safety_unsuspend_example :
    (makeDecision exampleEnv insideRunPeriod exampleControlledJob [suspendedJob] exampleNow
      false).err = none ∧
    (makeDecision exampleEnv insideRunPeriod exampleControlledJob [suspendedJob] exampleNow
      false).chosenJob = some { ptr := JobPtr.child 0, job := suspendedJob } :=
  ⟨by decide, ((safety_unsuspend exampleEnv insideRunPeriod exampleControlledJob [suspendedJob]
    exampleNow false (by decide)).1 { ptr := JobPtr.child 0, job := suspendedJob }
    (by decide)).1⟩

/-! ## C9: the starting deadline -/

theorem wrapInt64_of_fits (x : Int) (h0 : 0 ≤ x) (h1 : x < 2 ^ 63) : wrapInt64 x = x := by
  unfold wrapInt64
  rw [Int.emod_eq_of_lt (by omega) (by omega)]
  omega

/-- The deadline test in closed form, when the deadline in nanoseconds fits an `int64`. -/
theorem startingDeadlineSecondsExceeded_iff (cj : ControlledJob) (start : Option Time)
    (now : Time) (hfit : deadlineFits cj = true) :
    startingDeadlineSecondsExceeded cj start now = true ↔
      ∃ t d, start = some t ∧ cj.spec.startingDeadlineSeconds = some d ∧ 1 ≤ d ∧
        d * Second < now.unixNano - t.unixNano := by
  unfold startingDeadlineSecondsExceeded
  unfold deadlineFits at hfit
  cases hd : cj.spec.startingDeadlineSeconds with
  | none => simp
  | some d =>
    rw [hd] at hfit
    have hfit2 : Second * d < 2 ^ 63 := by simpa using hfit
    by_cases h1 : d < 1
    · simp only [h1, if_true]
      constructor
      · intro h; exact absurd h (by simp)
      · rintro ⟨t, d2, _, h2, h3, _⟩
        have : d = d2 := by simpa using h2
        omega
    · simp only [h1, if_false]
      cases start with
      | none => simp
      | some t =>
        have hpos : 0 ≤ Second * d := by
          have : (0 : Int) ≤ Second := by decide
          exact Int.mul_nonneg this (by omega)
        simp only [Time.After, Time.Add, wrapInt64_of_fits _ hpos hfit2, decide_eq_true_eq]
        constructor
        · intro h
          exact ⟨t, d, rfl, rfl, by omega, by rw [Int.mul_comm]; omega⟩
        · rintro ⟨t2, d2, h2, h3, _, h5⟩
          have e1 : t = t2 := by simpa using h2
          have e2 : d = d2 := by simpa using h3
          subst e1 e2
          rw [Int.mul_comm] at h5
          omega

/-- C9 (amended). Starting deadline: when the deadline in nanoseconds fits an `int64`,
`makeDecision` fails with the starting-deadline-exceeded error exactly when the schedule is
valid, the ControlledJob is not suspended, a job needs to be started (`shouldBeRunning` is true
and every child is expired, so there is no chosen job), `startingDeadlineSeconds` is set to a
value of at least 1, and `now − startOfCurrentRunPeriod > startingDeadlineSeconds`. In every
successful decision on a ControlledJob that is not suspended the `StartingDeadlineExceeded`
condition is present and not True. -/
theorem starting_deadline (env : Env) (scheduleState : Except String ScheduleState)
    (cj : ControlledJob) (childJobs : List Job) (now : Time) (enable : Bool)
    (hfit : deadlineFits cj = true) :
    ((makeDecision env scheduleState cj childJobs now enable).err =
        some DecisionError.startingDeadlineExceeded ↔
      ∃ state start d, buildState env scheduleState cj childJobs = .ok state ∧
        state.IsSuspended = false ∧ shouldBeRunningOf state = true ∧
        (∀ j ∈ childJobs, isExpired env state.LastStopTime j = true) ∧
        state.StartOfCurrentRunPeriod = some start ∧
        cj.spec.startingDeadlineSeconds = some d ∧ 1 ≤ d ∧
        d * Second < now.unixNano - start.unixNano) ∧
    ((makeDecision env scheduleState cj childJobs now enable).err = none →
      cj.spec.suspend ≠ some true →
      ∃ cond, FindCondition (makeDecision env scheduleState cj childJobs now enable).controlledJob.status
        ConditionTypeStartingDeadlineExceeded = some cond ∧ cond.status ≠ ConditionTrue) := by
  have hF : ConditionFalse ≠ ConditionTrue := by decide
  have hU : ConditionUnknown ≠ ConditionTrue := by decide
  cases hstate : buildState env scheduleState cj childJobs with
  | error e =>
    rw [makeDecision_schedule_error env scheduleState cj childJobs now enable e hstate]
    obtain ⟨cause, he⟩ := buildState_error hstate
    subst he
    refine ⟨⟨fun h => absurd h (by simp), ?_⟩, fun h => absurd h (by simp)⟩
    rintro ⟨_, _, _, h, _⟩
    exact absurd h (by simp)
  | ok state =>
    obtain ⟨ss, _, hall, _⟩ := buildState_ok hstate
    have hnone := selection_none_iff env state childJobs
    rw [← hall] at hnone
    cases hsus : state.IsSuspended with
    | true =>
      have h1 :=
        (makeDecision_suspended env scheduleState cj childJobs now enable state hstate hsus).1
      rw [h1]
      refine ⟨⟨fun h => absurd h (by simp), ?_⟩, fun _ hns => ?_⟩
      · rintro ⟨state2, _, _, h, h2, _⟩
        have : state2 = state := by simpa using h.symm
        subst this
        rw [hsus] at h2
        exact absurd h2 (by simp)
      · rw [not_suspended_of_spec hstate hns] at hsus
        exact absurd hsus (by simp)
    | false =>
      have hex := startingDeadlineSecondsExceeded_iff cj state.StartOfCurrentRunPeriod now hfit
      have hback : ∀ state2 start d,
          (Except.ok state : Except DecisionError State) = Except.ok state2 →
          shouldBeRunningOf state2 = true →
          (∀ j ∈ childJobs, isExpired env state2.LastStopTime j = true) →
          state2.StartOfCurrentRunPeriod = some start →
          cj.spec.startingDeadlineSeconds = some d → 1 ≤ d →
          d * Second < now.unixNano - start.unixNano →
          shouldBeRunningOf state = true ∧
            (classifyJobs env state state.AllJobs).chosenJob = none ∧
            startingDeadlineSecondsExceeded cj state.StartOfCurrentRunPeriod now = true := by
        intro state2 start d h h1 h2 h3 h4 h5 h6
        have : state = state2 := by simpa using h
        subst this
        exact ⟨h1, hnone.mpr h2, hex.mpr ⟨start, d, h3, h4, h5, h6⟩⟩
      rcases makeDecision_cases env scheduleState cj childJobs now enable state hstate hsus with
        ⟨hs, _, hp⟩ | ⟨c0, hsel, _, _, hp⟩ | ⟨c0, e, hsel, _, _, _, herr⟩ |
        ⟨c0, built, hsel, _, _, _, hp⟩ |
        ⟨hs, hsel, hexc, herr, _⟩ | ⟨_, _, hexc, _, herr⟩ | ⟨_, _, _, _, hexc, _, _, herr⟩ |
        ⟨start, built, _, _, hexc, _, _, hp⟩
      · rw [hp.err]
        refine ⟨⟨fun h => absurd h (by simp), ?_⟩, fun _ _ => ?_⟩
        · rintro ⟨state2, start, d, h, _, h1, h2, h3, h4, h5, h6⟩
          have := (hback state2 start d h h1 h2 h3 h4 h5 h6).1
          rw [hs] at this
          exact absurd this (by simp)
        · obtain ⟨cond, h1, h2⟩ := hp.deadlineCondition
          exact ⟨cond, h1, by rw [h2]; exact hU⟩
      · rw [hp.err]
        refine ⟨⟨fun h => absurd h (by simp), ?_⟩, fun _ _ => ?_⟩
        · rintro ⟨state2, start, d, h, _, h1, h2, h3, h4, h5, h6⟩
          have := (hback state2 start d h h1 h2 h3 h4 h5 h6).2.1
          rw [hsel] at this
          exact absurd this (by simp)
        · obtain ⟨cond, h1, h2⟩ := hp.deadlineCondition
          exact ⟨cond, h1, by rw [h2]; exact hU⟩
      · rw [herr]
        refine ⟨⟨fun h => absurd h (by simp), ?_⟩, fun h => absurd h (by simp)⟩
        rintro ⟨state2, start, d, h, _, h1, h2, h3, h4, h5, h6⟩
        have := (hback state2 start d h h1 h2 h3 h4 h5 h6).2.1
        rw [hsel] at this
        exact absurd this (by simp)
      · rw [hp.err]
        refine ⟨⟨fun h => absurd h (by simp), ?_⟩, fun _ _ => ?_⟩
        · rintro ⟨state2, start, d, h, _, h1, h2, h3, h4, h5, h6⟩
          have := (hback state2 start d h h1 h2 h3 h4 h5 h6).2.1
          rw [hsel] at this
          exact absurd this (by simp)
        · obtain ⟨cond, h1, h2⟩ := hp.deadlineCondition
          exact ⟨cond, h1, by rw [h2]; exact hU⟩
      · rw [herr]
        refine ⟨⟨fun _ => ?_, fun _ => rfl⟩, fun h => absurd h (by simp)⟩
        obtain ⟨t, d, h1, h2, h3, h4⟩ := hex.mp hexc
        exact ⟨state, t, d, rfl, hsus, hs, hnone.mp hsel, h1, h2, h3, h4⟩
      · rw [herr]
        refine ⟨⟨fun h => absurd h (by simp), ?_⟩, fun h => absurd h (by simp)⟩
        rintro ⟨state2, start, d, h, _, h1, h2, h3, h4, h5, h6⟩
        have := (hback state2 start d h h1 h2 h3 h4 h5 h6).2.2
        rw [hexc] at this
        exact absurd this (by simp)
      · rw [herr]
        refine ⟨⟨fun h => absurd h (by simp), ?_⟩, fun h => absurd h (by simp)⟩
        rintro ⟨state2, start, d, h, _, h1, h2, h3, h4, h5, h6⟩
        have := (hback state2 start d h h1 h2 h3 h4 h5 h6).2.2
        rw [hexc] at this
        exact absurd this (by simp)
      · rw [hp.err]
        refine ⟨⟨fun h => absurd h (by simp), ?_⟩, fun _ _ => ?_⟩
        · rintro ⟨state2, start, d, h, _, h1, h2, h3, h4, h5, h6⟩
          have := (hback state2 start d h h1 h2 h3 h4 h5 h6).2.2
          rw [hexc] at this
          exact absurd this (by simp)
        · obtain ⟨cond, h1, h2⟩ := hp.deadlineCondition
          exact ⟨cond, h1, by rw [h2]; exact hF⟩

/-- C9 as stated fails: with `startingDeadlineSeconds` set to 0, a job to start and
`now − startOfCurrentRunPeriod` positive, `makeDecision` returns no error and creates the
Job. -/
theorem starting_deadline_counterexample :
    buildState exampleEnv insideRunPeriod zeroDeadlineControlledJob [] = .ok (insideState []) ∧
    shouldBeRunningOf (insideState []) = true ∧
    (classifyJobs exampleEnv (insideState []) (insideState []).AllJobs).chosenJob = none ∧
    zeroDeadlineControlledJob.spec.startingDeadlineSeconds = some 0 ∧
    0 * Second < exampleNow.unixNano - exampleStart.unixNano ∧
    (makeDecision exampleEnv insideRunPeriod zeroDeadlineControlledJob [] exampleNow false).err =
      none ∧
    (makeDecision exampleEnv insideRunPeriod zeroDeadlineControlledJob [] exampleNow
      false).decision.JobsToCreate.length = 1 := by
  refine ⟨rfl, rfl, rfl, rfl, ?_, ?_, ?_⟩ <;> decide

/-- The suspend short-circuit returns before the `StartingDeadlineExceeded` condition is
written: a condition left True by an earlier reconcile is still True after a successful
decision on the suspended ControlledJob. -/
theorem stale_deadline_condition_when_suspended :
    (makeDecision exampleEnv insideRunPeriod staleSuspendedControlledJob [] exampleNow false).err =
      none ∧
    (FindCondition (makeDecision exampleEnv insideRunPeriod staleSuspendedControlledJob []
      exampleNow false).controlledJob.status ConditionTypeStartingDeadlineExceeded).map
        (·.status) = some ConditionTrue := by
  refine ⟨?_, ?_⟩ <;> decide

/-- C9 (amended) at work: with a deadline of one hour and no child at 12:12, more than three
hours after the start of the run period at 09:00, the decision fails. -/
theorem starting_deadline_witness :
    deadlineFits deadlineControlledJob = true ∧
    (makeDecision exampleEnv insideRunPeriod deadlineControlledJob [] exampleNow false).err =
      some DecisionError.startingDeadlineExceeded :=
  ⟨by decide, (starting_deadline exampleEnv insideRunPeriod deadlineControlledJob [] exampleNow
    false (by decide)).1.mpr ⟨insideState [], exampleStart, 3600, rfl, rfl, rfl, by simp, rfl,
      rfl, by decide, by decide⟩⟩

/-! ## C7: when an out-of-date job is replaced -/

theorem count_pos_of_running (env : Env) (state : State) (c : JobRef) (hc : c ∈ state.AllJobs)
    (hrun : IsJobPotentiallyRunning c.job = true) :
    1 ≤ (classifyJobs env state state.AllJobs).numberOfPotentiallyRunningJobs := by
  rw [classifyJobs_count]
  exact List.length_pos_of_mem (List.mem_filter.mpr ⟨hc, hrun⟩)

/-- With a potentially running job already counted, the created Job is emitted as built. -/
theorem emittedRef_of_running (n : Nat) (built : Job) (h : 1 ≤ n) :
    emittedRef (n + 1) built = createdRef built := by
  unfold emittedRef
  have : safeToUnsuspend (n + 1) built = false := by
    cases hs : safeToUnsuspend (n + 1) built with
    | false => rfl
    | true =>
      have := ((safeToUnsuspend_iff _ _).mp hs).1
      omega
  rw [this]
  rfl

theorem shouldRecreate_iff (state : State) (restart : Bool) (job : Job)
    (hout : isOutOfDate job state = true) :
    shouldRecreate state restart job = true ↔
      restart = true ∧ IsJobPotentiallyRunning job = true ∧ WasJobStoppedByTheUser job = false ∧
        IsJobBeingDeleted job = false := by
  unfold shouldRecreate
  rw [hout]
  cases restart <;> cases IsJobPotentiallyRunning job <;> cases WasJobStoppedByTheUser job <;>
    cases IsJobBeingDeleted job <;> simp

theorem isOutOfDate_iff (job : Job) (state : State) :
    isOutOfDate job state = true ↔
      job.annotations.get TemplateHashAnnotation ≠ "" ∧
        job.annotations.get TemplateHashAnnotation ≠ state.DesiredHash := by
  unfold isOutOfDate
  simp

/-- C7 (amended). Out-of-date gating: let the chosen job (the selected non-expired child, kept
because the schedule says to run or because it is manually scheduled) carry a non-empty
template hash that differs from the desired hash. If auto-recreate is enabled, the
specChangePolicy is Recreate, and the chosen job is potentially running, not user-stopped and
not being deleted, `makeDecision` builds a replacement: when the builder succeeds the
replacement is the one Job created, it becomes the chosen job and the OutOfDate condition is
False; when the builder fails the decision fails with "Failed to create job". In every other
case `makeDecision` succeeds, creates nothing, keeps the job as chosen and sets the OutOfDate
condition to True. -/
theorem out_of_date_gating (env : Env) (scheduleState : Except String ScheduleState)
    (cj : ControlledJob) (childJobs : List Job) (now : Time) (enable : Bool) (state : State)
    (c : JobRef)
    (hstate : buildState env scheduleState cj childJobs = .ok state)
    (hns : cj.spec.suspend ≠ some true)
    (hsel : (classifyJobs env state state.AllJobs).chosenJob = some c)
    (hin : shouldBeRunningOf state = true ∨ IsManuallyScheduledJob c.job = true)
    (hhash : c.job.annotations.get TemplateHashAnnotation ≠ "")
    (hdiff : c.job.annotations.get TemplateHashAnnotation ≠
      CalculateHashFor env cj.spec.jobTemplate) :
    ((enable = true ∧ equalFoldRecreate cj.spec.restartStrategy.specChangePolicy = true ∧
        IsJobPotentiallyRunning c.job = true ∧ WasJobStoppedByTheUser c.job = false ∧
        IsJobBeingDeleted c.job = false) →
      (∀ built, RecreateJobWithNewSpec env c.job cj
          (wrapInt64 ((scanRunIds state state.AllJobs).maxJobRunId + 1)) true = .ok built →
        (makeDecision env scheduleState cj childJobs now enable).err = none ∧
        (makeDecision env scheduleState cj childJobs now enable).decision.JobsToCreate =
          [createdRef built] ∧
        (makeDecision env scheduleState cj childJobs now enable).chosenJob =
          some (createdRef built) ∧
        ∃ cond, FindCondition
          (makeDecision env scheduleState cj childJobs now enable).controlledJob.status
          ConditionTypeOutOfDate = some cond ∧ cond.status = ConditionFalse) ∧
      (∀ e, RecreateJobWithNewSpec env c.job cj
          (wrapInt64 ((scanRunIds state state.AllJobs).maxJobRunId + 1)) true = .error e →
        (makeDecision env scheduleState cj childJobs now enable).err =
          some (DecisionError.failedToCreateJob e))) ∧
    (¬(enable = true ∧ equalFoldRecreate cj.spec.restartStrategy.specChangePolicy = true ∧
        IsJobPotentiallyRunning c.job = true ∧ WasJobStoppedByTheUser c.job = false ∧
        IsJobBeingDeleted c.job = false) →
      (makeDecision env scheduleState cj childJobs now enable).err = none ∧
      (makeDecision env scheduleState cj childJobs now enable).decision.JobsToCreate = [] ∧
      (makeDecision env scheduleState cj childJobs now enable).chosenJob = some c ∧
      ∃ cond, FindCondition
        (makeDecision env scheduleState cj childJobs now enable).controlledJob.status
        ConditionTypeOutOfDate = some cond ∧ cond.status = ConditionTrue) := by
  have hsus := not_suspended_of_spec hstate hns
  obtain ⟨ss, _, hall, _, _, _, _, _, hdes, hauto⟩ := buildState_ok hstate
  have hout : isOutOfDate c.job state = true := by
    rw [isOutOfDate_iff, hdes]
    exact ⟨hhash, hdiff⟩
  have hR : (enable = true ∧ equalFoldRecreate cj.spec.restartStrategy.specChangePolicy = true ∧
        IsJobPotentiallyRunning c.job = true ∧ WasJobStoppedByTheUser c.job = false ∧
        IsJobBeingDeleted c.job = false) ↔
      shouldRecreate state (enable && state.AutoRestartIsEnabled) c.job = true := by
    rw [shouldRecreate_iff _ _ _ hout, hauto]
    simp [and_assoc]
  rcases makeDecision_cases env scheduleState cj childJobs now enable state hstate hsus with
    ⟨hs, hsel2, _⟩ | ⟨c0, hsel2, _, hre2, hp⟩ | ⟨c0, e0, hsel2, _, hre2, hb, herr⟩ |
    ⟨c0, built0, hsel2, _, hre2, hb, hp⟩ |
    ⟨_, hsel2, _⟩ | ⟨_, hsel2, _⟩ | ⟨_, _, _, hsel2, _⟩ | ⟨_, _, _, hsel2, _⟩
  · rcases hsel2 with hsel2 | ⟨c1, hsel2, hman⟩
    · rw [hsel] at hsel2; exact absurd hsel2 (by simp)
    · rw [hsel] at hsel2
      have : c = c1 := by simpa using hsel2
      subst this
      rcases hin with hin | hin
      · rw [hs] at hin; exact absurd hin (by simp)
      · rw [hman] at hin; exact absurd hin (by simp)
  · rw [hsel] at hsel2
    have : c = c0 := by simpa using hsel2
    subst this
    refine ⟨fun h => ?_, fun _ => ?_⟩
    · rw [hR.mp h] at hre2; exact absurd hre2 (by simp)
    · refine ⟨hp.err, hp.create, hp.chosen, ?_⟩
      have := hp.outOfDateCondition
      rw [hout] at this
      exact this
  · rw [hsel] at hsel2
    have : c = c0 := by simpa using hsel2
    subst this
    refine ⟨fun _ => ⟨fun built h => ?_, fun e h => ?_⟩, fun h => ?_⟩
    · rw [hb] at h; exact absurd h (by simp)
    · rw [hb] at h
      have : e0 = e := by simpa using h
      rw [← this]; exact herr
    · exact absurd (hR.mpr hre2) h
  · rw [hsel] at hsel2
    have : c = c0 := by simpa using hsel2
    subst this
    have hrun := ((shouldRecreate_iff state _ c.job hout).mp hre2).2.1
    have hmem := (classifyJobs_chosen_mem env state _ c hsel).1
    have hem := emittedRef_of_running _ built0 (count_pos_of_running env state c hmem hrun)
    refine ⟨fun _ => ⟨fun built h => ?_, fun e h => ?_⟩, fun h => ?_⟩
    · rw [hb] at h
      have : built0 = built := by simpa using h
      subst this
      refine ⟨hp.err, ?_, ?_, hp.outOfDateCondition⟩
      · rw [hp.create, hem]
      · rw [hp.chosen, hem]
    · rw [hb] at h; exact absurd h (by simp)
    · exact absurd (hR.mpr hre2) h
  · rw [hsel] at hsel2; exact absurd hsel2 (by simp)
  · rw [hsel] at hsel2; exact absurd hsel2 (by simp)
  · rw [hsel] at hsel2; exact absurd hsel2 (by simp)
  · rw [hsel] at hsel2; exact absurd hsel2 (by simp)

/-- C7 as stated fails: auto-recreate is enabled, the policy is Recreate and the chosen job is
out of date, potentially running, not user-stopped and not being deleted, yet no replacement
is planned: the registered mutator fails, and with it the decision. -/
theorem out_of_date_gating_counterexample :
    buildState failingMutatorEnv insideRunPeriod mutatedRecreatingControlledJob [outdatedJob] =
      .ok (recreateState [outdatedJob]) ∧
    (classifyJobs failingMutatorEnv (recreateState [outdatedJob])
      (recreateState [outdatedJob]).AllJobs).chosenJob =
      some { ptr := JobPtr.child 0, job := outdatedJob } ∧
    isOutOfDate outdatedJob (recreateState [outdatedJob]) = true ∧
    equalFoldRecreate mutatedRecreatingControlledJob.spec.restartStrategy.specChangePolicy =
      true ∧
    IsJobPotentiallyRunning outdatedJob = true ∧
    WasJobStoppedByTheUser outdatedJob = false ∧
    IsJobBeingDeleted outdatedJob = false ∧
    (makeDecision failingMutatorEnv insideRunPeriod mutatedRecreatingControlledJob [outdatedJob]
      exampleNow true).err =
      some (DecisionError.failedToCreateJob "mutator testMutator failed: super fatal error") ∧
    (makeDecision failingMutatorEnv insideRunPeriod mutatedRecreatingControlledJob [outdatedJob]
      exampleNow true).decision.JobsToCreate = [] := by
  refine ⟨rfl, ?_, ?_, ?_, ?_, ?_, ?_, ?_, ?_⟩ <;> decide

/-- C7 (amended) at work: with the policy Recreate and auto-recreate enabled, the out-of-date
running child is replaced by a Job with the next run id. -/
theorem out_of_date_gating_witness :
    (classifyJobs exampleEnv (recreateState [outdatedJob])
      (recreateState [outdatedJob]).AllJobs).chosenJob =
      some { ptr := JobPtr.child 0, job := outdatedJob } ∧
    (makeDecision exampleEnv insideRunPeriod recreatingControlledJob [outdatedJob] exampleNow
      true).decision.JobsToCreate =
      [createdRef (assembleJob exampleEnv recreatingControlledJob exampleStart 1 false true)] :=
  ⟨by decide, (((out_of_date_gating exampleEnv insideRunPeriod recreatingControlledJob
    [outdatedJob] exampleNow true (recreateState [outdatedJob])
    { ptr := JobPtr.child 0, job := outdatedJob } rfl (by decide) (by decide)
    (Or.inl rfl) (by decide) (by decide)).1
      ⟨rfl, by decide, by decide, by decide, by decide⟩).1
        (assembleJob exampleEnv recreatingControlledJob exampleStart 1 false true)
        rfl).2.1⟩

/-! ## The run ids of the children -/

/-- The high watermark of the first loop, started from any value: it is at least the starting
value and every readable run id, and it is the starting value or one of the run ids. -/
theorem scanRunIds_foldl (state : State) (jobs : List JobRef) :
    ∀ acc : RunIdScan,
      acc.maxJobRunId ≤ (jobs.foldl (scanRunIdStep state) acc).maxJobRunId ∧
      (∀ j ∈ jobs, ∀ id, GetJobRunId j.job = some id →
        id ≤ (jobs.foldl (scanRunIdStep state) acc).maxJobRunId) ∧
      ((jobs.foldl (scanRunIdStep state) acc).maxJobRunId = acc.maxJobRunId ∨
        ∃ j ∈ jobs, GetJobRunId j.job = some (jobs.foldl (scanRunIdStep state) acc).maxJobRunId) := by
  induction jobs with
  | nil => intro acc; simp
  | cons x xs ih =>
    intro acc
    obtain ⟨h1, h2, h3⟩ := ih (scanRunIdStep state acc x)
    simp only [List.foldl_cons]
    cases hx : GetJobRunId x.job with
    | none =>
      have hstep : scanRunIdStep state acc x = acc := by simp [scanRunIdStep, hx]
      rw [hstep] at h1 h2 h3 ⊢
      refine ⟨h1, fun j hj id hid => ?_, ?_⟩
      · rcases List.mem_cons.mp hj with e | hj
        · subst e; rw [hx] at hid; exact absurd hid (by simp)
        · exact h2 j hj id hid
      · rcases h3 with h3 | ⟨j, hj, hid⟩
        · exact Or.inl h3
        · exact Or.inr ⟨j, List.mem_cons_of_mem _ hj, hid⟩
    | some v =>
      have hstep : (scanRunIdStep state acc x).maxJobRunId =
          if v > acc.maxJobRunId then v else acc.maxJobRunId := by
        simp [scanRunIdStep, hx]
      rw [hstep] at h1 h3
      refine ⟨?_, fun j hj id hid => ?_, ?_⟩
      · split at h1 <;> omega
      · rcases List.mem_cons.mp hj with e | hj
        · subst e
          rw [hx] at hid
          have : v = id := by simpa using hid
          subst this
          split at h1 <;> omega
        · exact h2 j hj id hid
      · rcases h3 with h3 | ⟨j, hj, hid⟩
        · by_cases hv : v > acc.maxJobRunId
          · rw [if_pos hv] at h3
            exact Or.inr ⟨x, List.mem_cons_self _ _, by rw [hx, h3]⟩
          · rw [if_neg hv] at h3
            exact Or.inl h3
        · exact Or.inr ⟨j, List.mem_cons_of_mem _ hj, hid⟩

/-- The high watermark of the first loop: no readable run id exceeds it, and it is -1 or the
run id of a child. -/
theorem scanRunIds_max (state : State) (jobs : List JobRef) :
    (∀ j ∈ jobs, ∀ id, GetJobRunId j.job = some id → id ≤ (scanRunIds state jobs).maxJobRunId) ∧
    ((scanRunIds state jobs).maxJobRunId = -1 ∨
      ∃ j ∈ jobs, GetJobRunId j.job = some (scanRunIds state jobs).maxJobRunId) := by
  obtain ⟨_, h2, h3⟩ := scanRunIds_foldl state jobs
    { maxJobRunId := -1, jobToRecordMetricsAgainst := none }
  exact ⟨h2, h3⟩

theorem scanRunIds_ge (state : State) (jobs : List JobRef) :
    -1 ≤ (scanRunIds state jobs).maxJobRunId :=
  (scanRunIds_foldl state jobs { maxJobRunId := -1, jobToRecordMetricsAgainst := none }).1

/-- The manual flag of a Job as built when no mutator applies and the template does not carry
the annotation itself. -/
theorem buildJob_manual (env : Env) (cj : ControlledJob) (t : Time) (id : Int)
    (manual suspended : Bool) (built : Job) (h : noMutatorApplies env cj = true)
    (hman : templateLacks cj ManualJobAnnotation = true)
    (hb : buildJob env cj t id manual suspended = .ok built) :
    IsManuallyScheduledJob built = manual := by
  obtain ⟨job, h1, _, _, _, _, _, _, _, h9, h10, _⟩ := buildJob_plain env cj t id manual suspended h
  rw [h1] at hb
  have e : job = built := by simpa using hb
  subst e
  unfold IsManuallyScheduledJob
  cases manual with
  | true => rw [h9 rfl]; rfl
  | false => rw [h10 rfl hman]

/-- The run id of the replacement is computed on a Go `int`, which wraps around: when the
greatest run id among the children is the greatest `int`, the replacement gets the least `int`
as its run id, not one more. -/
theorem recreate_run_id_wraps :
    GetJobRunId outdatedMaxIdJob = some 9223372036854775807 ∧
    (makeDecision exampleEnv insideRunPeriod recreatingControlledJob [outdatedMaxIdJob]
      exampleNow true).err = none ∧
    (makeDecision exampleEnv insideRunPeriod recreatingControlledJob [outdatedMaxIdJob]
      exampleNow true).decision.JobsToDelete =
      [{ ptr := JobPtr.child 0, job := outdatedMaxIdJob }] ∧
    (makeDecision exampleEnv insideRunPeriod recreatingControlledJob [outdatedMaxIdJob]
      exampleNow true).decision.JobsToCreate.map (fun J => GetJobRunId J.job) =
      [some (-9223372036854775808)] := by
  refine ⟨?_, ?_, ?_, ?_⟩ <;> decide

/-! ## C4: starting a Job when there is none -/

theorem emittedRef_annotations (n : Nat) (built : Job) :
    (emittedRef n built).job.annotations = built.annotations := by
  unfold emittedRef clearSuspendOf
  split <;> simp [createdRef, JobRef.same]

theorem emittedRef_name (n : Nat) (built : Job) : (emittedRef n built).job.name = built.name := by
  unfold emittedRef clearSuspendOf
  split <;> simp [createdRef, JobRef.same]

theorem emittedRef_suspend_of_safe (n : Nat) (built : Job)
    (h : safeToUnsuspend n built = true) : (emittedRef n built).job.spec.suspend = none := by
  unfold emittedRef clearSuspendOf
  rw [if_pos h]
  simp [createdRef, JobRef.same]

theorem IsManuallyScheduledJob_congr {a b : Job} (h : a.annotations = b.annotations) :
    IsManuallyScheduledJob a = IsManuallyScheduledJob b := by
  unfold IsManuallyScheduledJob
  rw [h]

theorem GetJobRunId_zero (job : Job) (h : job.annotations.get JobRunIdAnnotation = formatInt 0) :
    GetJobRunId job = some 0 := by
  unfold GetJobRunId
  rw [h]
  decide

/-- Inside the run period the start of the run period is known. -/
theorem start_of_shouldBeRunning {env : Env} {scheduleState : Except String ScheduleState}
    {cj : ControlledJob} {childJobs : List Job} {state : State}
    (hstate : buildState env scheduleState cj childJobs = .ok state)
    (hsbr : shouldBeRunningOf state = true) : ∃ start, state.StartOfCurrentRunPeriod = some start := by
  obtain ⟨ss, _, _, _, hstart, _, _, hsb, _⟩ := buildState_ok hstate
  unfold shouldBeRunningOf at hsbr
  rw [hsb] at hsbr
  rw [hstart]
  cases h : ss.startOfCurrentRunPeriod with
  | none => rw [h] at hsbr; exact absurd hsbr (by simp)
  | some t => exact ⟨t, rfl⟩

/-- C4 (amended). Start-when-absent: when the ControlledJob is not suspended, `shouldBeRunning`
is true, every child is expired (no non-expired child exists) and the starting deadline is not
exceeded, `makeDecision` builds a Job for the start of the current run period with run id 0.
If the builder fails (a mutator fails) the decision fails with "Failed to create job". If no
mutator applies and the template does not itself carry the `is-manually-scheduled` or
`suspend-reason` annotation, the decision succeeds and plans exactly one create, which becomes
the chosen job: a non-manual Job named after the start of the run period and run id 0, with
job-run-id 0 and scheduled-at equal to `startOfCurrentRunPeriod`; it is emitted with its
suspend flag cleared if no existing child is potentially running, and with `suspend = true`
otherwise. -/
theorem start_when_absent (env : Env) (scheduleState : Except String ScheduleState)
    (cj : ControlledJob) (childJobs : List Job) (now : Time) (enable : Bool) (state : State)
    (hstate : buildState env scheduleState cj childJobs = .ok state)
    (hns : cj.spec.suspend ≠ some true)
    (hsbr : shouldBeRunningOf state = true)
    (hnone : ∀ j ∈ childJobs, isExpired env state.LastStopTime j = true)
    (hdeadline : startingDeadlineSecondsExceeded cj state.StartOfCurrentRunPeriod now = false) :
    ∃ start, state.StartOfCurrentRunPeriod = some start ∧
      (∀ e, BuildForControlledJob env cj start 0 false true = .error e →
        (makeDecision env scheduleState cj childJobs now enable).err =
          some (DecisionError.failedToCreateJob e)) ∧
      (noMutatorApplies env cj = true → templateLacks cj ManualJobAnnotation = true →
        templateLacks cj SuspendReason = true →
        ∃ J, (makeDecision env scheduleState cj childJobs now enable).err = none ∧
          (makeDecision env scheduleState cj childJobs now enable).decision.JobsToCreate = [J] ∧
          (makeDecision env scheduleState cj childJobs now enable).chosenJob = some J ∧
          IsManuallyScheduledJob J.job = false ∧
          GetJobRunId J.job = some 0 ∧
          J.job.annotations.get ScheduledTimeAnnotation = env.formatRFC3339 start ∧
          J.job.name = JobName cj.name start 0 ∧
          ((∀ j ∈ childJobs, IsJobPotentiallyRunning j = false) → J.job.spec.suspend = none) ∧
          ((∃ j ∈ childJobs, IsJobPotentiallyRunning j = true) →
            J.job.spec.suspend = some true)) := by
  have hsus := not_suspended_of_spec hstate hns
  obtain ⟨ss, _, hall, _⟩ := buildState_ok hstate
  obtain ⟨start, hstart⟩ := start_of_shouldBeRunning hstate hsbr
  have hselnone : (classifyJobs env state state.AllJobs).chosenJob = none := by
    rw [hall]
    exact (selection_none_iff env state childJobs).mpr hnone
  have hcount := classifyJobs_count env state state.AllJobs
  refine ⟨start, hstart, ?_⟩
  rcases makeDecision_cases env scheduleState cj childJobs now enable state hstate hsus with
    ⟨hs, _, _⟩ | ⟨_, hsel, _⟩ | ⟨_, _, hsel, _⟩ | ⟨_, _, hsel, _⟩ |
    ⟨_, _, hexc, _⟩ | ⟨_, _, _, hnil, _⟩ | ⟨start2, e2, _, _, _, hstart2, hb, herr⟩ |
    ⟨start2, built, _, _, _, hstart2, hb, hp⟩
  · rw [hs] at hsbr; exact absurd hsbr (by simp)
  · rw [hselnone] at hsel; exact absurd hsel (by simp)
  · rw [hselnone] at hsel; exact absurd hsel (by simp)
  · rw [hselnone] at hsel; exact absurd hsel (by simp)
  · rw [hdeadline] at hexc; exact absurd hexc (by simp)
  · rw [hstart] at hnil; exact absurd hnil (by simp)
  · rw [hstart] at hstart2
    have e : start = start2 := by simpa using hstart2
    subst e
    refine ⟨fun e h => ?_, fun hmut _ _ => ?_⟩
    · rw [hb] at h
      have : e2 = e := by simpa using h
      rw [← this]; exact herr
    · obtain ⟨job, h1, _⟩ := buildJob_plain env cj start 0 false true hmut
      unfold BuildForControlledJob at hb
      rw [h1] at hb
      exact absurd hb (by simp)
  · rw [hstart] at hstart2
    have e : start = start2 := by simpa using hstart2
    subst e
    refine ⟨fun e h => ?_, fun hmut hman hreason => ?_⟩
    · rw [hb] at h; exact absurd h (by simp)
    · obtain ⟨job, h1, hname, hsp, hdel, _, hsched, hid, _, _, _, hsr⟩ :=
        buildJob_plain env cj start 0 false true hmut
      have hb2 := hb
      unfold BuildForControlledJob at hb2
      have e : job = built := by
        rw [h1] at hb2
        simpa using hb2
      subst e
      have hsafe : ∀ n, safeToUnsuspend n job = true ↔ n = 1 := by
        intro n
        rw [safeToUnsuspend_iff]
        have a1 : IsJobSuspended job = true := by
          unfold IsJobSuspended
          rw [hsp]
          rfl
        have a2 : IsJobBeingDeleted job = false := by
          unfold IsJobBeingDeleted
          rw [hdel]
          rfl
        have a3 : WasJobStoppedByTheUser job = false := by
          unfold WasJobStoppedByTheUser
          rw [hsr hreason]
          simp
        simp [a1, a2, a3]
      refine ⟨_, hp.err, hp.create, hp.chosen, ?_, ?_, ?_, ?_, fun hall0 => ?_, fun hex => ?_⟩
      · rw [IsManuallyScheduledJob_congr (emittedRef_annotations _ job)]
        exact buildJob_manual env cj start 0 false true job hmut hman h1
      · apply GetJobRunId_zero
        rw [emittedRef_annotations]
        exact hid
      · rw [emittedRef_annotations]
        exact hsched
      · rw [emittedRef_name]
        exact hname
      · apply emittedRef_suspend_of_safe
        rw [hsafe, hcount, hall]
        have : (pointersFrom 0 childJobs).filter (fun j => IsJobPotentiallyRunning j.job) = [] := by
          rw [List.filter_eq_nil_iff]
          intro a ha
          rw [hall0 a.job (mem_pointersFrom_job ha)]
          simp
        rw [this]
        rfl
      · obtain ⟨j, hj, hrun⟩ := hex
        obtain ⟨p, hp1, hp2⟩ := exists_pointer_of_mem (i := 0) hj
        have hpos := count_pos_of_running env state p (hall ▸ hp1) (by rw [hp2]; exact hrun)
        rw [emittedRef_of_running _ job hpos]
        simp only [createdRef]
        rw [hsp]
        rfl

/-- C4 as stated fails: the ControlledJob is not suspended, the schedule says to run, there is
no child and no starting deadline, yet no create is planned: the registered mutator fails, and
with it the decision (the test "when mutator fails - fails to create job"). -/
theorem start_when_absent_counterexample :
    buildState failingMutatorEnv insideRunPeriod mutatedControlledJob [] =
      .ok (insideState []) ∧
    mutatedControlledJob.spec.suspend = none ∧
    shouldBeRunningOf (insideState []) = true ∧
    startingDeadlineSecondsExceeded mutatedControlledJob
      (insideState []).StartOfCurrentRunPeriod exampleNow = false ∧
    (makeDecision failingMutatorEnv insideRunPeriod mutatedControlledJob [] exampleNow
      false).err =
      some (DecisionError.failedToCreateJob "mutator testMutator failed: super fatal error") ∧
    (makeDecision failingMutatorEnv insideRunPeriod mutatedControlledJob [] exampleNow
      false).decision.JobsToCreate = [] := by
  refine ⟨rfl, rfl, rfl, ?_, ?_, ?_⟩ <;> decide

/-- C4 (amended) at work: the example ControlledJob without children inside its run period
gets its Job planned, without error. -/
theorem start_when_absent_witness :
    shouldBeRunningOf (insideState []) = true ∧
    (makeDecision exampleEnv insideRunPeriod exampleControlledJob [] exampleNow false).err =
      none :=
  ⟨rfl, (start_when_absent exampleEnv insideRunPeriod exampleControlledJob [] exampleNow false
    (insideState []) rfl (by decide) rfl (by simp) (by decide)).elim
      fun _ h => (h.2.2 (by decide) (by decide) (by decide)).elim fun _ h2 => h2.1⟩

/-! ## The calendar -/

theorem dayOfCivil_of_cycles (era c q a doy mp : Int)
    (hc : 0 ≤ c ∧ c ≤ 3) (hq : 0 ≤ q ∧ q ≤ 24) (ha : 0 ≤ a ∧ a ≤ 3)
    (hmp : mp = (5 * doy + 2) / 153) (hdoy : 0 ≤ doy ∧ doy ≤ 365) :
    dayOfCivil (era * 400 + c * 100 + q * 4 + a + (if 10 ≤ mp then 1 else 0))
        (if mp < 10 then mp + 3 else mp - 9) (doy - (153 * mp + 2) / 5 + 1) =
      era * 146097 + c * 36524 + q * 1461 + a * 365 + doy - 719468 := by
  have hmp2 : 0 ≤ mp ∧ mp ≤ 11 := by omega
  simp only [dayOfCivil]
  split_ifs <;> omega


theorem civilOfDay_cycles (z : Int) :
    ∃ era c q a doy mp : Int,
      (0 ≤ c ∧ c ≤ 3) ∧ (0 ≤ q ∧ q ≤ 24) ∧ (0 ≤ a ∧ a ≤ 3) ∧ (0 ≤ doy ∧ doy ≤ 365) ∧
      mp = (5 * doy + 2) / 153 ∧
      z + 719468 = era * 146097 + c * 36524 + q * 1461 + a * 365 + doy ∧
      (c < 3 → q * 1461 + a * 365 + doy < 36524) ∧
      (c = 3 → q * 1461 + a * 365 + doy ≤ 36524) ∧
      a * 365 + doy < 1461 ∧
      (a < 3 → doy < 365) ∧
      civilOfDay z =
        (era * 400 + c * 100 + q * 4 + a + (if 10 ≤ mp then 1 else 0),
          (if mp < 10 then mp + 3 else mp - 9), doy - (153 * mp + 2) / 5 + 1) := by
  generalize hdoe : (z + 719468) % 146097 = doe
  generalize hera : (z + 719468) / 146097 = era
  have e1 : 0 ≤ doe ∧ doe < 146097 ∧ z + 719468 = era * 146097 + doe := by omega
  generalize hc : min (doe / 36524) 3 = c
  have e2 : 0 ≤ c ∧ c ≤ 3 ∧ 0 ≤ doe - c * 36524 ∧ (c < 3 → doe - c * 36524 < 36524) ∧
      (c = 3 → doe - c * 36524 ≤ 36524) := by
    rw [← hc, min_def]
    split_ifs <;> omega
  generalize hdoc : doe - c * 36524 = doc at e2
  generalize hq : doc / 1461 = q
  have e3 : 0 ≤ q ∧ q ≤ 24 ∧ 0 ≤ doc - q * 1461 ∧ doc - q * 1461 < 1461 := by omega
  generalize hdoq : doc - q * 1461 = doq at e3
  generalize ha : min (doq / 365) 3 = a
  have e4 : 0 ≤ a ∧ a ≤ 3 ∧ 0 ≤ doq - a * 365 ∧ doq - a * 365 ≤ 365 ∧
      (a < 3 → doq - a * 365 < 365) := by
    rw [← ha, min_def]
    split_ifs <;> omega
  generalize hdoy : doq - a * 365 = doy at e4
  refine ⟨era, c, q, a, doy, (5 * doy + 2) / 153, ⟨e2.1, e2.2.1⟩, ⟨e3.1, e3.2.1⟩, ⟨e4.1, e4.2.1⟩,
    ⟨e4.2.2.1, e4.2.2.2.1⟩, rfl, by omega, by omega, by omega, by omega, e4.2.2.2.2, ?_⟩
  simp only [civilOfDay, hdoe, hera, hc, hdoc, hq, hdoq, ha, hdoy]
  have hmp : 0 ≤ (5 * doy + 2) / 153 ∧ (5 * doy + 2) / 153 ≤ 11 := by omega
  refine Prod.ext ?_ (Prod.ext ?_ rfl)
  · simp only
    split_ifs <;> omega
  · rfl

theorem dayOfCivil_civilOfDay (z : Int) :
    dayOfCivil (civilOfDay z).1 (civilOfDay z).2.1 (civilOfDay z).2.2 = z := by
  obtain ⟨era, c, q, a, doy, mp, hc, hq, ha, hdoy, hmp, hz, _, _, _, _, h⟩ := civilOfDay_cycles z
  rw [h]
  simp only
  rw [dayOfCivil_of_cycles era c q a doy mp hc hq ha hmp hdoy]
  omega

theorem civilOfDay_day_pos (z : Int) : 1 ≤ (civilOfDay z).2.2 := by
  simp only [civilOfDay]
  omega

theorem civilOfDay_month_range (z : Int) : 1 ≤ (civilOfDay z).2.1 ∧ (civilOfDay z).2.1 ≤ 12 := by
  obtain ⟨era, c, q, a, doy, mp, hc, hq, ha, hdoy, hmp, hz, _, _, _, _, h⟩ := civilOfDay_cycles z
  rw [h]
  simp only
  split_ifs <;> omega

theorem cycles_pred_era (era era' R R' : Int) (hR : 1 ≤ R ∧ R < 146097)
    (hR' : 0 ≤ R' ∧ R' < 146097) (h : era * 146097 + R - 1 = era' * 146097 + R') :
    era' = era ∧ R' = R - 1 := by
  omega

theorem cycles_pred_century (c c' S S' : Int) (hc : 0 ≤ c ∧ c ≤ 3) (hc' : 0 ≤ c' ∧ c' ≤ 3)
    (hS : 1 ≤ S ∧ (c < 3 → S < 36524) ∧ (c = 3 → S ≤ 36524))
    (hS' : 0 ≤ S' ∧ (c' < 3 → S' < 36524) ∧ (c' = 3 → S' ≤ 36524))
    (h : c * 36524 + S - 1 = c' * 36524 + S') : c' = c ∧ S' = S - 1 := by
  have hcc : c = 0 ∨ c = 1 ∨ c = 2 ∨ c = 3 := by omega
  have hcc' : c' = 0 ∨ c' = 1 ∨ c' = 2 ∨ c' = 3 := by omega
  rcases hcc with h1 | h1 | h1 | h1 <;> rcases hcc' with h2 | h2 | h2 | h2 <;> subst h1 <;>
    subst h2 <;> omega

theorem cycles_pred_quad (q q' T T' : Int) (hT : 1 ≤ T ∧ T < 1461) (hT' : 0 ≤ T' ∧ T' < 1461)
    (h : q * 1461 + T - 1 = q' * 1461 + T') : q' = q ∧ T' = T - 1 := by
  omega

theorem cycles_pred_year (a a' d d' : Int) (ha : 0 ≤ a ∧ a ≤ 3) (ha' : 0 ≤ a' ∧ a' ≤ 3)
    (hd : 1 ≤ d ∧ d ≤ 365 ∧ (a < 3 → d < 365)) (hd' : 0 ≤ d' ∧ d' ≤ 365 ∧ (a' < 3 → d' < 365))
    (h : a * 365 + d - 1 = a' * 365 + d') : a' = a ∧ d' = d - 1 := by
  have haa : a = 0 ∨ a = 1 ∨ a = 2 ∨ a = 3 := by omega
  have haa' : a' = 0 ∨ a' = 1 ∨ a' = 2 ∨ a' = 3 := by omega
  rcases haa with h1 | h1 | h1 | h1 <;> rcases haa' with h2 | h2 | h2 | h2 <;> subst h1 <;>
    subst h2 <;> omega

/-- The day before a day that is not the first of its month is the previous day of the same
month. -/
theorem civilOfDay_pred (z : Int) (h : 2 ≤ (civilOfDay z).2.2) :
    civilOfDay (z - 1) = ((civilOfDay z).1, (civilOfDay z).2.1, (civilOfDay z).2.2 - 1) := by
  obtain ⟨era, c, q, a, doy, mp, hc, hq, ha, hdoy, hmp, hz, h1, h2, h3, h4, hciv⟩ :=
    civilOfDay_cycles z
  obtain ⟨era', c', q', a', doy', mp', hc', hq', ha', hdoy', hmp', hz', h1', h2', h3', h4',
    hciv'⟩ := civilOfDay_cycles (z - 1)
  rw [hciv] at h ⊢
  rw [hciv']
  simp only at h ⊢
  have hmpr : 0 ≤ mp ∧ mp ≤ 11 := by omega
  have hdoy1 : 1 ≤ doy := by omega
  have s1 := cycles_pred_era era era' (c * 36524 + (q * 1461 + (a * 365 + doy)))
    (c' * 36524 + (q' * 1461 + (a' * 365 + doy'))) (by omega) (by omega) (by omega)
  have s2 := cycles_pred_century c c' (q * 1461 + (a * 365 + doy)) (q' * 1461 + (a' * 365 + doy'))
    hc hc' ⟨by omega, by omega, by omega⟩ ⟨by omega, by omega, by omega⟩ (by omega)
  have s3 := cycles_pred_quad q q' (a * 365 + doy) (a' * 365 + doy') (by omega) (by omega)
    (by omega)
  have s4 := cycles_pred_year a a' doy doy' ha ha' ⟨by omega, by omega, h4⟩
    ⟨by omega, by omega, h4'⟩ (by omega)
  have e1 : era' = era ∧ c' = c ∧ q' = q ∧ a' = a ∧ doy' = doy - 1 :=
    ⟨s1.1, s2.1, s3.1, s4.1, s4.2⟩
  obtain ⟨rfl, rfl, rfl, rfl, rfl⟩ := e1
  have e2 : mp' = mp := by
    have : mp = 0 ∨ mp = 1 ∨ mp = 2 ∨ mp = 3 ∨ mp = 4 ∨ mp = 5 ∨ mp = 6 ∨ mp = 7 ∨ mp = 8 ∨
        mp = 9 ∨ mp = 10 ∨ mp = 11 := by omega
    rcases this with h | h | h | h | h | h | h | h | h | h | h | h <;> subst h <;> omega
  rw [e2]
  refine Prod.ext ?_ (Prod.ext rfl ?_)
  · rfl
  · simp only
    omega

/-! ## The wall clock of a location without zone transitions -/

theorem Second_eq : Second = 1000000000 := rfl

theorem zero_unixNano : Time.zero.unixNano = -62135596800000000000 := by decide

theorem lookup_fixed (loc : Location) (h : loc.transitions = []) (u : Int) :
    loc.lookup u = { offset := loc.initialOffset, start := alpha, stop := omega } := by
  simp [Location.lookup, h, lookupFrom]

theorem wall_fixed (t : ZonedTime) (h : t.loc.transitions = []) :
    t.wall = t.unixNano / 1000000000 + t.loc.initialOffset := by
  simp [ZonedTime.wall, ZonedTime.offset, ZonedTime.Unix, lookup_fixed _ h, Second_eq]

/-- Without zone transitions `time.Date` is the wall-clock reading minus the offset. -/
theorem Date_fixed (y m d h mi sec : Int) (loc : Location) (hl : loc.transitions = []) :
    Date y m d h mi sec loc =
      { unixNano := (dayOfCivil y m d * 86400 + h * 3600 + mi * 60 + sec - loc.initialOffset) *
          1000000000,
        loc := loc } := by
  simp only [Date, lookup_fixed _ hl, Second_eq]
  by_cases h0 : loc.initialOffset = 0
  · simp [h0]
  · simp only [ne_eq, h0, not_false_eq_true, if_true, ite_self]

/-- The day number of a date, `k` days before a day of the same month. -/
theorem civilOfDay_sub (z : Int) (k : Nat) (hk : (k : Int) + 1 ≤ (civilOfDay z).2.2) :
    civilOfDay (z - k) = ((civilOfDay z).1, (civilOfDay z).2.1, (civilOfDay z).2.2 - k) := by
  induction k with
  | zero => simp
  | succ n ih =>
    have h1 : ((n : Int) + 1) ≤ (civilOfDay z).2.2 := by push_cast at hk; omega
    have ih' := ih h1
    have h2 : 2 ≤ (civilOfDay (z - n)).2.2 := by rw [ih']; push_cast at hk; simp only; omega
    have := civilOfDay_pred (z - n) h2
    rw [ih'] at this
    have e : z - ((n + 1 : Nat) : Int) = z - n - 1 := by push_cast; omega
    rw [e, this]
    simp only
    refine Prod.ext rfl (Prod.ext rfl ?_)
    simp only
    push_cast
    omega

theorem dayOfCivil_first (y m d : Int) : dayOfCivil y m 1 = dayOfCivil y m d - (d - 1) := by
  simp only [dayOfCivil]
  omega

/-! ## The steps of `cronPrev` in a location without zone transitions -/

theorem wall_atSecond (u : Int) (loc : Location) (h : loc.transitions = []) :
    (atSecond u loc).wall = u + loc.initialOffset := by
  rw [wall_fixed _ h]
  simp only [atSecond, Second_eq]
  omega

theorem atSecond_add (u : Int) (loc : Location) :
    (atSecond u loc).Add (-1 * Second) = atSecond (u - 1) loc := by
  simp only [ZonedTime.Add, atSecond, Second_eq]
  congr 1
  omega

theorem truncate_second (t : ZonedTime) :
    (t.Truncate Second).Add (-1 * Second) = atSecond (t.unixNano / 1000000000 - 1) t.loc := by
  simp only [ZonedTime.Truncate, ZonedTime.Add, atSecond, Second_eq, zero_unixNano]
  congr 1
  omega

theorem truncate_minute (t : ZonedTime) :
    (t.Truncate (60 * Second)).Add (-1 * Second) =
      atSecond (t.unixNano / 1000000000 / 60 * 60 - 1) t.loc := by
  simp only [ZonedTime.Truncate, ZonedTime.Add, atSecond, Second_eq, zero_unixNano]
  congr 1
  omega

theorem date_hour (t : ZonedTime) (h : t.loc.transitions = []) :
    Date t.Year t.Month t.Day t.Hour 0 0 t.loc =
      atSecond (t.dayNumber * 86400 + t.Hour * 3600 - t.loc.initialOffset) t.loc := by
  rw [Date_fixed _ _ _ _ _ _ _ h]
  simp only [ZonedTime.Year, ZonedTime.Month, ZonedTime.Day, dayOfCivil_civilOfDay, atSecond,
    Second_eq]
  congr 1
  omega

theorem date_day (t : ZonedTime) (h : t.loc.transitions = []) :
    Date t.Year t.Month t.Day 0 0 0 t.loc =
      atSecond (t.dayNumber * 86400 - t.loc.initialOffset) t.loc := by
  rw [Date_fixed _ _ _ _ _ _ _ h]
  simp only [ZonedTime.Year, ZonedTime.Month, ZonedTime.Day, dayOfCivil_civilOfDay, atSecond,
    Second_eq]
  congr 1
  omega

theorem date_month (t : ZonedTime) (h : t.loc.transitions = []) :
    Date t.Year t.Month 1 0 0 0 t.loc =
      atSecond ((t.dayNumber - (t.Day - 1)) * 86400 - t.loc.initialOffset) t.loc := by
  rw [Date_fixed _ _ _ _ _ _ _ h]
  have := dayOfCivil_first t.Year t.Month t.Day
  simp only [ZonedTime.Year, ZonedTime.Month, ZonedTime.Day, dayOfCivil_civilOfDay] at this
  simp only [ZonedTime.Year, ZonedTime.Month, ZonedTime.Day, this, atSecond, Second_eq]
  congr 1
  omega

theorem dayMatches_congr (s : SpecSchedule) {t t' : ZonedTime}
    (h : t'.dayNumber = t.dayNumber) : dayMatches s t' = dayMatches s t := by
  simp only [dayMatches, ZonedTime.Day, ZonedTime.Weekday, h]

theorem month_congr {t t' : ZonedTime} (h : t'.dayNumber = t.dayNumber) : t'.Month = t.Month := by
  simp only [ZonedTime.Month, h]

theorem fieldsMatch_false_of_month (s : SpecSchedule) (t : ZonedTime)
    (h : maskBit t.Month s.month = 0) : fieldsMatch s t = false := by
  simp [fieldsMatch, h]

theorem fieldsMatch_false_of_day (s : SpecSchedule) (t : ZonedTime)
    (h : dayMatches s t = false) : fieldsMatch s t = false := by
  simp [fieldsMatch, h]

theorem fieldsMatch_false_of_hour (s : SpecSchedule) (t : ZonedTime)
    (h : maskBit t.Hour s.hour = 0) : fieldsMatch s t = false := by
  simp [fieldsMatch, h]

theorem fieldsMatch_false_of_minute (s : SpecSchedule) (t : ZonedTime)
    (h : maskBit t.Minute s.minute = 0) : fieldsMatch s t = false := by
  simp [fieldsMatch, h]

theorem fieldsMatch_false_of_second (s : SpecSchedule) (t : ZonedTime)
    (h : maskBit t.Sec s.second = 0) : fieldsMatch s t = false := by
  simp [fieldsMatch, h]

/-- The invariant after a step that moves `t` back to `t'`, skipping only whole seconds that
do not match. -/
theorem searchInvariant_step (s : SpecSchedule) (t0 t t' : ZonedTime) (place place' : CronPrevPlace)
    (hinv : searchInvariant s t0 place t) (hloc : t'.loc = t.loc)
    (hle : t'.unixNano ≤ t.unixNano) (hchk : checkedSoFar s place' t')
    (hskip : t0.loc.initialOffset % 60 = 0 → ∀ u : Int, t'.unixNano < u * Second →
      u * Second ≤ t.unixNano → fieldsMatch s (atSecond u t0.loc) = false) :
    searchInvariant s t0 place' t' := by
  obtain ⟨h1, h2, _, h4⟩ := hinv
  refine ⟨hloc.trans h1, le_trans hle h2, hchk, fun hoff u hu1 hu2 => ?_⟩
  by_cases hc : u * Second ≤ t.unixNano
  · exact hskip hoff u hu1 hc
  · exact h4 hoff u (by omega) hu2

theorem invariant_wrap (s : SpecSchedule) (yl : Int) (t0 t t' : ZonedTime)
    (place' : CronPrevPlace) (hinv : searchInvariant s t0 .wrap t)
    (hstep : cronPrevStep s yl .wrap t = .goOn place' t') : searchInvariant s t0 place' t' := by
  simp only [cronPrevStep] at hstep
  split at hstep
  · exact absurd hstep (by simp)
  · injection hstep with h1 h2
    subst h1 h2
    exact ⟨hinv.1, hinv.2.1, trivial, hinv.2.2.2⟩

theorem invariant_second (s : SpecSchedule) (yl : Int) (t0 t t' : ZonedTime)
    (place' : CronPrevPlace) (hl : t0.loc.transitions = [])
    (hinv : searchInvariant s t0 .secondLoop t)
    (hstep : cronPrevStep s yl .secondLoop t = .goOn place' t') :
    searchInvariant s t0 place' t' := by
  have hloc := hinv.1
  have hlt : t.loc.transitions = [] := by rw [hloc]; exact hl
  simp only [cronPrevStep, truncate_second] at hstep
  by_cases hm : maskBit t.Sec s.second = 0
  · simp only [hm, beq_self_eq_true, if_true] at hstep
    have key : t' = atSecond (t.unixNano / 1000000000 - 1) t.loc ∧
        (place' = .wrap ∨ (place' = .secondLoop ∧
          (atSecond (t.unixNano / 1000000000 - 1) t.loc).Sec ≠ 59)) := by
      split at hstep
      · injection hstep with h1 h2
        exact ⟨h2.symm, Or.inl h1.symm⟩
      · rename_i hne
        injection hstep with h1 h2
        exact ⟨h2.symm, Or.inr ⟨h1.symm, by simpa using hne⟩⟩
    obtain ⟨ht', hp⟩ := key
    subst ht'
    have hw := wall_fixed t hlt
    have hw' := wall_atSecond (t.unixNano / 1000000000 - 1) t.loc hlt
    refine searchInvariant_step s t0 t _ _ place' hinv rfl ?_ ?_ ?_
    · simp only [atSecond, Second_eq]; omega
    · rcases hp with hp | ⟨hp, hsec⟩
      · subst hp; trivial
      · subst hp
        simp only [ZonedTime.Sec, hw'] at hsec
        have hd : (atSecond (t.unixNano / 1000000000 - 1) t.loc).dayNumber = t.dayNumber := by
          simp only [ZonedTime.dayNumber, hw, hw']; omega
        have hh : (atSecond (t.unixNano / 1000000000 - 1) t.loc).Hour = t.Hour := by
          simp only [ZonedTime.Hour, hw, hw']; omega
        have hmi : (atSecond (t.unixNano / 1000000000 - 1) t.loc).Minute = t.Minute := by
          simp only [ZonedTime.Minute, hw, hw']; omega
        obtain ⟨c1, c2, c3, c4⟩ := hinv.2.2.1
        exact ⟨by rw [month_congr hd]; exact c1, by rw [dayMatches_congr s hd]; exact c2,
          by rw [hh]; exact c3, by rw [hmi]; exact c4⟩
    · intro _ u hu1 hu2
      have hu : u = t.unixNano / 1000000000 := by
        simp only [atSecond, Second_eq] at hu1 hu2; omega
      apply fieldsMatch_false_of_second
      have : (atSecond u t0.loc).Sec = t.Sec := by
        rw [← hloc]
        rw [hu]
        simp only [ZonedTime.Sec, hw, wall_atSecond (t.unixNano / 1000000000) t.loc hlt]
      rw [this]; exact hm
  · have : (maskBit t.Sec s.second == 0) = false := by simpa using hm
    simp only [this] at hstep
    exact absurd hstep (by simp)

theorem invariant_minute (s : SpecSchedule) (yl : Int) (t0 t t' : ZonedTime)
    (place' : CronPrevPlace) (hl : t0.loc.transitions = [])
    (hinv : searchInvariant s t0 .minuteLoop t)
    (hstep : cronPrevStep s yl .minuteLoop t = .goOn place' t') :
    searchInvariant s t0 place' t' := by
  have hloc := hinv.1
  have hlt : t.loc.transitions = [] := by rw [hloc]; exact hl
  simp only [cronPrevStep, truncate_minute] at hstep
  have hw := wall_fixed t hlt
  by_cases hm : maskBit t.Minute s.minute = 0
  · simp only [hm, beq_self_eq_true, if_true] at hstep
    have key : t' = atSecond (t.unixNano / 1000000000 / 60 * 60 - 1) t.loc ∧
        (place' = .wrap ∨ (place' = .minuteLoop ∧
          (atSecond (t.unixNano / 1000000000 / 60 * 60 - 1) t.loc).Minute ≠ 59)) := by
      split at hstep
      · injection hstep with h1 h2
        exact ⟨h2.symm, Or.inl h1.symm⟩
      · rename_i hne
        injection hstep with h1 h2
        exact ⟨h2.symm, Or.inr ⟨h1.symm, by simpa using hne⟩⟩
    obtain ⟨ht', hp⟩ := key
    subst ht'
    have hw' := wall_atSecond (t.unixNano / 1000000000 / 60 * 60 - 1) t.loc hlt
    refine searchInvariant_step s t0 t _ _ place' hinv rfl ?_ ?_ ?_
    · simp only [atSecond, Second_eq]; omega
    · rcases hp with hp | ⟨hp, hmin⟩
      · subst hp; trivial
      · subst hp
        simp only [ZonedTime.Minute, hw'] at hmin
        have hd : (atSecond (t.unixNano / 1000000000 / 60 * 60 - 1) t.loc).dayNumber =
            t.dayNumber := by
          simp only [ZonedTime.dayNumber, hw, hw']; omega
        have hh : (atSecond (t.unixNano / 1000000000 / 60 * 60 - 1) t.loc).Hour = t.Hour := by
          simp only [ZonedTime.Hour, hw, hw']; omega
        obtain ⟨c1, c2, c3⟩ := hinv.2.2.1
        exact ⟨by rw [month_congr hd]; exact c1, by rw [dayMatches_congr s hd]; exact c2,
          by rw [hh]; exact c3⟩
    · intro hoff u hu1 hu2
      rw [← hloc] at hoff
      have hu : t.unixNano / 1000000000 / 60 * 60 ≤ u ∧ u ≤ t.unixNano / 1000000000 := by
        simp only [atSecond, Second_eq] at hu1 hu2; omega
      apply fieldsMatch_false_of_minute
      have : (atSecond u t0.loc).Minute = t.Minute := by
        rw [← hloc]
        simp only [ZonedTime.Minute, hw, wall_atSecond u t.loc hlt]
        omega
      rw [this]; exact hm
  · have : (maskBit t.Minute s.minute == 0) = false := by simpa using hm
    simp only [this] at hstep
    injection hstep with h1 h2
    subst h1 h2
    obtain ⟨c1, c2, c3⟩ := hinv.2.2.1
    exact ⟨hinv.1, hinv.2.1, ⟨c1, c2, c3, hm⟩, hinv.2.2.2⟩

theorem invariant_hour (s : SpecSchedule) (yl : Int) (t0 t t' : ZonedTime)
    (place' : CronPrevPlace) (hl : t0.loc.transitions = [])
    (hinv : searchInvariant s t0 .hourLoop t)
    (hstep : cronPrevStep s yl .hourLoop t = .goOn place' t') :
    searchInvariant s t0 place' t' := by
  have hloc := hinv.1
  have hlt : t.loc.transitions = [] := by rw [hloc]; exact hl
  simp only [cronPrevStep, date_hour t hlt, atSecond_add] at hstep
  have hw := wall_fixed t hlt
  by_cases hm : maskBit t.Hour s.hour = 0
  · simp only [hm, beq_self_eq_true, if_true] at hstep
    generalize hX : t.dayNumber * 86400 + t.Hour * 3600 - t.loc.initialOffset - 1 = X at hstep
    have key : t' = atSecond X t.loc ∧
        (place' = .wrap ∨ (place' = .hourLoop ∧ (atSecond X t.loc).Hour ≠ 23)) := by
      split at hstep
      · injection hstep with h1 h2
        exact ⟨h2.symm, Or.inl h1.symm⟩
      · rename_i hne
        injection hstep with h1 h2
        exact ⟨h2.symm, Or.inr ⟨h1.symm, by simpa using hne⟩⟩
    obtain ⟨ht', hp⟩ := key
    subst ht'
    have hw' := wall_atSecond X t.loc hlt
    have hdn : t.dayNumber = t.wall / 86400 := rfl
    have hhr : t.Hour = t.wall % 86400 / 3600 := rfl
    refine searchInvariant_step s t0 t _ _ place' hinv rfl ?_ ?_ ?_
    · simp only [atSecond, Second_eq]; omega
    · rcases hp with hp | ⟨hp, hhour⟩
      · subst hp; trivial
      · subst hp
        simp only [ZonedTime.Hour, hw'] at hhour
        have hd : (atSecond X t.loc).dayNumber = t.dayNumber := by
          simp only [ZonedTime.dayNumber, hw']; omega
        obtain ⟨c1, c2⟩ := hinv.2.2.1
        exact ⟨by rw [month_congr hd]; exact c1, by rw [dayMatches_congr s hd]; exact c2⟩
    · intro _ u hu1 hu2
      have hu : X < u ∧ u ≤ t.unixNano / 1000000000 := by
        simp only [atSecond, Second_eq] at hu1 hu2; omega
      apply fieldsMatch_false_of_hour
      have : (atSecond u t0.loc).Hour = t.Hour := by
        rw [← hloc]
        simp only [ZonedTime.Hour, wall_atSecond u t.loc hlt]
        omega
      rw [this]; exact hm
  · have : (maskBit t.Hour s.hour == 0) = false := by simpa using hm
    simp only [this] at hstep
    injection hstep with h1 h2
    subst h1 h2
    obtain ⟨c1, c2⟩ := hinv.2.2.1
    exact ⟨hinv.1, hinv.2.1, ⟨c1, c2, hm⟩, hinv.2.2.2⟩

theorem invariant_day (s : SpecSchedule) (yl : Int) (t0 t t' : ZonedTime)
    (place' : CronPrevPlace) (hl : t0.loc.transitions = [])
    (hinv : searchInvariant s t0 .dayLoop t)
    (hstep : cronPrevStep s yl .dayLoop t = .goOn place' t') :
    searchInvariant s t0 place' t' := by
  have hloc := hinv.1
  have hlt : t.loc.transitions = [] := by rw [hloc]; exact hl
  simp only [cronPrevStep, date_day t hlt, atSecond_add] at hstep
  have hw := wall_fixed t hlt
  have hdn : t.dayNumber = t.wall / 86400 := rfl
  by_cases hm : dayMatches s t = true
  · simp only [hm, Bool.not_true, Bool.false_eq_true, if_false] at hstep
    injection hstep with h1 h2
    subst h1 h2
    exact ⟨hinv.1, hinv.2.1, ⟨hinv.2.2.1, hm⟩, hinv.2.2.2⟩
  · have hm' : dayMatches s t = false := by simpa using hm
    simp only [hm', Bool.not_false, if_true] at hstep
    have hday : (atSecond (t.dayNumber * 86400 - t.loc.initialOffset) t.loc).Day = t.Day := by
      have : (atSecond (t.dayNumber * 86400 - t.loc.initialOffset) t.loc).dayNumber =
          t.dayNumber := by
        simp only [ZonedTime.dayNumber, wall_atSecond _ t.loc hlt]; omega
      simp only [ZonedTime.Day, this]
    rw [hday] at hstep
    generalize hX : t.dayNumber * 86400 - t.loc.initialOffset - 1 = X at hstep
    have key : t' = atSecond X t.loc ∧
        (place' = .wrap ∨ (place' = .dayLoop ∧ t.Day ≠ 1)) := by
      split at hstep
      · injection hstep with h1 h2
        exact ⟨h2.symm, Or.inl h1.symm⟩
      · rename_i hne
        injection hstep with h1 h2
        exact ⟨h2.symm, Or.inr ⟨h1.symm, by simpa using hne⟩⟩
    obtain ⟨ht', hp⟩ := key
    subst ht'
    have hw' := wall_atSecond X t.loc hlt
    refine searchInvariant_step s t0 t _ _ place' hinv rfl ?_ ?_ ?_
    · simp only [atSecond, Second_eq]; omega
    · rcases hp with hp | ⟨hp, hd1⟩
      · subst hp; trivial
      · subst hp
        have hd : (atSecond X t.loc).dayNumber = t.dayNumber - 1 := by
          simp only [ZonedTime.dayNumber, hw']; omega
        have hpos := civilOfDay_day_pos t.dayNumber
        have h2 : 2 ≤ (civilOfDay t.dayNumber).2.2 := by
          simp only [ZonedTime.Day] at hd1; omega
        have hpred := civilOfDay_pred t.dayNumber h2
        show maskBit (atSecond X t.loc).Month s.month ≠ 0
        have : (atSecond X t.loc).Month = t.Month := by
          simp only [ZonedTime.Month, hd, hpred]
        rw [this]; exact hinv.2.2.1
    · intro _ u hu1 hu2
      have hu : X < u ∧ u ≤ t.unixNano / 1000000000 := by
        simp only [atSecond, Second_eq] at hu1 hu2; omega
      apply fieldsMatch_false_of_day
      have : (atSecond u t0.loc).dayNumber = t.dayNumber := by
        rw [← hloc]
        simp only [ZonedTime.dayNumber, wall_atSecond u t.loc hlt]
        omega
      rw [dayMatches_congr s this]; exact hm'

theorem invariant_month (s : SpecSchedule) (yl : Int) (t0 t t' : ZonedTime)
    (place' : CronPrevPlace) (hl : t0.loc.transitions = [])
    (hinv : searchInvariant s t0 .monthLoop t)
    (hstep : cronPrevStep s yl .monthLoop t = .goOn place' t') :
    searchInvariant s t0 place' t' := by
  have hloc := hinv.1
  have hlt : t.loc.transitions = [] := by rw [hloc]; exact hl
  simp only [cronPrevStep, date_month t hlt, atSecond_add] at hstep
  have hw := wall_fixed t hlt
  have hdn : t.dayNumber = t.wall / 86400 := rfl
  by_cases hm : maskBit t.Month s.month = 0
  · simp only [hm, beq_self_eq_true, if_true] at hstep
    generalize hX : (t.dayNumber - (t.Day - 1)) * 86400 - t.loc.initialOffset - 1 = X at hstep
    have key : t' = atSecond X t.loc := by
      split at hstep
      · injection hstep with h1 h2
        exact h2.symm
      · injection hstep with h1 h2
        exact h2.symm
    have hp : place' = .wrap ∨ place' = .monthLoop := by
      split at hstep
      · injection hstep with h1 h2
        exact Or.inl h1.symm
      · injection hstep with h1 h2
        exact Or.inr h1.symm
    subst key
    have hpos : 1 ≤ t.Day := civilOfDay_day_pos t.dayNumber
    refine searchInvariant_step s t0 t _ _ place' hinv rfl ?_ ?_ ?_
    · simp only [atSecond, Second_eq]; omega
    · rcases hp with hp | hp <;> subst hp <;> trivial
    · intro _ u hu1 hu2
      have hu : X < u ∧ u ≤ t.unixNano / 1000000000 := by
        simp only [atSecond, Second_eq] at hu1 hu2; omega
      apply fieldsMatch_false_of_month
      have hrange : t.dayNumber - (t.Day - 1) ≤ (atSecond u t.loc).dayNumber ∧
          (atSecond u t.loc).dayNumber ≤ t.dayNumber := by
        simp only [ZonedTime.dayNumber, wall_atSecond u t.loc hlt]
        omega
      obtain ⟨k, hk⟩ : ∃ k : Nat, (atSecond u t.loc).dayNumber = t.dayNumber - k :=
        ⟨(t.dayNumber - (atSecond u t.loc).dayNumber).toNat, by omega⟩
      have hk1 : (k : Int) + 1 ≤ (civilOfDay t.dayNumber).2.2 := by
        have : t.Day = (civilOfDay t.dayNumber).2.2 := rfl
        omega
      have hsub := civilOfDay_sub t.dayNumber k hk1
      have : (atSecond u t0.loc).Month = t.Month := by
        rw [← hloc]
        simp only [ZonedTime.Month, hk, hsub]
      rw [this]; exact hm
  · have : (maskBit t.Month s.month == 0) = false := by simpa using hm
    simp only [this] at hstep
    injection hstep with h1 h2
    subst h1 h2
    exact ⟨hinv.1, hinv.2.1, hm, hinv.2.2.2⟩

/-- Every step of `cronPrev` that goes on keeps the invariant of the search. -/
theorem cronPrevStep_invariant (s : SpecSchedule) (yl : Int) (t0 t t' : ZonedTime)
    (place place' : CronPrevPlace) (hl : t0.loc.transitions = [])
    (hinv : searchInvariant s t0 place t)
    (hstep : cronPrevStep s yl place t = .goOn place' t') :
    searchInvariant s t0 place' t' := by
  cases place
  · exact invariant_wrap s yl t0 t t' place' hinv hstep
  · exact invariant_month s yl t0 t t' place' hl hinv hstep
  · exact invariant_day s yl t0 t t' place' hl hinv hstep
  · exact invariant_hour s yl t0 t t' place' hl hinv hstep
  · exact invariant_minute s yl t0 t t' place' hl hinv hstep
  · exact invariant_second s yl t0 t t' place' hl hinv hstep

/-- A step of `cronPrev` finds a time only at the head of the seconds loop, and the time it
finds is the one it stands at, with all fields matching. -/
theorem cronPrevStep_found (s : SpecSchedule) (yl : Int) (t0 t r : ZonedTime)
    (place : CronPrevPlace) (hinv : searchInvariant s t0 place t)
    (hstep : cronPrevStep s yl place t = .found r) :
    r = t ∧ fieldsMatch s t = true := by
  cases place <;> simp only [cronPrevStep] at hstep
  · split at hstep <;> exact absurd hstep (by simp)
  · split at hstep
    · split at hstep <;> exact absurd hstep (by simp)
    · exact absurd hstep (by simp)
  · split at hstep
    · split at hstep <;> exact absurd hstep (by simp)
    · exact absurd hstep (by simp)
  · split at hstep
    · split at hstep <;> exact absurd hstep (by simp)
    · exact absurd hstep (by simp)
  · split at hstep
    · split at hstep <;> exact absurd hstep (by simp)
    · exact absurd hstep (by simp)
  · split at hstep
    · split at hstep <;> exact absurd hstep (by simp)
    · rename_i hne
      injection hstep with h
      obtain ⟨c1, c2, c3, c4⟩ := hinv.2.2.1
      refine ⟨h.symm, ?_⟩
      have hs : maskBit t.Sec s.second ≠ 0 := by simpa using hne
      simp [fieldsMatch, c1, c2, c3, c4, hs]

/-- A run of `cronPrev` that finds a time finds one that matches every field, with the
invariant of the search in force. -/
theorem cronPrevFrom_found (s : SpecSchedule) (yl : Int) (t0 : ZonedTime)
    (hl : t0.loc.transitions = []) :
    ∀ (fuel : Nat) (place : CronPrevPlace) (t r : ZonedTime),
      searchInvariant s t0 place t → cronPrevFrom s yl fuel place t = some (.found r) →
      searchInvariant s t0 .secondLoop r ∧ fieldsMatch s r = true
  | 0, _, _, _, _, h => by simp [cronPrevFrom] at h
  | fuel + 1, place, t, r, hinv, h => by
    simp only [cronPrevFrom] at h
    cases hstep : cronPrevStep s yl place t with
    | goOn place' t' =>
      rw [hstep] at h
      exact cronPrevFrom_found s yl t0 hl fuel place' t' r
        (cronPrevStep_invariant s yl t0 t t' place place' hl hinv hstep) h
    | giveUp =>
      rw [hstep] at h
      simp at h
    | found r' =>
      rw [hstep] at h
      have hr : r' = r := by simpa using h
      subst hr
      obtain ⟨h1, h2⟩ := cronPrevStep_found s yl t0 t r' place hinv hstep
      subst h1
      have hplace : place = .secondLoop := by
        cases place <;> simp only [cronPrevStep] at hstep
        · split at hstep <;> exact absurd hstep (by simp)
        · split at hstep
          · split at hstep <;> exact absurd hstep (by simp)
          · exact absurd hstep (by simp)
        · split at hstep
          · split at hstep <;> exact absurd hstep (by simp)
          · exact absurd hstep (by simp)
        · split at hstep
          · split at hstep <;> exact absurd hstep (by simp)
          · exact absurd hstep (by simp)
        · split at hstep
          · split at hstep <;> exact absurd hstep (by simp)
          · exact absurd hstep (by simp)
        · rfl
      subst hplace
      exact ⟨hinv, h2⟩

/-- The time at which `cronPrev` starts its search: the given instant, read in the location
of the search. -/
theorem searchStart (s : SpecSchedule) (t : ZonedTime) :
    (if s.location.isLocal then t else t.In s.location) = t.In (searchLocation s t) := by
  simp only [searchLocation, ZonedTime.In]
  split <;> rfl

theorem searchInvariant_start (s : SpecSchedule) (t : ZonedTime) :
    searchInvariant s t .wrap t :=
  ⟨rfl, le_refl _, trivial, fun _ _ h1 h2 => absurd (lt_of_lt_of_le h1 h2) (lt_irrefl _)⟩

theorem IsZero_zero : ZonedTime.zero.IsZero = true := by
  simp [ZonedTime.IsZero, ZonedTime.zero]

/-- What a non-zero result of `cronPrev` is, in a location without zone transitions: the
search found it, it is not later than the given instant, it matches every field, and, if the
offset of the location is a whole number of minutes, no whole second after it up to the given
instant matches. -/
theorem cronPrev_result (fuel : Nat) (s : SpecSchedule) (t r : ZonedTime)
    (hl : (searchLocation s t).transitions = [])
    (h : cronPrev fuel s t = some r) (hz : r.IsZero = false) :
    r.loc = t.loc ∧ r.unixNano ≤ t.unixNano ∧
      fieldsMatch s (r.In (searchLocation s t)) = true ∧
      ((searchLocation s t).initialOffset % 60 = 0 → ∀ u : Int, r.unixNano < u * Second →
        u * Second ≤ t.unixNano → fieldsMatch s (atSecond u (searchLocation s t)) = false) := by
  simp only [cronPrev, searchStart] at h
  cases hrun : cronPrevFrom s ((t.In (searchLocation s t)).Year - 5) fuel .wrap
      (t.In (searchLocation s t)) with
  | none => rw [hrun] at h; simp at h
  | some step =>
    rw [hrun] at h
    cases step with
    | goOn p q =>
      have : r = ZonedTime.zero := by simpa using h.symm
      rw [this, IsZero_zero] at hz
      exact absurd hz (by simp)
    | giveUp =>
      have : r = ZonedTime.zero := by simpa using h.symm
      rw [this, IsZero_zero] at hz
      exact absurd hz (by simp)
    | found q =>
      have hr : r = q.In t.loc := by simpa using h.symm
      obtain ⟨⟨h1, h2, _, h4⟩, h5⟩ := cronPrevFrom_found s _ (t.In (searchLocation s t)) hl fuel
        .wrap _ q (searchInvariant_start s _) hrun
      have hq : q.In (searchLocation s t) = q := by
        cases q
        simp only [ZonedTime.In] at h1 ⊢
        rw [h1]
      subst hr
      refine ⟨rfl, h2, ?_, h4⟩
      show fieldsMatch s (q.In (searchLocation s t)) = true
      rw [hq]; exact h5

theorem Add_zero_duration (t : ZonedTime) : t.Add 0 = t := by
  cases t; simp [ZonedTime.Add]

theorem wrapInt32_of_range (n : Int) (h1 : -2 ^ 31 ≤ n) (h2 : n < 2 ^ 31) : wrapInt32 n = n := by
  simp only [wrapInt32]
  omega

/-- When every adjacent event time is returned, the loop of the code is the loop over the
candidates. -/
theorem nearestScheduleLoop_eq (lib : CronLib) (fuel : Nat) (now : ZonedTime)
    (direction : EventDirection) (o : Int) :
    ∀ (schedules : List (Option SpecSchedule)) (adjacent : List ZonedTime) (idx : Int)
      (nearest : ZonedTime × Int),
      List.Forall₂ (fun s a => adjacentEventTime lib fuel s now direction = .value a)
        schedules adjacent →
      nearestScheduleLoop lib fuel now direction o schedules idx nearest =
        .value (pickNearest direction (adjacent.map (candidate (-wrapInt32 (-o)))) idx nearest)
  | [], _, idx, nearest, h => by
    cases h
    rfl
  | s :: rest, _, idx, nearest, h => by
    cases h with
    | cons h1 h2 =>
      rename_i a as
      simp only [nearestScheduleLoop, h1, Ending.andThen, List.map_cons, candidate, neg_neg]
      by_cases hz : a.IsZero = true
      · simp only [hz, if_true, pickNearest]
        exact nearestScheduleLoop_eq lib fuel now direction o rest as (idx + 1) nearest h2
      · simp only [hz, if_false, pickNearest, Bool.false_eq_true]
        split
        · exact nearestScheduleLoop_eq lib fuel now direction o rest as (idx + 1) _ h2
        · exact nearestScheduleLoop_eq lib fuel now direction o rest as (idx + 1) _ h2

theorem eventIsNearer_iff (c ref : ZonedTime) (direction : EventDirection)
    (h : ref.IsZero = false) :
    eventIsNearer c ref direction = true ↔ nearerThan direction c ref := by
  simp only [eventIsNearer, h, nearerThan, ZonedTime.Before, ZonedTime.After]
  cases direction <;> simp

theorem nearerThan_irrefl (direction : EventDirection) (a : ZonedTime) :
    ¬ nearerThan direction a a := by
  simp only [nearerThan]
  split <;> omega

theorem nearerThan_trans_not (direction : EventDirection) (a b c : ZonedTime)
    (h1 : nearerThan direction a b) (h2 : ¬ nearerThan direction c b) :
    nearerThan direction a c := by
  simp only [nearerThan] at *
  split at h1 <;> simp_all <;> omega

theorem not_nearerThan_trans (direction : EventDirection) (a b c : ZonedTime)
    (h1 : ¬ nearerThan direction a b) (h2 : ¬ nearerThan direction b c) :
    ¬ nearerThan direction a c := by
  simp only [nearerThan] at *
  split at h1 <;> simp_all <;> omega

theorem nearerThan_asymm (direction : EventDirection) (a b : ZonedTime)
    (h : nearerThan direction a b) : ¬ nearerThan direction b a := by
  simp only [nearerThan] at *
  split at h <;> simp_all <;> omega

theorem nearerThan_ne (direction : EventDirection) (a b : ZonedTime)
    (h : nearerThan direction a b) : b.unixNano ≠ a.unixNano := by
  simp only [nearerThan] at h
  split at h <;> omega

/-- The loop over the candidates: where the result comes from, that no candidate is nearer,
and that the result stays in order. -/
theorem pickNearest_spec (direction : EventDirection) :
    ∀ (cs : List (Option ZonedTime)) (idx : Int) (nearest : ZonedTime × Int),
      (∀ c, some c ∈ cs → c.IsZero = false) → 0 ≤ idx → inOrder nearest idx →
      (pickNearest direction cs idx nearest = nearest ∨
        ∃ j : Nat, cs.get? j = some (some (pickNearest direction cs idx nearest).1) ∧
          (pickNearest direction cs idx nearest).2 = idx + j ∧
          (nearest.1.IsZero = false →
            nearerThan direction (pickNearest direction cs idx nearest).1 nearest.1) ∧
          (∀ (k : Nat) (c : ZonedTime), k < j → cs.get? k = some (some c) →
            c.unixNano ≠ (pickNearest direction cs idx nearest).1.unixNano)) ∧
      (∀ c, some c ∈ cs → ¬ nearerThan direction c (pickNearest direction cs idx nearest).1) ∧
      (nearest.1.IsZero = false →
        ¬ nearerThan direction nearest.1 (pickNearest direction cs idx nearest).1) ∧
      (nearest.1.IsZero = false → (pickNearest direction cs idx nearest).1.IsZero = false) ∧
      ((∃ c, some c ∈ cs) → (pickNearest direction cs idx nearest).1.IsZero = false)
  | [], idx, nearest, _, _, _ => by
    refine ⟨Or.inl rfl, ?_, ?_, ?_, ?_⟩
    · intro c hc; simp at hc
    · intro _; exact nearerThan_irrefl _ _
    · intro h; exact h
    · rintro ⟨c, hc⟩; simp at hc
  | none :: rest, idx, nearest, hnz, hidx, hord => by
    have hord' : inOrder nearest (idx + 1) := by
      rcases hord with h | ⟨h1, h2, h3⟩
      · exact Or.inl h
      · exact Or.inr ⟨h1, h2, by omega⟩
    obtain ⟨ih1, ih2, ih3, ih4, ih5⟩ := pickNearest_spec direction rest (idx + 1) nearest
      (fun c hc => hnz c (List.mem_cons_of_mem _ hc)) (by omega) hord'
    simp only [pickNearest]
    refine ⟨?_, ?_, ih3, ih4, ?_⟩
    · rcases ih1 with h | ⟨j, h1, h2, h3, h4⟩
      · exact Or.inl h
      · refine Or.inr ⟨j + 1, by simpa using h1, by rw [h2]; push_cast; ring, h3, ?_⟩
        intro k c hk hc
        cases k with
        | zero => simp at hc
        | succ k => exact h4 k c (by omega) (by simpa using hc)
    · intro c hc
      rcases List.mem_cons.mp hc with h | h
      · simp at h
      · exact ih2 c h
    · rintro ⟨c, hc⟩
      rcases List.mem_cons.mp hc with h | h
      · simp at h
      · exact ih5 ⟨c, h⟩
  | some c0 :: rest, idx, nearest, hnz, hidx, hord => by
    have hc0 : c0.IsZero = false := hnz c0 (List.mem_cons_self _ _)
    have hrest : ∀ c, some c ∈ rest → c.IsZero = false :=
      fun c hc => hnz c (List.mem_cons_of_mem _ hc)
    simp only [pickNearest]
    by_cases hn : eventIsNearer c0 nearest.1 direction = true
    · -- the head becomes the nearest
      simp only [hn, if_true]
      have hord' : inOrder (c0, idx) (idx + 1) := Or.inr ⟨hc0, hidx, by simp⟩
      obtain ⟨ih1, ih2, ih3, ih4, ih5⟩ := pickNearest_spec direction rest (idx + 1) (c0, idx)
        hrest (by omega) hord'
      have hstrict : nearest.1.IsZero = false → nearerThan direction c0 nearest.1 :=
        fun hz => (eventIsNearer_iff c0 nearest.1 direction hz).mp hn
      refine ⟨Or.inr ?_, ?_, ?_, fun _ => ih4 hc0, fun _ => ih4 hc0⟩
      · rcases ih1 with h | ⟨j, h1, h2, h3, h4⟩
        · refine ⟨0, by rw [h]; simp, by rw [h]; simp, ?_, ?_⟩
          · intro hz; rw [h]; exact hstrict hz
          · intro k c hk; omega
        · refine ⟨j + 1, by simpa using h1, by rw [h2]; push_cast; ring, ?_, ?_⟩
          · intro hz
            by_contra hcon
            exact ih3 hc0 (nearerThan_trans_not direction _ _ _ (hstrict hz) hcon)
          · intro k c hk hc
            cases k with
            | zero =>
              have : c = c0 := by simpa using hc.symm
              rw [this]
              exact nearerThan_ne direction _ _ (h3 hc0)
            | succ k => exact h4 k c (by omega) (by simpa using hc)
      · intro c hc
        rcases List.mem_cons.mp hc with h | h
        · have : c = c0 := by simpa using h
          rw [this]; exact ih3 hc0
        · exact ih2 c h
      · intro hz hcon
        exact nearerThan_asymm direction _ _ (hstrict hz)
          (nearerThan_trans_not direction _ _ _ hcon (ih3 hc0))
    · -- the nearest stays
      have hz : nearest.1.IsZero = false := by
        by_contra hcon
        simp only [Bool.not_eq_false] at hcon
        simp [eventIsNearer, hcon] at hn
      have hnot : ¬ nearerThan direction c0 nearest.1 :=
        fun h => hn ((eventIsNearer_iff c0 nearest.1 direction hz).mpr h)
      simp only [hn, if_false, Bool.false_eq_true]
      have hord' : inOrder nearest (idx + 1) := by
        rcases hord with h | ⟨h1, h2, h3⟩
        · exact Or.inl h
        · exact Or.inr ⟨h1, h2, by omega⟩
      obtain ⟨ih1, ih2, ih3, ih4, ih5⟩ := pickNearest_spec direction rest (idx + 1) nearest
        hrest (by omega) hord'
      refine ⟨?_, ?_, ih3, ih4, fun _ => ih4 hz⟩
      · rcases ih1 with h | ⟨j, h1, h2, h3, h4⟩
        · exact Or.inl h
        · refine Or.inr ⟨j + 1, by simpa using h1, by rw [h2]; push_cast; ring, h3, ?_⟩
          intro k c hk hc
          cases k with
          | zero =>
            have : c = c0 := by simpa using hc.symm
            rw [this]
            exact nearerThan_ne direction _ _ (nearerThan_trans_not direction _ _ _ (h3 hz) hnot)
          | succ k => exact h4 k c (by omega) (by simpa using hc)
      · intro c hc
        rcases List.mem_cons.mp hc with h | h
        · have : c = c0 := by simpa using h
          rw [this]
          exact not_nearerThan_trans direction _ _ _ hnot (ih3 hz)
        · exact ih2 c h

/-- From the initial answer, the loop over candidates other than the zero time yields what
the specification asks for. -/
theorem pickNearest_isNearest (direction : EventDirection) (cs : List (Option ZonedTime))
    (hnz : ∀ c, some c ∈ cs → c.IsZero = false) :
    IsNearestOf direction cs (pickNearest direction cs 0 (ZonedTime.zero, -1)) := by
  obtain ⟨h1, h2, _, _, h5⟩ := pickNearest_spec direction cs 0 (ZonedTime.zero, -1) hnz
    (le_refl _) (Or.inl rfl)
  by_cases hall : ∀ c ∈ cs, c = none
  · left
    refine ⟨hall, ?_⟩
    rcases h1 with h | ⟨j, hj, _⟩
    · exact h
    · have := hall _ (List.get?_mem hj)
      simp at this
  · right
    have hex : ∃ c, some c ∈ cs := by
      by_contra hcon
      apply hall
      intro c hc
      cases c with
      | none => rfl
      | some c => exact absurd ⟨c, hc⟩ hcon
    have hr := h5 hex
    rcases h1 with h | ⟨j, hj, hidx, _, hfirst⟩
    · rw [h] at hr
      simp [IsZero_zero] at hr
    · exact ⟨j, hj, by rw [hidx]; simp, h2, hfirst⟩

theorem IsZero_Add_congr (a b : ZonedTime) (h : a.unixNano = b.unixNano) :
    a.IsZero = b.IsZero := by
  simp [ZonedTime.IsZero, h]

/-- Moving every candidate and the accumulator by the same duration moves the result of the
loop, as long as the zero time is not met. -/
theorem pickNearest_shift (direction : EventDirection) (d : Int) :
    ∀ (cs : List (Option ZonedTime)) (idx : Int) (nearest : ZonedTime × Int),
      (∀ c, some c ∈ cs → c.IsZero = false ∧ (c.Add d).IsZero = false) → 0 ≤ idx →
      inOrder nearest idx → (nearest.1.IsZero = false → (nearest.1.Add d).IsZero = false) →
      pickNearest direction (cs.map (Option.map fun c => c.Add d)) idx (shiftResult d nearest) =
        shiftResult d (pickNearest direction cs idx nearest)
  | [], _, _, _, _, _, _ => rfl
  | none :: rest, idx, nearest, hnz, hidx, hord, hsh => by
    have hord' : inOrder nearest (idx + 1) := by
      rcases hord with h | ⟨h1, h2, h3⟩
      · exact Or.inl h
      · exact Or.inr ⟨h1, h2, by omega⟩
    simp only [List.map_cons, Option.map_none', pickNearest]
    exact pickNearest_shift direction d rest (idx + 1) nearest
      (fun c hc => hnz c (List.mem_cons_of_mem _ hc)) (by omega) hord' hsh
  | some c0 :: rest, idx, nearest, hnz, hidx, hord, hsh => by
    obtain ⟨hc0, hc0'⟩ := hnz c0 (List.mem_cons_self _ _)
    have hrest : ∀ c, some c ∈ rest → c.IsZero = false ∧ (c.Add d).IsZero = false :=
      fun c hc => hnz c (List.mem_cons_of_mem _ hc)
    have hnear : eventIsNearer (c0.Add d) (shiftResult d nearest).1 direction =
        eventIsNearer c0 nearest.1 direction := by
      rcases hord with h | ⟨h1, h2, h3⟩
      · rw [h]
        simp [shiftResult, eventIsNearer, IsZero_zero]
      · have hne : nearest.2 ≠ -1 := by omega
        have h1' := hsh h1
        simp only [shiftResult, hne, if_false, eventIsNearer, h1, h1', Bool.false_eq_true]
        simp only [ZonedTime.Before, ZonedTime.After, ZonedTime.Add]
        cases direction <;> simp
    have htaken : ((c0.Add d, idx) : ZonedTime × Int) = shiftResult d (c0, idx) := by
      have hne : idx ≠ -1 := by omega
      simp [shiftResult, hne]
    have hord1 : inOrder (c0, idx) (idx + 1) := Or.inr ⟨hc0, hidx, by simp⟩
    have hord2 : inOrder nearest (idx + 1) := by
      rcases hord with h | ⟨h1, h2, h3⟩
      · exact Or.inl h
      · exact Or.inr ⟨h1, h2, by omega⟩
    simp only [List.map_cons, Option.map_some', pickNearest, hnear]
    split
    · rw [htaken]
      exact pickNearest_shift direction d rest (idx + 1) (c0, idx) hrest (by omega) hord1
        (fun _ => hc0')
    · exact pickNearest_shift direction d rest (idx + 1) nearest hrest (by omega) hord2 hsh

theorem candidate_zero_offset (a : ZonedTime) :
    candidate 0 a = if a.IsZero then none else some a := by
  simp [candidate, Add_zero_duration]

theorem candidate_shift (o : Int) (a : ZonedTime) :
    candidate o a = (candidate 0 a).map fun c => c.Add (Second * -o) := by
  rw [candidate_zero_offset]
  simp only [candidate]
  split <;> rfl

/-! ## `findNearestScheduleTime` over the candidates -/

/-- What `findNearestScheduleTime` returns when every adjacent event time is returned and the
offset is not the least `int32`: the result of the loop over the candidates. -/
theorem findNearestScheduleTime_value (lib : CronLib) (fuel : Nat)
    (schedules : List (Option SpecSchedule)) (adjacent : List ZonedTime) (now : ZonedTime)
    (direction : EventDirection) (o : Int)
    (hadj : List.Forall₂
      (fun s a => adjacentEventTime lib fuel s (now.Add (Second * o)) direction = .value a)
      schedules adjacent)
    (ho : -2 ^ 31 < o ∧ o < 2 ^ 31) :
    findNearestScheduleTime lib fuel schedules now direction o =
      .value (pickNearest direction (adjacent.map (candidate o)) 0 (ZonedTime.zero, -1)) := by
  simp only [findNearestScheduleTime]
  rw [nearestScheduleLoop_eq lib fuel _ direction o schedules adjacent 0 _ hadj,
    wrapInt32_of_range (-o) (by omega) (by omega), neg_neg]

theorem candidate_not_zero (o : Int) (adjacent : List ZonedTime)
    (hz : ∀ a ∈ adjacent, a.IsZero = false → (a.Add (Second * -o)).IsZero = false) :
    ∀ c, some c ∈ adjacent.map (candidate o) → c.IsZero = false := by
  intro c hc
  obtain ⟨a, ha, hca⟩ := List.mem_map.mp hc
  simp only [candidate] at hca
  split at hca
  · simp at hca
  · rename_i hne
    have : a.Add (Second * -o) = c := by simpa using hca
    rw [← this]
    exact hz a ha (by simpa using hne)

/-- What `findNearestScheduleTime` returns away from the inputs on which it slips. If every
schedule's adjacent event time is returned, the additional offset `o` is an `int32` other than
the least one, and no candidate is the zero time, then
`findNearestScheduleTime` returns the nearest of the candidates `cronPrev(s, now + o) - o`
(respectively `s.Next(now + o) - o`) with the index of the first schedule attaining it, and
the zero time with -1 when no schedule has a candidate; and the result equals the result for
offset 0 at `now + o` with its time moved back by `o`, except that the answer "nothing found"
is not moved. -/
theorem nearest_schedule_time (lib : CronLib) (fuel : Nat)
    (schedules : List (Option SpecSchedule)) (adjacent : List ZonedTime) (now : ZonedTime)
    (direction : EventDirection) (o : Int)
    (hadj : List.Forall₂
      (fun s a => adjacentEventTime lib fuel s (now.Add (Second * o)) direction = .value a)
      schedules adjacent)
    (ho : -2 ^ 31 < o ∧ o < 2 ^ 31)
    (hz : ∀ a ∈ adjacent, a.IsZero = false → (a.Add (Second * -o)).IsZero = false) :
    ∃ r r0, findNearestScheduleTime lib fuel schedules now direction o = .value r ∧
      IsNearestOf direction (adjacent.map (candidate o)) r ∧
      findNearestScheduleTime lib fuel schedules (now.Add (Second * o)) direction 0 =
        .value r0 ∧
      r = shiftResult (Second * -o) r0 := by
  have hadj0 : List.Forall₂
      (fun s a => adjacentEventTime lib fuel s ((now.Add (Second * o)).Add (Second * 0))
        direction = .value a) schedules adjacent := by
    simpa [Add_zero_duration] using hadj
  refine ⟨_, _, findNearestScheduleTime_value lib fuel schedules adjacent now direction o hadj ho,
    pickNearest_isNearest direction _ (candidate_not_zero o adjacent hz),
    findNearestScheduleTime_value lib fuel schedules adjacent _ direction 0 hadj0
      (by constructor <;> norm_num), ?_⟩
  have hmap : adjacent.map (candidate o) =
      (adjacent.map (candidate 0)).map (Option.map fun c => c.Add (Second * -o)) := by
    rw [List.map_map]
    apply List.map_congr_left
    intro a _
    exact candidate_shift o a
  have hinit : ((ZonedTime.zero, -1) : ZonedTime × Int) =
      shiftResult (Second * -o) (ZonedTime.zero, -1) := by
    simp [shiftResult]
  rw [hmap]
  conv_lhs => rw [hinit]
  apply pickNearest_shift direction (Second * -o) _ 0 _ _ (le_refl _) (Or.inl rfl)
  · intro h
    simp [IsZero_zero] at h
  · intro c hc
    obtain ⟨a, ha, hca⟩ := List.mem_map.mp hc
    rw [candidate_zero_offset] at hca
    split at hca
    · simp at hca
    · rename_i hne
      have : a = c := by simpa using hca
      subst this
      exact ⟨by simpa using hne, hz a ha (by simpa using hne)⟩

set_option maxRecDepth 100000 in
/-- An example: the schedules "every day at 09:00" and "every day at 17:00" in UTC, looked
at backward from 2022-12-12T12:12:00Z with an additional offset of one minute. -/
theorem nearest_schedule_time_example :
    List.Forall₂
        (fun s a => adjacentEventTime exampleLib 200 s (exampleNoon.Add (Second * 60))
          .directionPrevious = .value a)
        [some dailyAtNine, some dailyAtFive]
        [atSecond 1670835600 Location.UTC, atSecond 1670778000 Location.UTC] ∧
      ((-2 : Int) ^ 31 < 60 ∧ (60 : Int) < 2 ^ 31) ∧
      (∀ a ∈ [atSecond 1670835600 Location.UTC, atSecond 1670778000 Location.UTC],
        a.IsZero = false → (a.Add (Second * -60)).IsZero = false) ∧
      ∃ r r0, findNearestScheduleTime exampleLib 200 [some dailyAtNine, some dailyAtFive]
          exampleNoon .directionPrevious 60 = .value r ∧
        IsNearestOf .directionPrevious
          ([atSecond 1670835600 Location.UTC, atSecond 1670778000 Location.UTC].map
            (candidate 60)) r ∧
        findNearestScheduleTime exampleLib 200 [some dailyAtNine, some dailyAtFive]
          (exampleNoon.Add (Second * 60)) .directionPrevious 0 = .value r0 ∧
        r = shiftResult (Second * -60) r0 :=
  ⟨List.Forall₂.cons (by rfl) (List.Forall₂.cons (by rfl) List.Forall₂.nil),
    by constructor <;> norm_num, by decide,
    nearest_schedule_time exampleLib 200 [some dailyAtNine, some dailyAtFive]
      [atSecond 1670835600 Location.UTC, atSecond 1670778000 Location.UTC] exampleNoon
      .directionPrevious 60
      (List.Forall₂.cons (by rfl) (List.Forall₂.cons (by rfl) List.Forall₂.nil))
      (by constructor <;> norm_num) (by decide)⟩

/-! ## `findNearestEvent` -/

/-- The first loop of `findNearestEvent` when every event that passes the filter is well
formed. -/
theorem schedulesToSearch_wellFormed (lib : CronLib) (location : Location)
    (filter : EventSpec → Bool) :
    ∀ (events : List EventSpec),
      (∀ e ∈ events, filter e = true → wellFormed lib location e) →
      schedulesToSearch lib location filter events =
        .value ((events.filter filter).map (scheduleOf lib location),
          (events.filter filter).map fun e => e.action)
  | [], _ => rfl
  | e :: rest, h => by
    have ih := schedulesToSearch_wellFormed lib location filter rest
      (fun x hx => h x (List.mem_cons_of_mem _ hx))
    by_cases hf : filter e = true
    · obtain ⟨s, hs⟩ := h e (List.mem_cons_self _ _) hf
      simp only [schedulesToSearch, hf, Bool.not_true, Bool.false_eq_true, if_false, hs, ih,
        Ending.andThen, List.filter_cons_of_pos, List.map_cons, scheduleOf]
    · have hf' : filter e = false := by simpa using hf
      simp only [schedulesToSearch, hf', Bool.not_false, if_true, ih]
      rw [List.filter_cons_of_neg (by simp [hf'])]

/-- If the first loop of `findNearestEvent` returns, every event that passes the filter is
well formed. -/
theorem wellFormed_of_schedulesToSearch (lib : CronLib) (location : Location)
    (filter : EventSpec → Bool) :
    ∀ (events : List EventSpec) (found : List (Option SpecSchedule) × List EventType),
      schedulesToSearch lib location filter events = .value found →
      ∀ e ∈ events, filter e = true → wellFormed lib location e
  | [], _, _ => by intro e he; simp at he
  | x :: rest, found, h => by
    intro e he hfe
    by_cases hf : filter x = true
    · simp only [schedulesToSearch, hf, Bool.not_true, Bool.false_eq_true, if_false] at h
      cases hx : mapEventToSpecSchedule lib x location with
      | value s =>
        rw [hx] at h
        simp only [Ending.andThen] at h
        cases hr : schedulesToSearch lib location filter rest with
        | value found' =>
          rcases List.mem_cons.mp he with h1 | h1
          · rw [h1]; exact ⟨s, hx⟩
          · exact wellFormed_of_schedulesToSearch lib location filter rest found' hr e h1 hfe
        | error msg => rw [hr] at h; simp at h
        | panic => rw [hr] at h; simp at h
        | unfinished => rw [hr] at h; simp at h
      | error msg => rw [hx] at h; simp [Ending.andThen] at h
      | panic => rw [hx] at h; simp [Ending.andThen] at h
      | unfinished => rw [hx] at h; simp [Ending.andThen] at h
    · have hf' : filter x = false := by simpa using hf
      simp only [schedulesToSearch, hf', Bool.not_false, if_true] at h
      rcases List.mem_cons.mp he with h1 | h1
      · rw [h1] at hfe; rw [hfe] at hf'; exact absurd hf' (by simp)
      · exact wellFormed_of_schedulesToSearch lib location filter rest found h e h1 hfe

/-- If `findNearestScheduleTime` finds nothing, `findNearestEvent` returns no event. -/
theorem findNearestEvent_none (lib : CronLib) (fuel : Nat) (events : List EventSpec)
    (now : ZonedTime) (location : Location) (o : Int) (direction : EventDirection)
    (filter : EventSpec → Bool) (found : List (Option SpecSchedule) × List EventType)
    (r : ZonedTime × Int)
    (hS : schedulesToSearch lib location filter events = .value found)
    (hr : findNearestScheduleTime lib fuel found.1 now direction o = .value r)
    (hz : r.1.IsZero = true) :
    findNearestEvent lib fuel events now location o direction filter = .value none := by
  simp only [findNearestEvent, hS, Ending.andThen, hr, hz, if_true]

/-- The event that `findNearestEvent` makes of the time and the index that
`findNearestScheduleTime` returns. -/
theorem findNearestEvent_some (lib : CronLib) (fuel : Nat) (events : List EventSpec)
    (now : ZonedTime) (location : Location) (o : Int) (direction : EventDirection)
    (filter : EventSpec → Bool) (found : List (Option SpecSchedule) × List EventType)
    (r : ZonedTime × Int) (idx : Nat) (action : EventType)
    (hS : schedulesToSearch lib location filter events = .value found)
    (hr : findNearestScheduleTime lib fuel found.1 now direction o = .value r)
    (hz : r.1.IsZero = false) (hidx : r.2 = idx) (hact : found.2.get? idx = some action) :
    findNearestEvent lib fuel events now location o direction filter =
      .value (some { type := action, scheduledTimeUTC := r.1 }) := by
  simp only [findNearestEvent, hS, Ending.andThen, hr, hz, Bool.false_eq_true, if_false]
  rw [hidx]
  show (match found.2.get? idx with
    | some action =>
      Ending.value (some ({ type := action, scheduledTimeUTC := r.1 } : ZonedScheduledEvent))
    | none => Ending.panic) = _
  rw [hact]

/-! ## More steps do not change what `cronPrev` returns -/

theorem cronPrevFrom_more_fuel (s : SpecSchedule) (yl : Int) (k : Nat) :
    ∀ (fuel : Nat) (place : CronPrevPlace) (t : ZonedTime) (r : CronPrevStep),
      cronPrevFrom s yl fuel place t = some r → cronPrevFrom s yl (fuel + k) place t = some r
  | 0, _, _, _, h => by simp [cronPrevFrom] at h
  | fuel + 1, place, t, r, h => by
    have e : fuel + 1 + k = (fuel + k) + 1 := by omega
    rw [e]
    simp only [cronPrevFrom] at h ⊢
    cases hstep : cronPrevStep s yl place t with
    | goOn place' t' =>
      rw [hstep] at h
      exact cronPrevFrom_more_fuel s yl k fuel place' t' r h
    | giveUp => rw [hstep] at h; exact h
    | found q => rw [hstep] at h; exact h

theorem cronPrev_more_fuel (fuel k : Nat) (s : SpecSchedule) (t r : ZonedTime)
    (h : cronPrev fuel s t = some r) : cronPrev (fuel + k) s t = some r := by
  simp only [cronPrev] at h ⊢
  cases hrun : cronPrevFrom s ((if s.location.isLocal then t else t.In s.location).Year - 5)
      fuel .wrap (if s.location.isLocal then t else t.In s.location) with
  | none => rw [hrun] at h; simp at h
  | some step =>
    rw [hrun] at h
    rw [cronPrevFrom_more_fuel s _ k fuel _ _ step hrun]
    exact h

/-- A result of `cronPrev` other than the zero time is in the location of the given time. -/
theorem cronPrev_loc (fuel : Nat) (s : SpecSchedule) (t r : ZonedTime)
    (h : cronPrev fuel s t = some r) (hz : r.IsZero = false) : r.loc = t.loc := by
  simp only [cronPrev] at h
  cases hrun : cronPrevFrom s ((if s.location.isLocal then t else t.In s.location).Year - 5)
      fuel .wrap (if s.location.isLocal then t else t.In s.location) with
  | none => rw [hrun] at h; simp at h
  | some step =>
    rw [hrun] at h
    cases step with
    | goOn p q =>
      have : r = ZonedTime.zero := by simpa using h.symm
      rw [this, IsZero_zero] at hz
      exact absurd hz (by simp)
    | giveUp =>
      have : r = ZonedTime.zero := by simpa using h.symm
      rw [this, IsZero_zero] at hz
      exact absurd hz (by simp)
    | found q =>
      have hr : r = q.In t.loc := by simpa using h.symm
      rw [hr]; rfl

/-! ## C12 and C13: `cronPrev` where the clocks go forward at midnight -/

set_option maxRecDepth 100000 in
theorem cronPrev_noonOnOctober30 :
    cronPrev 200 noonOnOctober30 gapSunday = some (atSecond 1506787200 Location.UTC) := by
  decide

set_option maxRecDepth 100000 in
theorem cronPrev_saturdayNight :
    cronPrev 400 saturdayNight gapSunday = some (atSecond 1506223800 Location.UTC) := by
  decide

/-- C12 at the failing input. The schedule is "noon on October 30" in `America/Asuncion` and
the instant is 2017-10-01T13:00:00Z, 10:00 on October 1 in Asuncion, a day that began at 01:00
because the clocks went forward at midnight. With any number of steps from 200 on, `cronPrev`
returns 2017-09-30T16:00:00Z, which is not the zero time and is noon on September 30 in
Asuncion: the month does not match the schedule. (The day loop asks `time.Date` for midnight
of October 1, which does not exist; it gets 23:00 of September 30, and since that is not a
first of the month the month is not checked again.) -/
theorem cronPrev_returns_other_month (k : Nat) :
    cronPrev (200 + k) noonOnOctober30 gapSunday = some (atSecond 1506787200 Location.UTC) ∧
      (atSecond 1506787200 Location.UTC).IsZero = false ∧
      ((atSecond 1506787200 Location.UTC).In (searchLocation noonOnOctober30 gapSunday)).Month
        = 9 ∧
      maskBit 9 noonOnOctober30.month = 0 ∧
      fieldsMatch noonOnOctober30
        ((atSecond 1506787200 Location.UTC).In (searchLocation noonOnOctober30 gapSunday)) =
          false :=
  ⟨cronPrev_more_fuel 200 k _ _ _ cronPrev_noonOnOctober30, by decide, by decide, by decide,
    by decide⟩

/-- C13 at the failing input. The schedule is "Saturdays at 23:30" in `America/Asuncion` and
the instant is 2017-10-01T13:00:00Z, the Sunday morning of the day that began at 01:00. With
any number of steps from 400 on, `cronPrev` returns 2017-09-24T03:30:00Z, the Saturday of the
week before, although 2017-10-01T03:30:00Z, which is Saturday September 30 at 23:30 in
Asuncion, matches every field and lies between the result and the given instant. -/
theorem cronPrev_skips_nearer_match (k : Nat) :
    cronPrev (400 + k) saturdayNight gapSunday = some (atSecond 1506223800 Location.UTC) ∧
      (atSecond 1506223800 Location.UTC).IsZero = false ∧
      fieldsMatch saturdayNight (atSecond 1506828600 (searchLocation saturdayNight gapSunday)) =
        true ∧
      (atSecond 1506223800 Location.UTC).unixNano < 1506828600 * Second ∧
      1506828600 * Second ≤ gapSunday.unixNano :=
  ⟨cronPrev_more_fuel 400 k _ _ _ cronPrev_saturdayNight, by decide, by decide, by decide,
    by decide⟩

/-! ## The adjacent event time, looking backward -/

theorem get?_map_eq {α β : Type} (f : α → β) :
    ∀ (l : List α) (i : Nat), (l.map f).get? i = (l.get? i).map f
  | [], _ => rfl
  | _ :: _, 0 => rfl
  | _ :: l, i + 1 => by
    simp only [List.map_cons, List.get?_cons_succ]
    exact get?_map_eq f l i

theorem forall₂_get? {α β : Type} {R : α → β → Prop} :
    ∀ {l1 : List α} {l2 : List β}, List.Forall₂ R l1 l2 →
      ∀ (i : Nat) (a : α), l1.get? i = some a → ∃ b, l2.get? i = some b ∧ R a b
  | _, _, .nil, i, a, h => by simp at h
  | _, _, .cons hab hrest, 0, a, h => by
    simp only [List.get?_cons_zero, Option.some.injEq] at h
    subst h
    exact ⟨_, rfl, hab⟩
  | _, _, .cons _ hrest, i + 1, a, h => by
    simp only [List.get?_cons_succ] at h ⊢
    exact forall₂_get? hrest i a h

theorem forall₂_get?_right {α β : Type} {R : α → β → Prop} :
    ∀ {l1 : List α} {l2 : List β}, List.Forall₂ R l1 l2 →
      ∀ (i : Nat) (b : β), l2.get? i = some b → ∃ a, l1.get? i = some a ∧ R a b
  | _, _, .nil, i, b, h => by simp at h
  | _, _, .cons hab hrest, 0, b, h => by
    simp only [List.get?_cons_zero, Option.some.injEq] at h
    subst h
    exact ⟨_, rfl, hab⟩
  | _, _, .cons _ hrest, i + 1, b, h => by
    simp only [List.get?_cons_succ] at h ⊢
    exact forall₂_get?_right hrest i b h

/-- The adjacent event time of a schedule, looking backward, is what `cronPrev` returns. -/
theorem adjacentEventTime_previous (lib : CronLib) (fuel : Nat) (s : Option SpecSchedule)
    (now a : ZonedTime)
    (h : adjacentEventTime lib fuel s now .directionPrevious = .value a) :
    ∃ s', s = some s' ∧ cronPrev fuel s' now = some a := by
  cases s with
  | none => simp [adjacentEventTime] at h
  | some s' =>
    refine ⟨s', rfl, ?_⟩
    simp only [adjacentEventTime] at h
    cases hc : cronPrev fuel s' now with
    | none => rw [hc] at h; simp at h
    | some t =>
      rw [hc] at h
      have : t = a := by simpa using h
      rw [this]

/-! ## C20: malformed events -/

theorem AsCronSpec_panic_iff (event : EventSpec) :
    AsCronSpec event = .panic ↔ lacksSchedule event := by
  simp only [AsCronSpec, lacksSchedule]
  by_cases hc : event.cronSchedule = ""
  · simp only [hc, ne_eq, not_true_eq_false, if_false, true_and]
    cases hs : event.schedule with
    | none => simp
    | some schedule =>
      simp only
      split
      · simp
      · split
        · simp
        · split <;> simp
  · simp [hc]

/-- What `mapEventToSpecSchedule` returns for a malformed event: an error. -/
theorem mapEventToSpecSchedule_malformed (lib : CronLib) (event : EventSpec)
    (location : Location) (h : malformed lib event) :
    ∃ msg, mapEventToSpecSchedule lib event location = .error msg := by
  rcases h with ⟨msg, h⟩ | ⟨cronSpec, err, h1, h2⟩
  · exact ⟨msg, by simp [mapEventToSpecSchedule, h, Ending.andThen]⟩
  · exact ⟨"Failed to parse cron schedule: " ++ err,
      by simp only [mapEventToSpecSchedule, h1, Ending.andThen, h2]⟩

/-- Apart from a panic on a missing schedule, `mapEventToSpecSchedule` returns a value or an
error. -/
theorem mapEventToSpecSchedule_cases (lib : CronLib) (event : EventSpec) (location : Location)
    (h : ¬ lacksSchedule event) :
    (∃ s, mapEventToSpecSchedule lib event location = .value s) ∨
      (∃ msg, mapEventToSpecSchedule lib event location = .error msg) := by
  have hp : AsCronSpec event ≠ .panic := fun hcon => h ((AsCronSpec_panic_iff event).mp hcon)
  simp only [mapEventToSpecSchedule]
  cases ha : AsCronSpec event with
  | value c =>
    simp only [Ending.andThen]
    cases hparse : lib.parseStandard c with
    | error err => exact Or.inr ⟨_, rfl⟩
    | ok s =>
      cases s with
      | none => exact Or.inl ⟨_, rfl⟩
      | some s => exact Or.inl ⟨_, rfl⟩
  | error msg => exact Or.inr ⟨msg, rfl⟩
  | panic => exact absurd ha hp
  | unfinished =>
    exfalso
    simp only [AsCronSpec] at ha
    split at ha
    · simp at ha
    · split at ha
      · simp at ha
      · split at ha
        · simp at ha
        · split at ha
          · simp at ha
          · split at ha <;> simp at ha

/-- The first loop of `findNearestEvent` returns an error as soon as an event that passes the
filter is malformed, if no event that passes the filter lacks its schedule. -/
theorem schedulesToSearch_error (lib : CronLib) (location : Location)
    (filter : EventSpec → Bool) :
    ∀ (events : List EventSpec),
      (∀ e ∈ events, filter e = true → ¬ lacksSchedule e) →
      (∃ e ∈ events, filter e = true ∧ malformed lib e) →
      ∃ msg, schedulesToSearch lib location filter events = .error msg
  | [], _, h => by
    obtain ⟨e, he, _⟩ := h
    simp at he
  | x :: rest, hnp, hbad => by
    by_cases hf : filter x = true
    · simp only [schedulesToSearch, hf, Bool.not_true, Bool.false_eq_true, if_false]
      rcases mapEventToSpecSchedule_cases lib x location (hnp x (List.mem_cons_self _ _) hf)
        with ⟨s, hs⟩ | ⟨msg, hmsg⟩
      · have hrest : ∃ e ∈ rest, filter e = true ∧ malformed lib e := by
          obtain ⟨e, he, hfe, hm⟩ := hbad
          rcases List.mem_cons.mp he with h1 | h1
          · subst h1
            obtain ⟨msg, hmsg⟩ := mapEventToSpecSchedule_malformed lib e location hm
            rw [hmsg] at hs
            simp at hs
          · exact ⟨e, h1, hfe, hm⟩
        obtain ⟨msg, hmsg⟩ := schedulesToSearch_error lib location filter rest
          (fun e he => hnp e (List.mem_cons_of_mem _ he)) hrest
        exact ⟨msg, by simp only [hs, Ending.andThen, hmsg]⟩
      · exact ⟨msg, by simp only [hmsg, Ending.andThen]⟩
    · have hf' : filter x = false := by simpa using hf
      simp only [schedulesToSearch, hf', Bool.not_false, if_true]
      have hrest : ∃ e ∈ rest, filter e = true ∧ malformed lib e := by
        obtain ⟨e, he, hfe, hm⟩ := hbad
        rcases List.mem_cons.mp he with h1 | h1
        · subst h1
          rw [hfe] at hf'
          simp at hf'
        · exact ⟨e, h1, hfe, hm⟩
      exact schedulesToSearch_error lib location filter rest
        (fun e he => hnp e (List.mem_cons_of_mem _ he)) hrest

/-- C20, amended. `findNearestEvent` returns an error, and no event, whenever an event of the
list that passes the filter has a malformed cron spec or a malformed friendly spec, provided
that no event that passes the filter lacks both the cron spec and the friendly schedule. Events
that the filter rejects are not examined. -/
theorem invalid_event_error (lib : CronLib) (fuel : Nat) (events : List EventSpec)
    (now : ZonedTime) (location : Location) (o : Int) (direction : EventDirection)
    (filter : EventSpec → Bool)
    (hnp : ∀ e ∈ events, filter e = true → ¬ lacksSchedule e)
    (hbad : ∃ e ∈ events, filter e = true ∧ malformed lib e) :
    ∃ msg, findNearestEvent lib fuel events now location o direction filter = .error msg := by
  obtain ⟨msg, hmsg⟩ := schedulesToSearch_error lib location filter events hnp hbad
  exact ⟨msg, by simp only [findNearestEvent, hmsg, Ending.andThen]⟩

set_option maxRecDepth 100000 in
/-- C20, the claim as stated fails. The list holds a stop event "every day at 17:00" and the
start event with the cron spec `I AM INVALID`, which is malformed. Looking for the previous
stop event, as `findMostRecentStopTime` does, `findNearestEvent` returns the stop event of
2022-12-11T17:00:00Z and no error: the filter rejects the start event before its spec is
read. -/
theorem invalid_event_error_counterexample :
    malformed exampleLib invalidStart ∧
      findNearestEvent exampleLib 200 [stopAtFive, invalidStart] exampleNoon Location.UTC 0
        .directionPrevious (fun es => es.action == EventTypeStop) =
          .value (some { type := EventTypeStop,
                         scheduledTimeUTC := atSecond 1670778000 Location.UTC }) :=
  ⟨Or.inr ⟨"I AM INVALID", "expected exactly 5 fields, found 3: [I AM INVALID]", by rfl, by rfl⟩,
    by rfl⟩

/-- C20 at work: the test "invalid cron format" of `nearest_event_test.go`. -/
theorem invalid_event_error_witness :
    (∀ e ∈ [invalidStart], (fun _ => true) e = true → ¬ lacksSchedule e) ∧
      (∃ e ∈ [invalidStart], (fun _ => true) e = true ∧ malformed exampleLib e) ∧
      ∃ msg, findNearestEvent exampleLib 200 [invalidStart] exampleNoon Location.UTC 0
        .directionPrevious (fun _ => true) = .error msg :=
  ⟨by intro e he _ h; simp at he; subst he; exact absurd h.1 (by decide),
    ⟨invalidStart, by simp, rfl,
      Or.inr ⟨"I AM INVALID", "expected exactly 5 fields, found 3: [I AM INVALID]", by rfl,
        by rfl⟩⟩,
    invalid_event_error exampleLib 200 [invalidStart] exampleNoon Location.UTC 0
      .directionPrevious (fun _ => true)
      (by intro e he _ h; simp at he; subst he; exact absurd h.1 (by decide))
      ⟨invalidStart, by simp, rfl,
        Or.inr ⟨"I AM INVALID", "expected exactly 5 fields, found 3: [I AM INVALID]", by rfl,
          by rfl⟩⟩⟩

/-! ## `StateFor` -/

theorem wrapError_value {α : Type} (message : String) (r : Ending α) (a : α)
    (h : wrapError message r = .value a) : r = .value a := by
  cases r <;> simp [wrapError] at h ⊢
  exact h

theorem andThen_value {α β : Type} (r : Ending α) (f : α → Ending β) (b : β)
    (h : r.andThen f = .value b) : ∃ a, r = .value a ∧ f a = .value b := by
  cases r <;> simp [Ending.andThen] at h ⊢
  exact h

/-- The parts of a state that `StateFor` returns. -/
theorem StateFor_value (lib : CronLib) (fuel : Nat) (controlledJob : ControlledJob)
    (now : ZonedTime) (st : ScheduleState)
    (h : StateFor lib fuel controlledJob now = .value st) :
    ∃ location previousEvent nextEvent lastStopTime startOfCurrentRunPeriod,
      lib.loadLocation controlledJob.spec.timezone.name = .ok location ∧
      findNearestEvent lib fuel controlledJob.spec.events now location
        controlledJob.spec.timezone.offsetSeconds .directionPrevious (fun _ => true) =
          .value previousEvent ∧
      findNearestEvent lib fuel controlledJob.spec.events now location
        controlledJob.spec.timezone.offsetSeconds .directionNext (fun _ => true) =
          .value nextEvent ∧
      findMostRecentStopTime lib fuel controlledJob.spec.events location
        controlledJob.spec.timezone.offsetSeconds now = .value lastStopTime ∧
      findStartOfCurrentRunPeriod lib fuel controlledJob.spec.events location
        controlledJob.spec.timezone.offsetSeconds now = .value startOfCurrentRunPeriod ∧
      st = { lastStopTime := lastStopTime.map ZonedTime.toTime,
             startOfCurrentRunPeriod := startOfCurrentRunPeriod.map ZonedTime.toTime,
             previousEvent := previousEvent.map ZonedScheduledEvent.toScheduledEvent,
             nextEvent := nextEvent.map ZonedScheduledEvent.toScheduledEvent } := by
  simp only [StateFor] at h
  cases hl : lib.loadLocation controlledJob.spec.timezone.name with
  | error err => rw [hl] at h; simp at h
  | ok location =>
    rw [hl] at h
    simp only at h
    obtain ⟨pe, h1, h⟩ := andThen_value _ _ _ h
    obtain ⟨ne, h2, h⟩ := andThen_value _ _ _ h
    obtain ⟨ls, h3, h⟩ := andThen_value _ _ _ h
    obtain ⟨sp, h4, h⟩ := andThen_value _ _ _ h
    refine ⟨location, pe, ne, ls, sp, rfl, wrapError_value _ _ _ h1, wrapError_value _ _ _ h2,
      wrapError_value _ _ _ h3, wrapError_value _ _ _ h4, ?_⟩
    simpa using h.symm

theorem schedulesToSearch_length (lib : CronLib) (location : Location)
    (filter : EventSpec → Bool) (events : List EventSpec)
    (found : List (Option SpecSchedule) × List EventType)
    (h : schedulesToSearch lib location filter events = .value found) :
    found.1.length = found.2.length := by
  have hw := wellFormed_of_schedulesToSearch lib location filter events found h
  rw [schedulesToSearch_wellFormed lib location filter events hw] at h
  injection h with h
  rw [← h]
  simp

/-- The event that `findNearestEvent` returns when the events that pass the filter are well
formed, the adjacent event times of their schedules are returned, the offset is an `int32`
other than the least one, and no candidate is the zero time: its time is the nearest of the
candidates, and its type is the action of the first event attaining it. -/
theorem findNearestEvent_value (lib : CronLib) (fuel : Nat) (events : List EventSpec)
    (now : ZonedTime) (location : Location) (o : Int) (direction : EventDirection)
    (filter : EventSpec → Bool) (found : List (Option SpecSchedule) × List EventType)
    (adjacent : List ZonedTime)
    (hS : schedulesToSearch lib location filter events = .value found)
    (hadj : List.Forall₂
      (fun s a => adjacentEventTime lib fuel s (now.Add (Second * o)) direction = .value a)
      found.1 adjacent)
    (ho : -2 ^ 31 < o ∧ o < 2 ^ 31)
    (hz : ∀ a ∈ adjacent, a.IsZero = false → (a.Add (Second * -o)).IsZero = false) :
    ∃ r, IsNearestOf direction (adjacent.map (candidate o)) r ∧
      ((r.1.IsZero = true ∧
          findNearestEvent lib fuel events now location o direction filter = .value none) ∨
        (r.1.IsZero = false ∧ ∃ (idx : Nat) (action : EventType), r.2 = idx ∧
          found.2.get? idx = some action ∧
          findNearestEvent lib fuel events now location o direction filter =
            .value (some { type := action, scheduledTimeUTC := r.1 }))) := by
  have hval := findNearestScheduleTime_value lib fuel found.1 adjacent now direction o hadj ho
  have hnz := candidate_not_zero o adjacent hz
  have hnear := pickNearest_isNearest direction _ hnz
  generalize pickNearest direction (adjacent.map (candidate o)) 0 (ZonedTime.zero, -1) = r
    at hval hnear
  refine ⟨r, hnear, ?_⟩
  rcases hnear with ⟨_, hr⟩ | ⟨k, hk, hidx, _, _⟩
  · left
    have hrz : r.1.IsZero = true := by rw [hr]; exact IsZero_zero
    exact ⟨hrz, findNearestEvent_none lib fuel events now location o direction filter found r
      hS hval hrz⟩
  · right
    have hrz : r.1.IsZero = false := hnz r.1 (List.get?_mem hk)
    have hlen1 := schedulesToSearch_length lib location filter events found hS
    have hlen2 := List.Forall₂.length_eq hadj
    have hklt : k < (adjacent.map (candidate o)).length := by
      by_contra hcon
      have : (adjacent.map (candidate o)).get? k = none := List.get?_eq_none.mpr (by omega)
      rw [this] at hk
      simp at hk
    have hk2 : k < found.2.length := by
      simp only [List.length_map] at hklt
      omega
    refine ⟨hrz, k, found.2.get ⟨k, hk2⟩, hidx, List.get?_eq_get hk2, ?_⟩
    exact findNearestEvent_some lib fuel events now location o direction filter found r k _
      hS hval hrz hidx (List.get?_eq_get hk2)

/-! ## The start of the current run period over the candidates -/

theorem findMostRecentStopTime_eq (lib : CronLib) (fuel : Nat) (events : List EventSpec)
    (location : Location) (o : Int) (now : ZonedTime) (ev : Option ZonedScheduledEvent)
    (h : findNearestEvent lib fuel events now location o .directionPrevious
      (fun es => es.action == EventTypeStop) = .value ev) :
    findMostRecentStopTime lib fuel events location o now =
      .value (ev.map fun e => e.scheduledTimeUTC) := by
  simp only [findMostRecentStopTime, h, Ending.andThen]
  cases ev <;> rfl

/-- What `findStartOfCurrentRunPeriod` makes of the candidates of the events. It first takes the
most recent stop time, the latest of the candidates of the stop events at or before `now`. If there is none, it fails with the error
about start-only schedules when the list holds a start event, and returns nil without error
when it holds none. If there is one, it returns the earliest of the candidates of the start
events after that stop time (nil if no start event has a candidate), which is strictly after
the stop time when the cron library's `Next` returns times after its argument. The events
searched are well formed, their adjacent event times are returned, the additional offset is an
`int32` other than the least one and no candidate is the zero time. -/
theorem start_of_current_run_period (lib : CronLib) (fuel : Nat) (events : List EventSpec)
    (location : Location) (o : Int) (now : ZonedTime) :
    (∀ (found : List (Option SpecSchedule) × List EventType) (adjacent : List ZonedTime),
      schedulesToSearch lib location (fun es => es.action == EventTypeStop) events =
        .value found →
      List.Forall₂
        (fun s a => adjacentEventTime lib fuel s (now.Add (Second * o)) .directionPrevious =
          .value a) found.1 adjacent →
      (-2 ^ 31 < o ∧ o < 2 ^ 31) →
      (∀ a ∈ adjacent, a.IsZero = false → (a.Add (Second * -o)).IsZero = false) →
      ∃ r, IsNearestOf .directionPrevious (adjacent.map (candidate o)) r ∧
        findMostRecentStopTime lib fuel events location o now =
          .value (if r.1.IsZero then none else some r.1)) ∧
    (findMostRecentStopTime lib fuel events location o now = .value none →
      (events.any (fun event => event.action == EventTypeStart) = true →
        findStartOfCurrentRunPeriod lib fuel events location o now =
          .error ("No previous stop events found, only start events. We don't currently " ++
            "support start-only schedules (as it's not clear what the semantics should be)")) ∧
      (events.any (fun event => event.action == EventTypeStart) = false →
        findStartOfCurrentRunPeriod lib fuel events location o now = .value none)) ∧
    (∀ (stop : ZonedTime) (found : List (Option SpecSchedule) × List EventType)
      (adjacent : List ZonedTime),
      findMostRecentStopTime lib fuel events location o now = .value (some stop) →
      schedulesToSearch lib location (fun es => es.action == EventTypeStart) events =
        .value found →
      List.Forall₂
        (fun s a => adjacentEventTime lib fuel s (stop.Add (Second * o)) .directionNext =
          .value a) found.1 adjacent →
      (-2 ^ 31 < o ∧ o < 2 ^ 31) →
      (∀ a ∈ adjacent, a.IsZero = false → (a.Add (Second * -o)).IsZero = false) →
      ∃ r, IsNearestOf .directionNext (adjacent.map (candidate o)) r ∧
        findStartOfCurrentRunPeriod lib fuel events location o now =
          .value (if r.1.IsZero then none else some r.1) ∧
        ((∀ a ∈ adjacent, a.IsZero = false → (stop.Add (Second * o)).unixNano < a.unixNano) →
          r.1.IsZero = false → stop.unixNano < r.1.unixNano)) := by
  refine ⟨?_, ?_, ?_⟩
  · intro found adjacent hS hadj ho hz
    obtain ⟨r, hnear, hcase⟩ := findNearestEvent_value lib fuel events now location o
      .directionPrevious _ found adjacent hS hadj ho hz
    refine ⟨r, hnear, ?_⟩
    rcases hcase with ⟨hrz, hev⟩ | ⟨hrz, idx, action, _, _, hev⟩
    · rw [findMostRecentStopTime_eq _ _ _ _ _ _ _ hev, hrz]; rfl
    · rw [findMostRecentStopTime_eq _ _ _ _ _ _ _ hev, hrz]; rfl
  · intro hstop
    constructor
    · intro hany
      simp only [findStartOfCurrentRunPeriod, hstop, Ending.andThen, hany, Bool.not_true,
        Bool.false_eq_true, if_false]
    · intro hany
      simp only [findStartOfCurrentRunPeriod, hstop, Ending.andThen, hany, Bool.not_false,
        if_true]
  · intro stop found adjacent hstop hS hadj ho hz
    obtain ⟨r, hnear, hcase⟩ := findNearestEvent_value lib fuel events stop location o
      .directionNext _ found adjacent hS hadj ho hz
    refine ⟨r, hnear, ?_, ?_⟩
    · rcases hcase with ⟨hrz, hev⟩ | ⟨hrz, idx, action, _, _, hev⟩
      · simp only [findStartOfCurrentRunPeriod, hstop, Ending.andThen, hev, hrz, if_true]
      · simp only [findStartOfCurrentRunPeriod, hstop, Ending.andThen, hev, hrz,
          Bool.false_eq_true, if_false]
    · intro hnext hrz
      rcases hnear with ⟨_, hr⟩ | ⟨k, hk, _, _, _⟩
      · rw [hr, IsZero_zero] at hrz
        exact absurd hrz (by simp)
      · obtain ⟨a, hamem, ha⟩ := List.mem_map.mp (List.get?_mem hk)
        have haz : a.IsZero = false := by
          by_contra hcon
          simp only [Bool.not_eq_false] at hcon
          simp [candidate, hcon] at ha
        have hra : r.1 = a.Add (Second * -o) := by
          simp only [candidate, haz, Bool.false_eq_true, if_false] at ha
          simpa using ha.symm
        have := hnext a hamem haz
        rw [hra]
        simp only [ZonedTime.Add] at this ⊢
        linarith

set_option maxRecDepth 100000 in
/-- An example: the events "start 09:00, stop 17:00 every day" in UTC, at 2022-12-12T12:12:00Z.
The most recent stop time is 2022-12-11T17:00:00Z and the start of the current run period is
2022-12-12T09:00:00Z. -/
theorem start_of_current_run_period_example :
    findMostRecentStopTime exampleLib 200 exampleControlledJob.spec.events Location.UTC 0
        exampleNoon = .value (some (atSecond 1670778000 Location.UTC)) ∧
      ∃ r, IsNearestOf .directionNext ([exampleNine].map (candidate 0)) r ∧
        findStartOfCurrentRunPeriod exampleLib 200 exampleControlledJob.spec.events Location.UTC
          0 exampleNoon = .value (if r.1.IsZero then none else some r.1) ∧
        ((∀ a ∈ [exampleNine], a.IsZero = false →
            ((atSecond 1670778000 Location.UTC).Add (Second * 0)).unixNano < a.unixNano) →
          r.1.IsZero = false → (atSecond 1670778000 Location.UTC).unixNano < r.1.unixNano) :=
  ⟨by rfl,
    (start_of_current_run_period exampleLib 200 exampleControlledJob.spec.events Location.UTC 0
      exampleNoon).2.2 (atSecond 1670778000 Location.UTC) ([some dailyAtNine], [EventTypeStart])
      [exampleNine] (by rfl) (by rfl) (List.Forall₂.cons (by rfl) List.Forall₂.nil)
      (by constructor <;> norm_num) (by decide)⟩

/-! ## C18: the start of the current run period outside the run period -/

set_option maxRecDepth 100000 in
/-- C18 at the failing input: the example ControlledJob ("start 09:00, stop 17:00 every day",
UTC) at 2022-12-12T07:12:00Z. `StateFor` returns a state that should not be running, whose
most recent stop time is 2022-12-11T17:00:00Z and whose start of the current run period is
2022-12-12T09:00:00Z, the first start after that stop: an instant later than now, not the
09:00 of the day before. `makeDecision` reports it as `status.lastScheduledStartTime`. -/
theorem start_of_run_period_is_upcoming :
    (StateFor exampleLib 200 exampleControlledJob exampleMorning).toExcept =
        some outsideRunPeriod ∧
      (∀ st, outsideRunPeriod = .ok st →
        st.ShouldBeRunning = false ∧ st.StartOfCurrentRunPeriod = some exampleStart) ∧
      exampleMorning.unixNano < exampleStart.unixNano ∧
      exampleMorning.toTime = exampleEarlyMorning ∧
      (makeDecision exampleEnv outsideRunPeriod exampleControlledJob [] exampleEarlyMorning
        false).controlledJob.status.lastScheduledStartTime = some exampleStart := by
  refine ⟨by rfl, ?_, by decide, by rfl, by rfl⟩
  intro st h
  have : st = _ := (Except.ok.inj h).symm
  subst this
  exact ⟨by rfl, by rfl⟩

/-! ## The order of the events -/

/-- If the loop of `findNearestScheduleTime` returns, every adjacent event time was
returned. -/
theorem nearestScheduleLoop_returns (lib : CronLib) (fuel : Nat) (now : ZonedTime)
    (direction : EventDirection) (o : Int) :
    ∀ (schedules : List (Option SpecSchedule)) (idx : Int) (nearest r : ZonedTime × Int),
      nearestScheduleLoop lib fuel now direction o schedules idx nearest = .value r →
      ∀ s ∈ schedules, adjacentEventTime lib fuel s now direction =
        .value (adjacentOf lib fuel now direction s)
  | [], _, _, _, _ => by intro s hs; simp at hs
  | x :: rest, idx, nearest, r, h => by
    simp only [nearestScheduleLoop] at h
    obtain ⟨a, ha, h⟩ := andThen_value _ _ _ h
    have hx : adjacentEventTime lib fuel x now direction =
        .value (adjacentOf lib fuel now direction x) := by
      simp only [adjacentOf, ha]
    have hrest : ∃ nearest', nearestScheduleLoop lib fuel now direction o rest (idx + 1)
        nearest' = .value r := by
      split at h
      · exact ⟨_, h⟩
      · split at h
        · exact ⟨_, h⟩
        · exact ⟨_, h⟩
    obtain ⟨nearest', hrest⟩ := hrest
    intro s hs
    rcases List.mem_cons.mp hs with h1 | h1
    · rw [h1]; exact hx
    · exact nearestScheduleLoop_returns lib fuel now direction o rest (idx + 1) nearest' r
        hrest s h1

theorem forall₂_map_of_forall {α β : Type} (R : α → β → Prop) (g : α → β) :
    ∀ (l : List α), (∀ x ∈ l, R x (g x)) → List.Forall₂ R l (l.map g)
  | [], _ => List.Forall₂.nil
  | x :: l, h =>
    List.Forall₂.cons (h x (List.mem_cons_self _ _))
      (forall₂_map_of_forall R g l (fun y hy => h y (List.mem_cons_of_mem _ hy)))

/-- What `findNearestEvent` has done when it returns: the events that pass the filter are well
formed, the adjacent event times of their schedules are returned, and the result is the one
that the loop over their candidates picks. -/
theorem findNearestEvent_inv (lib : CronLib) (fuel : Nat) (events : List EventSpec)
    (now : ZonedTime) (location : Location) (o : Int) (direction : EventDirection)
    (filter : EventSpec → Bool) (ev : Option ZonedScheduledEvent)
    (h : findNearestEvent lib fuel events now location o direction filter = .value ev) :
    (∀ e ∈ events, filter e = true → wellFormed lib location e) ∧
    (∀ e ∈ events, filter e = true →
      adjacentEventTime lib fuel (scheduleOf lib location e) (now.Add (Second * o)) direction =
        .value (adjacentOf lib fuel (now.Add (Second * o)) direction
          (scheduleOf lib location e))) ∧
    findNearestScheduleTime lib fuel ((events.filter filter).map (scheduleOf lib location)) now
      direction o =
      .value (pickNearest direction
        ((events.filter filter).map (eventCandidate lib fuel location now direction o)) 0
        (ZonedTime.zero, -1)) := by
  simp only [findNearestEvent] at h
  obtain ⟨found, hS, h⟩ := andThen_value _ _ _ h
  obtain ⟨r, hr, _⟩ := andThen_value _ _ _ h
  have hw := wellFormed_of_schedulesToSearch lib location filter events found hS
  rw [schedulesToSearch_wellFormed lib location filter events hw] at hS
  injection hS with hS
  rw [← hS] at hr
  simp only at hr
  have hret := nearestScheduleLoop_returns lib fuel _ direction o _ _ _ _ hr
  have hadj : ∀ e ∈ events, filter e = true →
      adjacentEventTime lib fuel (scheduleOf lib location e) (now.Add (Second * o)) direction =
        .value (adjacentOf lib fuel (now.Add (Second * o)) direction
          (scheduleOf lib location e)) := by
    intro e he hf
    apply hret
    exact List.mem_map.mpr ⟨e, List.mem_filter.mpr ⟨he, hf⟩, rfl⟩
  refine ⟨hw, hadj, ?_⟩
  simp only [findNearestScheduleTime]
  rw [nearestScheduleLoop_eq lib fuel _ direction o _
    (((events.filter filter).map (scheduleOf lib location)).map
      (adjacentOf lib fuel (now.Add (Second * o)) direction)) 0 _
    (forall₂_map_of_forall _ _ _ hret)]
  simp only [List.map_map]
  rfl

theorem get?_map_some {α β : Type} (g : α → β) :
    ∀ (l : List α) (i : Nat) (y : β), (l.map g).get? i = some y →
      ∃ x, l.get? i = some x ∧ g x = y := by
  intro l i y h
  rw [get?_map_eq] at h
  cases hx : l.get? i with
  | none => rw [hx] at h; simp at h
  | some x => rw [hx] at h; exact ⟨x, rfl, by simpa using h⟩

/-- What `findNearestEvent` returns when the events that pass the filter are well formed,
the adjacent event times of their schedules are returned and no candidate is the zero time:
no event if no event has a candidate, and otherwise an event that passes the filter, at its
candidate, than which no candidate is nearer. -/
theorem findNearestEvent_of_candidates (lib : CronLib) (fuel : Nat) (events : List EventSpec)
    (now : ZonedTime) (location : Location) (o : Int) (direction : EventDirection)
    (filter : EventSpec → Bool)
    (hw : ∀ e ∈ events, filter e = true → wellFormed lib location e)
    (hadj : ∀ e ∈ events, filter e = true →
      adjacentEventTime lib fuel (scheduleOf lib location e) (now.Add (Second * o)) direction =
        .value (adjacentOf lib fuel (now.Add (Second * o)) direction
          (scheduleOf lib location e)))
    (hz : ∀ e ∈ events, filter e = true → ∀ c,
      eventCandidate lib fuel location now direction o e = some c → c.IsZero = false) :
    (findNearestEvent lib fuel events now location o direction filter = .value none ∧
      ∀ e ∈ events, filter e = true →
        eventCandidate lib fuel location now direction o e = none) ∨
    (∃ e0 t, e0 ∈ events ∧ filter e0 = true ∧
      eventCandidate lib fuel location now direction o e0 = some t ∧
      findNearestEvent lib fuel events now location o direction filter =
        .value (some { type := e0.action, scheduledTimeUTC := t }) ∧
      ∀ e ∈ events, filter e = true → ∀ c,
        eventCandidate lib fuel location now direction o e = some c →
          ¬ nearerThan direction c t) := by
  have hS := schedulesToSearch_wellFormed lib location filter events hw
  have hret : ∀ s ∈ (events.filter filter).map (scheduleOf lib location),
      adjacentEventTime lib fuel s (now.Add (Second * o)) direction =
        .value (adjacentOf lib fuel (now.Add (Second * o)) direction s) := by
    intro s hs
    obtain ⟨e, he, hes⟩ := List.mem_map.mp hs
    rw [← hes]
    exact hadj e (List.mem_filter.mp he).1 (List.mem_filter.mp he).2
  have hval : findNearestScheduleTime lib fuel
      ((events.filter filter).map (scheduleOf lib location)) now direction o =
      .value (pickNearest direction
        ((events.filter filter).map (eventCandidate lib fuel location now direction o)) 0
        (ZonedTime.zero, -1)) := by
    simp only [findNearestScheduleTime]
    rw [nearestScheduleLoop_eq lib fuel _ direction o _
      (((events.filter filter).map (scheduleOf lib location)).map
        (adjacentOf lib fuel (now.Add (Second * o)) direction)) 0 _
      (forall₂_map_of_forall _ _ _ hret)]
    simp only [List.map_map]
    rfl
  have hnz : ∀ c, some c ∈ (events.filter filter).map
      (eventCandidate lib fuel location now direction o) → c.IsZero = false := by
    intro c hc
    obtain ⟨e, he, hec⟩ := List.mem_map.mp hc
    exact hz e (List.mem_filter.mp he).1 (List.mem_filter.mp he).2 c hec
  have hnear := pickNearest_isNearest direction _ hnz
  generalize pickNearest direction
    ((events.filter filter).map (eventCandidate lib fuel location now direction o)) 0
    (ZonedTime.zero, -1) = r at hval hnear
  rcases hnear with ⟨hall, hr⟩ | ⟨k, hk, hidx, hbest, _⟩
  · left
    have hrz : r.1.IsZero = true := by rw [hr]; exact IsZero_zero
    refine ⟨findNearestEvent_none lib fuel events now location o direction filter _ r hS hval
      hrz, ?_⟩
    intro e he hf
    exact hall _ (List.mem_map.mpr ⟨e, List.mem_filter.mpr ⟨he, hf⟩, rfl⟩)
  · right
    obtain ⟨e0, he0, hc0⟩ := get?_map_some _ _ _ _ hk
    have hmem : e0 ∈ events.filter filter := List.get?_mem he0
    have hact : ((events.filter filter).map fun e => e.action).get? k = some e0.action := by
      rw [get?_map_eq, he0]; rfl
    refine ⟨e0, r.1, (List.mem_filter.mp hmem).1, (List.mem_filter.mp hmem).2, hc0, ?_, ?_⟩
    · exact findNearestEvent_some lib fuel events now location o direction filter _ r k
        e0.action hS hval (hnz r.1 (List.get?_mem hk)) hidx hact
    · intro e he hf c hc
      exact hbest c (List.mem_map.mpr ⟨e, List.mem_filter.mpr ⟨he, hf⟩, hc⟩)

/-- A candidate of an event, looking backward, is in the location of `now`. -/
theorem eventCandidate_loc (lib : CronLib) (fuel : Nat) (location : Location)
    (now : ZonedTime) (o : Int) (e : EventSpec) (c : ZonedTime)
    (hadj : adjacentEventTime lib fuel (scheduleOf lib location e) (now.Add (Second * o))
      .directionPrevious = .value (adjacentOf lib fuel (now.Add (Second * o))
        .directionPrevious (scheduleOf lib location e)))
    (h : eventCandidate lib fuel location now .directionPrevious o e = some c) :
    c.loc = now.loc := by
  obtain ⟨s', _, hprev⟩ := adjacentEventTime_previous lib _ _ _ _ hadj
  simp only [eventCandidate, candidate] at h
  split at h
  · simp at h
  · rename_i hne
    have hc : c = _ := (Option.some.inj h).symm
    rw [hc]
    have := cronPrev_loc _ _ _ _ hprev (by simpa using hne)
    simpa [ZonedTime.Add] using this

theorem not_nearerThan_antisymm (direction : EventDirection) (a b : ZonedTime)
    (h1 : ¬ nearerThan direction a b) (h2 : ¬ nearerThan direction b a) :
    a.unixNano = b.unixNano := by
  simp only [nearerThan] at h1 h2
  split at h1 <;> simp_all <;> omega

/-- Two event lists with the same members give `findNearestEvent` events at the same instant
(the same time, when looking backward), each the candidate of an event of its type. -/
theorem findNearestEvent_same_members (lib : CronLib) (fuel : Nat)
    (events events' : List EventSpec) (now : ZonedTime) (location : Location) (o : Int)
    (direction : EventDirection) (filter : EventSpec → Bool) (ev : Option ZonedScheduledEvent)
    (hmem : ∀ e, e ∈ events ↔ e ∈ events')
    (hz : ∀ e ∈ events, ∀ c, eventCandidate lib fuel location now direction o e = some c →
      c.IsZero = false)
    (h : findNearestEvent lib fuel events now location o direction filter = .value ev) :
    ∃ ev', findNearestEvent lib fuel events' now location o direction filter = .value ev' ∧
      (ev = none ↔ ev' = none) ∧
      ∀ x x', ev = some x → ev' = some x' →
        x.scheduledTimeUTC.unixNano = x'.scheduledTimeUTC.unixNano ∧
        (direction = .directionPrevious → x.scheduledTimeUTC = x'.scheduledTimeUTC) ∧
        ∃ e e', e ∈ events ∧ e' ∈ events ∧ e.action = x.type ∧ e'.action = x'.type ∧
          eventCandidate lib fuel location now direction o e = some x.scheduledTimeUTC ∧
          eventCandidate lib fuel location now direction o e' = some x'.scheduledTimeUTC := by
  obtain ⟨hw, hadj, _⟩ := findNearestEvent_inv lib fuel events now location o direction
    filter ev h
  have hw' : ∀ e ∈ events', filter e = true → wellFormed lib location e :=
    fun e he hf => hw e ((hmem e).mpr he) hf
  have hadj' : ∀ e ∈ events', filter e = true →
      adjacentEventTime lib fuel (scheduleOf lib location e) (now.Add (Second * o)) direction =
        .value (adjacentOf lib fuel (now.Add (Second * o)) direction
          (scheduleOf lib location e)) :=
    fun e he hf => hadj e ((hmem e).mpr he) hf
  have c1 := findNearestEvent_of_candidates lib fuel events now location o direction filter
    hw hadj (fun e he _ c hc => hz e he c hc)
  have c2 := findNearestEvent_of_candidates lib fuel events' now location o direction filter
    hw' hadj' (fun e he _ c hc => hz e ((hmem e).mpr he) c hc)
  rcases c1 with ⟨h1, hall1⟩ | ⟨e1, t1, he1, hf1, hc1, h1, hbest1⟩
  · rw [h1] at h
    have hev : ev = none := by simpa using h.symm
    rcases c2 with ⟨h2, _⟩ | ⟨e2, t2, he2, hf2, hc2, _, _⟩
    · exact ⟨none, h2, by simp [hev], by intro x x' hx; rw [hev] at hx; simp at hx⟩
    · have := hall1 e2 ((hmem e2).mpr he2) hf2
      rw [this] at hc2
      simp at hc2
  · rw [h1] at h
    have hev : ev = some { type := e1.action, scheduledTimeUTC := t1 } := by
      simpa using h.symm
    rcases c2 with ⟨_, hall2⟩ | ⟨e2, t2, he2, hf2, hc2, h2, hbest2⟩
    · have := hall2 e1 ((hmem e1).mp he1) hf1
      rw [this] at hc1
      simp at hc1
    · refine ⟨_, h2, by simp [hev], ?_⟩
      intro x x' hx hx'
      rw [hev] at hx
      have hx1 : x = { type := e1.action, scheduledTimeUTC := t1 } := by simpa using hx.symm
      have hx2 : x' = { type := e2.action, scheduledTimeUTC := t2 } := by simpa using hx'.symm
      subst hx1 hx2
      have heq : t1.unixNano = t2.unixNano :=
        not_nearerThan_antisymm direction t1 t2
          (hbest2 e1 ((hmem e1).mp he1) hf1 t1 hc1)
          (hbest1 e2 ((hmem e2).mpr he2) hf2 t2 hc2)
      refine ⟨heq, ?_, e1, e2, he1, (hmem e2).mpr he2, rfl, rfl, hc1, hc2⟩
      intro hdir
      subst hdir
      have hl1 := eventCandidate_loc lib fuel location now o e1 t1 (hadj e1 he1 hf1) hc1
      have hl2 := eventCandidate_loc lib fuel location now o e2 t2
        (hadj e2 ((hmem e2).mpr he2) hf2) hc2
      show t1 = t2
      cases t1
      cases t2
      simp only at heq hl1 hl2
      rw [heq, hl1, hl2]

theorem any_congr_mem {α : Type} (p : α → Bool) (l l' : List α)
    (hmem : ∀ e, e ∈ l ↔ e ∈ l') : l.any p = l'.any p := by
  rw [Bool.eq_iff_iff]
  simp only [List.any_eq_true]
  constructor
  · rintro ⟨x, hx, hp⟩; exact ⟨x, (hmem x).mp hx, hp⟩
  · rintro ⟨x, hx, hp⟩; exact ⟨x, (hmem x).mpr hx, hp⟩

/-- The most recent stop time does not depend on the order of the events. -/
theorem findMostRecentStopTime_same_members (lib : CronLib) (fuel : Nat)
    (events events' : List EventSpec) (now : ZonedTime) (location : Location) (o : Int)
    (ls : Option ZonedTime)
    (hmem : ∀ e, e ∈ events ↔ e ∈ events')
    (hz : ∀ e ∈ events, ∀ c,
      eventCandidate lib fuel location now .directionPrevious o e = some c → c.IsZero = false)
    (h : findMostRecentStopTime lib fuel events location o now = .value ls) :
    findMostRecentStopTime lib fuel events' location o now = .value ls := by
  simp only [findMostRecentStopTime] at h ⊢
  obtain ⟨ev, hev, h⟩ := andThen_value _ _ _ h
  obtain ⟨ev', hev', hnone, hsome⟩ := findNearestEvent_same_members lib fuel events events' now
    location o .directionPrevious _ ev hmem hz hev
  rw [hev']
  simp only [Ending.andThen]
  cases ev with
  | none =>
    have : ev' = none := hnone.mp rfl
    rw [this]
    exact h
  | some x =>
    cases ev' with
    | none => exact absurd (hnone.mpr rfl) (by simp)
    | some x' =>
      obtain ⟨_, hprev, _⟩ := hsome x x' rfl rfl
      simp only at h ⊢
      rw [← hprev rfl]
      exact h

/-- The start of the current run period is at the same instant whatever the order of the
events. -/
theorem findStartOfCurrentRunPeriod_same_members (lib : CronLib) (fuel : Nat)
    (events events' : List EventSpec) (now : ZonedTime) (location : Location) (o : Int)
    (sp : Option ZonedTime)
    (hmem : ∀ e, e ∈ events ↔ e ∈ events')
    (hz : ∀ e ∈ events, ∀ t direction c,
      (t = now ∨ (direction = .directionNext ∧
        findMostRecentStopTime lib fuel events location o now = .value (some t))) →
      eventCandidate lib fuel location t direction o e = some c → c.IsZero = false)
    (h : findStartOfCurrentRunPeriod lib fuel events location o now = .value sp) :
    ∃ sp', findStartOfCurrentRunPeriod lib fuel events' location o now = .value sp' ∧
      sp'.map (fun t => t.unixNano) = sp.map (fun t => t.unixNano) := by
  simp only [findStartOfCurrentRunPeriod] at h ⊢
  obtain ⟨ls, hls, h⟩ := andThen_value _ _ _ h
  rw [findMostRecentStopTime_same_members lib fuel events events' now location o ls hmem
    (fun e he c hc => hz e he now .directionPrevious c (Or.inl rfl) hc) hls]
  simp only [Ending.andThen]
  cases ls with
  | none =>
    simp only at h ⊢
    rw [← any_congr_mem _ events events' hmem]
    exact ⟨sp, h, rfl⟩
  | some stop =>
    simp only at h ⊢
    obtain ⟨ev, hev, h⟩ := andThen_value _ _ _ h
    obtain ⟨ev', hev', hnone, hsome⟩ := findNearestEvent_same_members lib fuel events events'
      stop location o .directionNext _ ev hmem
      (fun e he c hc => hz e he stop .directionNext c (Or.inr ⟨rfl, hls⟩) hc) hev
    rw [hev']
    simp only [Ending.andThen]
    cases ev with
    | none =>
      have : ev' = none := hnone.mp rfl
      rw [this]
      simp only at h ⊢
      exact ⟨sp, h, rfl⟩
    | some x =>
      cases ev' with
      | none => exact absurd (hnone.mpr rfl) (by simp)
      | some x' =>
        obtain ⟨heq, _, _⟩ := hsome x x' rfl rfl
        simp only at h ⊢
        refine ⟨_, rfl, ?_⟩
        have : sp = some x.scheduledTimeUTC := by simpa using h.symm
        rw [this]
        simp [heq]

/-! ## C19: the order of the events -/

theorem toTime_unixNano (t : ZonedTime) : t.toTime.unixNano = t.unixNano := rfl

theorem wrapError_of_value {α : Type} (message : String) (r : Ending α) (a : α)
    (h : r = .value a) : wrapError message r = .value a := by
  rw [h]; rfl

/-- C19, amended. Let `events'` be a permutation of the events of a ControlledJob on which
`StateFor` returns a state, and let no candidate of the searches made (from `now` in either
direction, and forward from the most recent stop time) be the zero time. Then `StateFor`
returns a state for the permuted events as well, with the same `LastStopTime`, the same time
of the previous event, and `StartOfCurrentRunPeriod` and `NextEventTime` at the same
instants. `ShouldBeRunning` is the same unless a start event and an event of another type are
both due at the instant of the previous event; if they are, the event listed first
decides. -/
theorem event_order_irrelevant (lib : CronLib) (fuel : Nat) (controlledJob : ControlledJob)
    (events' : List EventSpec) (now : ZonedTime) (st : ScheduleState) (location : Location)
    (hperm : controlledJob.spec.events.Perm events')
    (hloc : lib.loadLocation controlledJob.spec.timezone.name = .ok location)
    (hz : ∀ e ∈ controlledJob.spec.events, ∀ t direction c,
      (t = now ∨ (direction = .directionNext ∧
        findMostRecentStopTime lib fuel controlledJob.spec.events location
          controlledJob.spec.timezone.offsetSeconds now = .value (some t))) →
      eventCandidate lib fuel location t direction controlledJob.spec.timezone.offsetSeconds e =
        some c → c.IsZero = false)
    (h : StateFor lib fuel controlledJob now = .value st) :
    ∃ st', StateFor lib fuel
        { controlledJob with spec := { controlledJob.spec with events := events' } } now =
          .value st' ∧
      st'.LastStopTime = st.LastStopTime ∧
      st'.StartOfCurrentRunPeriod.map (fun t => t.unixNano) =
        st.StartOfCurrentRunPeriod.map (fun t => t.unixNano) ∧
      st'.NextEventTime.map (fun t => t.unixNano) =
        st.NextEventTime.map (fun t => t.unixNano) ∧
      st'.previousEvent.map (fun e => e.scheduledTimeUTC) =
        st.previousEvent.map (fun e => e.scheduledTimeUTC) ∧
      ((∀ x, st.previousEvent = some x → ∀ e ∈ controlledJob.spec.events, ∀ c,
          eventCandidate lib fuel location now .directionPrevious
            controlledJob.spec.timezone.offsetSeconds e = some c →
          c.unixNano = x.scheduledTimeUTC.unixNano →
          (e.action == EventTypeStart) = (x.type == EventTypeStart)) →
        st'.ShouldBeRunning = st.ShouldBeRunning) := by
  obtain ⟨location', pe, ne, ls, sp, hl, h1, h2, h3, h4, hst⟩ :=
    StateFor_value lib fuel controlledJob now st h
  have hloceq : location' = location := by
    rw [hl] at hloc
    exact Except.ok.inj hloc
  subst hloceq
  have hmem : ∀ e, e ∈ controlledJob.spec.events ↔ e ∈ events' := fun e => hperm.mem_iff
  obtain ⟨pe', hpe', hpnone, hpsome⟩ := findNearestEvent_same_members lib fuel _ events' now
    location' _ .directionPrevious _ pe hmem
    (fun e he c hc => hz e he now .directionPrevious c (Or.inl rfl) hc) h1
  obtain ⟨ne', hne', hnnone, hnsome⟩ := findNearestEvent_same_members lib fuel _ events' now
    location' _ .directionNext _ ne hmem
    (fun e he c hc => hz e he now .directionNext c (Or.inl rfl) hc) h2
  have hls' := findMostRecentStopTime_same_members lib fuel _ events' now location' _ ls hmem
    (fun e he c hc => hz e he now .directionPrevious c (Or.inl rfl) hc) h3
  obtain ⟨sp', hsp', hspeq⟩ := findStartOfCurrentRunPeriod_same_members lib fuel _ events' now
    location' _ sp hmem hz h4
  refine ⟨{ lastStopTime := ls.map ZonedTime.toTime,
            startOfCurrentRunPeriod := sp'.map ZonedTime.toTime,
            previousEvent := pe'.map ZonedScheduledEvent.toScheduledEvent,
            nextEvent := ne'.map ZonedScheduledEvent.toScheduledEvent }, ?_, ?_, ?_, ?_, ?_, ?_⟩
  · simp only [StateFor, hl]
    rw [wrapError_of_value _ _ _ hpe', wrapError_of_value _ _ _ hne',
      wrapError_of_value _ _ _ hls', wrapError_of_value _ _ _ hsp']
    rfl
  · rw [hst]; rfl
  · rw [hst]
    simp only [ScheduleState.StartOfCurrentRunPeriod, Option.map_map]
    have e1 : ((fun t : Time => t.unixNano) ∘ ZonedTime.toTime) =
        fun t : ZonedTime => t.unixNano := rfl
    rw [e1, hspeq]
  · rw [hst]
    simp only [ScheduleState.NextEventTime]
    cases ne with
    | none =>
      have : ne' = none := hnnone.mp rfl
      rw [this]
    | some x =>
      cases ne' with
      | none => exact absurd (hnnone.mpr rfl) (by simp)
      | some x' =>
        obtain ⟨heq, _, _⟩ := hnsome x x' rfl rfl
        simp [ZonedScheduledEvent.toScheduledEvent, toTime_unixNano, heq]
  · rw [hst]
    cases pe with
    | none =>
      have : pe' = none := hpnone.mp rfl
      rw [this]
    | some x =>
      cases pe' with
      | none => exact absurd (hpnone.mpr rfl) (by simp)
      | some x' =>
        obtain ⟨_, heq, _⟩ := hpsome x x' rfl rfl
        simp [ZonedScheduledEvent.toScheduledEvent, heq rfl]
  · intro htie
    rw [hst]
    simp only [ScheduleState.ShouldBeRunning]
    cases pe with
    | none =>
      have : pe' = none := hpnone.mp rfl
      rw [this]
    | some x =>
      cases pe' with
      | none => exact absurd (hpnone.mpr rfl) (by simp)
      | some x' =>
        obtain ⟨heq, _, e, e', he, he', ha, ha', hc, hc'⟩ := hpsome x x' rfl rfl
        have := htie x.toScheduledEvent (by rw [hst]; rfl) e' he' _ hc' heq.symm
        simp only [Option.map_some', ZonedScheduledEvent.toScheduledEvent] at this ⊢
        rw [← ha', this]

set_option maxRecDepth 100000 in
/-- C19, the claim as stated fails. A start event and a stop event are both due every day at
09:00. At 2022-12-12T12:12:00Z the state should be running when the start event is listed
first and should not when the stop event is listed first. -/
theorem event_order_irrelevant_counterexample :
    startThenStop.spec.events.Perm stopThenStart.spec.events ∧
      (∃ st, StateFor exampleLib 200 startThenStop exampleNoon = .value st ∧
        st.ShouldBeRunning = true) ∧
      (∃ st, StateFor exampleLib 200 stopThenStart exampleNoon = .value st ∧
        st.ShouldBeRunning = false) :=
  ⟨List.Perm.swap _ _ _, ⟨_, by rfl, by rfl⟩, ⟨_, by rfl, by rfl⟩⟩

/-- With the additional offset 0 no candidate is the zero time. -/
theorem eventCandidate_not_zero (lib : CronLib) (fuel : Nat) (location : Location)
    (t : ZonedTime) (direction : EventDirection) (e : EventSpec) (c : ZonedTime)
    (h : eventCandidate lib fuel location t direction 0 e = some c) : c.IsZero = false := by
  have hw : wrapInt32 0 = 0 := by decide
  simp only [eventCandidate, candidate, neg_zero, hw, mul_zero, Add_zero_duration] at h
  split at h
  · simp at h
  · rename_i hne
    have : c = _ := (Option.some.inj h).symm
    rw [this]
    simpa using hne

theorem option_all_some {α : Type} (p : α → Bool) (x : Option α) (h : x.all p = true)
    (c : α) (hc : x = some c) : p c = true := by
  rw [hc] at h
  exact h


set_option maxRecDepth 100000 in
/-- C19 at work: the example ControlledJob with an additional offset of one minute ("start
08:59, stop 16:59 every day", UTC) at 2022-12-12T12:12:00Z, and its events in the opposite
order. -/
theorem event_order_irrelevant_witness :
    offsetControlledJob.spec.events.Perm [stopAtFive, startAtNine] ∧
      offsetControlledJob.spec.timezone.offsetSeconds = 60 ∧
      StateFor exampleLib 200 offsetControlledJob exampleNoon =
        .value { lastStopTime := some (Time.ofUnix 1670777940),
                 startOfCurrentRunPeriod := some (Time.ofUnix 1670835540),
                 previousEvent := some { type := EventTypeStart,
                                         scheduledTimeUTC := Time.ofUnix 1670835540 },
                 nextEvent := some { type := EventTypeStop,
                                     scheduledTimeUTC := Time.ofUnix 1670864340 } } ∧
      ∃ st', StateFor exampleLib 200
          { offsetControlledJob with
            spec := { offsetControlledJob.spec with events := [stopAtFive, startAtNine] } }
          exampleNoon = .value st' ∧
        st'.LastStopTime = some (Time.ofUnix 1670777940) ∧
        st'.ShouldBeRunning = true := by
  refine ⟨List.Perm.swap _ _ _, rfl, by rfl, ?_⟩
  have hstop : findMostRecentStopTime exampleLib 200 offsetControlledJob.spec.events
      Location.UTC offsetControlledJob.spec.timezone.offsetSeconds exampleNoon =
        .value (some (atSecond 1670777940 Location.UTC)) := by rfl
  obtain ⟨st', h1, h2, _, _, _, h6⟩ := event_order_irrelevant exampleLib 200
    offsetControlledJob [stopAtFive, startAtNine] exampleNoon _ Location.UTC
    (List.Perm.swap _ _ _) (by rfl)
    (by
      intro e he t direction c ht hc
      have he' : e = startAtNine ∨ e = stopAtFive := by
        simpa [offsetControlledJob, exampleControlledJob] using he
      have ht' : t = exampleNoon ∨
          (direction = .directionNext ∧ t = atSecond 1670777940 Location.UTC) := by
        rcases ht with ht | ⟨hd, ht⟩
        · exact Or.inl ht
        · rw [hstop] at ht
          injection ht with ht
          exact Or.inr ⟨hd, (Option.some.inj ht).symm⟩
      have hnz : ∀ x : Option ZonedTime, x.all (fun c => c.IsZero == false) = true →
          x = some c → c.IsZero = false := fun x hx hxc => by
        simpa using option_all_some _ x hx c hxc
      rcases he' with he' | he' <;> rcases ht' with ht' | ⟨hd, ht'⟩ <;> subst he' <;>
        subst ht'
      · cases direction <;> exact hnz _ (by decide) hc
      · subst hd; exact hnz _ (by decide) hc
      · cases direction <;> exact hnz _ (by decide) hc
      · subst hd; exact hnz _ (by decide) hc)
    (by rfl)
  refine ⟨st', h1, h2, ?_⟩
  rw [h6 ?_]
  · rfl
  · intro x hx e he c hc _
    have hx' : x = { type := EventTypeStart, scheduledTimeUTC := Time.ofUnix 1670835540 } := by
      simpa using hx.symm
    have he' : e = startAtNine ∨ e = stopAtFive := by
      simpa [offsetControlledJob, exampleControlledJob] using he
    subst hx'
    rcases he' with he' | he' <;> subst he'
    · rfl
    · exfalso
      rename_i hcx
      have hval : eventCandidate exampleLib 200 Location.UTC exampleNoon .directionPrevious
          offsetControlledJob.spec.timezone.offsetSeconds stopAtFive =
            some (atSecond 1670777940 Location.UTC) := by decide
      rw [hval] at hc
      rw [← Option.some.inj hc] at hcx
      exact absurd hcx (by decide)

/-! ## Writes to the status -/

theorem applyWrites_nil (env : Env) (nf : Option Time) (cj : ControlledJob) :
    applyWrites env nf cj [] = cj := rfl

theorem applyWrites_cons (env : Env) (nf : Option Time) (cj : ControlledJob) (w : StatusWrite)
    (ws : List StatusWrite) :
    applyWrites env nf cj (w :: ws) = applyWrites env nf (w.apply env nf cj) ws := rfl

theorem applyWrites_append (env : Env) (nf : Option Time) (cj : ControlledJob)
    (ws1 ws2 : List StatusWrite) :
    applyWrites env nf cj (ws1 ++ ws2) = applyWrites env nf (applyWrites env nf cj ws1) ws2 := by
  simp [applyWrites, List.foldl_append]

theorem RecordEvent_sameButStatus (cj : ControlledJob) (a : ControlledJobActionHistoryEntry) :
    sameButStatus (RecordEvent cj a) cj := by
  simp only [RecordEvent, addActionHistoryEntryIgnoringDuplicates, addActionHistoryEntryImpl]
  split
  · exact ⟨rfl, rfl, rfl, rfl, rfl, rfl⟩
  · exact ⟨rfl, rfl, rfl, rfl, rfl, rfl⟩

theorem apply_sameButStatus (env : Env) (nf : Option Time) (cj : ControlledJob)
    (w : StatusWrite) : sameButStatus (w.apply env nf cj) cj := by
  cases w with
  | condition t s r m => exact SetCondition_sameButStatus env cj t s r m
  | record ty msg jn => exact RecordEvent_sameButStatus cj _
  | _ => exact ⟨rfl, rfl, rfl, rfl, rfl, rfl⟩

theorem sameButStatus_symm {a b : ControlledJob} (h : sameButStatus a b) : sameButStatus b a :=
  ⟨h.1.symm, h.2.1.symm, h.2.2.1.symm, h.2.2.2.1.symm, h.2.2.2.2.1.symm, h.2.2.2.2.2.symm⟩

theorem applyWrites_sameButStatus (env : Env) (nf : Option Time) :
    ∀ (ws : List StatusWrite) (cj : ControlledJob),
      sameButStatus (applyWrites env nf cj ws) cj
  | [], cj => sameButStatus_refl cj
  | w :: ws, cj =>
    sameButStatus_trans (applyWrites_sameButStatus env nf ws (w.apply env nf cj))
      (apply_sameButStatus env nf cj w)

/-- Updating a condition that already carries the status, the reason and the message, and
has a transition time, changes nothing. -/
theorem updateCondition_fixed (c new : Condition) (hs : c.status = new.status)
    (hr : c.reason = new.reason) (hm : c.message = new.message)
    (ht : c.lastTransitionTime.IsZero = false) : updateCondition c new = c := by
  cases c
  simp only at hs hr hm ht
  simp [updateCondition, hs, hr, hm, ht]

theorem updateFirst_fixed (new : Condition) :
    ∀ (cs : List Condition) (c : Condition),
      cs.find? (fun x => x.type == new.type) = some c → updateCondition c new = c →
      updateFirst new cs = cs
  | [], _, h, _ => by simp at h
  | x :: cs, c, h, hfix => by
    rw [List.find?_cons] at h
    simp only [updateFirst]
    by_cases hx : (x.type == new.type) = true
    · simp only [hx] at h
      have : x = c := by simpa using h
      rw [this] at hx ⊢
      simp only [hx, if_true, hfix]
    · have hx' : (x.type == new.type) = false := by simpa using hx
      simp only [hx'] at h
      simp only [hx', Bool.false_eq_true, if_false]
      rw [updateFirst_fixed new cs c h hfix]

/-- A write that is in force changes nothing when made again, at any reading of the clock. -/
theorem apply_of_holds (env : Env) (nf : Option Time) (cj : ControlledJob) (w : StatusWrite)
    (h : w.Holds cj) : w.apply env nf cj = cj := by
  cases w with
  | condition t s r m =>
    obtain ⟨c, hc, hs, hr, hm, ht⟩ := h
    simp only [StatusWrite.apply, SetCondition, hc]
    have hfix : updateCondition c
        { type := t, status := s, lastTransitionTime := env.timeNow,
          observedGeneration := cj.generation, reason := r, message := m } = c :=
      updateCondition_fixed c _ hs hr hm ht
    have := updateFirst_fixed
      { type := t, status := s, lastTransitionTime := env.timeNow,
        observedGeneration := cj.generation, reason := r, message := m }
      cj.status.conditions c hc hfix
    rw [this]
  | isSuspended v => simp only [StatusWrite.Holds] at h; simp [StatusWrite.apply, ← h]
  | lastScheduledStartTime v => simp only [StatusWrite.Holds] at h; simp [StatusWrite.apply, ← h]
  | shouldBeRunning v => simp only [StatusWrite.Holds] at h; simp [StatusWrite.apply, ← h]
  | isRunning v => simp only [StatusWrite.Holds] at h; simp [StatusWrite.apply, ← h]
  | active v => simp only [StatusWrite.Holds] at h; simp [StatusWrite.apply, ← h]
  | record ty msg jn =>
    obtain ⟨a, ha, h1, h2, h3, h4, h5⟩ := h
    have hsame : isSameAction cj.status.mostRecentAction (some (newActionForJob nf ty msg jn)) =
        true := by
      cases a
      simp only at h1 h2 h3 h4 h5
      simp [isSameAction, ha, newActionForJob, h1, h2, h3, h4, h5]
    simp [StatusWrite.apply, RecordEvent, addActionHistoryEntryIgnoringDuplicates,
      addActionHistoryEntryImpl, hsame]

theorem SetCondition_status_fields (env : Env) (cj : ControlledJob)
    (t : ControlledJobConditionType) (s : ConditionStatus) (r m : String) :
    (SetCondition env cj t s r m).status.active = cj.status.active ∧
    (SetCondition env cj t s r m).status.lastScheduledStartTime =
      cj.status.lastScheduledStartTime ∧
    (SetCondition env cj t s r m).status.shouldBeRunning = cj.status.shouldBeRunning ∧
    (SetCondition env cj t s r m).status.isRunning = cj.status.isRunning ∧
    (SetCondition env cj t s r m).status.isSuspended = cj.status.isSuspended ∧
    (SetCondition env cj t s r m).status.mostRecentAction = cj.status.mostRecentAction ∧
    (SetCondition env cj t s r m).status.actionHistory = cj.status.actionHistory := by
  unfold SetCondition
  split <;> exact ⟨rfl, rfl, rfl, rfl, rfl, rfl, rfl⟩

theorem RecordEvent_status_fields (cj : ControlledJob) (a : ControlledJobActionHistoryEntry) :
    (RecordEvent cj a).status.active = cj.status.active ∧
    (RecordEvent cj a).status.lastScheduledStartTime = cj.status.lastScheduledStartTime ∧
    (RecordEvent cj a).status.shouldBeRunning = cj.status.shouldBeRunning ∧
    (RecordEvent cj a).status.isRunning = cj.status.isRunning ∧
    (RecordEvent cj a).status.isSuspended = cj.status.isSuspended ∧
    (RecordEvent cj a).status.conditions = cj.status.conditions := by
  simp only [RecordEvent, addActionHistoryEntryIgnoringDuplicates, addActionHistoryEntryImpl]
  split <;> exact ⟨rfl, rfl, rfl, rfl, rfl, rfl⟩

/-- After `SetCondition` at a reading of the clock that is not the zero time, the condition
carries the status, the reason and the message, and has a transition time. -/
theorem SetCondition_stamped (env : Env) (cj : ControlledJob)
    (t : ControlledJobConditionType) (s : ConditionStatus) (r m : String)
    (hnz : env.timeNow.IsZero = false) :
    ∃ c, FindCondition (SetCondition env cj t s r m).status t = some c ∧ c.status = s ∧
      c.reason = r ∧ c.message = m ∧ c.lastTransitionTime.IsZero = false := by
  unfold SetCondition
  cases h : FindCondition cj.status t with
  | none =>
    refine ⟨{ type := t, status := s, lastTransitionTime := env.timeNow,
              observedGeneration := cj.generation, reason := r, message := m },
            ?_, rfl, rfl, rfl, hnz⟩
    simp only [FindCondition] at h ⊢
    rw [List.find?_append, h]
    simp
  | some old =>
    simp only [FindCondition] at h ⊢
    have hfind := find_updateFirst_same
      { type := t, status := s, lastTransitionTime := env.timeNow,
        observedGeneration := cj.generation, reason := r, message := m }
      cj.status.conditions old h
    refine ⟨_, hfind, rfl, rfl, rfl, ?_⟩
    unfold updateCondition
    simp only []
    split
    · exact hnz
    · rename_i hc
      simp only [not_or] at hc
      simpa using hc.2

/-- A write is in force once it has been made. -/
theorem holds_apply (env : Env) (nf : Option Time) (cj : ControlledJob) (w : StatusWrite)
    (hnz : env.timeNow.IsZero = false) : w.Holds (w.apply env nf cj) := by
  cases w with
  | condition t s r m => exact SetCondition_stamped env cj t s r m hnz
  | record ty msg jn =>
    simp only [StatusWrite.Holds, StatusWrite.apply, RecordEvent,
      addActionHistoryEntryIgnoringDuplicates, addActionHistoryEntryImpl, Bool.true_and]
    split
    · rename_i hsame
      cases hm : cj.status.mostRecentAction with
      | none => simp [isSameAction, hm] at hsame
      | some a =>
        simp only [isSameAction, hm, decide_eq_true_eq] at hsame
        refine ⟨a, rfl, ?_⟩
        have h1 := congrArg ControlledJobActionHistoryEntry.type hsame
        have h2 := congrArg ControlledJobActionHistoryEntry.message hsame
        have h3 := congrArg ControlledJobActionHistoryEntry.jobName hsame
        have h4 := congrArg ControlledJobActionHistoryEntry.scheduledStartTime hsame
        have h5 := congrArg ControlledJobActionHistoryEntry.jobIndex hsame
        exact ⟨h1, h2, h3, h4, h5⟩
    · exact ⟨_, rfl, rfl, rfl, rfl, rfl, rfl⟩
  | _ => rfl

/-- A write stays in force when something else is written. -/
theorem holds_frame (env : Env) (nf : Option Time) (cj : ControlledJob) (w w2 : StatusWrite)
    (hk : w2.key ≠ w.key) (h : w.Holds cj) : w.Holds (w2.apply env nf cj) := by
  cases w2 with
  | condition t2 s2 r2 m2 =>
    obtain ⟨h1, h2, h3, h4, h5, h6, _⟩ := SetCondition_status_fields env cj t2 s2 r2 m2
    cases w with
    | condition t s r m =>
      have ht : t ≠ t2 := fun e => hk (by rw [e]; rfl)
      simp only [StatusWrite.Holds, StatusWrite.apply] at h ⊢
      rw [FindCondition_SetCondition_other env cj t2 t s2 r2 m2 ht]
      exact h
    | isSuspended v => simpa only [StatusWrite.Holds, StatusWrite.apply, h5] using h
    | lastScheduledStartTime v => simpa only [StatusWrite.Holds, StatusWrite.apply, h2] using h
    | shouldBeRunning v => simpa only [StatusWrite.Holds, StatusWrite.apply, h3] using h
    | isRunning v => simpa only [StatusWrite.Holds, StatusWrite.apply, h4] using h
    | active v => simpa only [StatusWrite.Holds, StatusWrite.apply, h1] using h
    | record ty msg jn => simpa only [StatusWrite.Holds, StatusWrite.apply, h6] using h
  | record ty2 msg2 jn2 =>
    obtain ⟨h1, h2, h3, h4, h5, h6⟩ :=
      RecordEvent_status_fields cj (newActionForJob nf ty2 msg2 jn2)
    cases w with
    | condition t s r m =>
      simp only [StatusWrite.Holds, StatusWrite.apply] at h ⊢
      rw [FindCondition_congr h6]
      exact h
    | isSuspended v => simpa only [StatusWrite.Holds, StatusWrite.apply, h5] using h
    | lastScheduledStartTime v => simpa only [StatusWrite.Holds, StatusWrite.apply, h2] using h
    | shouldBeRunning v => simpa only [StatusWrite.Holds, StatusWrite.apply, h3] using h
    | isRunning v => simpa only [StatusWrite.Holds, StatusWrite.apply, h4] using h
    | active v => simpa only [StatusWrite.Holds, StatusWrite.apply, h1] using h
    | record ty msg jn => exact absurd rfl hk
  | isSuspended v2 =>
    cases w with
    | isSuspended v => exact absurd rfl hk
    | _ => exact h
  | lastScheduledStartTime v2 =>
    cases w with
    | lastScheduledStartTime v => exact absurd rfl hk
    | _ => exact h
  | shouldBeRunning v2 =>
    cases w with
    | shouldBeRunning v => exact absurd rfl hk
    | _ => exact h
  | isRunning v2 =>
    cases w with
    | isRunning v => exact absurd rfl hk
    | _ => exact h
  | active v2 =>
    cases w with
    | active v => exact absurd rfl hk
    | _ => exact h

theorem holds_applyWrites_frame (env : Env) (nf : Option Time) (w : StatusWrite) :
    ∀ (ws : List StatusWrite) (cj : ControlledJob), (∀ w2 ∈ ws, w2.key ≠ w.key) →
      w.Holds cj → w.Holds (applyWrites env nf cj ws)
  | [], _, _, h => h
  | w2 :: ws, cj, hk, h =>
    holds_applyWrites_frame env nf w ws _ (fun x hx => hk x (List.mem_cons_of_mem _ hx))
      (holds_frame env nf cj w w2 (hk w2 (List.mem_cons_self _ _)) h)

/-- After a list of writes to different places, made at a reading of the clock that is not
the zero time, every one of them is in force. -/
theorem holds_applyWrites (env : Env) (nf : Option Time) (hnz : env.timeNow.IsZero = false) :
    ∀ (ws : List StatusWrite) (cj : ControlledJob), (ws.map StatusWrite.key).Nodup →
      ∀ w ∈ ws, w.Holds (applyWrites env nf cj ws)
  | [], _, _, _, hw => by simp at hw
  | w1 :: ws, cj, hnd, w, hw => by
    rw [List.map_cons, List.nodup_cons] at hnd
    rw [applyWrites_cons]
    rcases List.mem_cons.mp hw with rfl | hw
    · refine holds_applyWrites_frame env nf w ws _ ?_ (holds_apply env nf cj w hnz)
      intro w2 hw2 he
      exact hnd.1 (he ▸ List.mem_map_of_mem _ hw2)
    · exact holds_applyWrites env nf hnz ws _ hnd.2 w hw

/-- Writes that are in force change nothing when made again. -/
theorem applyWrites_of_holds (env : Env) (nf : Option Time) (cj : ControlledJob) :
    ∀ (ws : List StatusWrite), (∀ w ∈ ws, w.Holds cj) → applyWrites env nf cj ws = cj
  | [], _ => rfl
  | w :: ws, h => by
    rw [applyWrites_cons, apply_of_holds env nf cj w (h w (List.mem_cons_self _ _))]
    exact applyWrites_of_holds env nf cj ws (fun x hx => h x (List.mem_cons_of_mem _ hx))

theorem FindCondition_apply_other (env : Env) (nf : Option Time) (cj : ControlledJob)
    (w : StatusWrite) (t : ControlledJobConditionType) (hk : w.key ≠ "condition " ++ t) :
    FindCondition (w.apply env nf cj).status t = FindCondition cj.status t := by
  cases w with
  | condition t2 s2 r2 m2 =>
    exact FindCondition_SetCondition_other env cj t2 t s2 r2 m2 (fun e => hk (by rw [e]; rfl))
  | record ty msg jn =>
    exact FindCondition_congr (RecordEvent_status_fields cj _).2.2.2.2.2 t
  | _ => rfl

theorem FindCondition_applyWrites_other (env : Env) (nf : Option Time)
    (t : ControlledJobConditionType) :
    ∀ (ws : List StatusWrite) (cj : ControlledJob),
      "condition " ++ t ∉ ws.map StatusWrite.key →
      FindCondition (applyWrites env nf cj ws).status t = FindCondition cj.status t
  | [], _, _ => rfl
  | w :: ws, cj, h => by
    rw [List.map_cons, List.mem_cons, not_or] at h
    rw [applyWrites_cons, FindCondition_applyWrites_other env nf t ws _ h.2]
    exact FindCondition_apply_other env nf cj w t (fun e => h.1 e.symm)

/-- A ControlledJob is determined by its status and what `sameButStatus` compares. -/
theorem eq_of_sameButStatus {a b : ControlledJob} (h : sameButStatus a b) :
    { b with status := a.status } = a := by
  obtain ⟨h1, h2, h3, h4, h5, h6⟩ := h
  cases a
  cases b
  simp only at h1 h2 h3 h4 h5 h6
  simp [h1, h2, h3, h4, h5, h6]

/-! ## The writes of `makeDecision` -/

theorem condition_key (t : ControlledJobConditionType) (s : ConditionStatus) (r m : String) :
    (StatusWrite.condition t s r m).key = "condition " ++ t := rfl

theorem SetCondition_eq_write (env : Env) (nf : Option Time) (cj : ControlledJob)
    (t : ControlledJobConditionType) (s : ConditionStatus) (r m : String) :
    SetCondition env cj t s r m = applyWrites env nf cj [.condition t s r m] := rfl

theorem flagWrite_key (t : ControlledJobConditionType) (flag : Bool) (r1 m1 r2 m2 : String) :
    (flagWrite t flag r1 m1 r2 m2).key = "condition " ++ t := by
  cases flag <;> rfl

theorem SetConditionBasedOnFlag_eq_write (env : Env) (nf : Option Time) (cj : ControlledJob)
    (t : ControlledJobConditionType) (flag : Bool) (r1 m1 r2 m2 : String) :
    SetConditionBasedOnFlag env cj t flag r1 m1 r2 m2 =
      (flagWrite t flag r1 m1 r2 m2).apply env nf cj := by
  cases flag <;> rfl

theorem setShouldBeRunningStatus_eq_writes (env : Env) (nf : Option Time) (cj : ControlledJob)
    (state : State) :
    setShouldBeRunningStatus env cj state = applyWrites env nf cj (shouldBeRunningWrites state) := by
  unfold setShouldBeRunningStatus shouldBeRunningWrites
  cases state.ShouldBeRunning with
  | none => rfl
  | some b => cases b <;> rfl

theorem shouldBeRunningWrites_keys (state : State) :
    (shouldBeRunningWrites state).map StatusWrite.key =
      ["shouldBeRunning", "condition ShouldBeRunning"] := by
  unfold shouldBeRunningWrites
  cases state.ShouldBeRunning with
  | none => decide
  | some b => cases b <;> decide

theorem setConditionsForAllJobs_eq_writes (env : Env) (nf : Option Time) (cj : ControlledJob)
    (allJobs : List JobRef) :
    setConditionsForAllJobs env cj allJobs = applyWrites env nf cj (allJobsWrites allJobs) := by
  unfold setConditionsForAllJobs allJobsWrites setConditionIfTrueForAnyJob
  by_cases h : allJobs.length = 0
  · simp only [h, if_true]; rfl
  · simp only [h, if_false]
    rw [SetConditionBasedOnFlag_eq_write env nf, SetConditionBasedOnFlag_eq_write env nf]
    rfl

theorem allJobsWrites_keys (allJobs : List JobRef) :
    (allJobsWrites allJobs).map StatusWrite.key =
      ["condition JobManuallyScheduled", "condition JobBeingDeleted"] := by
  unfold allJobsWrites
  split
  · decide
  · simp only [List.map_cons, List.map_nil, flagWrite_key]
    decide

theorem setJobConditions_eq_writes (env : Env) (nf : Option Time) (cj : ControlledJob)
    (job : Option JobRef) :
    setJobConditions env cj job = applyWrites env nf cj (jobConditionWrites job) := by
  unfold setJobConditions jobConditionWrites
  cases job with
  | none => rfl
  | some ref =>
    simp only []
    rw [SetConditionBasedOnFlag_eq_write env nf, SetConditionBasedOnFlag_eq_write env nf]
    cases GetJobCondition ref.job JobComplete <;> cases GetJobCondition ref.job JobFailed <;>
      cases JobHasReadyStatus ref.job <;>
      first
        | rfl
        | (simp only [if_true]; rw [SetConditionBasedOnFlag_eq_write env nf]; rfl)

theorem jobConditionWrites_keys (job : Option JobRef) :
    (jobConditionWrites job).map StatusWrite.key =
      ["condition JobExists", "condition JobRunning", "condition JobComplete",
        "condition JobFailed", "condition JobSuspended", "condition JobStoppedByUser"] := by
  unfold jobConditionWrites
  cases job with
  | none => decide
  | some ref =>
    simp only [List.map_cons, List.map_nil, flagWrite_key]
    cases GetJobCondition ref.job JobComplete <;> cases GetJobCondition ref.job JobFailed <;>
      cases JobHasReadyStatus ref.job <;>
      simp only [if_true, Bool.false_eq_true, if_false, flagWrite_key, condition_key] <;> decide

theorem RecreateJobWithNewSpec_atTime (env : Env) (t : Time) (existing : Job)
    (cj : ControlledJob) (id : Int) (suspended : Bool) :
    RecreateJobWithNewSpec (env.atTime t) existing cj id suspended =
      RecreateJobWithNewSpec env existing cj id suspended := rfl

theorem BuildForControlledJob_atTime (env : Env) (t : Time) (cj : ControlledJob)
    (start : Time) (id : Int) (manual suspended : Bool) :
    BuildForControlledJob (env.atTime t) cj start id manual suspended =
      BuildForControlledJob env cj start id manual suspended := rfl

theorem buildState_atTime (env : Env) (t : Time) (scheduleState : Except String ScheduleState)
    (cj : ControlledJob) (childJobs : List Job) :
    buildState (env.atTime t) scheduleState cj childJobs =
      buildState env scheduleState cj childJobs := rfl

theorem classifyJobs_atTime (env : Env) (t : Time) (state : State) (jobs : List JobRef) :
    classifyJobs (env.atTime t) state jobs = classifyJobs env state jobs := rfl

theorem buildState_congr (env : Env) (scheduleState : Except String ScheduleState)
    {a b : ControlledJob} (h : sameButStatus a b) (childJobs : List Job) :
    buildState env scheduleState a childJobs = buildState env scheduleState b childJobs := by
  unfold buildState
  rw [h.2.2.2.2.2]

theorem recreateIfOutOfDate_eq_writes (env : Env) (state : State) (restart : Bool)
    (maxId : Int) (l : Locals) (t : Time) (nf : Option Time) (cj : ControlledJob)
    (h : sameButStatus cj l.controlledJob) :
    recreateIfOutOfDate (env.atTime t) state restart maxId { l with controlledJob := cj } =
      ({ (recreateIfOutOfDate env state restart maxId l).1 with
          controlledJob := applyWrites (env.atTime t) nf cj
            (recreateWrites env state restart maxId l) },
        (recreateIfOutOfDate env state restart maxId l).2) := by
  unfold recreateIfOutOfDate recreateWrites
  simp only []
  cases hc : l.chosenJob with
  | none => rfl
  | some c =>
    simp only []
    by_cases h1 : isOutOfDate c.job state = true
    · simp only [h1, if_true]
      by_cases h2 : (!IsJobPotentiallyRunning c.job || WasJobStoppedByTheUser c.job) = true
      · simp only [h2, if_true]; rfl
      · simp only [h2, Bool.false_eq_true, if_false]
        by_cases h3 : IsJobBeingDeleted c.job = true
        · simp only [h3, if_true]; rfl
        · simp only [h3, Bool.false_eq_true, if_false]
          by_cases h4 : (!restart) = true
          · simp only [h4, if_true]; rfl
          · simp only [h4, Bool.false_eq_true, if_false]
            rw [RecreateJobWithNewSpec_atTime, RecreateJobWithNewSpec_congr env h]
            cases RecreateJobWithNewSpec env c.job l.controlledJob (wrapInt64 (maxId + 1)) true with
            | error e => simp only [applyWrites_nil, hc]
            | ok built => rfl
    · simp only [h1, Bool.false_eq_true, if_false]; rfl

theorem recreateWrites_keys (env : Env) (state : State) (restart : Bool) (maxId : Int)
    (l : Locals) :
    ((recreateWrites env state restart maxId l).map StatusWrite.key).Sublist
      ["condition OutOfDate"] := by
  unfold recreateWrites
  repeat' split
  all_goals first
    | exact List.Sublist.refl _
    | exact List.nil_sublist _

theorem recreateIfOutOfDate_sameButStatus (env : Env) (state : State) (restart : Bool)
    (maxId : Int) (l : Locals) :
    sameButStatus (recreateIfOutOfDate env state restart maxId l).1.controlledJob
      l.controlledJob := by
  unfold recreateIfOutOfDate
  repeat' split
  all_goals first
    | exact SetCondition_sameButStatus _ _ _ _ _ _
    | exact sameButStatus_refl _

theorem startIfAbsent_eq_writes (env : Env) (state : State) (now : Time) (sbr : Bool)
    (l : Locals) (t : Time) (nf : Option Time) (cj : ControlledJob)
    (h : sameButStatus cj l.controlledJob) :
    startIfAbsent (env.atTime t) state now sbr { l with controlledJob := cj } =
      ({ (startIfAbsent env state now sbr l).1 with
          controlledJob := applyWrites (env.atTime t) nf cj (startWrites state now sbr l) },
        (startIfAbsent env state now sbr l).2) := by
  unfold startIfAbsent startWrites
  simp only []
  by_cases h1 : (sbr && l.chosenJob.isNone) = true
  · simp only [h1, if_true]
    rw [startingDeadlineSecondsExceeded_congr h]
    by_cases h2 : startingDeadlineSecondsExceeded l.controlledJob state.StartOfCurrentRunPeriod
        now = true
    · simp only [h2, if_true]; rfl
    · simp only [h2, Bool.false_eq_true, if_false]
      cases state.StartOfCurrentRunPeriod with
      | none => rfl
      | some start =>
        simp only []
        rw [BuildForControlledJob_atTime,
          BuildForControlledJob_congr env (sameButStatus_trans
            (SetCondition_sameButStatus (env.atTime t) cj _ _ _ _)
            (sameButStatus_trans h (sameButStatus_symm
              (SetCondition_sameButStatus env l.controlledJob
                ConditionTypeStartingDeadlineExceeded ConditionFalse
                "StartingDeadlineNotExceeded" "Still in time to start a new job"))))]
        cases BuildForControlledJob env (SetCondition env l.controlledJob
            ConditionTypeStartingDeadlineExceeded ConditionFalse
            "StartingDeadlineNotExceeded" "Still in time to start a new job") start 0 false
            true with
        | error e => rfl
        | ok built => rfl
  · simp only [h1, Bool.false_eq_true, if_false]; rfl

theorem startWrites_keys (state : State) (now : Time) (sbr : Bool) (l : Locals) :
    (startWrites state now sbr l).map StatusWrite.key =
      ["condition StartingDeadlineExceeded"] := by
  unfold startWrites
  repeat' split
  all_goals decide

theorem stopOutsideRunPeriod_with (sbr : Bool) (l : Locals) (cj : ControlledJob) :
    stopOutsideRunPeriod sbr { l with controlledJob := cj } =
      { stopOutsideRunPeriod sbr l with controlledJob := cj } := by
  unfold stopOutsideRunPeriod
  simp only []
  split <;> rfl

theorem stopOutsideRunPeriod_controlledJob (sbr : Bool) (l : Locals) :
    (stopOutsideRunPeriod sbr l).controlledJob = l.controlledJob := by
  unfold stopOutsideRunPeriod
  simp only []
  split <;> rfl

theorem deleteOthers_with (l : Locals) (cj : ControlledJob) :
    deleteOthers { l with controlledJob := cj } = { deleteOthers l with controlledJob := cj } :=
  rfl

theorem unsuspendIfSafe_with (l : Locals) (cj : ControlledJob) :
    unsuspendIfSafe { l with controlledJob := cj } =
      { unsuspendIfSafe l with controlledJob := cj } := by
  unfold unsuspendIfSafe
  simp only []
  repeat' split
  all_goals rfl

theorem setRequeueAt_with (state : State) (l : Locals) (cj : ControlledJob) :
    setRequeueAt state { l with controlledJob := cj } =
      { setRequeueAt state l with controlledJob := cj } := by
  unfold setRequeueAt
  split <;> rfl

theorem startIfAbsent_sameButStatus (env : Env) (state : State) (now : Time) (sbr : Bool)
    (l : Locals) :
    sameButStatus (startIfAbsent env state now sbr l).1.controlledJob l.controlledJob := by
  unfold startIfAbsent
  simp only []
  repeat' split
  all_goals exact SetCondition_sameButStatus _ _ _ _ _ _

theorem decideForJobs_eq_writes (env : Env) (state : State) (now : Time) (sbr restart : Bool)
    (maxId : Int) (l : Locals) (t : Time) (nf : Option Time) (cj : ControlledJob)
    (h : sameButStatus cj l.controlledJob) :
    decideForJobs (env.atTime t) state now sbr restart maxId { l with controlledJob := cj } =
      { decideForJobs env state now sbr restart maxId l with
        controlledJob := applyWrites (env.atTime t) nf cj
          (decideWrites env state now sbr restart maxId l) } := by
  unfold decideForJobs decideWrites
  simp only []
  rw [stopOutsideRunPeriod_with]
  have h0 : sameButStatus cj (stopOutsideRunPeriod sbr l).controlledJob := by
    rw [stopOutsideRunPeriod_controlledJob]; exact h
  rw [recreateIfOutOfDate_eq_writes env state restart maxId _ t nf cj h0]
  have hs1 := recreateIfOutOfDate_sameButStatus env state restart maxId
    (stopOutsideRunPeriod sbr l)
  generalize recreateWrites env state restart maxId (stopOutsideRunPeriod sbr l) = ws1 at *
  cases hr : recreateIfOutOfDate env state restart maxId (stopOutsideRunPeriod sbr l) with
  | mk l1 e1 =>
    rw [hr] at hs1
    cases e1 with
    | some e => rfl
    | none =>
      simp only []
      have h1 : sameButStatus (applyWrites (env.atTime t) nf cj ws1) l1.controlledJob :=
        sameButStatus_trans (applyWrites_sameButStatus _ _ _ _)
          (sameButStatus_trans h0 (sameButStatus_symm hs1))
      have := startIfAbsent_eq_writes env state now sbr l1 t nf _ h1
      rw [this]
      cases hs : startIfAbsent env state now sbr l1 with
      | mk l2 e2 =>
        cases e2 with
        | some e => simp only [applyWrites_append]; rfl
        | none =>
          simp only [applyWrites_append, deleteOthers_with, unsuspendIfSafe_with,
            setRequeueAt_with]
          rfl

theorem decideWrites_keys (env : Env) (state : State) (now : Time) (sbr restart : Bool)
    (maxId : Int) (l : Locals) :
    ((decideWrites env state now sbr restart maxId l).map StatusWrite.key).Sublist
      ["condition OutOfDate", "condition StartingDeadlineExceeded"] := by
  unfold decideWrites
  simp only []
  split
  · exact (recreateWrites_keys _ _ _ _ _).trans (by decide)
  · rw [List.map_append, startWrites_keys]
    exact List.Sublist.append (recreateWrites_keys _ _ _ _ _) (List.Sublist.refl _)

theorem atTime_timeNow (env : Env) : env.atTime env.timeNow = env := rfl

/-- The locals of `makeDecision` as they stand after the second loop. -/
theorem makeDecision_not_suspended (env : Env) (nf : Option Time)
    (scheduleState : Except String ScheduleState) (cj : ControlledJob) (childJobs : List Job)
    (now : Time) (enable : Bool) (state : State)
    (hstate : buildState env scheduleState cj childJobs = .ok state)
    (hns : state.IsSuspended = false) :
    makeDecision env scheduleState cj childJobs now enable =
      recordIsRunning
        (decideForJobs env state now (shouldBeRunningOf state)
          (enable && state.AutoRestartIsEnabled) (scanRunIds state state.AllJobs).maxJobRunId
          { controlledJob := applyWrites env nf cj
              ([.isSuspended (some false),
                  .lastScheduledStartTime state.StartOfCurrentRunPeriod] ++
                shouldBeRunningWrites state ++
                [.condition ConditionTypeSuspended ConditionFalse "NotSuspended"
                  "IsSuspended flag not set"] ++
                allJobsWrites state.AllJobs ++
                jobConditionWrites (scanRunIds state state.AllJobs).jobToRecordMetricsAgainst ++
                [.active (classifyJobs env state state.AllJobs).active]),
            decision := Decision.zero,
            chosenJob := (classifyJobs env state state.AllJobs).chosenJob,
            numberOfPotentiallyRunningJobs :=
              (classifyJobs env state state.AllJobs).numberOfPotentiallyRunningJobs,
            expiredJobs := (classifyJobs env state state.AllJobs).expiredJobs,
            nonExpiredJobs := (classifyJobs env state state.AllJobs).nonExpiredJobs }) := by
  unfold makeDecision
  rw [hstate]
  simp only [hns, Bool.false_eq_true, if_false]
  rw [setShouldBeRunningStatus_eq_writes env nf, SetCondition_eq_write env nf,
    setConditionsForAllJobs_eq_writes env nf, setJobConditions_eq_writes env nf]
  simp only [applyWrites_append]
  rfl

theorem decisionWrites_not_suspended (env : Env)
    (scheduleState : Except String ScheduleState) (cj : ControlledJob) (childJobs : List Job)
    (now : Time) (enable : Bool) (state : State)
    (hstate : buildState env scheduleState cj childJobs = .ok state)
    (hns : state.IsSuspended = false) :
    decisionWrites env scheduleState cj childJobs now enable =
      ([.isSuspended (some false),
          .lastScheduledStartTime state.StartOfCurrentRunPeriod] ++
        shouldBeRunningWrites state ++
        [.condition ConditionTypeSuspended ConditionFalse "NotSuspended"
          "IsSuspended flag not set"] ++
        allJobsWrites state.AllJobs ++
        jobConditionWrites (scanRunIds state state.AllJobs).jobToRecordMetricsAgainst ++
        [.active (classifyJobs env state state.AllJobs).active]) ++
      decideWrites env state now (shouldBeRunningOf state)
        (enable && state.AutoRestartIsEnabled) (scanRunIds state state.AllJobs).maxJobRunId
        { controlledJob := cj, decision := Decision.zero,
          chosenJob := (classifyJobs env state state.AllJobs).chosenJob,
          numberOfPotentiallyRunningJobs :=
            (classifyJobs env state state.AllJobs).numberOfPotentiallyRunningJobs,
          expiredJobs := (classifyJobs env state state.AllJobs).expiredJobs,
          nonExpiredJobs := (classifyJobs env state state.AllJobs).nonExpiredJobs } ++
      [.isRunning (some (decideForJobs env state now (shouldBeRunningOf state)
        (enable && state.AutoRestartIsEnabled) (scanRunIds state state.AllJobs).maxJobRunId
        { controlledJob := cj, decision := Decision.zero,
          chosenJob := (classifyJobs env state state.AllJobs).chosenJob,
          numberOfPotentiallyRunningJobs :=
            (classifyJobs env state state.AllJobs).numberOfPotentiallyRunningJobs,
          expiredJobs := (classifyJobs env state state.AllJobs).expiredJobs,
          nonExpiredJobs := (classifyJobs env state state.AllJobs).nonExpiredJobs }).chosenJob.isSome)] := by
  unfold decisionWrites
  rw [hstate]
  simp only [hns, Bool.false_eq_true, if_false, List.append_assoc]
  rfl

/-- The status that `makeDecision` leaves behind is the status it was given with the writes
of `decisionWrites` made in order; nothing else of the outcome depends on the status it was
given or on the reading of the clock. -/
theorem makeDecision_eq_writes (env : Env) (scheduleState : Except String ScheduleState)
    (cj : ControlledJob) (childJobs : List Job) (now : Time) (enable : Bool)
    (t : Time) (nf : Option Time) (cj2 : ControlledJob) (h : sameButStatus cj2 cj) :
    makeDecision (env.atTime t) scheduleState cj2 childJobs now enable =
      { makeDecision env scheduleState cj childJobs now enable with
        controlledJob := applyWrites (env.atTime t) nf cj2
          (decisionWrites env scheduleState cj childJobs now enable) } := by
  cases hstate : buildState env scheduleState cj childJobs with
  | error e =>
    have h2 : buildState (env.atTime t) scheduleState cj2 childJobs = .error e := by
      rw [buildState_atTime, buildState_congr env scheduleState h, hstate]
    rw [makeDecision_schedule_error _ _ _ _ _ _ _ h2, makeDecision_schedule_error _ _ _ _ _ _ _ hstate]
    unfold decisionWrites
    rw [hstate]
    rfl
  | ok state =>
    have h2 : buildState (env.atTime t) scheduleState cj2 childJobs = .ok state := by
      rw [buildState_atTime, buildState_congr env scheduleState h, hstate]
    by_cases hs : state.IsSuspended = true
    · unfold makeDecision decisionWrites
      rw [h2, hstate]
      simp only [hs, if_true, applyWrites_append]
      rw [setShouldBeRunningStatus_eq_writes (env.atTime t) nf,
        SetCondition_eq_write (env.atTime t) nf]
      rfl
    · have hns : state.IsSuspended = false := by simpa using hs
      rw [makeDecision_not_suspended (env.atTime t) nf _ _ _ _ _ state h2 hns,
        makeDecision_not_suspended env nf _ _ _ _ _ state hstate hns,
        decisionWrites_not_suspended env _ _ _ _ _ state hstate hns]
      simp only [classifyJobs_atTime]
      generalize hpre : ([StatusWrite.isSuspended (some false),
          .lastScheduledStartTime state.StartOfCurrentRunPeriod] ++
        shouldBeRunningWrites state ++
        [.condition ConditionTypeSuspended ConditionFalse "NotSuspended"
          "IsSuspended flag not set"] ++
        allJobsWrites state.AllJobs ++
        jobConditionWrites (scanRunIds state state.AllJobs).jobToRecordMetricsAgainst ++
        [.active (classifyJobs env state state.AllJobs).active]) = pre
      have hsame : sameButStatus (applyWrites (env.atTime t) nf cj2 pre) cj :=
        sameButStatus_trans (applyWrites_sameButStatus _ _ _ _) h
      have key := decideForJobs_eq_writes env state now (shouldBeRunningOf state)
        (enable && state.AutoRestartIsEnabled) (scanRunIds state state.AllJobs).maxJobRunId
        { controlledJob := cj, decision := Decision.zero,
          chosenJob := (classifyJobs env state state.AllJobs).chosenJob,
          numberOfPotentiallyRunningJobs :=
            (classifyJobs env state state.AllJobs).numberOfPotentiallyRunningJobs,
          expiredJobs := (classifyJobs env state state.AllJobs).expiredJobs,
          nonExpiredJobs := (classifyJobs env state state.AllJobs).nonExpiredJobs } t nf
        _ hsame
      have key1 := decideForJobs_eq_writes env state now (shouldBeRunningOf state)
        (enable && state.AutoRestartIsEnabled) (scanRunIds state state.AllJobs).maxJobRunId
        { controlledJob := cj, decision := Decision.zero,
          chosenJob := (classifyJobs env state state.AllJobs).chosenJob,
          numberOfPotentiallyRunningJobs :=
            (classifyJobs env state state.AllJobs).numberOfPotentiallyRunningJobs,
          expiredJobs := (classifyJobs env state state.AllJobs).expiredJobs,
          nonExpiredJobs := (classifyJobs env state state.AllJobs).nonExpiredJobs }
        env.timeNow nf (applyWrites env nf cj pre) (applyWrites_sameButStatus _ _ _ _)
      rw [atTime_timeNow] at key1
      refine Eq.trans (congrArg recordIsRunning key) ?_
      refine Eq.trans ?_ (congrArg (fun o => { recordIsRunning o with
        controlledJob := applyWrites (env.atTime t) nf cj2 (pre ++
          decideWrites env state now (shouldBeRunningOf state)
            (enable && state.AutoRestartIsEnabled) (scanRunIds state state.AllJobs).maxJobRunId
            { controlledJob := cj, decision := Decision.zero,
              chosenJob := (classifyJobs env state state.AllJobs).chosenJob,
              numberOfPotentiallyRunningJobs :=
                (classifyJobs env state state.AllJobs).numberOfPotentiallyRunningJobs,
              expiredJobs := (classifyJobs env state state.AllJobs).expiredJobs,
              nonExpiredJobs := (classifyJobs env state state.AllJobs).nonExpiredJobs } ++
          [.isRunning (some (decideForJobs env state now (shouldBeRunningOf state)
            (enable && state.AutoRestartIsEnabled) (scanRunIds state state.AllJobs).maxJobRunId
            { controlledJob := cj, decision := Decision.zero,
              chosenJob := (classifyJobs env state state.AllJobs).chosenJob,
              numberOfPotentiallyRunningJobs :=
                (classifyJobs env state state.AllJobs).numberOfPotentiallyRunningJobs,
              expiredJobs := (classifyJobs env state state.AllJobs).expiredJobs,
              nonExpiredJobs :=
                (classifyJobs env state state.AllJobs).nonExpiredJobs }).chosenJob.isSome)]) })
        key1.symm)
      simp only [applyWrites_append]
      rfl

theorem decisionWrites_keys (env : Env) (scheduleState : Except String ScheduleState)
    (cj : ControlledJob) (childJobs : List Job) (now : Time) (enable : Bool) :
    ((decisionWrites env scheduleState cj childJobs now enable).map StatusWrite.key).Sublist
      decisionKeys := by
  unfold decisionWrites
  cases buildState env scheduleState cj childJobs with
  | error e => exact List.nil_sublist _
  | ok state =>
    simp only []
    split
    · simp only [List.map_append, shouldBeRunningWrites_keys, List.map_cons, List.map_nil,
        StatusWrite.key]
      decide
    · simp only [List.map_append, shouldBeRunningWrites_keys, allJobsWrites_keys,
        jobConditionWrites_keys, List.map_cons, List.map_nil, StatusWrite.key]
      have hd := decideWrites_keys env state now
        (match state.ShouldBeRunning with
          | some b => b
          | none => false)
        (enable && state.AutoRestartIsEnabled) (scanRunIds state state.AllJobs).maxJobRunId
        { controlledJob := cj, decision := Decision.zero,
          chosenJob := (classifyJobs env state state.AllJobs).chosenJob,
          numberOfPotentiallyRunningJobs :=
            (classifyJobs env state state.AllJobs).numberOfPotentiallyRunningJobs,
          expiredJobs := (classifyJobs env state state.AllJobs).expiredJobs,
          nonExpiredJobs := (classifyJobs env state state.AllJobs).nonExpiredJobs }
      generalize decideWrites env state now _ _ _ _ = ws at hd ⊢
      have h1 : List.Sublist
          ((["isSuspended", "lastScheduledStartTime"] ++
            ["shouldBeRunning", "condition ShouldBeRunning"]) ++
            (((((["condition Suspended"] ++
              ["condition JobManuallyScheduled", "condition JobBeingDeleted"]) ++
              ["condition JobExists", "condition JobRunning", "condition JobComplete",
                "condition JobFailed", "condition JobSuspended",
                "condition JobStoppedByUser"]) ++ ["active"]) ++
              ["condition OutOfDate", "condition StartingDeadlineExceeded"]) ++ ["isRunning"]))
          decisionKeys := by decide
      refine List.Sublist.trans ?_ h1
      refine List.Sublist.append (List.Sublist.refl _) ?_
      refine List.Sublist.append ?_ (List.Sublist.refl _)
      exact List.Sublist.append (List.Sublist.refl _) hd

/-! ## The writes of `Reconcile` -/

theorem action_eq (kind : JobCallKind) (nf : Option Time) (jobName : String) :
    kind.action nf jobName =
      newActionForJob nf kind.actionType (kind.actionMessage jobName) jobName := by
  cases kind <;> rfl

theorem jobLoop_of_err (env : Env) (cluster : Cluster) (kind : JobCallKind)
    (jobs : List JobRef) (run : RunState) (e : ReconcileError) (h : run.err = some e) :
    jobLoop env cluster kind jobs run = run := by
  cases jobs with
  | nil => rfl
  | cons job rest => simp only [jobLoop, h]

/-- A loop of `Reconcile` makes the writes of `loopWrites` to the ControlledJob in memory;
its calls and its error do not depend on the status or on the clocks. -/
theorem jobLoop_eq_writes (env env2 : Env) (cluster cluster2 : Cluster) (kind : JobCallKind)
    (hcall : ∀ job, kind.call cluster2 job = kind.call cluster job) :
    ∀ (jobs : List JobRef) (run run2 : RunState), run2.err = run.err → run2.calls = run.calls →
      jobLoop env2 cluster2 kind jobs run2 =
        { jobLoop env cluster kind jobs run with
          controlledJob := applyWrites env2 cluster2.nowFunc run2.controlledJob
            (loopWritesFrom run cluster kind jobs) }
  | [], run, run2, herr, hcalls => by
    cases run2
    cases run
    simp only at herr hcalls
    subst herr hcalls
    simp only [jobLoop, loopWritesFrom, loopWrites]
    split <;> rfl
  | job :: rest, run, run2, herr, hcalls => by
    cases he : run.err with
    | some e =>
      rw [jobLoop_of_err env2 cluster2 kind _ run2 e (herr.trans he),
        jobLoop_of_err env cluster kind _ run e he]
      cases run2
      cases run
      simp only at herr hcalls he
      subst herr hcalls
      simp only [loopWritesFrom, he]
      rfl
    | none =>
      have he2 : run2.err = none := herr.trans he
      simp only [jobLoop, he, he2, hcall, loopWritesFrom, loopWrites]
      cases hc : kind.call cluster job.job with
      | some e => simp only [hcalls]; rfl
      | none =>
        simp only []
        rw [jobLoop_eq_writes env env2 cluster cluster2 kind hcall rest
          { controlledJob := SetCondition env
              (RecordEvent run.controlledJob (kind.action cluster.nowFunc job.job.name))
              kind.conditionType kind.successStatus kind.successReason kind.successMessage,
            calls := run.calls ++ [kind.clusterCall job], err := none }
          { controlledJob := SetCondition env2
              (RecordEvent run2.controlledJob (kind.action cluster2.nowFunc job.job.name))
              kind.conditionType kind.successStatus kind.successReason kind.successMessage,
            calls := run2.calls ++ [kind.clusterCall job], err := none } rfl
          (by simp only [hcalls])]
        simp only [loopWritesFrom, applyWrites_append, action_eq]
        rfl

theorem jobLoop_calls (env : Env) (cluster : Cluster) (kind : JobCallKind) :
    ∀ (jobs : List JobRef) (run : RunState),
      (jobLoop env cluster kind jobs run).calls =
        run.calls ++ loopCallsFrom run cluster kind jobs
  | [], run => by
    simp only [jobLoop, loopCallsFrom, loopCalls]
    split <;> simp
  | job :: rest, run => by
    cases he : run.err with
    | some e =>
      rw [jobLoop_of_err env cluster kind _ run e he]
      simp [loopCallsFrom, he]
    | none =>
      simp only [jobLoop, he, loopCallsFrom, loopCalls]
      cases hc : kind.call cluster job.job with
      | some e => rfl
      | none =>
        simp only []
        rw [jobLoop_calls env cluster kind rest]
        simp [loopCallsFrom]

theorem loopWritesFrom_of_no_calls (run : RunState) (cluster : Cluster) (kind : JobCallKind)
    (jobs : List JobRef) (h : loopCallsFrom run cluster kind jobs = []) :
    loopWritesFrom run cluster kind jobs = [] := by
  unfold loopCallsFrom at h
  unfold loopWritesFrom
  cases he : run.err with
  | some e => rfl
  | none =>
    simp only [he] at h ⊢
    cases jobs with
    | nil => rfl
    | cons job rest =>
      simp only [loopCalls] at h
      split at h <;> simp at h

theorem loopWritesFrom_keys (run : RunState) (cluster : Cluster) (kind : JobCallKind)
    (jobs : List JobRef) (h : (loopCallsFrom run cluster kind jobs).length ≤ 1) :
    ((loopWritesFrom run cluster kind jobs).map StatusWrite.key).Sublist
      ["record", "condition " ++ kind.conditionType] := by
  unfold loopCallsFrom at h
  unfold loopWritesFrom
  cases he : run.err with
  | some e => exact List.nil_sublist _
  | none =>
    simp only [he] at h ⊢
    cases jobs with
    | nil => exact List.nil_sublist _
    | cons job rest =>
      simp only [loopCalls, loopWrites] at h ⊢
      cases hc : kind.call cluster job.job with
      | some e =>
        simp only [List.map_cons, List.map_nil, StatusWrite.key]
        exact List.Sublist.cons _ (List.Sublist.refl _)
      | none =>
        simp only [hc, List.length_cons] at h
        have hrest : loopCalls cluster kind rest = [] :=
          List.eq_nil_of_length_eq_zero (by omega)
        have hrest2 : rest = [] := by
          cases rest with
          | nil => rfl
          | cons j r =>
            simp only [loopCalls] at hrest
            split at hrest <;> simp at hrest
        subst hrest2
        simp only [loopWrites, List.append_nil, List.map_cons, List.map_nil, StatusWrite.key]
        exact List.Sublist.refl _

theorem toError_congr {a b : ControlledJob} (h : sameButStatus a b) (e : DecisionError) :
    e.toError a = e.toError b := by
  cases e <;> simp only [DecisionError.toError, h.1, h.2.1]

/-- Lines 105-169 of `Reconcile` make the writes of `bodyWrites` to the ControlledJob in
memory; nothing else of what they leave behind depends on the status they were given or on
the clocks. -/
theorem reconcileBody_eq_writes (env : Env) (cluster cluster2 : Cluster)
    (scheduleState : Except String ScheduleState) (cj : ControlledJob) (childJobs : List Job)
    (now : Time) (options : ReconcileOptions) (t : Time) (cj2 : ControlledJob)
    (h : sameButStatus cj2 cj)
    (hcall : ∀ (kind : JobCallKind) job, kind.call cluster2 job = kind.call cluster job) :
    reconcileBody (env.atTime t) cluster2 scheduleState cj2 childJobs now options =
      ({ (reconcileBody env cluster scheduleState cj childJobs now options).1 with
          controlledJob := applyWrites (env.atTime t) cluster2.nowFunc cj2
            (bodyWrites env cluster scheduleState cj childJobs now options) },
        (reconcileBody env cluster scheduleState cj childJobs now options).2) := by
  unfold reconcileBody bodyWrites
  simp only []
  rw [makeDecision_eq_writes env scheduleState cj childJobs now
    options.EnableAutoRecreateJobsOnSpecChange t cluster2.nowFunc cj2 h]
  simp only []
  generalize decisionWrites env scheduleState cj childJobs now
    options.EnableAutoRecreateJobsOnSpecChange = ws0
  generalize makeDecision env scheduleState cj childJobs now
    options.EnableAutoRecreateJobsOnSpecChange = outcome
  cases he : outcome.err with
  | some e =>
    simp only [List.append_nil]
    rw [toError_congr h]
  | none =>
    simp only [applyWrites_append]
    have step := fun (kind : JobCallKind) (jobs : List JobRef) (run : RunState)
        (c : ControlledJob) =>
      jobLoop_eq_writes env (env.atTime t) cluster cluster2 kind (hcall kind) jobs run
        { run with controlledJob := c } rfl rfl
    have h1 := step .delete outcome.decision.JobsToDelete
      { controlledJob := outcome.controlledJob, calls := [], err := none }
      (applyWrites (env.atTime t) cluster2.nowFunc cj2 ws0)
    simp only [] at h1
    rw [h1]
    generalize hr1 : jobLoop env cluster .delete outcome.decision.JobsToDelete
      { controlledJob := outcome.controlledJob, calls := [], err := none } = r1
    have h2 := step .create outcome.decision.JobsToCreate r1
    simp only [] at h2
    rw [h2]
    generalize hr2 : jobLoop env cluster .create outcome.decision.JobsToCreate r1 = r2
    have h3 := step .suspend outcome.decision.JobsToSuspend r2
    simp only [] at h3
    rw [h3]
    generalize hr3 : jobLoop env cluster .suspend outcome.decision.JobsToSuspend r2 = r3
    have h4 := step .unsuspend outcome.decision.JobsToUnsuspend r3
    simp only [] at h4
    rw [h4]
    generalize hr4 : jobLoop env cluster .unsuspend outcome.decision.JobsToUnsuspend r3 = r4
    cases hre : r4.err <;> simp only [hre]

theorem reconcileBody_calls (env : Env) (cluster : Cluster)
    (scheduleState : Except String ScheduleState) (cj : ControlledJob) (childJobs : List Job)
    (now : Time) (options : ReconcileOptions) :
    (reconcileBody env cluster scheduleState cj childJobs now options).1.calls =
      match (makeDecision env scheduleState cj childJobs now
          options.EnableAutoRecreateJobsOnSpecChange).err with
      | some _ => []
      | none =>
        let outcome := makeDecision env scheduleState cj childJobs now
          options.EnableAutoRecreateJobsOnSpecChange
        let run0 : RunState :=
          { controlledJob := outcome.controlledJob, calls := [], err := none }
        let run1 := jobLoop env cluster .delete outcome.decision.JobsToDelete run0
        let run2 := jobLoop env cluster .create outcome.decision.JobsToCreate run1
        let run3 := jobLoop env cluster .suspend outcome.decision.JobsToSuspend run2
        loopCallsFrom run0 cluster .delete outcome.decision.JobsToDelete ++
          loopCallsFrom run1 cluster .create outcome.decision.JobsToCreate ++
          loopCallsFrom run2 cluster .suspend outcome.decision.JobsToSuspend ++
          loopCallsFrom run3 cluster .unsuspend outcome.decision.JobsToUnsuspend := by
  unfold reconcileBody
  simp only []
  generalize makeDecision env scheduleState cj childJobs now
    options.EnableAutoRecreateJobsOnSpecChange = outcome
  cases he : outcome.err with
  | some e => rfl
  | none =>
    simp only []
    generalize hr4 : jobLoop env cluster .unsuspend outcome.decision.JobsToUnsuspend
      (jobLoop env cluster .suspend outcome.decision.JobsToSuspend
        (jobLoop env cluster .create outcome.decision.JobsToCreate
          (jobLoop env cluster .delete outcome.decision.JobsToDelete
            { controlledJob := outcome.controlledJob, calls := [], err := none }))) = r4
    refine Eq.trans (b := r4.calls) ?_ ?_
    · cases r4.err <;> rfl
    · rw [← hr4, jobLoop_calls env cluster .unsuspend, jobLoop_calls env cluster .suspend,
        jobLoop_calls env cluster .create, jobLoop_calls env cluster .delete]
      simp only [List.nil_append]

theorem sublist_loopKeys (kind : JobCallKind) :
    List.Sublist ["record", "condition " ++ kind.conditionType] loopKeys := by
  cases kind <;> decide

/-- A reconcile that makes at most one call to change a Job writes to every place at most
once before its deferred functions run. -/
theorem bodyWrites_keys (env : Env) (cluster : Cluster)
    (scheduleState : Except String ScheduleState) (cj : ControlledJob) (childJobs : List Job)
    (now : Time) (options : ReconcileOptions)
    (h : (reconcileBody env cluster scheduleState cj childJobs now options).1.calls.length ≤ 1) :
    ((bodyWrites env cluster scheduleState cj childJobs now options).map
      StatusWrite.key).Sublist (decisionKeys ++ loopKeys) := by
  rw [reconcileBody_calls] at h
  unfold bodyWrites
  simp only [List.map_append] at h ⊢
  refine List.Sublist.append (decisionWrites_keys _ _ _ _ _ _) ?_
  cases he : (makeDecision env scheduleState cj childJobs now
      options.EnableAutoRecreateJobsOnSpecChange).err with
  | some e => exact List.nil_sublist _
  | none =>
    simp only [he, List.length_append, List.map_append] at h ⊢
    generalize (makeDecision env scheduleState cj childJobs now
      options.EnableAutoRecreateJobsOnSpecChange) = outcome at h ⊢
    generalize hr0 : ({ controlledJob := outcome.controlledJob, calls := [], err := none } :
      RunState) = r0 at h ⊢
    generalize jobLoop env cluster .delete outcome.decision.JobsToDelete r0 = r1 at h ⊢
    generalize jobLoop env cluster .create outcome.decision.JobsToCreate r1 = r2 at h ⊢
    generalize jobLoop env cluster .suspend outcome.decision.JobsToSuspend r2 = r3 at h ⊢
    have k1 := loopWritesFrom_keys r0 cluster .delete outcome.decision.JobsToDelete
    have k2 := loopWritesFrom_keys r1 cluster .create outcome.decision.JobsToCreate
    have k3 := loopWritesFrom_keys r2 cluster .suspend outcome.decision.JobsToSuspend
    have k4 := loopWritesFrom_keys r3 cluster .unsuspend outcome.decision.JobsToUnsuspend
    have z1 := loopWritesFrom_of_no_calls r0 cluster .delete outcome.decision.JobsToDelete
    have z2 := loopWritesFrom_of_no_calls r1 cluster .create outcome.decision.JobsToCreate
    have z3 := loopWritesFrom_of_no_calls r2 cluster .suspend outcome.decision.JobsToSuspend
    have z4 := loopWritesFrom_of_no_calls r3 cluster .unsuspend outcome.decision.JobsToUnsuspend
    generalize loopCallsFrom r0 cluster .delete outcome.decision.JobsToDelete = c1 at *
    generalize loopCallsFrom r1 cluster .create outcome.decision.JobsToCreate = c2 at *
    generalize loopCallsFrom r2 cluster .suspend outcome.decision.JobsToSuspend = c3 at *
    generalize loopCallsFrom r3 cluster .unsuspend outcome.decision.JobsToUnsuspend = c4 at *
    generalize loopWritesFrom r0 cluster .delete outcome.decision.JobsToDelete = w1 at *
    generalize loopWritesFrom r1 cluster .create outcome.decision.JobsToCreate = w2 at *
    generalize loopWritesFrom r2 cluster .suspend outcome.decision.JobsToSuspend = w3 at *
    generalize loopWritesFrom r3 cluster .unsuspend outcome.decision.JobsToUnsuspend = w4 at *
    have e0 : ∀ (c : List ClusterCall), c.length = 0 → c = [] :=
      fun c hc => List.eq_nil_of_length_eq_zero hc
    by_cases n1 : c1.length = 0
    · rw [z1 (e0 _ n1)]
      by_cases n2 : c2.length = 0
      · rw [z2 (e0 _ n2)]
        by_cases n3 : c3.length = 0
        · rw [z3 (e0 _ n3)]
          simp only [List.map_nil, List.nil_append]
          exact (k4 (by omega)).trans (sublist_loopKeys _)
        · rw [z4 (e0 _ (by omega))]
          simp only [List.map_nil, List.nil_append, List.append_nil]
          exact (k3 (by omega)).trans (sublist_loopKeys _)
      · rw [z3 (e0 _ (by omega)), z4 (e0 _ (by omega))]
        simp only [List.map_nil, List.nil_append, List.append_nil]
        exact (k2 (by omega)).trans (sublist_loopKeys _)
    · rw [z2 (e0 _ (by omega)), z3 (e0 _ (by omega)), z4 (e0 _ (by omega))]
      simp only [List.map_nil, List.nil_append, List.append_nil]
      exact (k1 (by omega)).trans (sublist_loopKeys _)

theorem readFlag_SetCondition_other (env : Env) (cj : ControlledJob)
    (t t2 : ControlledJobConditionType) (s : ConditionStatus) (r m : String) (ht : t2 ≠ t) :
    readFlag (SetCondition env cj t s r m) t2 = readFlag cj t2 := by
  unfold readFlag
  rw [FindCondition_SetCondition_other env cj t t2 s r m ht]

/-- The code's `calculateOverallConditions` makes the writes of `overallWrites`. -/
theorem calculateOverallConditions_eq_writes (env : Env) (nf : Option Time)
    (cj : ControlledJob) (err : Option ReconcileError) :
    calculateOverallConditions env cj err = applyWrites env nf cj (overallWrites err cj) := by
  have hflags : ∀ (s : ConditionStatus) (r m : String) (t2 : ControlledJobConditionType),
      t2 ≠ ConditionTypeError →
      CoerceConditionToBoolen (FindCondition (SetCondition env cj ConditionTypeError s r m).status
        t2) = readFlag cj t2 :=
    fun s r m t2 ht => readFlag_SetCondition_other env cj ConditionTypeError t2 s r m ht
  unfold calculateOverallConditions overallWrites overallWritesFor
  cases err with
  | none =>
    simp only [hflags _ _ _ ConditionTypeJobExists (by decide),
      hflags _ _ _ ConditionTypeJobFailed (by decide),
      hflags _ _ _ ConditionTypeShouldBeRunning (by decide),
      hflags _ _ _ ConditionTypeJobManuallyScheduled (by decide)]
    cases readFlag cj ConditionTypeJobExists <;> cases readFlag cj ConditionTypeJobFailed <;>
      cases readFlag cj ConditionTypeShouldBeRunning <;>
      cases readFlag cj ConditionTypeJobManuallyScheduled <;>
      simp only [Bool.and_true, Bool.and_false, Bool.not_true, Bool.not_false, Bool.true_and,
        Bool.false_and, Bool.false_eq_true, if_true, if_false, applyWrites_cons,
        applyWrites_nil, StatusWrite.apply]
  | some e =>
    simp only [hflags _ _ _ ConditionTypeJobExists (by decide),
      hflags _ _ _ ConditionTypeJobFailed (by decide),
      hflags _ _ _ ConditionTypeShouldBeRunning (by decide),
      hflags _ _ _ ConditionTypeJobManuallyScheduled (by decide)]
    cases readFlag cj ConditionTypeJobExists <;> cases readFlag cj ConditionTypeJobFailed <;>
      cases readFlag cj ConditionTypeShouldBeRunning <;>
      cases readFlag cj ConditionTypeJobManuallyScheduled <;>
      simp only [Bool.and_true, Bool.and_false, Bool.not_true, Bool.not_false, Bool.true_and,
        Bool.false_and, Bool.false_eq_true, if_true, if_false, applyWrites_cons,
        applyWrites_nil, StatusWrite.apply]

theorem overallWritesFor_keys (err : Option ReconcileError) (a b c d : Bool) :
    (overallWritesFor err a b c d).map StatusWrite.key = overallKeys := by
  cases err <;> cases a <;> cases b <;> cases c <;> cases d <;>
    simp only [overallWritesFor, Bool.and_true, Bool.and_false, Bool.not_true, Bool.not_false,
      Bool.true_and, Bool.false_and, Bool.false_eq_true, if_true, if_false, List.map_cons,
      List.map_nil, StatusWrite.key] <;> decide

theorem overallWrites_keys (err : Option ReconcileError) (cj : ControlledJob) :
    (overallWrites err cj).map StatusWrite.key = overallKeys :=
  overallWritesFor_keys err _ _ _ _

theorem readFlag_applyWrites_other (env : Env) (nf : Option Time)
    (t : ControlledJobConditionType) (ws : List StatusWrite) (cj : ControlledJob)
    (h : "condition " ++ t ∉ ws.map StatusWrite.key) :
    readFlag (applyWrites env nf cj ws) t = readFlag cj t := by
  unfold readFlag
  rw [FindCondition_applyWrites_other env nf t ws cj h]

/-- What `calculateOverallConditions` reads is not changed by what it writes. -/
theorem overallWrites_applied (env : Env) (nf : Option Time) (err : Option ReconcileError)
    (cj : ControlledJob) :
    overallWrites err (applyWrites env nf cj (overallWrites err cj)) = overallWrites err cj := by
  have hk := overallWrites_keys err cj
  have h : ∀ t, "condition " ++ t ∉ overallKeys →
      readFlag (applyWrites env nf cj (overallWrites err cj)) t = readFlag cj t :=
    fun t ht => readFlag_applyWrites_other env nf t _ cj (by rw [hk]; exact ht)
  have hdef : ∀ c, overallWrites err c = overallWritesFor err
      (readFlag c ConditionTypeJobExists) (readFlag c ConditionTypeJobFailed)
      (readFlag c ConditionTypeShouldBeRunning)
      (readFlag c ConditionTypeJobManuallyScheduled) := fun _ => rfl
  rw [hdef (applyWrites env nf cj (overallWrites err cj)), h _ (by decide), h _ (by decide),
    h _ (by decide), h _ (by decide)]
  rfl

theorem StateFor_congr (lib : CronLib) (fuel : Nat) {a b : ControlledJob}
    (h : sameButStatus a b) (now : ZonedTime) :
    StateFor lib fuel a now = StateFor lib fuel b now := by
  unfold StateFor
  rw [h.2.2.2.2.2]

/-- What `Reconcile` leaves behind when it has loaded the ControlledJob and its Jobs and the
search of the schedule has returned. -/
theorem Reconcile_loaded (env : Env) (lib : CronLib) (fuel : Nat) (cluster : Cluster)
    (name ns : String) (now : ZonedTime) (options : ReconcileOptions) (cj : ControlledJob)
    (jobs : List Job) (ss : Except String ScheduleState)
    (hload : loadFromCluster cluster name ns = some (some cj, jobs, none))
    (hss : (StateFor lib fuel cj now).toExcept = some ss) :
    Reconcile env lib fuel cluster name ns now options =
      some { result := (reconcileBody env cluster ss cj jobs now.toTime options).2,
             calls := (reconcileBody env cluster ss cj jobs now.toTime options).1.calls ++
               [.updateStatus (calculateOverallConditions env
                 (reconcileBody env cluster ss cj jobs now.toTime options).1.controlledJob
                 (reconcileBody env cluster ss cj jobs now.toTime options).1.err)],
             statusWritten := some (calculateOverallConditions env
               (reconcileBody env cluster ss cj jobs now.toTime options).1.controlledJob
               (reconcileBody env cluster ss cj jobs now.toTime options).1.err),
             controlledJob := some (recordFailedReconcile cluster
               (calculateOverallConditions env
                 (reconcileBody env cluster ss cj jobs now.toTime options).1.controlledJob
                 (reconcileBody env cluster ss cj jobs now.toTime options).1.err)
               (reconcileBody env cluster ss cj jobs now.toTime options).1.err) } := by
  unfold Reconcile
  rw [hload]
  simp only [hss]

/-- A call of `Reconcile` that hands a status to `UpdateStatus` has loaded the ControlledJob
and its Jobs, and the search of the schedule has returned. -/
theorem loaded_of_written (env : Env) (lib : CronLib) (fuel : Nat) (cluster : Cluster)
    (name ns : String) (now : ZonedTime) (options : ReconcileOptions) (run : ReconcileRun)
    (written : ControlledJob)
    (h : Reconcile env lib fuel cluster name ns now options = some run)
    (hw : run.statusWritten = some written) :
    ∃ cj jobs ss, loadFromCluster cluster name ns = some (some cj, jobs, none) ∧
      (StateFor lib fuel cj now).toExcept = some ss := by
  unfold Reconcile at h
  split at h
  · simp at h
  · simp only [Option.some.injEq] at h
    subst h
    simp at hw
  · simp only [Option.some.injEq] at h
    subst h
    simp at hw
  · rename_i cj jobs hload
    split at h
    · simp at h
    · rename_i ss hss
      exact ⟨cj, jobs, ss, hload, hss⟩

theorem loadFromCluster_loaded (cluster : Cluster) (name ns : String) (cj : ControlledJob)
    (jobs : List Job) (h : loadFromCluster cluster name ns = some (some cj, jobs, none)) :
    cluster.getControlledJob.1 = some cj ∧ cluster.getControlledJob.2.1 = true ∧
      cluster.listJobsForControlledJob = .ok jobs := by
  unfold loadFromCluster at h
  split at h
  · split at h
    · simp at h
    · simp at h
  · rename_i c e hg
    split at h
    · split at h <;> simp at h
    · rename_i jobList hl
      simp only [Option.some.injEq, Prod.mk.injEq, and_true] at h
      rw [hg, hl]
      exact ⟨h.1, rfl, by rw [h.2]⟩

theorem loadFromCluster_afterUpdate (cluster : Cluster) (name ns : String)
    (cj written : ControlledJob) (jobs : List Job) (nf : Option Time)
    (h : loadFromCluster cluster name ns = some (some cj, jobs, none)) :
    loadFromCluster (cluster.afterUpdate written nf) name ns =
      some (some written, jobs, none) := by
  obtain ⟨_, h2, h3⟩ := loadFromCluster_loaded cluster name ns cj jobs h
  unfold loadFromCluster Cluster.afterUpdate
  simp only [h2, h3]

theorem loopCalls_isJobCall (cluster : Cluster) (kind : JobCallKind) :
    ∀ (jobs : List JobRef), ∀ c ∈ loopCalls cluster kind jobs, c.isJobCall = true
  | [], c, hc => by simp [loopCalls] at hc
  | job :: rest, c, hc => by
    have hk : (kind.clusterCall job).isJobCall = true := by cases kind <;> rfl
    simp only [loopCalls] at hc
    split at hc
    · simp only [List.mem_singleton] at hc
      rw [hc]; exact hk
    · rcases List.mem_cons.mp hc with rfl | hc
      · exact hk
      · exact loopCalls_isJobCall cluster kind rest c hc

theorem loopCallsFrom_isJobCall (run : RunState) (cluster : Cluster) (kind : JobCallKind)
    (jobs : List JobRef) : ∀ c ∈ loopCallsFrom run cluster kind jobs, c.isJobCall = true := by
  unfold loopCallsFrom
  split
  · intro c hc; simp at hc
  · exact loopCalls_isJobCall cluster kind jobs

theorem reconcileBody_calls_isJobCall (env : Env) (cluster : Cluster)
    (scheduleState : Except String ScheduleState) (cj : ControlledJob) (childJobs : List Job)
    (now : Time) (options : ReconcileOptions) :
    ∀ c ∈ (reconcileBody env cluster scheduleState cj childJobs now options).1.calls,
      c.isJobCall = true := by
  rw [reconcileBody_calls]
  split
  · intro c hc; simp at hc
  · intro c hc
    simp only [List.mem_append] at hc
    rcases hc with ((hc | hc) | hc) | hc
    all_goals exact loopCallsFrom_isJobCall _ _ _ _ c hc

theorem reconcileKeys_eq : reconcileKeys = decisionKeys ++ loopKeys ++ overallKeys := by decide

theorem reconcileKeys_nodup : reconcileKeys.Nodup := by decide

/-- The status that a reconcile with at most one call to change a Job hands to
`UpdateStatus` is a fixed point of the writes of a reconcile with the same inputs. -/
theorem written_settled (env : Env) (cluster : Cluster)
    (ss : Except String ScheduleState) (cj : ControlledJob) (jobs : List Job) (now : Time)
    (options : ReconcileOptions)
    (hcalls : (reconcileBody env cluster ss cj jobs now options).1.calls.length ≤ 1)
    (hnz : env.timeNow.IsZero = false) (t : Time) (nf : Option Time) :
    sameButStatus (calculateOverallConditions env
        (reconcileBody env cluster ss cj jobs now options).1.controlledJob
        (reconcileBody env cluster ss cj jobs now options).1.err) cj ∧
    applyWrites (env.atTime t) nf
        (calculateOverallConditions env
          (reconcileBody env cluster ss cj jobs now options).1.controlledJob
          (reconcileBody env cluster ss cj jobs now options).1.err)
        (bodyWrites env cluster ss cj jobs now options) =
      calculateOverallConditions env
        (reconcileBody env cluster ss cj jobs now options).1.controlledJob
        (reconcileBody env cluster ss cj jobs now options).1.err ∧
    calculateOverallConditions (env.atTime t)
        (calculateOverallConditions env
          (reconcileBody env cluster ss cj jobs now options).1.controlledJob
          (reconcileBody env cluster ss cj jobs now options).1.err)
        (reconcileBody env cluster ss cj jobs now options).1.err =
      calculateOverallConditions env
        (reconcileBody env cluster ss cj jobs now options).1.controlledJob
        (reconcileBody env cluster ss cj jobs now options).1.err := by
  have hbody := reconcileBody_eq_writes env cluster cluster ss cj jobs now options env.timeNow
    cj (sameButStatus_refl cj) (fun _ _ => rfl)
  rw [atTime_timeNow] at hbody
  have hkeys := bodyWrites_keys env cluster ss cj jobs now options hcalls
  have hcj : (reconcileBody env cluster ss cj jobs now options).1.controlledJob =
      applyWrites env cluster.nowFunc cj (bodyWrites env cluster ss cj jobs now options) :=
    congrArg (fun p => p.1.controlledJob) hbody
  generalize (reconcileBody env cluster ss cj jobs now options).1.err = err at *
  generalize bodyWrites env cluster ss cj jobs now options = ws at *
  rw [hcj]
  clear hbody hcj hcalls
  have hw : calculateOverallConditions env (applyWrites env cluster.nowFunc cj ws) err =
      applyWrites env cluster.nowFunc cj
        (ws ++ overallWrites err (applyWrites env cluster.nowFunc cj ws)) := by
    rw [calculateOverallConditions_eq_writes env cluster.nowFunc, applyWrites_append]
  have hnd : ((ws ++ overallWrites err (applyWrites env cluster.nowFunc cj ws)).map
      StatusWrite.key).Nodup := by
    refine List.Nodup.sublist ?_ reconcileKeys_nodup
    rw [reconcileKeys_eq, List.map_append, overallWrites_keys]
    exact List.Sublist.append hkeys (List.Sublist.refl _)
  have hholds := holds_applyWrites env cluster.nowFunc hnz _ cj hnd
  rw [← hw] at hholds
  have hover : overallWrites err
      (calculateOverallConditions env (applyWrites env cluster.nowFunc cj ws) err) =
      overallWrites err (applyWrites env cluster.nowFunc cj ws) := by
    rw [calculateOverallConditions_eq_writes env cluster.nowFunc]
    exact overallWrites_applied env cluster.nowFunc err _
  refine ⟨?_, ?_, ?_⟩
  · rw [hw]
    exact applyWrites_sameButStatus _ _ _ _
  · exact applyWrites_of_holds _ _ _ _
      (fun w hw2 => hholds w (List.mem_append_left _ hw2))
  · rw [calculateOverallConditions_eq_writes (env.atTime t) nf, hover]
    exact applyWrites_of_holds _ _ _ _
      (fun w hw2 => hholds w (List.mem_append_right _ hw2))

/-- What a second reconcile leaves behind, when the status that the first one handed to
`UpdateStatus` has been stored and the first one made at most one call to change a Job. -/
theorem second_reconcile (env : Env) (lib : CronLib) (fuel : Nat) (cluster : Cluster)
    (name ns : String) (now : ZonedTime) (options : ReconcileOptions)
    (cj : ControlledJob) (jobs : List Job) (ss : Except String ScheduleState)
    (hload : loadFromCluster cluster name ns = some (some cj, jobs, none))
    (hss : (StateFor lib fuel cj now).toExcept = some ss)
    (hcalls : (reconcileBody env cluster ss cj jobs now.toTime options).1.calls.length ≤ 1)
    (hnz : env.timeNow.IsZero = false) (t : Time) (nf : Option Time) :
    ∃ run2,
      Reconcile (env.atTime t) lib fuel
        (cluster.afterUpdate (calculateOverallConditions env
          (reconcileBody env cluster ss cj jobs now.toTime options).1.controlledJob
          (reconcileBody env cluster ss cj jobs now.toTime options).1.err) nf)
        name ns now options = some run2 ∧
      run2.statusWritten = some (calculateOverallConditions env
        (reconcileBody env cluster ss cj jobs now.toTime options).1.controlledJob
        (reconcileBody env cluster ss cj jobs now.toTime options).1.err) ∧
      run2.calls = (reconcileBody env cluster ss cj jobs now.toTime options).1.calls ++
        [.updateStatus (calculateOverallConditions env
          (reconcileBody env cluster ss cj jobs now.toTime options).1.controlledJob
          (reconcileBody env cluster ss cj jobs now.toTime options).1.err)] ∧
      run2.result = (reconcileBody env cluster ss cj jobs now.toTime options).2 := by
  obtain ⟨hsame, hfix1, hfix2⟩ :=
    written_settled env cluster ss cj jobs now.toTime options hcalls hnz t nf
  generalize hwr : calculateOverallConditions env
    (reconcileBody env cluster ss cj jobs now.toTime options).1.controlledJob
    (reconcileBody env cluster ss cj jobs now.toTime options).1.err = written at *
  have hload2 := loadFromCluster_afterUpdate cluster name ns cj written jobs nf hload
  have hss2 : (StateFor lib fuel written now).toExcept = some ss := by
    rw [StateFor_congr lib fuel hsame, hss]
  have hbody := reconcileBody_eq_writes env cluster (cluster.afterUpdate written nf) ss cj jobs
    now.toTime options t written hsame (fun kind job => by cases kind <;> rfl)
  have hnf : (cluster.afterUpdate written nf).nowFunc = nf := rfl
  rw [hnf, hfix1] at hbody
  refine ⟨_, Reconcile_loaded (env.atTime t) lib fuel _ name ns now options written jobs ss
    hload2 hss2, ?_, ?_, ?_⟩
  · simp only [hbody, hfix2]
  · simp only [hbody, hfix2]
  · simp only [hbody]

set_option maxRecDepth 100000 in
/-- A reconcile that makes two calls of one kind, the first of which succeeds and the second
of which fails, writes the condition of that kind twice: `False` after the success, `True`
after the failure. The second reconcile with the same inputs does so again, and stamps the
condition with its own reading of the clock. Here the example ControlledJob at
2022-12-12T12:12:00Z has two Jobs of yesterday; the first deletion succeeds and the second
fails; the second reconcile runs two seconds later by the clocks. -/
theorem failed_call_after_success_restamps :
    ∃ run1 written run2 written2 c c2,
      Reconcile exampleEnv exampleLib 200 flakyCluster "basic-job" "default" exampleNoon
        defaultOptions = some run1 ∧
      run1.statusWritten = some written ∧
      (run1.calls.filter ClusterCall.isJobCall).length = 2 ∧
      Reconcile (exampleEnv.atTime (Time.ofUnix 1670847122)) exampleLib 200
        (flakyCluster.afterUpdate written (some (Time.ofUnix 1670847122)))
        "basic-job" "default" exampleNoon defaultOptions = some run2 ∧
      run2.statusWritten = some written2 ∧
      FindCondition written.status ConditionTypeFailedToDeleteJob = some c ∧
      FindCondition written2.status ConditionTypeFailedToDeleteJob = some c2 ∧
      c.lastTransitionTime = Time.ofUnix 1670847120 ∧
      c2.lastTransitionTime = Time.ofUnix 1670847122 :=
  ⟨_, _, _, _, _, _, by rfl, by rfl, by rfl, by rfl, by rfl, by rfl, by rfl, by rfl, by rfl⟩

/-! ## C11: status idempotence -/

/-- C11 (amended): status idempotence for a reconcile that makes at most one call to change a
Job. If a reconcile hands a status to `UpdateStatus` after at most one call that deletes,
creates, suspends or unsuspends a Job, with `time.Now()` not the zero time, then a second
reconcile with the same inputs (the ControlledJob with that status stored, the same child
Jobs, the same `now`, the same client responses), at any reading of the clocks, hands the
same ControlledJob to `UpdateStatus`: no condition (its `lastTransitionTime` included), no
status field and no entry of the action history differs. It also makes the same calls and
returns the same result. -/
theorem status_idempotence (env : Env) (lib : CronLib) (fuel : Nat) (cluster : Cluster)
    (targetName targetNamespace : String) (now : ZonedTime) (options : ReconcileOptions)
    (run1 : ReconcileRun) (written : ControlledJob)
    (hrun : Reconcile env lib fuel cluster targetName targetNamespace now options = some run1)
    (hwritten : run1.statusWritten = some written)
    (hcalls : (run1.calls.filter ClusterCall.isJobCall).length ≤ 1)
    (hclock : env.timeNow.IsZero = false) (t : Time) (nowFunc : Option Time) :
    ∃ run2,
      Reconcile (env.atTime t) lib fuel (cluster.afterUpdate written nowFunc) targetName
        targetNamespace now options = some run2 ∧
      run2.statusWritten = some written ∧ run2.calls = run1.calls ∧
      run2.result = run1.result := by
  obtain ⟨cj, jobs, ss, hload, hss⟩ := loaded_of_written env lib fuel cluster targetName
    targetNamespace now options run1 written hrun hwritten
  have hrun1 := Reconcile_loaded env lib fuel cluster targetName targetNamespace now options
    cj jobs ss hload hss
  rw [hrun] at hrun1
  have hrun1 := Option.some.inj hrun1
  subst hrun1
  have hw : calculateOverallConditions env
      (reconcileBody env cluster ss cj jobs now.toTime options).1.controlledJob
      (reconcileBody env cluster ss cj jobs now.toTime options).1.err = written :=
    Option.some.inj hwritten
  have hlen : (reconcileBody env cluster ss cj jobs now.toTime options).1.calls.length ≤ 1 := by
    simp only [List.filter_append] at hcalls
    rw [List.filter_eq_self.mpr
      (reconcileBody_calls_isJobCall env cluster ss cj jobs now.toTime options)] at hcalls
    simpa [ClusterCall.isJobCall] using hcalls
  have h2 := second_reconcile env lib fuel cluster targetName targetNamespace now options cj
    jobs ss hload hss hlen hclock t nowFunc
  simp only [hw] at h2 ⊢
  exact h2

set_option maxRecDepth 100000 in
/-- C11 as stated fails: the example ControlledJob at 2022-12-12T12:12:00Z, inside its run
period, with yesterday's Job still there and a client whose calls all succeed. The reconcile
deletes yesterday's Job and creates today's, and writes an action history of two entries. The
second reconcile with the same inputs, at the same reading of the clocks, records both
actions again: the status it writes has an action history of four entries. -/
theorem status_idempotence_counterexample :
    ∃ run1 written run2 written2,
      Reconcile exampleEnv exampleLib 200 busyCluster "basic-job" "default" exampleNoon
        defaultOptions = some run1 ∧
      run1.statusWritten = some written ∧
      Reconcile exampleEnv exampleLib 200 (busyCluster.afterUpdate written busyCluster.nowFunc)
        "basic-job" "default" exampleNoon defaultOptions = some run2 ∧
      run2.statusWritten = some written2 ∧
      written.status.actionHistory.length = 2 ∧
      written2.status.actionHistory.length = 4 ∧
      written2 ≠ written :=
  ⟨_, _, _, _, by rfl, by rfl, by rfl, by rfl, by rfl, by rfl,
    fun h => absurd (congrArg (fun c => c.status.actionHistory.length) h) (by decide)⟩

set_option maxRecDepth 100000 in
/-- C11 at work: the example ControlledJob at 2022-12-12T12:12:00Z with no Job. The reconcile
makes one call, which creates today's Job; the second reconcile, two seconds later by the
clocks, writes the same status. -/
theorem status_idempotence_witness :
    ∃ run1 written,
      Reconcile exampleEnv exampleLib 200 quietCluster "basic-job" "default" exampleNoon
        defaultOptions = some run1 ∧
      run1.statusWritten = some written ∧
      (run1.calls.filter ClusterCall.isJobCall).length = 1 ∧
      exampleEnv.timeNow.IsZero = false ∧
      ∃ run2,
        Reconcile (exampleEnv.atTime (Time.ofUnix 1670847122)) exampleLib 200
          (quietCluster.afterUpdate written (some (Time.ofUnix 1670847122)))
          "basic-job" "default" exampleNoon defaultOptions = some run2 ∧
        run2.statusWritten = some written ∧ run2.calls = run1.calls ∧
        run2.result = run1.result :=
  ⟨_, _, by rfl, by rfl, by rfl, by decide,
    status_idempotence exampleEnv exampleLib 200 quietCluster "basic-job" "default" exampleNoon
      defaultOptions _ _ (by rfl) (by rfl) (by decide) (by decide) _ _⟩

/-! ## The model of `cronPrev` on cases of the package's `TestPrev` -/

set_option maxRecDepth 100000 in
/-- Cases of `TestPrev` in `cron_prev_test.go`, with `time.Local` read as UTC: the inclusive
search (`0 0/15 * * * *` at Mon Jul 9 15:15 2012), the wrap around years (`0 0 0 * Oct Tue`),
the leap year (`0 0 0 29 Feb ?`), day of month or day of week (`0 0 0 */5 Jan Mon`), and the
unsatisfiable `0 0 0 30 Feb ?`, for which the result is the zero time. -/
theorem cronPrev_TestPrev_local :
    cronPrev 400
        { second := bitsOf [0], minute := bitsOf [0, 15, 30, 45], hour := allBits 0 23,
          dom := allBits 1 31, month := allBits 1 12, dow := allBits 0 6,
          location := localZone }
        (atSecond 1341846900 Location.UTC) = some (atSecond 1341846900 Location.UTC) ∧
      cronPrev 400
        { second := bitsOf [0], minute := bitsOf [0], hour := bitsOf [0], dom := allBits 1 31,
          month := bitsOf [10], dow := bitsOf [2], location := localZone }
        (atSecond 1341792000 Location.UTC) = some (atSecond 1319500800 Location.UTC) ∧
      cronPrev 400
        { second := bitsOf [0], minute := bitsOf [0], hour := bitsOf [0], dom := bitsOf [29],
          month := bitsOf [2], dow := allBits 0 6, location := localZone }
        (atSecond 1499643300 Location.UTC) = some (atSecond 1456704000 Location.UTC) ∧
      cronPrev 400
        { second := bitsOf [0], minute := bitsOf [0], hour := bitsOf [0],
          dom := bitsOf [1, 6, 11, 16, 21, 26, 31], month := bitsOf [1], dow := bitsOf [1],
          location := localZone }
        (atSecond 1341792000 Location.UTC) = some (atSecond 1327968000 Location.UTC) ∧
      cronPrev 400
        { second := bitsOf [0], minute := bitsOf [0], hour := bitsOf [0], dom := bitsOf [30],
          month := bitsOf [2], dow := allBits 0 6, location := localZone }
        (atSecond 1341876900 Location.UTC) = some ZonedTime.zero := by
  refine ⟨?_, ?_, ?_, ?_, ?_⟩ <;> decide

set_option maxRecDepth 100000 in
/-- Cases of `TestPrev` in `cron_prev_test.go` with zone transitions. In `America/New_York`:
midnight of the day on which the clocks went forward (`0 0 0 11 Mar ?` at
2012-03-11T04:00:00-0400), the hourly job over that transition (`0 5 * * * ?` at
2012-03-11T03:00:00-0400) and over the transition back (at 2012-11-04T01:00:00-0500), and
the half hour that occurs twice (`0 30 1 04 Nov ?` at 2012-11-04T01:15:00-0500). In
`America/Sao_Paulo`, where midnight of 2018-11-04 does not exist: `0 0 9 10 * ?` at
2018-11-09T05:00:00-0400 and `0 0 9 22 * ?` at 2018-02-23T05:00:00-0500. -/
theorem cronPrev_TestPrev_zones :
    cronPrev 400
        { second := bitsOf [0], minute := bitsOf [0], hour := bitsOf [0], dom := bitsOf [11],
          month := bitsOf [3], dow := allBits 0 6, location := newYork }
        (atSecond 1331452800 Location.UTC) = some (atSecond 1331442000 Location.UTC) ∧
      cronPrev 400
        { second := bitsOf [0], minute := bitsOf [5], hour := allBits 0 23,
          dom := allBits 1 31, month := allBits 1 12, dow := allBits 0 6, location := newYork }
        (atSecond 1331449200 Location.UTC) = some (atSecond 1331445900 Location.UTC) ∧
      cronPrev 400
        { second := bitsOf [0], minute := bitsOf [5], hour := allBits 0 23,
          dom := allBits 1 31, month := allBits 1 12, dow := allBits 0 6, location := newYork }
        (atSecond 1352008800 Location.UTC) = some (atSecond 1352005500 Location.UTC) ∧
      cronPrev 400
        { second := bitsOf [0], minute := bitsOf [30], hour := bitsOf [1], dom := bitsOf [4],
          month := bitsOf [11], dow := allBits 0 6, location := newYork }
        (atSecond 1352009700 Location.UTC) = some (atSecond 1352007000 Location.UTC) ∧
      cronPrev 400
        { second := bitsOf [0], minute := bitsOf [0], hour := bitsOf [9], dom := bitsOf [10],
          month := allBits 1 12, dow := allBits 0 6, location := saoPaulo }
        (atSecond 1541754000 Location.UTC) = some (atSecond 1539172800 Location.UTC) ∧
      cronPrev 400
        { second := bitsOf [0], minute := bitsOf [0], hour := bitsOf [9], dom := bitsOf [22],
          month := allBits 1 12, dow := allBits 0 6, location := saoPaulo }
        (atSecond 1519380000 Location.UTC) = some (atSecond 1519300800 Location.UTC) := by
  refine ⟨?_, ?_, ?_, ?_, ?_, ?_⟩ <;> decide

/-! ## The patterns of `AsCronSpec` -/

theorem isDayName_iff (w : List Char) :
    isDayName w ↔ ∃ x y z, w = [x, y, z] ∧ isLetter x = true ∧ isLetter y = true ∧
      isLetter z = true := by
  constructor
  · rintro ⟨hl, hall⟩
    match w, hl, hall with
    | [x, y, z], _, hall =>
      exact ⟨x, y, z, rfl, hall x (by simp), hall y (by simp), hall z (by simp)⟩
  · rintro ⟨x, y, z, rfl, hx, hy, hz⟩
    refine ⟨rfl, ?_⟩
    intro c hc
    simp only [List.mem_cons, List.mem_singleton, List.mem_nil_iff, or_false] at hc
    rcases hc with rfl | rfl | rfl <;> assumption

/-- The tail of the first alternative of `daysOfWeekRegex` matches up to `k` names, each
preceded by a comma. -/
theorem moreDays_iff : ∀ (k : Nat) (rest : List Char),
    moreDays k rest = true ↔
      ∃ names : List (List Char), names.length ≤ k ∧ (∀ w ∈ names, isDayName w) ∧
        rest = commaTail names
  | k, [] => by
    simp only [moreDays, true_iff]
    exact ⟨[], Nat.zero_le _, by simp, rfl⟩
  | 0, c :: cs => by
    simp only [moreDays, Bool.false_eq_true, false_iff]
    rintro ⟨names, hl, -, hr⟩
    have : names = [] := List.length_eq_zero.mp (Nat.le_zero.mp hl)
    subst this
    simp [commaTail] at hr
  | k + 1, [c] => by
    simp only [moreDays, Bool.false_eq_true, false_iff]
    rintro ⟨names, -, hn, hr⟩
    cases names with
    | nil => simp [commaTail] at hr
    | cons w ws =>
      obtain ⟨x, y, z, rfl, -⟩ := (isDayName_iff w).mp (hn w (by simp))
      simp [commaTail] at hr
  | k + 1, [c, x] => by
    simp only [moreDays, Bool.false_eq_true, false_iff]
    rintro ⟨names, -, hn, hr⟩
    cases names with
    | nil => simp [commaTail] at hr
    | cons w ws =>
      obtain ⟨x, y, z, rfl, -⟩ := (isDayName_iff w).mp (hn w (by simp))
      simp [commaTail] at hr
  | k + 1, [c, x, y] => by
    simp only [moreDays, Bool.false_eq_true, false_iff]
    rintro ⟨names, -, hn, hr⟩
    cases names with
    | nil => simp [commaTail] at hr
    | cons w ws =>
      obtain ⟨x, y, z, rfl, -⟩ := (isDayName_iff w).mp (hn w (by simp))
      simp [commaTail] at hr
  | k + 1, c :: x :: y :: z :: rest => by
    simp only [moreDays, Bool.and_eq_true, beq_iff_eq, moreDays_iff k rest]
    constructor
    · rintro ⟨⟨⟨⟨hc, hx⟩, hy⟩, hz⟩, names, hl, hn, hr⟩
      refine ⟨[x, y, z] :: names, Nat.succ_le_succ hl, ?_, ?_⟩
      · intro w hw
        rcases List.mem_cons.mp hw with rfl | hw
        · exact (isDayName_iff _).mpr ⟨x, y, z, rfl, hx, hy, hz⟩
        · exact hn w hw
      · rw [hc, hr]
        rfl
    · rintro ⟨names, hl, hn, hr⟩
      cases names with
      | nil => simp [commaTail] at hr
      | cons w ws =>
        obtain ⟨x2, y2, z2, rfl, hx, hy, hz⟩ := (isDayName_iff w).mp (hn w (by simp))
        simp only [commaTail, List.cons_append, List.nil_append, List.cons.injEq] at hr
        obtain ⟨rfl, rfl, rfl, rfl, rfl⟩ := hr
        exact ⟨⟨⟨⟨rfl, hx⟩, hy⟩, hz⟩, ws, Nat.le_of_succ_le_succ hl,
          fun w hw => hn w (List.mem_cons_of_mem _ hw), rfl⟩

theorem shortDayList_shape {cs : List Char}
    (h : ∃ names : List (List Char), names ≠ [] ∧ names.length ≤ 7 ∧
      (∀ w ∈ names, isDayName w) ∧ cs = commaJoin names) :
    ∃ a b c rest, cs = a :: b :: c :: rest ∧ isLetter a = true ∧ isLetter b = true ∧
      isLetter c = true ∧ moreDays 6 rest = true := by
  obtain ⟨names, hne, hl, hn, hcs⟩ := h
  cases names with
  | nil => exact absurd rfl hne
  | cons w ws =>
    obtain ⟨a, b, c, rfl, ha, hb, hc⟩ := (isDayName_iff w).mp (hn w (by simp))
    exact ⟨a, b, c, commaTail ws, hcs, ha, hb, hc,
      (moreDays_iff 6 _).mpr ⟨ws, Nat.le_of_succ_le_succ hl,
        fun w hw => hn w (List.mem_cons_of_mem _ hw), rfl⟩⟩

theorem shortDayList_of_shape {cs : List Char} (a b c : Char) (rest : List Char)
    (hcs : cs = a :: b :: c :: rest) (ha : isLetter a = true) (hb : isLetter b = true)
    (hc : isLetter c = true) (hm : moreDays 6 rest = true) :
    ∃ names : List (List Char), names ≠ [] ∧ names.length ≤ 7 ∧
      (∀ w ∈ names, isDayName w) ∧ cs = commaJoin names := by
  obtain ⟨names, hl, hn, hr⟩ := (moreDays_iff 6 rest).mp hm
  refine ⟨[a, b, c] :: names, by simp, Nat.succ_le_succ hl, ?_, ?_⟩
  · intro w hw
    rcases List.mem_cons.mp hw with rfl | hw
    · exact (isDayName_iff _).mpr ⟨a, b, c, rfl, ha, hb, hc⟩
    · exact hn w hw
  · rw [hcs, hr]
    rfl

theorem dayRange_shape {cs : List Char}
    (h : ∃ a b : List Char, isDayName a ∧ isDayName b ∧ cs = a ++ '-' :: b) :
    ∃ a b c x y z, cs = [a, b, c, '-', x, y, z] ∧ isLetter a = true ∧ isLetter b = true ∧
      isLetter c = true ∧ isLetter x = true ∧ isLetter y = true ∧ isLetter z = true := by
  obtain ⟨w1, w2, h1, h2, hcs⟩ := h
  obtain ⟨a, b, c, rfl, ha, hb, hc⟩ := (isDayName_iff w1).mp h1
  obtain ⟨x, y, z, rfl, hx, hy, hz⟩ := (isDayName_iff w2).mp h2
  exact ⟨a, b, c, x, y, z, hcs, ha, hb, hc, hx, hy, hz⟩

/-- The code's match of `daysOfWeekRegex` against the specification's words: a comma-separated
list of at most seven three-letter names, or a single range of two three-letter names. -/
theorem daysOfWeekMatch_iff (s : String) :
    daysOfWeekMatch s = true ↔ isShortDayList s ∨ isDayRange s := by
  unfold daysOfWeekMatch isShortDayList isDayRange
  split
  · rename_i a b c d x y z heq
    rw [heq]
    simp only [Bool.and_eq_true, Bool.or_eq_true, beq_iff_eq]
    constructor
    · rintro ⟨⟨⟨ha, hb⟩, hc⟩, hr | hm⟩
      · obtain ⟨⟨⟨hd, hx⟩, hy⟩, hz⟩ := hr
        exact Or.inr ⟨[a, b, c], [x, y, z], (isDayName_iff _).mpr ⟨a, b, c, rfl, ha, hb, hc⟩,
          (isDayName_iff _).mpr ⟨x, y, z, rfl, hx, hy, hz⟩, by rw [hd]; rfl⟩
      · exact Or.inl (shortDayList_of_shape a b c _ rfl ha hb hc hm)
    · rintro (h | h)
      · obtain ⟨a2, b2, c2, rest, hcs, ha, hb, hc, hm⟩ := shortDayList_shape h
        simp only [List.cons.injEq] at hcs
        obtain ⟨rfl, rfl, rfl, rfl⟩ := hcs
        exact ⟨⟨⟨ha, hb⟩, hc⟩, Or.inr hm⟩
      · obtain ⟨a2, b2, c2, x2, y2, z2, hcs, ha, hb, hc, hx, hy, hz⟩ := dayRange_shape h
        simp only [List.cons.injEq, and_true] at hcs
        obtain ⟨rfl, rfl, rfl, rfl, rfl, rfl, rfl⟩ := hcs
        exact ⟨⟨⟨ha, hb⟩, hc⟩, Or.inl ⟨⟨⟨rfl, hx⟩, hy⟩, hz⟩⟩
  · rename_i a b c rest hnot heq
    rw [heq]
    simp only [Bool.and_eq_true]
    constructor
    · rintro ⟨⟨⟨ha, hb⟩, hc⟩, hm⟩
      exact Or.inl (shortDayList_of_shape a b c _ rfl ha hb hc hm)
    · rintro (h | h)
      · obtain ⟨a2, b2, c2, rest2, hcs, ha, hb, hc, hm⟩ := shortDayList_shape h
        simp only [List.cons.injEq] at hcs
        obtain ⟨rfl, rfl, rfl, rfl⟩ := hcs
        exact ⟨⟨⟨ha, hb⟩, hc⟩, hm⟩
      · obtain ⟨a2, b2, c2, x2, y2, z2, hcs, -⟩ := dayRange_shape h
        simp only [List.cons.injEq] at hcs
        exact absurd hcs.2.2.2 (hnot _ _ _ _)
  · rename_i hnot1 hnot2
    simp only [Bool.false_eq_true, false_iff, not_or]
    constructor
    · intro h
      obtain ⟨a2, b2, c2, rest2, hcs, -⟩ := shortDayList_shape h
      exact hnot2 _ _ _ _ hcs
    · intro h
      obtain ⟨a2, b2, c2, x2, y2, z2, hcs, -⟩ := dayRange_shape h
      exact hnot2 _ _ _ _ hcs

theorem timeOfDayMatches_of (h1 h2 m1 m2 : Char) (d1 : isDigit h1 = true)
    (d2 : isDigit h2 = true) (d3 : isDigit m1 = true) (d4 : isDigit m2 = true) :
    timeOfDayMatches (String.mk [h1, h2, ':', m1, m2]) =
      some (String.mk [h1, h2], String.mk [m1, m2]) := by
  simp [timeOfDayMatches, d1, d2, d3, d4]

/-- The code's match of `timeOfDayRegex` against the specification's words. -/
theorem timeOfDayMatches_isSome_iff (s : String) :
    (timeOfDayMatches s).isSome = true ↔ isTimeOfDay s := by
  constructor
  · intro h
    unfold timeOfDayMatches at h
    split at h
    · rename_i h1 h2 c m1 m2 heq
      split at h
      · rename_i hd
        simp only [Bool.and_eq_true, beq_iff_eq] at hd
        obtain ⟨⟨⟨⟨d1, d2⟩, hc⟩, d3⟩, d4⟩ := hd
        refine ⟨h1, h2, m1, m2, d1, d2, d3, d4, ?_⟩
        rw [← hc, ← heq]
        cases s
        rfl
      · simp at h
    · simp at h
  · rintro ⟨h1, h2, m1, m2, d1, d2, d3, d4, rfl⟩
    rw [timeOfDayMatches_of h1 h2 m1 m2 d1 d2 d3 d4]
    rfl

/-- What `AsCronSpec` returns for an event without a cron schedule whose friendly schedule is
there: an error if a field is empty or does not match its pattern, and the cron string
otherwise. -/
theorem AsCronSpec_friendly (e : EventSpec) (schedule : FriendlyScheduleSpec)
    (hc : e.cronSchedule = "") (hs : e.schedule = some schedule) :
    ((schedule.timeOfDay = "" ∨ schedule.daysOfWeek = "" ∨ ¬ isTimeOfDay schedule.timeOfDay ∨
        ¬ (isShortDayList schedule.daysOfWeek ∨ isDayRange schedule.daysOfWeek)) →
      ∃ msg, AsCronSpec e = .error msg) ∧
    (¬ (schedule.timeOfDay = "" ∨ schedule.daysOfWeek = "" ∨
        ¬ isTimeOfDay schedule.timeOfDay ∨
        ¬ (isShortDayList schedule.daysOfWeek ∨ isDayRange schedule.daysOfWeek)) →
      ∃ h1 h2 m1 m2 : Char, schedule.timeOfDay = String.mk [h1, h2, ':', m1, m2] ∧
        AsCronSpec e = .value (String.mk [m1, m2] ++ " " ++ String.mk [h1, h2] ++ " * * " ++
          schedule.daysOfWeek)) := by
  unfold AsCronSpec
  simp only [hc, ne_eq, not_true_eq_false, if_false, hs]
  by_cases hempty : schedule.timeOfDay = "" ∨ schedule.daysOfWeek = ""
  · rw [if_pos hempty]
    refine ⟨fun _ => ⟨_, rfl⟩, fun hn => ?_⟩
    exact absurd (hempty.elim Or.inl (fun h => Or.inr (Or.inl h))) hn
  · rw [if_neg hempty]
    rw [not_or] at hempty
    by_cases ht : isTimeOfDay schedule.timeOfDay
    · obtain ⟨h1, h2, m1, m2, d1, d2, d3, d4, htime⟩ := ht
      rw [htime, timeOfDayMatches_of h1 h2 m1 m2 d1 d2 d3 d4]
      simp only []
      by_cases hd : daysOfWeekMatch schedule.daysOfWeek = true
      · simp only [hd, Bool.not_true, Bool.false_eq_true, if_false]
        refine ⟨fun h => ?_, fun _ => ⟨h1, h2, m1, m2, rfl, rfl⟩⟩
        rcases h with h | h | h | h
        · exact absurd (htime ▸ h) hempty.1
        · exact absurd h hempty.2
        · exact absurd ⟨h1, h2, m1, m2, d1, d2, d3, d4, rfl⟩ h
        · exact absurd ((daysOfWeekMatch_iff _).mp hd) h
      · have hd2 : daysOfWeekMatch schedule.daysOfWeek = false := by simpa using hd
        simp only [hd2, Bool.not_false, if_true]
        refine ⟨fun _ => ⟨_, rfl⟩, fun hn => ?_⟩
        exact absurd (Or.inr (Or.inr (Or.inr (fun h => hd ((daysOfWeekMatch_iff _).mpr h))))) hn
    · have hnone : timeOfDayMatches schedule.timeOfDay = none := by
        cases hm : timeOfDayMatches schedule.timeOfDay with
        | none => rfl
        | some v =>
          exact absurd ((timeOfDayMatches_isSome_iff _).mp (by rw [hm]; rfl)) ht
      rw [hnone]
      refine ⟨fun _ => ⟨_, rfl⟩, fun hn => ?_⟩
      exact absurd (Or.inr (Or.inr (Or.inl ht))) hn

/-! ## C21: the lowering of a friendly schedule -/

/-- C21, amended. `AsCronSpec` returns a non-empty `cronSchedule` unaltered, whatever the
friendly schedule is. With an empty `cronSchedule` and a friendly schedule whose `timeOfDay` is
two digits, a colon and two digits (`HH:MM`) and whose `daysOfWeek` is a comma-separated list
of at most seven three-letter names or a single range `XXX-YYY`, it returns
`MM HH * * <daysOfWeek>`. Digits and letters are those of the patterns, `\d` and `[a-zA-Z]`. -/
theorem friendly_schedule_lowering (e : EventSpec) (schedule : FriendlyScheduleSpec)
    (h1 h2 m1 m2 : Char) :
    (e.cronSchedule ≠ "" → AsCronSpec e = .value e.cronSchedule) ∧
    (e.cronSchedule = "" → e.schedule = some schedule →
      isDigit h1 = true → isDigit h2 = true → isDigit m1 = true → isDigit m2 = true →
      schedule.timeOfDay = String.mk [h1, h2, ':', m1, m2] →
      isShortDayList schedule.daysOfWeek ∨ isDayRange schedule.daysOfWeek →
      AsCronSpec e = .value (String.mk [m1, m2] ++ " " ++ String.mk [h1, h2] ++ " * * " ++
        schedule.daysOfWeek)) := by
  constructor
  · intro hc
    unfold AsCronSpec
    rw [if_pos hc]
  · intro hc hs d1 d2 d3 d4 htime hdays
    have hd : daysOfWeekMatch schedule.daysOfWeek = true := (daysOfWeekMatch_iff _).mpr hdays
    have hne : ¬ (schedule.timeOfDay = "" ∨ schedule.daysOfWeek = "") := by
      rintro (h | h)
      · have hlen : (String.mk [h1, h2, ':', m1, m2]).length = 5 := rfl
        rw [← htime, h] at hlen
        exact absurd hlen (by decide)
      · rw [h] at hd
        exact absurd hd (by decide)
    unfold AsCronSpec
    simp only [hc, ne_eq, not_true_eq_false, if_false, hs, if_neg hne]
    rw [htime, timeOfDayMatches_of h1 h2 m1 m2 d1 d2 d3 d4]
    simp only [hd, Bool.not_true, Bool.false_eq_true, if_false]

/-- C21, the claim as stated fails: `MON,TUE,WED,THU,FRI,SAT,SUN,MON` is a comma-separated list
of three-letter names, of eight of them, and with the time of day `09:00` `AsCronSpec` returns
an error, not a cron string. -/
theorem friendly_schedule_lowering_counterexample :
    isTimeOfDay "09:00" ∧
    isDayList "MON,TUE,WED,THU,FRI,SAT,SUN,MON" ∧
    AsCronSpec { action := EventTypeStart, cronSchedule := "",
                 schedule := some { timeOfDay := "09:00",
                                    daysOfWeek := "MON,TUE,WED,THU,FRI,SAT,SUN,MON" } } =
      .error "daysOfWeek must be in the format MON-FRI or SAT,SUN,TUE,WED" :=
  ⟨⟨'0', '9', '0', '0', by decide, by decide, by decide, by decide, by decide⟩,
    ⟨["MON".toList, "TUE".toList, "WED".toList, "THU".toList, "FRI".toList, "SAT".toList,
        "SUN".toList, "MON".toList], by decide,
      by
        intro w hw
        simp only [List.mem_cons, List.mem_singleton, List.mem_nil_iff, or_false] at hw
        rcases hw with rfl | rfl | rfl | rfl | rfl | rfl | rfl | rfl <;>
          exact ⟨rfl, by decide⟩,
      by decide⟩,
    by decide⟩

/-- C21 at work: the event `start` at `09:00` on `MON-FRI` of the package's tests, and an event
with both a cron schedule and a friendly schedule. -/
theorem friendly_schedule_lowering_witness :
    ("0 9 * * *" ≠ "" ∧
      AsCronSpec { action := EventTypeStart, cronSchedule := "0 9 * * *",
                   schedule := some { timeOfDay := "10:30", daysOfWeek := "SAT,SUN" } } =
        .value "0 9 * * *") ∧
    isDayRange "MON-FRI" ∧
    AsCronSpec { action := EventTypeStart, cronSchedule := "",
                 schedule := some { timeOfDay := "09:00", daysOfWeek := "MON-FRI" } } =
      .value "00 09 * * MON-FRI" :=
  have hrange : isDayRange "MON-FRI" :=
    ⟨"MON".toList, "FRI".toList, ⟨rfl, by decide⟩, ⟨rfl, by decide⟩, by decide⟩
  ⟨⟨by decide,
      (friendly_schedule_lowering
        { action := EventTypeStart, cronSchedule := "0 9 * * *",
          schedule := some { timeOfDay := "10:30", daysOfWeek := "SAT,SUN" } }
        { timeOfDay := "10:30", daysOfWeek := "SAT,SUN" } '1' '0' '3' '0').1 (by decide)⟩,
    hrange,
    (friendly_schedule_lowering
      { action := EventTypeStart, cronSchedule := "",
        schedule := some { timeOfDay := "09:00", daysOfWeek := "MON-FRI" } }
      { timeOfDay := "09:00", daysOfWeek := "MON-FRI" } '0' '9' '0' '0').2 rfl rfl
      (by decide) (by decide) (by decide) (by decide) (by decide) (Or.inr hrange)⟩

/-! ## C22: the validation of a friendly schedule -/

/-- C22 at the failing input: an event with an empty `cronSchedule` and no friendly schedule
(`Schedule` is nil), whatever its action. `AsCronSpec` does not return an error, it panics: it
reads `e.Schedule.TimeOfDay` through the nil pointer, in the very test whose error reads "must
specify either cronSchedule or schedule". For an event whose friendly schedule is there,
`AsCronSpec` validates as the claim says (`AsCronSpec_friendly`). -/
theorem friendly_schedule_missing (action : EventType) :
    AsCronSpec { action := action, cronSchedule := "", schedule := none } = .panic :=
  rfl

/-! ## Decimal numerals -/

theorem digitChar_digit : ∀ k < 10, digitValue (Nat.digitChar k) = some k ∧
    isDigit (Nat.digitChar k) = true ∧ Nat.digitChar k ≠ '-' ∧ Nat.digitChar k ≠ '+' := by
  decide

theorem digitsValue_append : ∀ (a b : List Char) (acc : Nat),
    digitsValue (a ++ b) acc = (digitsValue a acc).bind (digitsValue b)
  | [], _, _ => rfl
  | c :: cs, b, acc => by
    simp only [List.cons_append, digitsValue]
    cases digitValue c with
    | none => rfl
    | some d => exact digitsValue_append cs b _

/-- The digits that `Nat.toDigits` puts in front of what it is given: a non-empty run of ASCII
digits whose value is the number. -/
theorem toDigitsCore_spec : ∀ (fuel n : Nat) (ds : List Char), n < fuel →
    ∃ pre, Nat.toDigitsCore 10 fuel n ds = pre ++ ds ∧ pre ≠ [] ∧
      pre.all isDigit = true ∧ (∀ c ∈ pre, c ≠ '-' ∧ c ≠ '+') ∧
      ∀ acc, digitsValue pre acc = some (acc * 10 ^ pre.length + n)
  | 0, _, _, h => absurd h (Nat.not_lt_zero _)
  | fuel + 1, n, ds, h => by
    obtain ⟨hv, hd, hm, hp⟩ := digitChar_digit (n % 10) (Nat.mod_lt _ (by decide))
    unfold Nat.toDigitsCore
    simp only []
    by_cases h0 : n / 10 = 0
    · rw [if_pos h0]
      have hn : n % 10 = n := Nat.mod_eq_of_lt (by omega)
      refine ⟨[Nat.digitChar (n % 10)], rfl, by simp, by simp [hd], ?_, ?_⟩
      · intro c hc
        rw [List.mem_singleton.mp hc]
        exact ⟨hm, hp⟩
      · intro acc
        simp only [digitsValue, hv, List.length_singleton, pow_one]
        rw [hn]
    · rw [if_neg h0]
      have hlt : n / 10 < fuel := by omega
      obtain ⟨pre, hpre, -, hall, hsign, hval⟩ := toDigitsCore_spec fuel (n / 10)
        (Nat.digitChar (n % 10) :: ds) hlt
      refine ⟨pre ++ [Nat.digitChar (n % 10)], by rw [hpre]; simp, by simp, ?_, ?_, ?_⟩
      · rw [List.all_append, hall]
        simp [hd]
      · intro c hc
        rcases List.mem_append.mp hc with hc | hc
        · exact hsign c hc
        · rw [List.mem_singleton.mp hc]
          exact ⟨hm, hp⟩
      · intro acc
        rw [digitsValue_append, hval]
        simp only [Option.bind, digitsValue, hv, List.length_append, List.length_singleton]
        congr 1
        rw [pow_succ]
        have := Nat.div_add_mod n 10
        nlinarith [this]

/-- The decimal numeral of a natural number: a non-empty run of ASCII digits whose value is the
number. -/
theorem repr_spec (n : Nat) :
    (Nat.repr n).toList ≠ [] ∧ (Nat.repr n).toList.all isDigit = true ∧
      (∀ c ∈ (Nat.repr n).toList, c ≠ '-' ∧ c ≠ '+') ∧
      digitsValue (Nat.repr n).toList 0 = some n := by
  obtain ⟨pre, hpre, hne, hall, hsign, hval⟩ := toDigitsCore_spec (n + 1) n [] (Nat.lt_succ_self n)
  have h : (Nat.repr n).toList = pre := by
    show Nat.toDigitsCore 10 (n + 1) n [] = pre
    rw [hpre, List.append_nil]
  rw [h]
  exact ⟨hne, hall, hsign, by rw [hval 0]; simp⟩

/-- `strconv.Atoi` reads the decimal numeral of a number within the range of `int`. -/
theorem Atoi_repr (n : Nat) (h : (n : Int) < (2 : Int) ^ 63) :
    Atoi (Nat.repr n) = some (n : Int) := by
  obtain ⟨hne, -, hsign, hval⟩ := repr_spec n
  unfold Atoi
  simp only []
  cases hl : (Nat.repr n).toList with
  | nil => exact absurd hl hne
  | cons c cs =>
    have hc := hsign c (by rw [hl]; simp)
    rw [hl] at hval
    split
    · rename_i signed v heq
      split at heq
      · rename_i cs2 hcs
        simp only [List.cons.injEq] at hcs
        exact absurd hcs.1 hc.1
      · rename_i cs2 hcs
        simp only [List.cons.injEq] at hcs
        exact absurd hcs.1 hc.2
      · rename_i cs2 hno1 hno2
        simp only [hval, Option.map, bind, Option.bind, pure, Option.some.injEq] at heq
        subst heq
        rw [if_pos ⟨by omega, h⟩]
    · rename_i signed heq
      split at heq
      · rename_i cs2 hcs
        simp only [List.cons.injEq] at hcs
        exact absurd hcs.1 hc.1
      · rename_i cs2 hcs
        simp only [List.cons.injEq] at hcs
        exact absurd hcs.1 hc.2
      · rename_i cs2 hno1 hno2
        simp [hval] at heq

/-! ## The pattern of job names -/

theorem takeWhile_digits (N : List Char) :
    ∀ T : List Char, T.all isDigit = true →
      (T ++ '-' :: N).takeWhile isDigit = T ∧ (T ++ '-' :: N).dropWhile isDigit = '-' :: N
  | [], _ => by
    have : isDigit '-' = false := by decide
    simp [List.takeWhile, List.dropWhile, this]
  | c :: T, h => by
    simp only [List.all_cons, Bool.and_eq_true] at h
    obtain ⟨h1, h2⟩ := takeWhile_digits N T h.2
    simp only [List.cons_append, List.takeWhile, List.dropWhile, h.1]
    exact ⟨congrArg (c :: ·) h1, h2⟩

/-- The tail of the pattern matches a hyphen, digits, a hyphen and digits, and gives the two
runs of digits. -/
theorem matchNumbers_here (T N : List Char) (hT : T ≠ []) (hN : N ≠ [])
    (hTd : T.all isDigit = true) (hNd : N.all isDigit = true) :
    matchNumbers ('-' :: (T ++ '-' :: N)) = some (T, N) := by
  obtain ⟨h1, h2⟩ := takeWhile_digits N T hTd
  unfold matchNumbers
  simp only [if_true, h2, h1]
  rw [if_pos ⟨trivial, hT, hN, hNd⟩]

theorem matchNumbers_digit (c : Char) (cs : List Char) (h : isDigit c = true) :
    matchNumbers (c :: cs) = none := by
  unfold matchNumbers
  have : c ≠ '-' := by
    intro e
    rw [e] at h
    exact absurd h (by decide)
  simp only [this, if_false]

theorem matchNumbers_in_digits : ∀ (N : List Char) (i : Nat), N.all isDigit = true →
    matchNumbers (N.drop i) = none
  | [], i, _ => by simp [matchNumbers]
  | c :: N, 0, h => by
    simp only [List.all_cons, Bool.and_eq_true] at h
    exact matchNumbers_digit c N h.1
  | c :: N, i + 1, h => by
    simp only [List.all_cons, Bool.and_eq_true] at h
    exact matchNumbers_in_digits N i h.2

/-- The tail of the pattern matches nowhere inside `<digits>-<digits>`. -/
theorem matchNumbers_later (N : List Char) (hNd : N.all isDigit = true) :
    ∀ (T : List Char) (i : Nat), T.all isDigit = true →
      matchNumbers ((T ++ '-' :: N).drop i) = none
  | [], 0, _ => by
    unfold matchNumbers
    have hN := takeWhile_digits [] N hNd
    have hdrop : N.dropWhile isDigit = [] := by
      have : ∀ l : List Char, l.all isDigit = true → l.dropWhile isDigit = [] := by
        intro l
        induction l with
        | nil => intro _; rfl
        | cons c l ih =>
          intro h
          simp only [List.all_cons, Bool.and_eq_true] at h
          simp only [List.dropWhile, h.1]
          exact ih h.2
      exact this N hNd
    simp only [List.nil_append, List.drop_zero, if_true, hdrop]
  | [], i + 1, _ => matchNumbers_in_digits N i hNd
  | c :: T, 0, h => by
    simp only [List.all_cons, Bool.and_eq_true] at h
    exact matchNumbers_digit c _ h.1
  | c :: T, i + 1, h => by
    simp only [List.all_cons, Bool.and_eq_true] at h
    exact matchNumbers_later N hNd T i h.2

/-- The pattern of job names on `<name>-<digits>-<digits>`: the first group is the name. -/
theorem matchJobName_spec (nm T N : List Char) (hnm : nm ≠ [])
    (hline : nm.all (fun c => c != '\n') = true) (hT : T ≠ []) (hN : N ≠ [])
    (hTd : T.all isDigit = true) (hNd : N.all isDigit = true) :
    ∀ d : Nat, matchJobName (nm.length + d) (nm ++ '-' :: (T ++ '-' :: N)) =
      some (String.mk nm, String.mk T, String.mk N)
  | 0 => by
    cases hk : nm.length with
    | zero => exact absurd (List.length_eq_zero.mp hk) hnm
    | succ k =>
      simp only [Nat.add_zero, matchJobName]
      rw [← hk, List.take_left, List.drop_left, hline, if_pos rfl,
        matchNumbers_here T N hT hN hTd hNd]
  | d + 1 => by
    show matchJobName (nm.length + d + 1) _ = _
    simp only [matchJobName]
    have hdrop : (nm ++ '-' :: (T ++ '-' :: N)).drop (nm.length + d + 1) =
        (T ++ '-' :: N).drop d := by
      rw [Nat.add_assoc, List.drop_append]
      rfl
    rw [hdrop, matchNumbers_later N hNd T d hTd]
    simp only [ite_self]
    exact matchJobName_spec nm T N hnm hline hT hN hTd hNd d

theorem formatInt_nonneg (n : Int) (h : 0 ≤ n) : formatInt n = Nat.repr n.toNat := by
  cases n with
  | ofNat k => rfl
  | negSucc k => exact absurd h (by simp)

theorem Atoi_formatInt (n : Int) (h0 : 0 ≤ n) (h : n < (2 : Int) ^ 63) :
    Atoi (String.mk (formatInt n).toList) = some n := by
  have hs : String.mk (formatInt n).toList = formatInt n := by
    cases formatInt n
    rfl
  rw [hs, formatInt_nonneg n h0, Atoi_repr n.toNat (by rw [Int.toNat_of_nonneg h0]; exact h),
    Int.toNat_of_nonneg h0]

theorem JobName_toList (name : String) (t : Time) (n : Int) :
    (JobName name t n).toList =
      name.toList ++ '-' :: ((formatInt t.Unix).toList ++ '-' :: (formatInt n).toList) := by
  unfold JobName
  simp only [String.toList, String.data_append]
  simp

/-- What the pattern of job names finds in the name of a Job: the name of the ControlledJob and
the two numerals. -/
theorem jobNameSubmatch_JobName (name : String) (t : Time) (n : Int) (hname : name ≠ "")
    (hline : '\n' ∉ name.toList) (ht : 0 ≤ t.Unix) (hn : 0 ≤ n) :
    jobNameSubmatch (JobName name t n) =
      some (name, String.mk (formatInt t.Unix).toList, String.mk (formatInt n).toList) := by
  obtain ⟨hT, hTd, -, -⟩ := repr_spec t.Unix.toNat
  obtain ⟨hN, hNd, -, -⟩ := repr_spec n.toNat
  rw [← formatInt_nonneg t.Unix ht] at hT hTd
  rw [← formatInt_nonneg n hn] at hN hNd
  have hnm : name.toList ≠ [] := by
    intro h
    apply hname
    cases name
    simp only [String.toList] at h
    rw [h]
  have hl : name.toList.all (fun c => c != '\n') = true := by
    rw [List.all_eq_true]
    intro c hc
    simp only [bne_iff_ne, ne_eq]
    intro e
    exact hline (e ▸ hc)
  have hlen : (JobName name t n).toList.length =
      name.toList.length + ((formatInt t.Unix).toList.length + (formatInt n).toList.length + 2) := by
    rw [JobName_toList]
    simp only [List.length_append, List.length_cons]
    omega
  unfold jobNameSubmatch
  rw [hlen, JobName_toList,
    matchJobName_spec name.toList _ _ hnm hl hT hN hTd hNd]
  cases name
  rfl

/-! ## C23: the round trip of a job name -/

/-- C23, amended. For a name that is not empty and has no line feed, a scheduled time `t` that
is a whole number of seconds at or after the epoch, and a run id `n` that is not negative (both
numbers within the range of `int`), `ParseJobName(JobName(name, t, n))` returns no error, the
name, the run id `n`, and a time that is the instant of `t`, in the location `time.Local`. -/
theorem job_name_round_trip (localZone : Location) (name : String) (t : Time) (n : Int)
    (hname : name ≠ "") (hline : '\n' ∉ name.toList)
    (hepoch : 0 ≤ t.unixNano) (hseconds : t.unixNano % Second = 0)
    (htime : t.Unix < (2 : Int) ^ 63) (hn : 0 ≤ n) (hint : n < (2 : Int) ^ 63) :
    ∃ parsed, ParseJobName localZone (JobName name t n) =
        { controlledJobName := name, scheduledTime := some parsed, jobRunId := some n,
          err := none } ∧
      parsed.unixNano = t.unixNano ∧
      parsed.zoneOffset = (localZone.lookup t.Unix).offset := by
  have ht : 0 ≤ t.Unix := Int.ediv_nonneg hepoch (by decide)
  have hback : t.Unix * Second = t.unixNano := by
    unfold Time.Unix
    exact Int.ediv_mul_cancel (Int.dvd_of_emod_eq_zero hseconds)
  refine ⟨Unix localZone t.Unix, ?_, hback, ?_⟩
  · unfold ParseJobName
    rw [jobNameSubmatch_JobName name t n hname hline ht hn]
    simp only [Atoi_formatInt t.Unix ht htime, Atoi_formatInt n hn hint]
  · show (localZone.lookup (t.Unix * Second / Second)).offset = _
    rw [Int.mul_ediv_cancel _ (by decide : Second ≠ 0)]

set_option maxRecDepth 100000 in
/-- C23, the claim as stated fails. With `time.Local` read as UTC: for the run id -1 and for
the empty name the name built does not match the pattern, and `ParseJobName` returns an error;
so it does for a name with a line feed; for a time 100 seconds before the epoch the name built
is `basic-job--100-0`, which parses as the name `basic-job-` and the time 100 seconds after the
epoch; a time with half a second comes back without it; and a time in a zone one hour east of
UTC comes back in `time.Local`. -/
theorem job_name_round_trip_counterexample :
    (ParseJobName Location.UTC (JobName "basic-job" exampleStart (-1))).err =
      some "Failed to parse basic-job-1670835600--1 as a valid job name" ∧
    (ParseJobName Location.UTC (JobName "" exampleStart 0)).err =
      some "Failed to parse -1670835600-0 as a valid job name" ∧
    (ParseJobName Location.UTC (JobName "basic\njob" exampleStart 0)).err =
      some "Failed to parse basic\njob-1670835600-0 as a valid job name" ∧
    ParseJobName Location.UTC (JobName "basic-job" (Time.ofUnix (-100)) 0) =
      { controlledJobName := "basic-job-", scheduledTime := some (Time.ofUnix 100),
        jobRunId := some 0, err := none } ∧
    (ParseJobName Location.UTC
        (JobName "basic-job" { unixNano := 1670835600500000000, zoneOffset := 0 } 0)
      ).scheduledTime = some { unixNano := 1670835600000000000, zoneOffset := 0 } ∧
    (ParseJobName Location.UTC
        (JobName "basic-job" { unixNano := 1670835600000000000, zoneOffset := 3600 } 0)
      ).scheduledTime = some { unixNano := 1670835600000000000, zoneOffset := 0 } := by
  decide

set_option maxRecDepth 100000 in
/-- C23 at work: the name `basic-job-17-4`, which itself ends like the name of a Job, the start
of 2022-12-12T09:00:00Z and the run id 3, with New York as `time.Local`. -/
theorem job_name_round_trip_witness :
    "basic-job-17-4" ≠ "" ∧ '\n' ∉ "basic-job-17-4".toList ∧ 0 ≤ exampleStart.unixNano ∧
    exampleStart.unixNano % Second = 0 ∧ exampleStart.Unix < (2 : Int) ^ 63 ∧
    (0 : Int) ≤ 3 ∧ (3 : Int) < (2 : Int) ^ 63 ∧
    ∃ parsed, ParseJobName newYork (JobName "basic-job-17-4" exampleStart 3) =
        { controlledJobName := "basic-job-17-4", scheduledTime := some parsed,
          jobRunId := some 3, err := none } ∧
      parsed.unixNano = exampleStart.unixNano ∧
      parsed.zoneOffset = (newYork.lookup exampleStart.Unix).offset :=
  ⟨by decide, by decide, by decide, by decide, by decide, by decide, by decide,
    job_name_round_trip newYork "basic-job-17-4" exampleStart 3 (by decide) (by decide)
      (by decide) (by decide) (by decide) (by decide) (by decide)⟩

/-! ## C24: the template hash ignores the suspend flag -/

/-- C24: two job templates that differ only in `spec.suspend` (the same template with the flag
set to `s1` and to `s2`) have the same hash; and a call `CalculateHashFor(template)` returns
the hash of the template it is given, leaves the caller's template as it was (the pointer behind
`Spec.Suspend` included) and writes to no cell of the memory. -/
theorem hash_ignores_suspend (env : Env) (template : JobTemplateSpec) (s1 s2 : Option Bool)
    (cells : Nat → Bool) (caller : StoredTemplate) :
    CalculateHashFor env { template with spec := { template.spec with suspend := s1 } } =
      CalculateHashFor env { template with spec := { template.spec with suspend := s2 } } ∧
    (CalculateHashForCall env cells caller).hash = CalculateHashFor env (caller.read cells) ∧
    (CalculateHashForCall env cells caller).callerTemplate = caller ∧
    (CalculateHashForCall env cells caller).cells = cells :=
  ⟨rfl, rfl, rfl, rfl⟩

/-! ## C25: the metadata of a built Job -/

/-- C25: when no mutator applies, `BuildForControlledJob` returns a Job; it is named
`<cj.name>-<unix seconds of scheduledTime>-<runId>`, it carries the annotations `scheduled-at`
(the RFC 3339 text of the scheduled time), `job-run-id` (the run id in decimal) and
`job-template-hash` (`CalculateHashFor` of the job template of the ControlledJob), the label
`controlled-job` with the name of the ControlledJob, and one owner reference, to the
ControlledJob, with `controller` and `blockOwnerDeletion` true; whatever annotations and labels
the template has. -/
theorem built_job_metadata (env : Env) (cj : ControlledJob) (scheduledTime : Time)
    (runId : Int) (isManuallyScheduled startSuspended : Bool)
    (h : noMutatorApplies env cj = true) :
    ∃ job, BuildForControlledJob env cj scheduledTime runId isManuallyScheduled
        startSuspended = .ok job ∧
      job.name = cj.name ++ "-" ++ formatInt scheduledTime.Unix ++ "-" ++ formatInt runId ∧
      job.annotations.find ScheduledTimeAnnotation = some (env.formatRFC3339 scheduledTime) ∧
      job.annotations.find JobRunIdAnnotation = some (formatInt runId) ∧
      job.annotations.find TemplateHashAnnotation =
        some (CalculateHashFor env cj.spec.jobTemplate) ∧
      job.labels.find ControlledJobLabel = some cj.name ∧
      job.ownerReferences =
        [{ apiVersion := Group ++ "/v1", kind := "ControlledJob", name := cj.name,
           uid := cj.uid, controller := some true, blockOwnerDeletion := some true }] := by
  have hres : buildJob env cj scheduledTime runId isManuallyScheduled startSuspended =
      .ok (assembleJob env cj scheduledTime runId isManuallyScheduled startSuspended) := by
    unfold buildJob
    unfold noMutatorApplies mutationsRequested at h
    cases hf : cj.annotations.find ApplyMutationsAnnotation with
    | none => rfl
    | some v =>
      simp only []
      split
      · rename_i hv
        rw [hf] at h
        simp only [hv, Bool.not_true, Bool.false_or] at h
        exact mutatorsApply_of_none env _ h
      · rfl
  refine ⟨_, hres, rfl, ?_, ?_, ?_, ?_, rfl⟩
  · rw [assembleJob_find env cj scheduledTime runId isManuallyScheduled startSuspended _
      (by decide) (by decide) (Or.inr (by decide)),
      StringMap.find_set_other _ _ _ _ (by decide), StringMap.find_set_other _ _ _ _ (by decide),
      StringMap.find_set_same]
  · rw [assembleJob_find env cj scheduledTime runId isManuallyScheduled startSuspended _
      (by decide) (by decide) (Or.inr (by decide)),
      StringMap.find_set_other _ _ _ _ (by decide), StringMap.find_set_same]
  · rw [assembleJob_find env cj scheduledTime runId isManuallyScheduled startSuspended _
      (by decide) (by decide) (Or.inr (by decide)), StringMap.find_set_same]
  · exact StringMap.find_set_same _ _ _

/-- The metadata of the Job built for a ControlledJob whose template uses the operator's keys. -/
theorem built_job_metadata_witness :
    noMutatorApplies exampleEnv shadowingControlledJob = true ∧
    ∃ job, BuildForControlledJob exampleEnv shadowingControlledJob exampleStart 0 false
        true = .ok job ∧
      job.name = shadowingControlledJob.name ++ "-" ++ formatInt exampleStart.Unix ++ "-" ++
        formatInt 0 ∧
      job.annotations.find ScheduledTimeAnnotation =
        some (exampleEnv.formatRFC3339 exampleStart) ∧
      job.annotations.find JobRunIdAnnotation = some (formatInt 0) ∧
      job.annotations.find TemplateHashAnnotation =
        some (CalculateHashFor exampleEnv shadowingControlledJob.spec.jobTemplate) ∧
      job.labels.find ControlledJobLabel = some shadowingControlledJob.name ∧
      job.ownerReferences =
        [{ apiVersion := Group ++ "/v1", kind := "ControlledJob",
           name := shadowingControlledJob.name, uid := shadowingControlledJob.uid,
           controller := some true, blockOwnerDeletion := some true }] :=
  ⟨by decide, built_job_metadata exampleEnv shadowingControlledJob exampleStart 0 false true
    (by decide)⟩

/-! ## The requeue time -/

theorem stopOutsideRunPeriod_requeueAt (sbr : Bool) (l : Locals) :
    (stopOutsideRunPeriod sbr l).decision.RequeueAt = l.decision.RequeueAt := by
  unfold stopOutsideRunPeriod
  simp only []
  split <;> rfl

theorem recreateIfOutOfDate_requeueAt (env : Env) (state : State) (restart : Bool)
    (maxId : Int) (l : Locals) :
    (recreateIfOutOfDate env state restart maxId l).1.decision.RequeueAt =
      l.decision.RequeueAt := by
  unfold recreateIfOutOfDate
  repeat' split
  all_goals rfl

theorem startIfAbsent_requeueAt (env : Env) (state : State) (now : Time) (sbr : Bool)
    (l : Locals) :
    (startIfAbsent env state now sbr l).1.decision.RequeueAt = l.decision.RequeueAt := by
  unfold startIfAbsent
  simp only []
  repeat' split
  all_goals rfl

theorem deleteOthers_requeueAt (l : Locals) :
    (deleteOthers l).decision.RequeueAt = l.decision.RequeueAt := rfl

theorem unsuspendIfSafe_requeueAt (l : Locals) :
    (unsuspendIfSafe l).decision.RequeueAt = l.decision.RequeueAt := by
  unfold unsuspendIfSafe
  repeat' split
  all_goals rfl

theorem setRequeueAt_requeueAt (state : State) (l : Locals) :
    (setRequeueAt state l).decision.RequeueAt =
      state.NextEventTime.getD l.decision.RequeueAt := by
  unfold setRequeueAt
  cases state.NextEventTime <;> rfl

/-- A successful `decideForJobs` leaves the next event time in `RequeueAt`, if there is one. -/
theorem decideForJobs_requeueAt (env : Env) (state : State) (now : Time) (sbr restart : Bool)
    (maxId : Int) (l : Locals)
    (h : (decideForJobs env state now sbr restart maxId l).err = none) :
    (decideForJobs env state now sbr restart maxId l).decision.RequeueAt =
      state.NextEventTime.getD l.decision.RequeueAt := by
  unfold decideForJobs at h ⊢
  simp only [] at h ⊢
  have h1 := recreateIfOutOfDate_requeueAt env state restart maxId (stopOutsideRunPeriod sbr l)
  rw [stopOutsideRunPeriod_requeueAt] at h1
  generalize recreateIfOutOfDate env state restart maxId (stopOutsideRunPeriod sbr l) = r1
    at h h1 ⊢
  obtain ⟨l1, e1⟩ := r1
  cases e1 with
  | some e => simp [Locals.returning] at h
  | none =>
    simp only [] at h h1 ⊢
    have h2 := startIfAbsent_requeueAt env state now sbr l1
    generalize startIfAbsent env state now sbr l1 = r2 at h h2 ⊢
    obtain ⟨l2, e2⟩ := r2
    cases e2 with
    | some e => simp [Locals.returning] at h
    | none =>
      simp only [] at h h2 ⊢
      show (setRequeueAt state (unsuspendIfSafe (deleteOthers l2))).decision.RequeueAt = _
      rw [setRequeueAt_requeueAt, unsuspendIfSafe_requeueAt, deleteOthers_requeueAt, h2, h1]

/-- What a successful `makeDecision` leaves in `RequeueAt`. -/
theorem makeDecision_requeueAt (env : Env) (scheduleState : Except String ScheduleState)
    (cj : ControlledJob) (childJobs : List Job) (now : Time) (enable : Bool)
    (h : (makeDecision env scheduleState cj childJobs now enable).err = none) :
    ∃ s, scheduleState = .ok s ∧
      (makeDecision env scheduleState cj childJobs now enable).decision.RequeueAt =
        (if cj.spec.suspend = some true then Time.zero
          else s.NextEventTime.getD Time.zero) := by
  cases hstate : buildState env scheduleState cj childJobs with
  | error e =>
    rw [makeDecision_schedule_error _ _ _ _ _ _ _ hstate] at h
    simp at h
  | ok state =>
    obtain ⟨s, hs, -, hsusp, -, -, hnext, -⟩ := buildState_ok hstate
    refine ⟨s, hs, ?_⟩
    cases hsus : state.IsSuspended with
    | true =>
      have hc : cj.spec.suspend = some true := by
        rw [hsus] at hsusp
        cases hcs : cj.spec.suspend with
        | none => rw [hcs] at hsusp; simp at hsusp
        | some b => rw [hcs] at hsusp; simp only at hsusp; rw [← hsusp]
      rw [(makeDecision_suspended env scheduleState cj childJobs now enable state hstate hsus).2.1,
        if_pos hc]
      rfl
    | false =>
      have hc : cj.spec.suspend ≠ some true := by
        intro hcs
        rw [hsus, hcs] at hsusp
        simp at hsusp
      rw [makeDecision_not_suspended env none scheduleState cj childJobs now enable state hstate
        hsus] at h ⊢
      rw [if_neg hc, ← hnext]
      exact decideForJobs_requeueAt _ _ _ _ _ _ _ h

theorem Time.Sub_eq_clamp (t u : Time) : t.Sub u = clampDuration (t.unixNano - u.unixNano) := by
  unfold Time.Sub clampDuration Time.Before
  simp only [decide_eq_true_eq]
  split
  · rename_i h
    rw [min_eq_left (by omega), max_eq_right h.1]
  · rename_i h
    split
    · rename_i hlt
      rw [min_eq_left (by omega), max_eq_left (by omega)]
    · rename_i hlt
      rw [min_eq_right (by omega), max_eq_right (by omega)]

/-- A run of lines 105-169 of `Reconcile` that returns no error has made a decision without
error, and returns the difference between its `RequeueAt` and `now`. -/
theorem reconcileBody_requeueAfter (env : Env) (cluster : Cluster)
    (scheduleState : Except String ScheduleState) (cj : ControlledJob) (jobs : List Job)
    (now : Time) (options : ReconcileOptions)
    (h : (reconcileBody env cluster scheduleState cj jobs now options).2.error = none) :
    (makeDecision env scheduleState cj jobs now
        options.EnableAutoRecreateJobsOnSpecChange).err = none ∧
    (reconcileBody env cluster scheduleState cj jobs now options).2.requeueAfter =
      (makeDecision env scheduleState cj jobs now
        options.EnableAutoRecreateJobsOnSpecChange).decision.RequeueAt.Sub now := by
  unfold reconcileBody at h ⊢
  simp only [] at h ⊢
  cases he : (makeDecision env scheduleState cj jobs now
      options.EnableAutoRecreateJobsOnSpecChange).err with
  | some e =>
    rw [he] at h
    simp [NonRetryableErrorResult] at h
  | none =>
    rw [he] at h
    simp only [] at h ⊢
    refine ⟨trivial, ?_⟩
    split at h
    · simp [TransientErrorResult] at h
    · rename_i hrun
      simp only [hrun]

/-! ## C26: the requeue -/

/-- C26, amended. A successful `makeDecision` was given a schedule state; its `RequeueAt` is the
zero time when the ControlledJob is suspended, and otherwise the next event time of the schedule
state when there is one and the zero time when there is none. A `Reconcile` that has loaded the
ControlledJob and returns no error has computed the schedule state and made a successful
decision on it, and its `RequeueAfter` is the difference between the `RequeueAt` of that
decision and `now`, limited to the range of a Duration. -/
theorem requeue_at_next_event (env : Env) (scheduleState : Except String ScheduleState)
    (cj : ControlledJob) (jobs : List Job) (now : Time) (enable : Bool) (lib : CronLib) (fuel : Nat)
    (cluster : Cluster) (name ns : String) (reconcileNow : ZonedTime)
    (options : ReconcileOptions) :
    ((makeDecision env scheduleState cj jobs now enable).err = none →
      ∃ s, scheduleState = .ok s ∧
        (makeDecision env scheduleState cj jobs now enable).decision.RequeueAt =
          (if cj.spec.suspend = some true then Time.zero
            else s.NextEventTime.getD Time.zero)) ∧
    (loadFromCluster cluster name ns = some (some cj, jobs, none) →
      ∀ run, Reconcile env lib fuel cluster name ns reconcileNow options = some run →
      run.result.error = none →
      ∃ s, StateFor lib fuel cj reconcileNow = .value s ∧
        (makeDecision env (.ok s) cj jobs reconcileNow.toTime
          options.EnableAutoRecreateJobsOnSpecChange).err = none ∧
        run.result.requeueAfter =
          clampDuration
            ((makeDecision env (.ok s) cj jobs reconcileNow.toTime
                options.EnableAutoRecreateJobsOnSpecChange).decision.RequeueAt.unixNano -
              reconcileNow.unixNano)) := by
  refine ⟨makeDecision_requeueAt env scheduleState cj jobs now enable, ?_⟩
  intro hload run hrun hok
  cases hss : (StateFor lib fuel cj reconcileNow).toExcept with
  | none =>
    unfold Reconcile at hrun
    rw [hload] at hrun
    simp only [hss] at hrun
    simp at hrun
  | some ss =>
    have h := Reconcile_loaded env lib fuel cluster name ns reconcileNow options cj jobs ss
      hload hss
    rw [hrun] at h
    simp only [Option.some.injEq] at h
    subst h
    simp only [] at hok ⊢
    obtain ⟨herr, hafter⟩ := reconcileBody_requeueAfter env cluster ss cj jobs
      reconcileNow.toTime options hok
    cases hstate : StateFor lib fuel cj reconcileNow with
    | value s =>
      rw [hstate] at hss
      simp only [Ending.toExcept, Option.some.injEq] at hss
      subst hss
      exact ⟨s, rfl, herr, by rw [hafter, Time.Sub_eq_clamp]; rfl⟩
    | error msg =>
      rw [hstate] at hss
      simp only [Ending.toExcept, Option.some.injEq] at hss
      subst hss
      rw [makeDecision_schedule_error env (.error msg) cj jobs reconcileNow.toTime
        options.EnableAutoRecreateJobsOnSpecChange (DecisionError.failedToCalculateSchedule msg)
        rfl] at herr
      simp at herr
    | panic => rw [hstate] at hss; simp [Ending.toExcept] at hss
    | unfinished => rw [hstate] at hss; simp [Ending.toExcept] at hss

set_option maxRecDepth 100000 in
/-- C26, the claim as stated fails. For the suspended example ControlledJob inside its run
period `makeDecision` succeeds and the schedule has a next event (the stop at 17:00), yet
`RequeueAt` is the zero time. And the reconcile of the ControlledJob without events at
2022-12-12T12:12:00Z succeeds with `RequeueAt` the zero time (there is no next event), but it
returns the least Duration, which is not the zero time minus `now` (a span of more than 2000
years does not fit a Duration). -/
theorem requeue_at_next_event_counterexample :
    ((makeDecision exampleEnv insideRunPeriod suspendedControlledJob [] exampleNow false).err =
        none ∧
      (∃ s, insideRunPeriod = .ok s ∧ s.NextEventTime = some exampleNextStop) ∧
      (makeDecision exampleEnv insideRunPeriod suspendedControlledJob [] exampleNow
        false).decision.RequeueAt = Time.zero ∧
      Time.zero ≠ exampleNextStop) ∧
    ∃ run s,
      Reconcile exampleEnv exampleLib 200 idleCluster "basic-job" "default" exampleNoon
        defaultOptions = some run ∧
      run.result.error = none ∧
      StateFor exampleLib 200 idleControlledJob exampleNoon = .value s ∧
      s.NextEventTime = none ∧
      (makeDecision exampleEnv (.ok s) idleControlledJob [] exampleNoon.toTime
        defaultOptions.EnableAutoRecreateJobsOnSpecChange).decision.RequeueAt = Time.zero ∧
      run.result.requeueAfter = -9223372036854775808 ∧
      Time.zero.unixNano - exampleNoon.unixNano = -63806443920000000000 :=
  ⟨⟨by decide, ⟨_, rfl, rfl⟩, by decide, by decide⟩,
    _, _, by rfl, by rfl, by rfl, by rfl, by rfl, by rfl, by rfl⟩

set_option maxRecDepth 100000 in
/-- C26 at work: the example ControlledJob at 2022-12-12T12:12:00Z with no Job. The decision
requeues at the stop event of 17:00, and the reconcile returns 4 h 48 min. -/
theorem requeue_at_next_event_witness :
    ∃ run,
      (makeDecision exampleEnv insideRunPeriod exampleControlledJob [] exampleNow false).err =
        none ∧
      loadFromCluster quietCluster "basic-job" "default" =
        some (some exampleControlledJob, [], none) ∧
      Reconcile exampleEnv exampleLib 200 quietCluster "basic-job" "default" exampleNoon
        defaultOptions = some run ∧
      run.result.error = none ∧
      (∃ s, insideRunPeriod = .ok s ∧
        (makeDecision exampleEnv insideRunPeriod exampleControlledJob [] exampleNow
          false).decision.RequeueAt =
          (if exampleControlledJob.spec.suspend = some true then Time.zero
            else s.NextEventTime.getD Time.zero)) ∧
      ∃ s, StateFor exampleLib 200 exampleControlledJob exampleNoon = .value s ∧
        (makeDecision exampleEnv (.ok s) exampleControlledJob [] exampleNoon.toTime
          defaultOptions.EnableAutoRecreateJobsOnSpecChange).err = none ∧
        run.result.requeueAfter =
          clampDuration
            ((makeDecision exampleEnv (.ok s) exampleControlledJob [] exampleNoon.toTime
                defaultOptions.EnableAutoRecreateJobsOnSpecChange).decision.RequeueAt.unixNano -
              exampleNoon.unixNano) :=
  ⟨_, by decide, by rfl, by rfl, by rfl,
    (requeue_at_next_event exampleEnv insideRunPeriod exampleControlledJob [] exampleNow false
      exampleLib 200 quietCluster "basic-job" "default" exampleNoon defaultOptions).1 (by decide),
    (requeue_at_next_event exampleEnv insideRunPeriod exampleControlledJob [] exampleNow false
      exampleLib 200 quietCluster "basic-job" "default" exampleNoon defaultOptions).2 (by rfl) _ (by rfl)
      (by rfl)⟩

/-! ## The last write to a condition -/

theorem FindCondition_applyWrites_none (env : Env) (nf : Option Time)
    (t : ControlledJobConditionType) :
    ∀ (ws : List StatusWrite) (cj : ControlledJob), lastConditionWrite t ws = none →
      FindCondition (applyWrites env nf cj ws).status t = FindCondition cj.status t
  | [], _, _ => rfl
  | w :: ws, cj, h => by
    simp only [lastConditionWrite] at h
    cases hl : lastConditionWrite t ws with
    | some v => rw [hl] at h; simp at h
    | none =>
      rw [hl] at h
      rw [applyWrites_cons, FindCondition_applyWrites_none env nf t ws _ hl]
      cases w with
      | condition t2 s2 r2 m2 =>
        by_cases ht : t2 = t
        · simp [conditionWriteOf, ht] at h
        · exact FindCondition_SetCondition_other env cj t2 t s2 r2 m2 (fun e => ht e.symm)
      | record ty msg jn => exact FindCondition_congr (RecordEvent_status_fields cj _).2.2.2.2.2 t
      | _ => rfl

/-- The condition of type `t` after a list of writes is what the last write to it says. -/
theorem FindCondition_applyWrites_last (env : Env) (nf : Option Time)
    (t : ControlledJobConditionType) (s : ConditionStatus) (r m : String) :
    ∀ (ws : List StatusWrite) (cj : ControlledJob), lastConditionWrite t ws = some (s, r, m) →
      ∃ c, FindCondition (applyWrites env nf cj ws).status t = some c ∧ c.status = s ∧
        c.reason = r ∧ c.message = m
  | [], _, h => by simp [lastConditionWrite] at h
  | w :: ws, cj, h => by
    simp only [lastConditionWrite] at h
    rw [applyWrites_cons]
    cases hl : lastConditionWrite t ws with
    | some v =>
      rw [hl] at h
      have hv : v = (s, r, m) := by simpa using h
      exact FindCondition_applyWrites_last env nf t s r m ws _ (hv ▸ hl)
    | none =>
      rw [hl] at h
      rw [FindCondition_applyWrites_none env nf t ws _ hl]
      cases w with
      | condition t2 s2 r2 m2 =>
        by_cases ht : t2 = t
        · simp only [Option.orElse, conditionWriteOf, ht, if_true, Option.some.injEq,
            Prod.mk.injEq] at h
          obtain ⟨h1, h2, h3⟩ := h
          subst ht h1 h2 h3
          obtain ⟨c, hc, hs, hr, hm, -⟩ := FindCondition_SetCondition_same env cj t2 s2 r2 m2
          exact ⟨c, hc, hs, hr, hm⟩
        · simp [conditionWriteOf, ht] at h
      | _ => simp [conditionWriteOf] at h

theorem lastConditionWrite_append (t : ControlledJobConditionType) (ws2 : List StatusWrite) :
    ∀ ws1 : List StatusWrite, lastConditionWrite t (ws1 ++ ws2) =
      (lastConditionWrite t ws2).orElse (fun _ => lastConditionWrite t ws1)
  | [] => by
    cases h : lastConditionWrite t ws2 <;> simp [h, lastConditionWrite]
  | w :: ws1 => by
    rw [List.cons_append]
    simp only [lastConditionWrite]
    rw [lastConditionWrite_append t ws2 ws1]
    cases h : lastConditionWrite t ws2 <;> simp

theorem lastConditionWrite_of_keys (t : ControlledJobConditionType) :
    ∀ ws : List StatusWrite, "condition " ++ t ∉ ws.map StatusWrite.key →
      lastConditionWrite t ws = none
  | [], _ => rfl
  | w :: ws, h => by
    rw [List.map_cons, List.mem_cons, not_or] at h
    simp only [lastConditionWrite]
    rw [lastConditionWrite_of_keys t ws h.2]
    cases w with
    | condition t2 s2 r2 m2 =>
      by_cases ht : t2 = t
      · exact absurd (by rw [ht]; rfl) h.1
      · simp [conditionWriteOf, ht]
    | _ => rfl

/-! ## The derived flags -/

/-- The status handed to `UpdateStatus` is what `calculateOverallConditions` leaves. -/
theorem written_is_overall (env : Env) (lib : CronLib) (fuel : Nat) (cluster : Cluster)
    (name ns : String) (now : ZonedTime) (options : ReconcileOptions) (run : ReconcileRun)
    (written : ControlledJob)
    (hrun : Reconcile env lib fuel cluster name ns now options = some run)
    (hw : run.statusWritten = some written) :
    ∃ cj jobs ss, loadFromCluster cluster name ns = some (some cj, jobs, none) ∧
      (StateFor lib fuel cj now).toExcept = some ss ∧
      run.result = (reconcileBody env cluster ss cj jobs now.toTime options).2 ∧
      written = calculateOverallConditions env
        (reconcileBody env cluster ss cj jobs now.toTime options).1.controlledJob
        (reconcileBody env cluster ss cj jobs now.toTime options).1.err := by
  obtain ⟨cj, jobs, ss, hload, hss⟩ := loaded_of_written env lib fuel cluster name ns now options
    run written hrun hw
  have h := Reconcile_loaded env lib fuel cluster name ns now options cj jobs ss hload hss
  rw [hrun] at h
  simp only [Option.some.injEq] at h
  subst h
  simp only [Option.some.injEq] at hw
  exact ⟨cj, jobs, ss, hload, hss, rfl, hw.symm⟩

/-! ## The condition `JobExists` -/

/-- The first loop of `makeDecision` finds a job to record the conditions against exactly when
some Job has a run id that can be read. -/
theorem scanRunIds_job_foldl (state : State) :
    ∀ (jobs : List JobRef) (acc : RunIdScan),
      (jobs.foldl (scanRunIdStep state) acc).jobToRecordMetricsAgainst.isSome =
        (acc.jobToRecordMetricsAgainst.isSome || jobs.any (fun j => (GetJobRunId j.job).isSome))
  | [], acc => by simp
  | x :: xs, acc => by
    rw [List.foldl_cons, scanRunIds_job_foldl state xs, List.any_cons]
    cases hx : GetJobRunId x.job with
    | none => simp [scanRunIdStep, hx]
    | some v =>
      have : (scanRunIdStep state acc x).jobToRecordMetricsAgainst.isSome = true := by
        simp only [scanRunIdStep, hx]
        cases acc.jobToRecordMetricsAgainst with
        | none => rfl
        | some current => simp only []; split <;> rfl
      rw [this]
      simp

theorem scanRunIds_job (state : State) (jobs : List JobRef) :
    (scanRunIds state jobs).jobToRecordMetricsAgainst.isSome =
      jobs.any (fun j => (GetJobRunId j.job).isSome) := by
  unfold scanRunIds
  rw [scanRunIds_job_foldl]
  rfl

theorem any_pointersFrom (p : Job → Bool) :
    ∀ (i : Nat) (jobs : List Job), (pointersFrom i jobs).any (fun j => p j.job) = jobs.any p
  | _, [] => rfl
  | i, j :: js => by
    simp only [pointersFrom, List.any_cons, any_pointersFrom p (i + 1) js]

/-- The last write of `setJobConditions` to `JobExists`. -/
theorem jobConditionWrites_last (job : Option JobRef) :
    lastConditionWrite ConditionTypeJobExists (jobConditionWrites job) =
      some (if job.isSome then (ConditionTrue, "JobExists", "At least one job exists")
        else (ConditionFalse, "NoCurrentJob", "No jobs")) := by
  cases job with
  | none => rfl
  | some ref =>
    unfold jobConditionWrites
    simp only [flagWrite]
    cases GetJobCondition ref.job JobComplete <;> cases GetJobCondition ref.job JobFailed <;>
      cases JobHasReadyStatus ref.job <;> cases IsJobRunning ref.job <;>
      cases IsJobSuspended ref.job <;> cases WasJobStoppedByTheUser ref.job <;> rfl

theorem loopWrites_last (cluster : Cluster) (kind : JobCallKind)
    (t : ControlledJobConditionType) (ht : kind.conditionType ≠ t) :
    ∀ jobs : List JobRef, lastConditionWrite t (loopWrites cluster kind jobs) = none
  | [] => rfl
  | job :: rest => by
    unfold loopWrites
    cases kind.call cluster job.job with
    | some e => simp [lastConditionWrite, conditionWriteOf, ht]
    | none =>
      show lastConditionWrite t (_ :: _ :: loopWrites cluster kind rest) = none
      simp only [lastConditionWrite]
      rw [loopWrites_last cluster kind t ht rest]
      simp [conditionWriteOf, ht]

theorem loopWritesFrom_last (run : RunState) (cluster : Cluster) (kind : JobCallKind)
    (t : ControlledJobConditionType) (ht : kind.conditionType ≠ t) (jobs : List JobRef) :
    lastConditionWrite t (loopWritesFrom run cluster kind jobs) = none := by
  unfold loopWritesFrom
  cases run.err with
  | some e => rfl
  | none => exact loopWrites_last cluster kind t ht jobs

/-- The last write of lines 105-169 of `Reconcile` to `JobExists`, for a ControlledJob that is
not suspended and a schedule state that was computed: it is the write of `setJobConditions`. -/
theorem bodyWrites_last (env : Env) (cluster : Cluster) (s : ScheduleState)
    (cj : ControlledJob) (jobs : List Job) (now : Time) (options : ReconcileOptions)
    (hns : cj.spec.suspend ≠ some true) :
    lastConditionWrite ConditionTypeJobExists
        (bodyWrites env cluster (.ok s) cj jobs now options) =
      some (if jobs.any (fun j => (GetJobRunId j).isSome)
        then (ConditionTrue, "JobExists", "At least one job exists")
        else (ConditionFalse, "NoCurrentJob", "No jobs")) := by
  cases hstate : buildState env (.ok s) cj jobs with
  | error e => simp [buildState] at hstate
  | ok state =>
    obtain ⟨_, -, hall, hsusp, -⟩ := buildState_ok hstate
    have hsus : state.IsSuspended = false := by
      rw [hsusp]
      cases hc : cj.spec.suspend with
      | none => rfl
      | some b =>
        cases b with
        | false => rfl
        | true => exact absurd hc hns
    have hloops : ∀ (run : RunState) (kind : JobCallKind) (l : List JobRef),
        lastConditionWrite ConditionTypeJobExists (loopWritesFrom run cluster kind l) = none :=
      fun run kind l => loopWritesFrom_last run cluster kind _ (by cases kind <;> decide) l
    have hdecide : ∀ (sbr restart : Bool) (maxId : Int) (l : Locals),
        lastConditionWrite ConditionTypeJobExists
          (decideWrites env state now sbr restart maxId l) = none := by
      intro sbr restart maxId l
      refine lastConditionWrite_of_keys _ _ (fun hmem => ?_)
      have := (decideWrites_keys env state now sbr restart maxId l).subset hmem
      revert this
      decide
    have hall2 : lastConditionWrite ConditionTypeJobExists (allJobsWrites state.AllJobs) =
        none :=
      lastConditionWrite_of_keys _ _ (by rw [allJobsWrites_keys]; decide)
    have hsbr : lastConditionWrite ConditionTypeJobExists (shouldBeRunningWrites state) =
        none :=
      lastConditionWrite_of_keys _ _ (by rw [shouldBeRunningWrites_keys]; decide)
    have hscan : (scanRunIds state state.AllJobs).jobToRecordMetricsAgainst.isSome =
        jobs.any (fun j => (GetJobRunId j).isSome) := by
      rw [scanRunIds_job, hall]
      exact any_pointersFrom (fun j => (GetJobRunId j).isSome) 0 jobs
    unfold bodyWrites
    simp only []
    rw [decisionWrites_not_suspended env (.ok s) cj jobs now
      options.EnableAutoRecreateJobsOnSpecChange state hstate hsus]
    rw [lastConditionWrite_append]
    have hdecision : lastConditionWrite ConditionTypeJobExists
        ([.isSuspended (some false),
            .lastScheduledStartTime state.StartOfCurrentRunPeriod] ++
          shouldBeRunningWrites state ++
          [.condition ConditionTypeSuspended ConditionFalse "NotSuspended"
            "IsSuspended flag not set"] ++
          allJobsWrites state.AllJobs ++
          jobConditionWrites (scanRunIds state state.AllJobs).jobToRecordMetricsAgainst ++
          [.active (classifyJobs env state state.AllJobs).active] ++
        decideWrites env state now (shouldBeRunningOf state)
          (options.EnableAutoRecreateJobsOnSpecChange && state.AutoRestartIsEnabled)
          (scanRunIds state state.AllJobs).maxJobRunId
          { controlledJob := cj, decision := Decision.zero,
            chosenJob := (classifyJobs env state state.AllJobs).chosenJob,
            numberOfPotentiallyRunningJobs :=
              (classifyJobs env state state.AllJobs).numberOfPotentiallyRunningJobs,
            expiredJobs := (classifyJobs env state state.AllJobs).expiredJobs,
            nonExpiredJobs := (classifyJobs env state state.AllJobs).nonExpiredJobs } ++
        [.isRunning (some (decideForJobs env state now (shouldBeRunningOf state)
          (options.EnableAutoRecreateJobsOnSpecChange && state.AutoRestartIsEnabled)
          (scanRunIds state state.AllJobs).maxJobRunId
          { controlledJob := cj, decision := Decision.zero,
            chosenJob := (classifyJobs env state state.AllJobs).chosenJob,
            numberOfPotentiallyRunningJobs :=
              (classifyJobs env state state.AllJobs).numberOfPotentiallyRunningJobs,
            expiredJobs := (classifyJobs env state state.AllJobs).expiredJobs,
            nonExpiredJobs :=
              (classifyJobs env state state.AllJobs).nonExpiredJobs }).chosenJob.isSome)]) =
        some (if jobs.any (fun j => (GetJobRunId j).isSome)
          then (ConditionTrue, "JobExists", "At least one job exists")
          else (ConditionFalse, "NoCurrentJob", "No jobs")) := by
      simp only [lastConditionWrite_append, hdecide, jobConditionWrites_last, hscan]
      rfl
    rw [hdecision]
    cases (makeDecision env (.ok s) cj jobs now
        options.EnableAutoRecreateJobsOnSpecChange).err with
    | some e => rfl
    | none =>
      simp only [lastConditionWrite_append, hloops]
      rfl

/-- The condition `JobExists` in the status that a reconcile hands to `UpdateStatus`, for a
ControlledJob that is not suspended and whose schedule state was computed: it is True when some
child has a run id that can be read, and False when none has. -/
theorem written_JobExists (env : Env) (cluster : Cluster) (s : ScheduleState)
    (cj : ControlledJob) (jobs : List Job) (now : Time) (options : ReconcileOptions)
    (hns : cj.spec.suspend ≠ some true) :
    ∃ c, FindCondition (calculateOverallConditions env
          (reconcileBody env cluster (.ok s) cj jobs now options).1.controlledJob
          (reconcileBody env cluster (.ok s) cj jobs now options).1.err).status
        ConditionTypeJobExists = some c ∧
      c.status = (if jobs.any (fun j => (GetJobRunId j).isSome) then ConditionTrue
        else ConditionFalse) := by
  have hbody := reconcileBody_eq_writes env cluster cluster (.ok s) cj jobs now options
    env.timeNow cj (sameButStatus_refl cj) (fun _ _ => rfl)
  rw [atTime_timeNow] at hbody
  have hcj : (reconcileBody env cluster (.ok s) cj jobs now options).1.controlledJob =
      applyWrites env cluster.nowFunc cj (bodyWrites env cluster (.ok s) cj jobs now options) := by
    rw [hbody]
  rw [calculateOverallConditions_eq_writes env cluster.nowFunc,
    FindCondition_applyWrites_other env cluster.nowFunc ConditionTypeJobExists _ _
      (by rw [overallWrites_keys]; decide), hcj]
  have hlast := bodyWrites_last env cluster s cj jobs now options hns
  by_cases hany : jobs.any (fun j => (GetJobRunId j).isSome) = true
  · rw [if_pos hany] at hlast ⊢
    obtain ⟨c, hc, hs, -⟩ := FindCondition_applyWrites_last env cluster.nowFunc _ _ _ _ _ cj hlast
    exact ⟨c, hc, hs⟩
  · rw [if_neg hany] at hlast ⊢
    obtain ⟨c, hc, hs, -⟩ := FindCondition_applyWrites_last env cluster.nowFunc _ _ _ _ _ cj hlast
    exact ⟨c, hc, hs⟩

/-! ## C28: the condition `JobExists` -/

/-- C28, amended. A reconcile that has loaded a ControlledJob that is not suspended, and for
which the schedule state is computed, hands a status to `UpdateStatus`; in it the condition
`JobExists` is True if some child Job has a `job-run-id` annotation that can be read and is not
being deleted, and it is False if no child Job has a `job-run-id` annotation that can be
read. -/
theorem job_exists_condition (env : Env) (lib : CronLib) (fuel : Nat) (cluster : Cluster)
    (name ns : String) (now : ZonedTime) (options : ReconcileOptions) (cj : ControlledJob)
    (jobs : List Job) (s : ScheduleState)
    (hload : loadFromCluster cluster name ns = some (some cj, jobs, none))
    (hstate : StateFor lib fuel cj now = .value s)
    (hns : cj.spec.suspend ≠ some true) :
    ∃ run written,
      Reconcile env lib fuel cluster name ns now options = some run ∧
      run.statusWritten = some written ∧
      ((∃ j ∈ jobs, (GetJobRunId j).isSome = true ∧ IsJobBeingDeleted j = false) →
        ∃ c, FindCondition written.status ConditionTypeJobExists = some c ∧
          c.status = ConditionTrue) ∧
      ((∀ j ∈ jobs, GetJobRunId j = none) →
        ∃ c, FindCondition written.status ConditionTypeJobExists = some c ∧
          c.status = ConditionFalse) := by
  have hss : (StateFor lib fuel cj now).toExcept = some (.ok s) := by rw [hstate]; rfl
  refine ⟨_, _, Reconcile_loaded env lib fuel cluster name ns now options cj jobs (.ok s) hload
    hss, rfl, ?_, ?_⟩
  · rintro ⟨j, hj, hid, -⟩
    obtain ⟨c, hc, hs⟩ := written_JobExists env cluster s cj jobs now.toTime options hns
    have hany : jobs.any (fun j => (GetJobRunId j).isSome) = true :=
      List.any_eq_true.mpr ⟨j, hj, hid⟩
    rw [if_pos hany] at hs
    exact ⟨c, hc, hs⟩
  · intro hnone
    obtain ⟨c, hc, hs⟩ := written_JobExists env cluster s cj jobs now.toTime options hns
    have hany : ¬ jobs.any (fun j => (GetJobRunId j).isSome) = true := by
      intro h
      obtain ⟨j, hj, hid⟩ := List.any_eq_true.mp h
      rw [hnone j hj] at hid
      simp at hid
    rw [if_neg hany] at hs
    exact ⟨c, hc, hs⟩

set_option maxRecDepth 100000 in
/-- C28, the claim as stated fails. The example ControlledJob (not suspended) has one child,
which is not being deleted but carries no `job-run-id` annotation: after the reconcile
`JobExists` is False. And the example ControlledJob with the start event `I AM INVALID` and an
empty status has no child: after the reconcile, which fails to compute the schedule, the status
has no condition `JobExists` at all, neither True nor False. -/
theorem job_exists_condition_counterexample :
    (∃ run written,
      Reconcile exampleEnv exampleLib 200 unnumberedCluster "basic-job" "default" exampleNoon
        defaultOptions = some run ∧
      loadFromCluster unnumberedCluster "basic-job" "default" =
        some (some exampleControlledJob, [unnumberedJob], none) ∧
      exampleControlledJob.spec.suspend ≠ some true ∧
      IsJobBeingDeleted unnumberedJob = false ∧
      run.statusWritten = some written ∧
      (FindCondition written.status ConditionTypeJobExists).map (fun c => c.status) =
        some ConditionFalse) ∧
    ∃ run written,
      Reconcile exampleEnv exampleLib 200 invalidCluster "basic-job" "default" exampleNoon
        defaultOptions = some run ∧
      loadFromCluster invalidCluster "basic-job" "default" =
        some (some (withEvents [invalidStart]), [], none) ∧
      (withEvents [invalidStart]).spec.suspend ≠ some true ∧
      run.statusWritten = some written ∧
      FindCondition written.status ConditionTypeJobExists = none :=
  ⟨⟨_, _, by rfl, by rfl, by decide, by rfl, by rfl, by rfl⟩,
    _, _, by rfl, by rfl, by decide, by rfl, by rfl⟩

set_option maxRecDepth 100000 in
/-- The example ControlledJob (not suspended) with one child, which is being deleted: after the
reconcile `JobExists` is True, with the reason `JobExists`. The first loop of `makeDecision`
takes any child with a readable run id as the job to record the conditions against, and
`setJobConditions` does not look at its deletion timestamp. -/
theorem JobExists_while_being_deleted :
    ∃ run written,
      Reconcile exampleEnv exampleLib 200 deletingCluster "basic-job" "default" exampleNoon
        defaultOptions = some run ∧
      loadFromCluster deletingCluster "basic-job" "default" =
        some (some exampleControlledJob, [beingDeletedJob], none) ∧
      IsJobBeingDeleted beingDeletedJob = true ∧
      run.statusWritten = some written ∧
      (FindCondition written.status ConditionTypeJobExists).map (fun c => (c.status, c.reason)) =
        some (ConditionTrue, "JobExists") :=
  ⟨_, _, by rfl, by rfl, by rfl, by rfl, by rfl⟩

set_option maxRecDepth 100000 in
/-- C28 at work: the example ControlledJob at 2022-12-12T12:12:00Z with yesterday's Job, which
has the run id 0 and is not being deleted. -/
theorem job_exists_condition_witness :
    ∃ s,
      loadFromCluster busyCluster "basic-job" "default" =
        some (some exampleControlledJob, [yesterdaysJob], none) ∧
      StateFor exampleLib 200 exampleControlledJob exampleNoon = .value s ∧
      exampleControlledJob.spec.suspend ≠ some true ∧
      (∃ j ∈ [yesterdaysJob], (GetJobRunId j).isSome = true ∧ IsJobBeingDeleted j = false) ∧
      ∃ run written,
        Reconcile exampleEnv exampleLib 200 busyCluster "basic-job" "default" exampleNoon
          defaultOptions = some run ∧
        run.statusWritten = some written ∧
        ((∃ j ∈ [yesterdaysJob], (GetJobRunId j).isSome = true ∧ IsJobBeingDeleted j = false) →
          ∃ c, FindCondition written.status ConditionTypeJobExists = some c ∧
            c.status = ConditionTrue) ∧
        ((∀ j ∈ [yesterdaysJob], GetJobRunId j = none) →
          ∃ c, FindCondition written.status ConditionTypeJobExists = some c ∧
            c.status = ConditionFalse) :=
  ⟨_, by rfl, by rfl, by decide, ⟨yesterdaysJob, List.mem_singleton.mpr rfl, by rfl, by rfl⟩,
    job_exists_condition exampleEnv exampleLib 200 busyCluster "basic-job" "default" exampleNoon
      defaultOptions exampleControlledJob [yesterdaysJob] _ (by rfl) (by rfl) (by decide)⟩

/-! ## C29: what `SetCondition` changes -/

theorem filter_updateFirst_other (new : Condition) :
    ∀ cs : List Condition,
      (updateFirst new cs).filter (fun c => c.type != new.type) =
        cs.filter (fun c => c.type != new.type)
  | [] => rfl
  | c :: cs => by
    by_cases hc : c.type = new.type
    · have hb : (c.type == new.type) = true := by simp [hc]
      have hu : ((updateCondition c new).type != new.type) = false := by
        simp [updateCondition_type, hc]
      have hn : (c.type != new.type) = false := by simp [hc]
      simp only [updateFirst, hb, if_true, List.filter_cons, hu, hn, Bool.false_eq_true,
        if_false]
    · have hb : (c.type == new.type) = false := by simp [hc]
      have hn : (c.type != new.type) = true := by simp [hc]
      simp only [updateFirst, hb, Bool.false_eq_true, if_false, List.filter_cons, hn, if_true]
      rw [filter_updateFirst_other new cs]

theorem filter_type_absent (t : String) :
    ∀ cs : List Condition, t ∉ cs.map (fun c => c.type) →
      cs.filter (fun c => c.type == t) = []
  | [], _ => rfl
  | c :: cs, h => by
    rw [List.map_cons, List.mem_cons, not_or] at h
    have hb : (c.type == t) = false := by
      simp only [beq_eq_false_iff_ne, ne_eq]
      exact fun e => h.1 e.symm
    simp only [List.filter_cons, hb, Bool.false_eq_true, if_false]
    exact filter_type_absent t cs h.2

theorem find_none_type_absent (t : String) :
    ∀ cs : List Condition, cs.find? (fun c => c.type == t) = none →
      t ∉ cs.map (fun c => c.type)
  | [], _ => by simp
  | c :: cs, h => by
    rw [List.find?_cons] at h
    by_cases hc : c.type = t
    · simp [hc] at h
    · have hb : (c.type == t) = false := by simp [hc]
      rw [hb] at h
      rw [List.map_cons, List.mem_cons, not_or]
      exact ⟨fun e => hc e.symm, find_none_type_absent t cs h⟩

theorem filter_updateFirst_same (new : Condition) :
    ∀ (cs : List Condition) (old : Condition), (cs.map (fun c => c.type)).Nodup →
      cs.find? (fun c => c.type == new.type) = some old →
      (updateFirst new cs).filter (fun c => c.type == new.type) = [updateCondition old new]
  | [], _, _, h => by simp at h
  | c :: cs, old, hd, h => by
    rw [List.map_cons, List.nodup_cons] at hd
    rw [List.find?_cons] at h
    by_cases hc : c.type = new.type
    · have hb : (c.type == new.type) = true := by simp [hc]
      rw [hb] at h
      have hold : c = old := by simpa using h
      subst hold
      have hu : ((updateCondition c new).type == new.type) = true := by
        simp [updateCondition_type, hc]
      simp only [updateFirst, hb, if_true, List.filter_cons, hu]
      rw [filter_type_absent new.type cs (hc ▸ hd.1)]
    · have hb : (c.type == new.type) = false := by simp [hc]
      rw [hb] at h
      simp only [updateFirst, hb, Bool.false_eq_true, if_false, List.filter_cons]
      exact filter_updateFirst_same new cs old hd.2 h

theorem updateCondition_lastTransitionTime (old new : Condition)
    (hs : old.status = new.status) (hz : old.lastTransitionTime.IsZero = false) :
    (updateCondition old new).lastTransitionTime = old.lastTransitionTime := by
  unfold updateCondition
  simp [hs, hz]

/-- C29: on a status whose condition types are distinct, `SetCondition(cj, T, status, reason,
message)` leaves exactly one condition of type `T`, and it carries the given status, reason and
message; if there was a condition of type `T` with the same status and a recorded (non-zero)
transition time, the transition time is the one it had; and the conditions of the other types
are the same as before, in the same order. -/
theorem set_condition_frame (env : Env) (cj : ControlledJob) (T : ControlledJobConditionType)
    (status : ConditionStatus) (reason message : String)
    (hdistinct : (cj.status.conditions.map (fun c => c.type)).Nodup) :
    (∃ c, (SetCondition env cj T status reason message).status.conditions.filter
          (fun c => c.type == T) = [c] ∧
        c.status = status ∧ c.reason = reason ∧ c.message = message ∧
        ∀ old, FindCondition cj.status T = some old → old.status = status →
          old.lastTransitionTime.IsZero = false →
          c.lastTransitionTime = old.lastTransitionTime) ∧
    (SetCondition env cj T status reason message).status.conditions.filter
        (fun c => c.type != T) =
      cj.status.conditions.filter (fun c => c.type != T) := by
  unfold SetCondition
  cases h : FindCondition cj.status T with
  | none =>
    simp only [FindCondition] at h
    have habs := filter_type_absent T _ (find_none_type_absent T _ h)
    refine ⟨⟨{ type := T, status := status, lastTransitionTime := env.timeNow,
               observedGeneration := cj.generation, reason := reason, message := message },
             ?_, rfl, rfl, rfl, ?_⟩, ?_⟩
    · simp only [List.filter_append, habs, List.nil_append]
      simp
    · intro old ho
      simp at ho
    · simp only [List.filter_append]
      simp
  | some old =>
    simp only [FindCondition] at h
    refine ⟨⟨_, filter_updateFirst_same
        { type := T, status := status, lastTransitionTime := env.timeNow,
          observedGeneration := cj.generation, reason := reason, message := message }
        cj.status.conditions old hdistinct h, rfl, rfl, rfl, ?_⟩, ?_⟩
    · intro old2 ho hs hz
      have : old = old2 := by simpa using ho
      subst this
      exact updateCondition_lastTransitionTime _ _ hs hz
    · exact filter_updateFirst_other
        { type := T, status := status, lastTransitionTime := env.timeNow,
          observedGeneration := cj.generation, reason := reason, message := message }
        cj.status.conditions

set_option maxRecDepth 100000 in
/-- The frame of `SetCondition` on the status that `makeDecision` leaves on the example
ControlledJob, for a condition that is there (`JobExists`) with another status. -/
theorem set_condition_frame_witness :
    (decidedControlledJob.status.conditions.map (fun c => c.type)).Nodup ∧
    ((∃ c, (SetCondition exampleEnv decidedControlledJob ConditionTypeJobExists ConditionFalse
          "NoCurrentJob" "No jobs").status.conditions.filter
          (fun c => c.type == ConditionTypeJobExists) = [c] ∧
        c.status = ConditionFalse ∧ c.reason = "NoCurrentJob" ∧ c.message = "No jobs" ∧
        ∀ old, FindCondition decidedControlledJob.status ConditionTypeJobExists = some old →
          old.status = ConditionFalse → old.lastTransitionTime.IsZero = false →
          c.lastTransitionTime = old.lastTransitionTime) ∧
      (SetCondition exampleEnv decidedControlledJob ConditionTypeJobExists ConditionFalse
          "NoCurrentJob" "No jobs").status.conditions.filter
          (fun c => c.type != ConditionTypeJobExists) =
        decidedControlledJob.status.conditions.filter
          (fun c => c.type != ConditionTypeJobExists)) :=
  ⟨by decide, set_condition_frame exampleEnv decidedControlledJob ConditionTypeJobExists
    ConditionFalse "NoCurrentJob" "No jobs" (by decide)⟩

/-! ## C30: the action history -/

theorem take_min_length {α : Type} (l : List α) (k : Nat) : l.take (min l.length k) = l.take k := by
  by_cases h : l.length ≤ k
  · rw [Nat.min_eq_left h, List.take_length, List.take_of_length_le h]
  · rw [Nat.min_eq_right (Nat.le_of_lt (Nat.lt_of_not_le h))]

/-- One append keeps the first sixteen of the new entry followed by the previous entries. -/
theorem addActionHistoryEntry_history (cj : ControlledJob)
    (e : ControlledJobActionHistoryEntry) :
    (addActionHistoryEntry cj e).status.actionHistory = (e :: cj.status.actionHistory).take 16 := by
  show e :: cj.status.actionHistory.take (min cj.status.actionHistory.length 15) = _
  rw [take_min_length]
  rfl

/-- A sequence of appends keeps the first sixteen of the appended entries, newest first,
followed by the previous entries. -/
theorem appends_history :
    ∀ (es : List ControlledJobActionHistoryEntry) (e : ControlledJobActionHistoryEntry)
      (cj : ControlledJob),
      ((e :: es).foldl addActionHistoryEntry cj).status.actionHistory =
        ((e :: es).reverse ++ cj.status.actionHistory).take 16
  | [], e, cj => addActionHistoryEntry_history cj e
  | e2 :: es, e, cj => by
    rw [List.foldl_cons, appends_history es e2 (addActionHistoryEntry cj e),
      addActionHistoryEntry_history]
    have hrev : (e :: e2 :: es).reverse = (e2 :: es).reverse ++ [e] :=
      List.reverse_cons e (e2 :: es)
    rw [hrev, List.append_assoc, List.singleton_append]
    generalize (e2 :: es).reverse = r
    generalize e :: cj.status.actionHistory = old
    by_cases h : 16 ≤ r.length
    · rw [List.take_append_of_le_length h, List.take_append_of_le_length h]
    · have h2 : r.length ≤ 16 := Nat.le_of_lt (Nat.lt_of_not_le h)
      rw [List.take_append_eq_append_take, List.take_append_eq_append_take,
        List.take_take, Nat.min_eq_left (Nat.sub_le _ _)]

/-- Whatever is recorded, whether duplicates are ignored or not, the history does not grow
beyond sixteen entries (or beyond its length at the start, if that was greater). -/
theorem records_history_length :
    ∀ (es : List (ControlledJobActionHistoryEntry × Bool)) (cj : ControlledJob),
      (es.foldl (fun c p => addActionHistoryEntryImpl c p.1 p.2) cj).status.actionHistory.length ≤
        max 16 cj.status.actionHistory.length
  | [], cj => Nat.le_max_right _ _
  | p :: es, cj => by
    rw [List.foldl_cons]
    refine (records_history_length es _).trans ?_
    unfold addActionHistoryEntryImpl
    split
    · exact Nat.le_refl _
    · refine Nat.max_le.mpr ⟨Nat.le_max_left _ _, ?_⟩
      show (p.1 :: cj.status.actionHistory.take (min cj.status.actionHistory.length 15)).length ≤ _
      rw [take_min_length, List.length_cons, List.length_take]
      exact (Nat.succ_le_succ (Nat.min_le_left _ _)).trans (Nat.le_max_left _ _)

/-- C30: `addActionHistoryEntry` sets `MostRecentAction` to the new entry and makes
`ActionHistory` the new entry followed by the first min(n, 15) of the n previous entries in
their previous order. Hence after any sequence of one or more appends the history is the first
sixteen of: the appended entries, newest first, followed by the entries there were before; its
length is at most 16. -/
theorem action_history_bounded (cj : ControlledJob) (e : ControlledJobActionHistoryEntry)
    (es : List ControlledJobActionHistoryEntry) :
    (addActionHistoryEntry cj e).status.mostRecentAction = some e ∧
    (addActionHistoryEntry cj e).status.actionHistory =
      e :: cj.status.actionHistory.take (min cj.status.actionHistory.length 15) ∧
    ((e :: es).foldl addActionHistoryEntry cj).status.actionHistory =
      ((e :: es).reverse ++ cj.status.actionHistory).take 16 ∧
    ((e :: es).foldl addActionHistoryEntry cj).status.actionHistory.length ≤ 16 := by
  refine ⟨rfl, rfl, appends_history es e cj, ?_⟩
  rw [appends_history es e cj, List.length_take]
  exact Nat.min_le_left _ _

/-! ## C31: duplicate actions -/

theorem isSameAction_iff (existing proposed : ControlledJobActionHistoryEntry) :
    isSameAction (some existing) (some proposed) = true ↔ sameUpToTimestamp existing proposed := by
  unfold isSameAction sameUpToTimestamp
  simp only [decide_eq_true_eq]
  cases existing
  cases proposed
  simp only [ControlledJobActionHistoryEntry.mk.injEq, true_and]

/-- What `RecordEvent` keeps: the most recent action is the first entry of the history, and no
entry of the history is identical up to the timestamp to the entry that was recorded before
it. -/
theorem RecordEvent_keeps (cj : ControlledJob) (a : ControlledJobActionHistoryEntry)
    (hhead : cj.status.mostRecentAction = cj.status.actionHistory.head?)
    (hchain : cj.status.actionHistory.Chain' (fun newer older => ¬ sameUpToTimestamp older newer)) :
    (RecordEvent cj a).status.mostRecentAction = (RecordEvent cj a).status.actionHistory.head? ∧
    (RecordEvent cj a).status.actionHistory.Chain'
      (fun newer older => ¬ sameUpToTimestamp older newer) := by
  unfold RecordEvent addActionHistoryEntryIgnoringDuplicates addActionHistoryEntryImpl
  cases hs : isSameAction cj.status.mostRecentAction (some a) with
  | true => simpa using ⟨hhead, hchain⟩
  | false =>
    simp only [Bool.and_false, Bool.false_eq_true, if_false, prependAndTruncateIfNeeded,
      List.head?_cons, true_and]
    rw [take_min_length, List.chain'_cons']
    refine ⟨?_, hchain.take _⟩
    intro older holder hsame
    have hmem : older ∈ cj.status.actionHistory.head? := by
      cases hl : cj.status.actionHistory with
      | nil => rw [hl] at holder; simp at holder
      | cons x rest =>
        rw [hl] at holder
        have ht : List.take (HistoryEntriesToKeep - 1) (x :: rest) = x :: List.take 14 rest := rfl
        rw [ht] at holder
        simpa using holder
    rw [← hhead] at hmem
    have hmost : cj.status.mostRecentAction = some older := hmem
    rw [hmost] at hs
    rw [(isSameAction_iff older a).mpr hsame] at hs
    simp at hs

theorem RecordEvent_keeps_all :
    ∀ (actions : List ControlledJobActionHistoryEntry) (cj : ControlledJob),
      cj.status.mostRecentAction = cj.status.actionHistory.head? →
      cj.status.actionHistory.Chain' (fun newer older => ¬ sameUpToTimestamp older newer) →
      (actions.foldl RecordEvent cj).status.actionHistory.Chain'
        (fun newer older => ¬ sameUpToTimestamp older newer)
  | [], _, _, hchain => hchain
  | a :: rest, cj, hhead, hchain => by
    obtain ⟨h1, h2⟩ := RecordEvent_keeps cj a hhead hchain
    exact RecordEvent_keeps_all rest (RecordEvent cj a) h1 h2

/-- C31: recording through `RecordEvent` (that is, `addActionHistoryEntryIgnoringDuplicates`) an
action that equals the most recent action in every field except the timestamp leaves the
ControlledJob, and so `MostRecentAction` and `ActionHistory`, unchanged. And from a status with
no most recent action and an empty history, after any sequence of `RecordEvent` calls no entry
of the history is identical up to the timestamp to the entry next to it. -/
theorem duplicate_actions_collapse (cj : ControlledJob)
    (previous action : ControlledJobActionHistoryEntry)
    (actions : List ControlledJobActionHistoryEntry) :
    (cj.status.mostRecentAction = some previous → sameUpToTimestamp previous action →
      RecordEvent cj action = cj ∧
      addActionHistoryEntryIgnoringDuplicates cj action = cj) ∧
    (cj.status.mostRecentAction = none → cj.status.actionHistory = [] →
      (actions.foldl RecordEvent cj).status.actionHistory.Chain'
        (fun newer older => ¬ sameUpToTimestamp older newer)) := by
  constructor
  · intro hprev hsame
    have h : addActionHistoryEntryIgnoringDuplicates cj action = cj := by
      unfold addActionHistoryEntryIgnoringDuplicates addActionHistoryEntryImpl
      rw [hprev, (isSameAction_iff previous action).mpr hsame]
      rfl
    exact ⟨h, h⟩
  · intro hnone hnil
    refine RecordEvent_keeps_all actions cj ?_ ?_
    · rw [hnone, hnil]; rfl
    · rw [hnil]; exact List.chain'_nil

/-- C31 at work: on the example ControlledJob, whose status is empty, "JobStarted" is recorded
twice, one second apart, and then "JobStopped": the history holds "JobStopped" and the first
"JobStarted". -/
theorem duplicate_actions_collapse_witness :
    (exampleRecords.foldl RecordEvent exampleControlledJob).status.actionHistory.map
        (fun e => (e.type, e.timestamp)) =
      [("JobStopped", some (Time.ofUnix 1670847122)),
        ("JobStarted", some (Time.ofUnix 1670847120))] ∧
    (exampleRecords.foldl RecordEvent exampleControlledJob).status.actionHistory.Chain'
      (fun newer older => ¬ sameUpToTimestamp older newer) :=
  ⟨by rfl,
    (duplicate_actions_collapse exampleControlledJob
      (NewJobStartedAction none "") (NewJobStartedAction none "") exampleRecords).2 rfl rfl⟩

/-! ## C32: the order of the calls and the first failure -/

theorem untilFirstFailure_append_of_all (cluster : Cluster)
    (a b : List (JobCallKind × JobRef)) (h : a.all (callSucceeds cluster) = true) :
    untilFirstFailure cluster (a ++ b) = a ++ untilFirstFailure cluster b := by
  induction a with
  | nil => rfl
  | cons p rest ih =>
    simp only [List.all_cons, Bool.and_eq_true] at h
    have ih2 := ih h.2
    unfold untilFirstFailure at ih2 ⊢
    simp only [List.cons_append, List.takeWhile_cons, List.dropWhile_cons, h.1, if_true]
    rw [ih2]

theorem untilFirstFailure_append_of_not_all (cluster : Cluster)
    (a b : List (JobCallKind × JobRef)) (h : a.all (callSucceeds cluster) = false) :
    untilFirstFailure cluster (a ++ b) = untilFirstFailure cluster a := by
  induction a with
  | nil => simp at h
  | cons p rest ih =>
    cases hp : callSucceeds cluster p with
    | true =>
      simp only [List.all_cons, hp, Bool.true_and] at h
      have ih2 := ih h
      unfold untilFirstFailure at ih2 ⊢
      simp only [List.cons_append, List.takeWhile_cons, List.dropWhile_cons, hp, if_true]
      rw [ih2]
    | false =>
      unfold untilFirstFailure
      simp [List.takeWhile_cons, List.dropWhile_cons, hp]

theorem untilFirstFailure_of_all (cluster : Cluster) (a : List (JobCallKind × JobRef))
    (h : a.all (callSucceeds cluster) = true) : untilFirstFailure cluster a = a := by
  have := untilFirstFailure_append_of_all cluster a [] h
  simpa [untilFirstFailure] using this

/-- A loop of `Reconcile` that is entered without an error makes the calls for its Jobs up to
the first one that fails, and it ends without an error exactly when every call succeeds. -/
theorem jobLoop_run (env : Env) (cluster : Cluster) (kind : JobCallKind) :
    ∀ (jobs : List JobRef) (run : RunState), run.err = none →
      (jobLoop env cluster kind jobs run).calls =
        run.calls ++ (untilFirstFailure cluster (jobs.map (Prod.mk kind))).map
          (fun p => p.1.clusterCall p.2) ∧
      ((jobLoop env cluster kind jobs run).err = none ↔
        (jobs.map (Prod.mk kind)).all (callSucceeds cluster) = true)
  | [], run, h => by
    simp [jobLoop, untilFirstFailure, h]
  | job :: rest, run, h => by
    cases hc : kind.call cluster job.job with
    | some e =>
      have hs : callSucceeds cluster (kind, job) = false := by simp [callSucceeds, hc]
      simp [jobLoop, h, hc, untilFirstFailure, List.takeWhile_cons, List.dropWhile_cons, hs]
    | none =>
      have hs : callSucceeds cluster (kind, job) = true := by simp [callSucceeds, hc]
      obtain ⟨h1, h2⟩ := jobLoop_run env cluster kind rest
        { controlledJob := SetCondition env
            (RecordEvent run.controlledJob (kind.action cluster.nowFunc job.job.name))
            kind.conditionType kind.successStatus kind.successReason kind.successMessage,
          calls := run.calls ++ [kind.clusterCall job], err := none } rfl
      have hu : untilFirstFailure cluster ((kind, job) :: rest.map (Prod.mk kind)) =
          (kind, job) :: untilFirstFailure cluster (rest.map (Prod.mk kind)) :=
        untilFirstFailure_append_of_all cluster [(kind, job)] _ (by simp [hs])
      simp only [jobLoop, h, hc, List.map_cons, hu, List.all_cons, hs, Bool.true_and]
      refine ⟨?_, h2⟩
      rw [h1]
      simp

/-- Two loops of `Reconcile` in a row. -/
theorem jobLoop_then (env : Env) (cluster : Cluster) (kind : JobCallKind) (jobs : List JobRef)
    (run : RunState) (plan : List (JobCallKind × JobRef)) (calls : List ClusterCall)
    (hcalls : run.calls = calls ++ (untilFirstFailure cluster plan).map
      (fun p => p.1.clusterCall p.2))
    (herr : run.err = none ↔ plan.all (callSucceeds cluster) = true) :
    (jobLoop env cluster kind jobs run).calls =
      calls ++ (untilFirstFailure cluster (plan ++ jobs.map (Prod.mk kind))).map
        (fun p => p.1.clusterCall p.2) ∧
    ((jobLoop env cluster kind jobs run).err = none ↔
      (plan ++ jobs.map (Prod.mk kind)).all (callSucceeds cluster) = true) := by
  cases he : run.err with
  | some e =>
    have hna : plan.all (callSucceeds cluster) = false := by
      cases hall : plan.all (callSucceeds cluster) with
      | false => rfl
      | true => rw [herr.mpr hall] at he; simp at he
    rw [jobLoop_of_err env cluster kind jobs run e he,
      untilFirstFailure_append_of_not_all cluster _ _ hna]
    refine ⟨hcalls, ?_⟩
    simp [he, List.all_append, hna]
  | none =>
    have hall := herr.mp he
    obtain ⟨h1, h2⟩ := jobLoop_run env cluster kind jobs run he
    rw [untilFirstFailure_append_of_all cluster _ _ hall, h1, hcalls,
      untilFirstFailure_of_all cluster plan hall]
    refine ⟨by simp, ?_⟩
    rw [h2]
    simp [List.all_append, hall]

/-- Lines 105-169 of `Reconcile` after a decision without an error: the calls are those of the
plan up to the first one that fails, and the loops end without an error exactly when every
planned call succeeds. -/
theorem reconcileBody_run (env : Env) (cluster : Cluster)
    (scheduleState : Except String ScheduleState) (cj : ControlledJob) (childJobs : List Job)
    (now : Time) (options : ReconcileOptions)
    (hok : (makeDecision env scheduleState cj childJobs now
      options.EnableAutoRecreateJobsOnSpecChange).err = none) :
    (reconcileBody env cluster scheduleState cj childJobs now options).1.calls =
      (untilFirstFailure cluster (plannedCalls (makeDecision env scheduleState cj childJobs now
        options.EnableAutoRecreateJobsOnSpecChange).decision)).map
        (fun p => p.1.clusterCall p.2) ∧
    ((reconcileBody env cluster scheduleState cj childJobs now options).1.err = none ↔
      (plannedCalls (makeDecision env scheduleState cj childJobs now
        options.EnableAutoRecreateJobsOnSpecChange).decision).all (callSucceeds cluster) =
        true) ∧
    (reconcileBody env cluster scheduleState cj childJobs now options).2 =
      match (reconcileBody env cluster scheduleState cj childJobs now options).1.err with
      | some err => TransientErrorResult err
      | none =>
        { requeueAfter := (makeDecision env scheduleState cj childJobs now
            options.EnableAutoRecreateJobsOnSpecChange).decision.RequeueAt.Sub now,
          error := none } := by
  unfold reconcileBody plannedCalls
  simp only [hok]
  generalize makeDecision env scheduleState cj childJobs now
    options.EnableAutoRecreateJobsOnSpecChange = outcome
  have h0 := jobLoop_then env cluster .delete outcome.decision.JobsToDelete
    { controlledJob := outcome.controlledJob, calls := [], err := none } [] [] (by rfl)
    (by simp)
  have h1 := jobLoop_then env cluster .create outcome.decision.JobsToCreate _ _ [] h0.1 h0.2
  have h2 := jobLoop_then env cluster .suspend outcome.decision.JobsToSuspend _ _ [] h1.1 h1.2
  have h3 := jobLoop_then env cluster .unsuspend outcome.decision.JobsToUnsuspend _ _ [] h2.1
    h2.2
  simp only [List.nil_append] at h3
  generalize jobLoop env cluster .unsuspend outcome.decision.JobsToUnsuspend
    (jobLoop env cluster .suspend outcome.decision.JobsToSuspend
      (jobLoop env cluster .create outcome.decision.JobsToCreate
        (jobLoop env cluster .delete outcome.decision.JobsToDelete
          { controlledJob := outcome.controlledJob, calls := [], err := none }))) = r4 at h3 ⊢
  cases he : r4.err with
  | some e =>
    simp only [he] at h3 ⊢
    exact ⟨h3.1, h3.2, trivial⟩
  | none =>
    simp only [he] at h3 ⊢
    exact ⟨h3.1, h3.2, trivial⟩

/-- C32: after a decision without an error, `Reconcile` goes through the plan in the order
deletes, creates, suspends, unsuspends, and makes the calls up to the first one that fails; no
call for a Job follows it, only the status update does. If a planned call fails the result is a
retryable error, which `AsControllerResultAndError` hands to the runtime as an error that is
not nil; if none fails the result carries no error. -/
theorem plan_execution_order (env : Env) (lib : CronLib) (fuel : Nat) (cluster : Cluster)
    (name ns : String) (now : ZonedTime) (options : ReconcileOptions) (cj : ControlledJob)
    (jobs : List Job) (ss : Except String ScheduleState)
    (hload : loadFromCluster cluster name ns = some (some cj, jobs, none))
    (hss : (StateFor lib fuel cj now).toExcept = some ss)
    (hok : (makeDecision env ss cj jobs now.toTime
      options.EnableAutoRecreateJobsOnSpecChange).err = none) :
    ∃ run written,
      Reconcile env lib fuel cluster name ns now options = some run ∧
      run.calls =
        (untilFirstFailure cluster (plannedCalls (makeDecision env ss cj jobs now.toTime
          options.EnableAutoRecreateJobsOnSpecChange).decision)).map
          (fun p => p.1.clusterCall p.2) ++ [ClusterCall.updateStatus written] ∧
      ((plannedCalls (makeDecision env ss cj jobs now.toTime
          options.EnableAutoRecreateJobsOnSpecChange).decision).all (callSucceeds cluster) =
          false →
        ∃ err, run.result = TransientErrorResult err ∧
          run.result.AsControllerResultAndError = (0, some err)) ∧
      ((plannedCalls (makeDecision env ss cj jobs now.toTime
          options.EnableAutoRecreateJobsOnSpecChange).decision).all (callSucceeds cluster) =
          true →
        run.result.error = none) := by
  obtain ⟨hcalls, herr, hres⟩ := reconcileBody_run env cluster ss cj jobs now.toTime options hok
  refine ⟨_, calculateOverallConditions env
      (reconcileBody env cluster ss cj jobs now.toTime options).1.controlledJob
      (reconcileBody env cluster ss cj jobs now.toTime options).1.err,
    Reconcile_loaded env lib fuel cluster name ns now options cj jobs ss hload hss, ?_, ?_, ?_⟩
  · simp only [hcalls]
  · intro hfail
    cases he : (reconcileBody env cluster ss cj jobs now.toTime options).1.err with
    | none => rw [herr.mp he] at hfail; simp at hfail
    | some e =>
      refine ⟨e, ?_, ?_⟩
      · simp only [hres, he]
      · simp only [hres, he]
        rfl
  · intro hall
    simp only [hres, herr.mpr hall]

set_option maxRecDepth 100000 in
/-- C32 at work: the example ControlledJob at 2022-12-12T12:12:00Z with two Jobs of yesterday.
The plan is to delete both and to create today's Job; the first deletion succeeds and the
second fails. -/
theorem plan_execution_order_witness :
    ∃ ss,
      loadFromCluster flakyCluster "basic-job" "default" =
        some (some exampleControlledJob, [yesterdaysJob, yesterdaysOtherJob], none) ∧
      (StateFor exampleLib 200 exampleControlledJob exampleNoon).toExcept = some ss ∧
      (makeDecision exampleEnv ss exampleControlledJob [yesterdaysJob, yesterdaysOtherJob]
        exampleNoon.toTime defaultOptions.EnableAutoRecreateJobsOnSpecChange).err = none ∧
      ∃ run written,
        Reconcile exampleEnv exampleLib 200 flakyCluster "basic-job" "default" exampleNoon
          defaultOptions = some run ∧
        run.calls =
          (untilFirstFailure flakyCluster (plannedCalls (makeDecision exampleEnv ss
            exampleControlledJob [yesterdaysJob, yesterdaysOtherJob] exampleNoon.toTime
            defaultOptions.EnableAutoRecreateJobsOnSpecChange).decision)).map
            (fun p => p.1.clusterCall p.2) ++ [ClusterCall.updateStatus written] ∧
        ((plannedCalls (makeDecision exampleEnv ss exampleControlledJob
            [yesterdaysJob, yesterdaysOtherJob] exampleNoon.toTime
            defaultOptions.EnableAutoRecreateJobsOnSpecChange).decision).all
            (callSucceeds flakyCluster) = false →
          ∃ err, run.result = TransientErrorResult err ∧
            run.result.AsControllerResultAndError = (0, some err)) ∧
        ((plannedCalls (makeDecision exampleEnv ss exampleControlledJob
            [yesterdaysJob, yesterdaysOtherJob] exampleNoon.toTime
            defaultOptions.EnableAutoRecreateJobsOnSpecChange).decision).all
            (callSucceeds flakyCluster) = true →
          run.result.error = none) :=
  ⟨_, by rfl, by rfl, by rfl,
    plan_execution_order exampleEnv exampleLib 200 flakyCluster "basic-job" "default" exampleNoon
      defaultOptions exampleControlledJob [yesterdaysJob, yesterdaysOtherJob] _ (by rfl) (by rfl)
      (by rfl)⟩

set_option maxRecDepth 100000 in
/-- The reconcile of the example ControlledJob at 2022-12-12T12:12:00Z with two Jobs of
yesterday, of which the second cannot be deleted: three calls are planned (two deletions and
the creation of today's Job), the two deletions are made, and the Job is not created. -/
theorem first_failure_stops_the_plan :
    ∃ run ss,
      Reconcile exampleEnv exampleLib 200 flakyCluster "basic-job" "default" exampleNoon
        defaultOptions = some run ∧
      (StateFor exampleLib 200 exampleControlledJob exampleNoon).toExcept = some ss ∧
      (plannedCalls (makeDecision exampleEnv ss exampleControlledJob
        [yesterdaysJob, yesterdaysOtherJob] exampleNoon.toTime false).decision).map
        (fun p => (p.1, p.2.job.name)) =
        [(JobCallKind.delete, "basic-job-1670749200-0"),
          (JobCallKind.delete, "basic-job-1670749200-1"),
          (JobCallKind.create, "basic-job-1670835600-0")] ∧
      run.calls.filter ClusterCall.isJobCall =
        [ClusterCall.deleteJob { job := yesterdaysJob, ptr := JobPtr.child 0 },
          ClusterCall.deleteJob { job := yesterdaysOtherJob, ptr := JobPtr.child 1 }] ∧
      (run.result.AsControllerResultAndError).2.isSome = true :=
  ⟨_, _, by rfl, by rfl, by rfl, by rfl, by rfl⟩

/-! ## C33: a mutator that fails -/

/-- The builder fails only through the registered mutators: when `buildJob` returns an error,
the ControlledJob carries `apply-mutations=true` and `mutators.Apply` has failed with that error
on the assembled Job. -/
theorem buildJob_error (env : Env) (cj : ControlledJob) (scheduledTime : Time) (jobRunId : Int)
    (manual suspended : Bool) (e : String)
    (h : buildJob env cj scheduledTime jobRunId manual suspended = .error e) :
    mutationsRequested cj = true ∧
      mutatorsApply env (assembleJob env cj scheduledTime jobRunId manual suspended) =
        .error e := by
  unfold buildJob at h
  unfold mutationsRequested
  cases hf : cj.annotations.find ApplyMutationsAnnotation with
  | none => simp [hf] at h
  | some v =>
    simp only [hf] at h ⊢
    by_cases hv : (v.toList.map lowerASCII == "true".toList) = true
    · rw [if_pos hv] at h
      exact ⟨hv, h⟩
    · rw [if_neg hv] at h
      simp at h

theorem jobOf_clusterCall (kind kind2 : JobCallKind) (job : JobRef) :
    kind.jobOf (kind2.clusterCall job) = if kind = kind2 then some job else none := by
  cases kind <;> cases kind2 <;> rfl

theorem jobsCalled_loopCalls_other (cluster : Cluster) (kind kind2 : JobCallKind)
    (h : kind ≠ kind2) : ∀ jobs : List JobRef, jobsCalled kind (loopCalls cluster kind2 jobs) = []
  | [] => rfl
  | job :: rest => by
    unfold loopCalls
    cases kind2.call cluster job.job with
    | some e => simp [jobsCalled, jobOf_clusterCall, h]
    | none =>
      have ih := jobsCalled_loopCalls_other cluster kind kind2 h rest
      unfold jobsCalled at ih ⊢
      simp only [List.filterMap_cons, jobOf_clusterCall, if_neg h]
      exact ih

theorem jobsCalled_loopCallsFrom_other (run : RunState) (cluster : Cluster)
    (kind kind2 : JobCallKind) (h : kind ≠ kind2) (jobs : List JobRef) :
    jobsCalled kind (loopCallsFrom run cluster kind2 jobs) = [] := by
  unfold loopCallsFrom
  cases run.err with
  | some e => rfl
  | none => exact jobsCalled_loopCalls_other cluster kind kind2 h jobs

theorem jobsCalled_append (kind : JobCallKind) (a b : List ClusterCall) :
    jobsCalled kind (a ++ b) = jobsCalled kind a ++ jobsCalled kind b := by
  unfold jobsCalled
  exact List.filterMap_append _ _ _

/-- The last write of a loop of `Reconcile` to its condition. When the last call of the loop
failed it writes True; when the loop made a call and every call succeeded it is the write after
a success. -/
theorem loopWrites_own (cluster : Cluster) (kind : JobCallKind) :
    ∀ jobs : List JobRef,
      (∀ job e, (jobsCalled kind (loopCalls cluster kind jobs)).getLast? = some job →
        kind.call cluster job.job = some e →
        ∃ m, lastConditionWrite kind.conditionType (loopWrites cluster kind jobs) =
          some (ConditionTrue, kind.conditionType, m)) ∧
      (jobsCalled kind (loopCalls cluster kind jobs) ≠ [] →
        (∀ job ∈ jobsCalled kind (loopCalls cluster kind jobs), kind.call cluster job.job = none) →
        lastConditionWrite kind.conditionType (loopWrites cluster kind jobs) =
          some (kind.successStatus, kind.successReason, kind.successMessage))
  | [] => by
    refine ⟨fun job e h _ => ?_, fun h _ => ?_⟩
    · simp [loopCalls, jobsCalled] at h
    · simp [loopCalls, jobsCalled] at h
  | first :: rest => by
    obtain ⟨ihA, ihB⟩ := loopWrites_own cluster kind rest
    cases hc : kind.call cluster first.job with
    | some e1 =>
      have hcalls : jobsCalled kind (loopCalls cluster kind (first :: rest)) = [first] := by
        simp [loopCalls, hc, jobsCalled, jobOf_clusterCall]
      have hw : loopWrites cluster kind (first :: rest) =
          [.condition kind.conditionType ConditionTrue kind.conditionType
            (WrapError e1 kind.conditionType
              ("failed to " ++ kind.verb ++ " job " ++ first.job.name ++ " in namespace " ++
                first.job.ns)).text] := by
        simp [loopWrites, hc]
      rw [hcalls, hw]
      refine ⟨fun job e _ _ => ⟨(WrapError e1 kind.conditionType
          ("failed to " ++ kind.verb ++ " job " ++ first.job.name ++ " in namespace " ++
            first.job.ns)).text, by simp [lastConditionWrite, conditionWriteOf]⟩,
        fun _ hall => ?_⟩
      have := hall first (List.mem_singleton.mpr rfl)
      rw [hc] at this
      simp at this
    | none =>
      have hcalls : jobsCalled kind (loopCalls cluster kind (first :: rest)) =
          first :: jobsCalled kind (loopCalls cluster kind rest) := by
        simp [loopCalls, hc, jobsCalled, jobOf_clusterCall]
      have hw : loopWrites cluster kind (first :: rest) =
          [.record kind.actionType (kind.actionMessage first.job.name) first.job.name,
            .condition kind.conditionType kind.successStatus kind.successReason
              kind.successMessage] ++ loopWrites cluster kind rest := by
        simp [loopWrites, hc]
      have hfirst : lastConditionWrite kind.conditionType
          [.record kind.actionType (kind.actionMessage first.job.name) first.job.name,
            .condition kind.conditionType kind.successStatus kind.successReason
              kind.successMessage] =
          some (kind.successStatus, kind.successReason, kind.successMessage) := by
        simp [lastConditionWrite, conditionWriteOf]
      rw [hcalls, hw, lastConditionWrite_append, hfirst]
      cases hrest : jobsCalled kind (loopCalls cluster kind rest) with
      | nil =>
        have hnil : loopWrites cluster kind rest = [] := by
          cases rest with
          | nil => rfl
          | cons second more =>
            rw [show jobsCalled kind (loopCalls cluster kind (second :: more)) =
              second :: (jobsCalled kind (loopCalls cluster kind (second :: more))).tail from by
                unfold loopCalls
                cases kind.call cluster second.job <;>
                  simp [jobsCalled, jobOf_clusterCall]] at hrest
            simp at hrest
        rw [hnil]
        refine ⟨fun job e hlast hfail => ?_, fun _ _ => by simp [lastConditionWrite]⟩
        simp only [List.getLast?_singleton, Option.some.injEq] at hlast
        rw [← hlast, hc] at hfail
        simp at hfail
      | cons second more =>
        rw [hrest] at ihA ihB
        refine ⟨fun job e hlast hfail => ?_, fun _ hall => ?_⟩
        · rw [List.getLast?_cons_cons] at hlast
          obtain ⟨m, hm⟩ := ihA job e hlast hfail
          exact ⟨m, by rw [hm]; rfl⟩
        · rw [ihB (by simp) (fun job hj => hall job (List.mem_cons_of_mem _ hj))]
          rfl

theorem loopWritesFrom_own (run : RunState) (cluster : Cluster) (kind : JobCallKind)
    (jobs : List JobRef) :
    (∀ job e, (jobsCalled kind (loopCallsFrom run cluster kind jobs)).getLast? = some job →
      kind.call cluster job.job = some e →
      ∃ m, lastConditionWrite kind.conditionType (loopWritesFrom run cluster kind jobs) =
        some (ConditionTrue, kind.conditionType, m)) ∧
    (jobsCalled kind (loopCallsFrom run cluster kind jobs) ≠ [] →
      (∀ job ∈ jobsCalled kind (loopCallsFrom run cluster kind jobs),
        kind.call cluster job.job = none) →
      lastConditionWrite kind.conditionType (loopWritesFrom run cluster kind jobs) =
        some (kind.successStatus, kind.successReason, kind.successMessage)) := by
  unfold loopCallsFrom loopWritesFrom
  cases run.err with
  | some e =>
    refine ⟨fun job e h _ => ?_, fun h _ => ?_⟩
    · simp [jobsCalled] at h
    · simp [jobsCalled] at h
  | none => exact loopWrites_own cluster kind jobs

/-- In lines 105-169 of `Reconcile` the calls of a kind, and the last write to the condition of
that kind, are those of the loop of that kind. -/
theorem reconcileBody_kind (env : Env) (cluster : Cluster)
    (ss : Except String ScheduleState) (cj : ControlledJob) (jobs : List Job) (now : Time)
    (options : ReconcileOptions) (kind : JobCallKind) :
    ∃ (r : RunState) (l : List JobRef),
      jobsCalled kind (reconcileBody env cluster ss cj jobs now options).1.calls =
        jobsCalled kind (loopCallsFrom r cluster kind l) ∧
      lastConditionWrite kind.conditionType (bodyWrites env cluster ss cj jobs now options) =
        lastConditionWrite kind.conditionType (loopWritesFrom r cluster kind l) := by
  have hdec : lastConditionWrite kind.conditionType
      (decisionWrites env ss cj jobs now options.EnableAutoRecreateJobsOnSpecChange) = none := by
    refine lastConditionWrite_of_keys _ _ (fun hmem => ?_)
    have := (decisionWrites_keys env ss cj jobs now
      options.EnableAutoRecreateJobsOnSpecChange).subset hmem
    revert this
    cases kind <;> decide
  rw [reconcileBody_calls]
  unfold bodyWrites
  simp only []
  cases he : (makeDecision env ss cj jobs now options.EnableAutoRecreateJobsOnSpecChange).err with
  | some e =>
    refine ⟨{ controlledJob := cj, calls := [], err := none }, [], ?_, ?_⟩
    · rfl
    · simp only [List.append_nil, hdec]
      rfl
  | none =>
    simp only [lastConditionWrite_append, hdec, jobsCalled_append]
    generalize makeDecision env ss cj jobs now options.EnableAutoRecreateJobsOnSpecChange = outcome
    generalize ({ controlledJob := outcome.controlledJob, calls := [], err := none } :
      RunState) = r0
    generalize hr1 : jobLoop env cluster .delete outcome.decision.JobsToDelete r0 = r1
    generalize hr2 : jobLoop env cluster .create outcome.decision.JobsToCreate r1 = r2
    generalize hr3 : jobLoop env cluster .suspend outcome.decision.JobsToSuspend r2 = r3
    cases kind with
    | delete =>
      refine ⟨r0, outcome.decision.JobsToDelete, ?_, ?_⟩
      · rw [jobsCalled_loopCallsFrom_other _ _ .delete .create (by decide),
          jobsCalled_loopCallsFrom_other _ _ .delete .suspend (by decide),
          jobsCalled_loopCallsFrom_other _ _ .delete .unsuspend (by decide)]
        simp only [List.append_nil]
      · rw [loopWritesFrom_last _ _ .create _ (by decide),
          loopWritesFrom_last _ _ .suspend _ (by decide),
          loopWritesFrom_last _ _ .unsuspend _ (by decide)]
        simp
    | create =>
      refine ⟨r1, outcome.decision.JobsToCreate, ?_, ?_⟩
      · rw [jobsCalled_loopCallsFrom_other _ _ .create .delete (by decide),
          jobsCalled_loopCallsFrom_other _ _ .create .suspend (by decide),
          jobsCalled_loopCallsFrom_other _ _ .create .unsuspend (by decide)]
        simp only [List.append_nil, List.nil_append]
      · rw [loopWritesFrom_last _ _ .delete _ (by decide),
          loopWritesFrom_last _ _ .suspend _ (by decide),
          loopWritesFrom_last _ _ .unsuspend _ (by decide)]
        simp
    | suspend =>
      refine ⟨r2, outcome.decision.JobsToSuspend, ?_, ?_⟩
      · rw [jobsCalled_loopCallsFrom_other _ _ .suspend .delete (by decide),
          jobsCalled_loopCallsFrom_other _ _ .suspend .create (by decide),
          jobsCalled_loopCallsFrom_other _ _ .suspend .unsuspend (by decide)]
        simp only [List.append_nil, List.nil_append]
      · rw [loopWritesFrom_last _ _ .delete _ (by decide),
          loopWritesFrom_last _ _ .create _ (by decide),
          loopWritesFrom_last _ _ .unsuspend _ (by decide)]
        simp
    | unsuspend =>
      refine ⟨r3, outcome.decision.JobsToUnsuspend, ?_, ?_⟩
      · rw [jobsCalled_loopCallsFrom_other _ _ .unsuspend .delete (by decide),
          jobsCalled_loopCallsFrom_other _ _ .unsuspend .create (by decide),
          jobsCalled_loopCallsFrom_other _ _ .unsuspend .suspend (by decide)]
        simp only [List.append_nil, List.nil_append]
      · rw [loopWritesFrom_last _ _ .delete _ (by decide),
          loopWritesFrom_last _ _ .create _ (by decide),
          loopWritesFrom_last _ _ .suspend _ (by decide)]
        simp

/-- The condition of a kind of call in the status that a reconcile hands to `UpdateStatus` is
what the last write of lines 105-169 to it says. -/
theorem written_kind_condition (env : Env) (cluster : Cluster)
    (ss : Except String ScheduleState) (cj : ControlledJob) (jobs : List Job) (now : Time)
    (options : ReconcileOptions) (kind : JobCallKind) (s : ConditionStatus) (r m : String)
    (hlast : lastConditionWrite kind.conditionType
      (bodyWrites env cluster ss cj jobs now options) = some (s, r, m)) :
    ∃ c, FindCondition (calculateOverallConditions env
          (reconcileBody env cluster ss cj jobs now options).1.controlledJob
          (reconcileBody env cluster ss cj jobs now options).1.err).status
        kind.conditionType = some c ∧ c.status = s := by
  have hbody := reconcileBody_eq_writes env cluster cluster ss cj jobs now options
    env.timeNow cj (sameButStatus_refl cj) (fun _ _ => rfl)
  rw [atTime_timeNow] at hbody
  have hcj : (reconcileBody env cluster ss cj jobs now options).1.controlledJob =
      applyWrites env cluster.nowFunc cj (bodyWrites env cluster ss cj jobs now options) := by
    rw [hbody]
  rw [calculateOverallConditions_eq_writes env cluster.nowFunc,
    FindCondition_applyWrites_other env cluster.nowFunc kind.conditionType _ _
      (by rw [overallWrites_keys]; cases kind <;> decide), hcj]
  obtain ⟨c, hc, hs, -⟩ := FindCondition_applyWrites_last env cluster.nowFunc _ _ _ _ _ cj hlast
  exact ⟨c, hc, hs⟩

/-- C34, amended. In the status that a reconcile hands to `UpdateStatus`, each of the
conditions `FailedToCreateJob`, `FailedToDeleteJob`, `FailedToSuspendJob` and
`FailedToUnsuspendJob` is True when the last call of that kind in the reconcile failed; and
`FailedToCreateJob` and `FailedToDeleteJob` are False when the reconcile made at least one call
of that kind and its calls of that kind all succeeded. -/
theorem failed_call_conditions (env : Env) (lib : CronLib) (fuel : Nat) (cluster : Cluster)
    (name ns : String) (now : ZonedTime) (options : ReconcileOptions) (run : ReconcileRun)
    (written : ControlledJob) (kind : JobCallKind)
    (hrun : Reconcile env lib fuel cluster name ns now options = some run)
    (hwritten : run.statusWritten = some written) :
    (∀ job e, (jobsCalled kind run.calls).getLast? = some job →
      kind.call cluster job.job = some e →
      ∃ c, FindCondition written.status kind.conditionType = some c ∧
        c.status = ConditionTrue) ∧
    (kind = JobCallKind.create ∨ kind = JobCallKind.delete →
      jobsCalled kind run.calls ≠ [] →
      (∀ job ∈ jobsCalled kind run.calls, kind.call cluster job.job = none) →
      ∃ c, FindCondition written.status kind.conditionType = some c ∧
        c.status = ConditionFalse) := by
  obtain ⟨cj, jobs, ss, hload, hss⟩ := loaded_of_written env lib fuel cluster name ns now options
    run written hrun hwritten
  have h := Reconcile_loaded env lib fuel cluster name ns now options cj jobs ss hload hss
  rw [hrun] at h
  simp only [Option.some.injEq] at h
  subst h
  simp only [Option.some.injEq] at hwritten
  subst hwritten
  obtain ⟨r, l, hcalls, hwrites⟩ := reconcileBody_kind env cluster ss cj jobs now.toTime options
    kind
  have hjobs : jobsCalled kind ((reconcileBody env cluster ss cj jobs now.toTime options).1.calls ++
      [ClusterCall.updateStatus (calculateOverallConditions env
        (reconcileBody env cluster ss cj jobs now.toTime options).1.controlledJob
        (reconcileBody env cluster ss cj jobs now.toTime options).1.err)]) =
      jobsCalled kind (loopCallsFrom r cluster kind l) := by
    rw [jobsCalled_append, hcalls]
    cases kind <;> simp [jobsCalled, JobCallKind.jobOf]
  simp only [hjobs]
  obtain ⟨hA, hB⟩ := loopWritesFrom_own r cluster kind l
  refine ⟨fun job e hlast hfail => ?_, fun hkind hne hall => ?_⟩
  · obtain ⟨m, hm⟩ := hA job e hlast hfail
    rw [← hwrites] at hm
    exact written_kind_condition env cluster ss cj jobs now.toTime options kind _ _ _ hm
  · have hm := hB hne hall
    rw [← hwrites] at hm
    have hs : kind.successStatus = ConditionFalse := by
      rcases hkind with rfl | rfl <;> rfl
    obtain ⟨c, hc, hst⟩ := written_kind_condition env cluster ss cj jobs now.toTime options
      kind _ _ _ hm
    exact ⟨c, hc, hst.trans hs⟩

set_option maxRecDepth 100000 in
/-- C34, the claim as stated fails. The example ControlledJob at 2022-12-12T12:12:00Z with
today's Job running, its status carrying `FailedToCreateJob = True` from an earlier reconcile:
the reconcile makes no call to create a Job, so none of its calls of that kind fails, and
`FailedToCreateJob` is still True after it. And after the reconcile of the example
ControlledJob with an empty status and no Job, which makes no call to suspend a Job, the status
has no condition `FailedToSuspendJob` at all. -/
theorem failed_call_conditions_counterexample :
    (∃ run written,
      Reconcile exampleEnv exampleLib 200 staleFailedCluster "basic-job" "default" exampleNoon
        defaultOptions = some run ∧
      run.statusWritten = some written ∧
      jobsCalled JobCallKind.create run.calls = [] ∧
      (∀ job ∈ jobsCalled JobCallKind.create run.calls,
        JobCallKind.create.call staleFailedCluster job.job = none) ∧
      (FindCondition written.status ConditionTypeFailedToCreateJob).map (fun c => c.status) =
        some ConditionTrue) ∧
    ∃ run written,
      Reconcile exampleEnv exampleLib 200 quietCluster "basic-job" "default" exampleNoon
        defaultOptions = some run ∧
      run.statusWritten = some written ∧
      jobsCalled JobCallKind.suspend run.calls = [] ∧
      FindCondition written.status ConditionTypeFailedToSuspendJob = none :=
  ⟨⟨_, _, by rfl, by rfl, by rfl, fun _ _ => rfl, by rfl⟩,
    _, _, by rfl, by rfl, by rfl, by rfl⟩

set_option maxRecDepth 100000 in
/-- The example ControlledJob at 2022-12-12T12:12:00Z with today's Job, which is suspended: the
reconcile makes one call, which unsuspends the Job and succeeds, and `FailedToUnsuspendJob` is
True after it, with the reason `UnsuspendedJob`. The loops for the Jobs to suspend and to
unsuspend write `ConditionTrue` after a success. -/
theorem FailedToUnsuspendJob_after_success :
    ∃ run written,
      Reconcile exampleEnv exampleLib 200 suspendedChildCluster "basic-job" "default"
        exampleNoon defaultOptions = some run ∧
      run.statusWritten = some written ∧
      jobsCalled JobCallKind.unsuspend run.calls =
        [{ job := suspendedJob, ptr := JobPtr.child 0 }] ∧
      suspendedChildCluster.unsuspendJob suspendedJob = none ∧
      run.result.error = none ∧
      (FindCondition written.status ConditionTypeFailedToUnsuspendJob).map
        (fun c => (c.status, c.reason)) = some (ConditionTrue, "UnsuspendedJob") ∧
      JobCallKind.suspend.successStatus = ConditionTrue ∧
      JobCallKind.unsuspend.successStatus = ConditionTrue :=
  ⟨_, _, by rfl, by rfl, by rfl, by rfl, by rfl, by rfl, by rfl, by rfl⟩

set_option maxRecDepth 100000 in
/-- C34 (amended) at work. The example ControlledJob at 2022-12-12T12:12:00Z with two Jobs of
yesterday, of which the second cannot be deleted: `FailedToDeleteJob` is True after the
reconcile. The example ControlledJob with no Job: the reconcile creates today's Job, and
`FailedToCreateJob` is False after it. -/
theorem failed_call_conditions_witness :
    (∃ run written,
      Reconcile exampleEnv exampleLib 200 flakyCluster "basic-job" "default" exampleNoon
        defaultOptions = some run ∧
      run.statusWritten = some written ∧
      ∃ c, FindCondition written.status ConditionTypeFailedToDeleteJob = some c ∧
        c.status = ConditionTrue) ∧
    ∃ run written,
      Reconcile exampleEnv exampleLib 200 quietCluster "basic-job" "default" exampleNoon
        defaultOptions = some run ∧
      run.statusWritten = some written ∧
      ∃ c, FindCondition written.status ConditionTypeFailedToCreateJob = some c ∧
        c.status = ConditionFalse :=
  ⟨⟨_, _, by rfl, by rfl,
      (failed_call_conditions exampleEnv exampleLib 200 flakyCluster "basic-job" "default"
        exampleNoon defaultOptions _ _ JobCallKind.delete (by rfl) (by rfl)).1
        { job := yesterdaysOtherJob, ptr := JobPtr.child 1 } "the server is busy" (by rfl)
        (by rfl)⟩,
    _, _, by rfl, by rfl,
      (failed_call_conditions exampleEnv exampleLib 200 quietCluster "basic-job" "default"
        exampleNoon defaultOptions _ _ JobCallKind.create (by rfl) (by rfl)).2 (Or.inl rfl)
        (by decide) (fun _ _ => rfl)⟩

/-! ## C35: failures of the load -/

/-- What `Reconcile` does with the answers of the client to the load. When `GetControlledJob`
reports not-found (`ok` false and a nil error), the result is a success without requeue and no
call is made, whatever the pointer is. When it returns `ok` false, an error and a ControlledJob
that is not nil, or when the ControlledJob is found and `ListJobsForControlledJob` fails, the
result is a retryable error and no call is made. When it returns `ok` false, an error and a nil
ControlledJob, the error is dropped: the result is a success without requeue. -/
theorem Reconcile_load_failures (env : Env) (lib : CronLib) (fuel : Nat) (cluster : Cluster)
    (name ns : String) (now : ZonedTime) (options : ReconcileOptions) :
    (∀ cj, cluster.getControlledJob = (cj, false, none) →
      Reconcile env lib fuel cluster name ns now options =
        some { result := { requeueAfter := 0, error := none }, calls := [],
               statusWritten := none, controlledJob := none }) ∧
    (∀ cj e, cluster.getControlledJob = (some cj, false, some e) →
      ∃ err, Reconcile env lib fuel cluster name ns now options =
        some { result := TransientErrorResult err, calls := [], statusWritten := none,
               controlledJob := none } ∧
        (TransientErrorResult err).AsControllerResultAndError = (0, some err)) ∧
    (∀ cj e1 e, cluster.getControlledJob = (some cj, true, e1) →
      cluster.listJobsForControlledJob = .error e →
      ∃ err, Reconcile env lib fuel cluster name ns now options =
        some { result := TransientErrorResult err, calls := [], statusWritten := none,
               controlledJob := none } ∧
        (TransientErrorResult err).AsControllerResultAndError = (0, some err)) ∧
    (∀ e, cluster.getControlledJob = (none, false, some e) →
      Reconcile env lib fuel cluster name ns now options =
        some { result := { requeueAfter := 0, error := none }, calls := [],
               statusWritten := none, controlledJob := none }) := by
  refine ⟨?_, ?_, ?_, ?_⟩
  · intro cj h
    unfold Reconcile loadFromCluster
    rw [h]
    cases cj <;> rfl
  · intro cj e h
    unfold Reconcile loadFromCluster
    rw [h]
    exact ⟨_, rfl, rfl⟩
  · intro cj e1 e h hl
    unfold Reconcile loadFromCluster
    rw [h]
    simp only [hl]
    exact ⟨_, rfl, rfl⟩
  · intro e h
    unfold Reconcile loadFromCluster
    rw [h]

/-- C35 at the failing input. `GetControlledJob` fails with "connection refused" and returns, as
the contract has it, `ok` false and the error, with a nil ControlledJob. `loadFromCluster` takes
the nil ControlledJob for not-found and drops the error: `Reconcile` returns a success without
requeue and `AsControllerResultAndError` returns a nil error, where the claim has a retryable
error. -/
theorem load_failure_is_dropped :
    unreachableCluster.getControlledJob = (none, false, some "connection refused") ∧
    loadFromCluster unreachableCluster "basic-job" "default" = some (none, [], none) ∧
    Reconcile exampleEnv exampleLib 200 unreachableCluster "basic-job" "default" exampleNoon
      defaultOptions =
      some { result := { requeueAfter := 0, error := none }, calls := [], statusWritten := none,
             controlledJob := none } ∧
    ReconcileResult.AsControllerResultAndError { requeueAfter := 0, error := none } =
      (0, none) :=
  ⟨by rfl, by rfl, by rfl, by rfl⟩

/-! ## `cronPrev` returns in a location without zone transitions -/

set_option maxRecDepth 100000 in
/-- The other unsatisfiable case of `TestPrev` in `cron_prev_test.go`, `0 0 0 31 Apr ?` at
Mon Jul 9 23:35 2012, with `time.Local` read as UTC: the search runs back through the Aprils
of 2012 to 2007, passes the year limit 2007 and returns the zero time. -/
theorem cronPrev_TestPrev_unsatisfiable :
    cronPrev 400
        { second := bitsOf [0], minute := bitsOf [0], hour := bitsOf [0], dom := bitsOf [31],
          month := bitsOf [4], dow := allBits 0 6, location := localZone }
        (atSecond 1341876900 Location.UTC) = some ZonedTime.zero ∧
      cronPrevFrom
        { second := bitsOf [0], minute := bitsOf [0], hour := bitsOf [0], dom := bitsOf [31],
          month := bitsOf [4], dow := allBits 0 6, location := localZone }
        ((atSecond 1341876900 Location.UTC).Year - 5) 400 .wrap
        (atSecond 1341876900 Location.UTC) = some .giveUp := by
  refine ⟨?_, ?_⟩ <;> decide

/-! ## C36: `cronPrev` on the day the clocks go back -/

/-- Steps already taken can be left out of the count. -/
theorem cronPrevFrom_after (s : SpecSchedule) (yl : Int) :
    ∀ (k : Nat) (place : CronPrevPlace) (t : ZonedTime) (place2 : CronPrevPlace)
      (t2 : ZonedTime), cronPrevAfter s yl k place t = .goOn place2 t2 →
      ∀ fuel, cronPrevFrom s yl (k + fuel) place t = cronPrevFrom s yl fuel place2 t2
  | 0, place, t, place2, t2, h, fuel => by
    simp only [cronPrevAfter, CronPrevStep.goOn.injEq] at h
    rw [Nat.zero_add, h.1, h.2]
  | k + 1, place, t, place2, t2, h, fuel => by
    have e : k + 1 + fuel = (k + fuel) + 1 := by omega
    rw [e]
    simp only [cronPrevAfter] at h
    simp only [cronPrevFrom]
    cases hstep : cronPrevStep s yl place t with
    | goOn p3 t3 =>
      rw [hstep] at h
      exact cronPrevFrom_after s yl k p3 t3 place2 t2 h fuel
    | giveUp => rw [hstep] at h; simp at h
    | found r => rw [hstep] at h; simp at h

/-- From a place and a time that one step leads back to, `cronPrev` does not return. -/
theorem cronPrevFrom_stuck (s : SpecSchedule) (yl : Int) (place : CronPrevPlace) (t : ZonedTime)
    (h : cronPrevStep s yl place t = .goOn place t) :
    ∀ fuel, cronPrevFrom s yl fuel place t = none
  | 0 => rfl
  | fuel + 1 => by
    simp only [cronPrevFrom, h]
    exact cronPrevFrom_stuck s yl place t h fuel

set_option maxRecDepth 100000 in
/-- C36 at the failing input. The schedule is "every day at 09:00" in `Europe/London` and the
instant is 2022-10-30T08:00:00Z, 08:00 in London on the Sunday on which the clocks went back
from 02:00 to 01:00. After eleven steps `cronPrev` stands in the hour loop at 01:59:59 summer
time (2022-10-30T00:59:59Z); one run of the loop body leads to the same instant (`time.Date`
for 01:00 of that day gives 01:00 winter time, 2022-10-30T01:00:00Z, and one second before
that it is 01:59:59 summer time, hour 1 again), so the candidate does not move earlier, the
year never falls below the limit 2017, and `cronPrev` does not return, whatever the number of
steps. -/
theorem cronPrev_does_not_return :
    cronPrevAfter londonAtNine 2017 11 .wrap (fallBackSunday.In london) =
      .goOn .hourLoop beforeFallBack ∧
    beforeFallBack.Hour = 1 ∧
    Date beforeFallBack.Year beforeFallBack.Month beforeFallBack.Day beforeFallBack.Hour 0 0
      beforeFallBack.loc = atSecond 1667091600 london ∧
    (atSecond 1667091600 london).Add (-1 * Second) = beforeFallBack ∧
    cronPrevStep londonAtNine 2017 .hourLoop beforeFallBack = .goOn .hourLoop beforeFallBack ∧
    ∀ fuel, cronPrev fuel londonAtNine fallBackSunday = none := by
  have hafter : cronPrevAfter londonAtNine 2017 11 .wrap (fallBackSunday.In london) =
      .goOn .hourLoop beforeFallBack := by decide
  have hstep : cronPrevStep londonAtNine 2017 .hourLoop beforeFallBack =
      .goOn .hourLoop beforeFallBack := by decide
  refine ⟨hafter, by decide, by decide, by decide, hstep, fun fuel => ?_⟩
  have hyear : (fallBackSunday.In london).Year - 5 = 2017 := by decide
  have hnone : cronPrevFrom londonAtNine 2017 (fuel + 11) .wrap (fallBackSunday.In london) =
      none := by
    rw [Nat.add_comm, cronPrevFrom_after londonAtNine 2017 11 _ _ _ _ hafter fuel]
    exact cronPrevFrom_stuck londonAtNine 2017 _ _ hstep fuel
  have hfuel : cronPrevFrom londonAtNine 2017 fuel .wrap (fallBackSunday.In london) = none := by
    cases h : cronPrevFrom londonAtNine 2017 fuel .wrap (fallBackSunday.In london) with
    | none => rfl
    | some r =>
      rw [cronPrevFrom_more_fuel londonAtNine 2017 11 fuel _ _ r h] at hnone
      simp at hnone
  show (match cronPrevFrom londonAtNine
      ((if londonAtNine.location.isLocal then fallBackSunday
        else fallBackSunday.In londonAtNine.location).Year - 5) fuel .wrap
      (if londonAtNine.location.isLocal then fallBackSunday
        else fallBackSunday.In londonAtNine.location) with
    | none => none
    | some (.found r) => some (r.In fallBackSunday.loc)
    | some _ => some ZonedTime.zero) = none
  have hstart : (if londonAtNine.location.isLocal then fallBackSunday
      else fallBackSunday.In londonAtNine.location) = fallBackSunday.In london := by decide
  rw [hstart, hyear, hfuel]

/-! ## The start of the current run period while the schedule says to run -/

/-- The schedule of an event is in the location of the search. -/
theorem scheduleOf_location (lib : CronLib) (location : Location) (e : EventSpec)
    (s : SpecSchedule) (h : scheduleOf lib location e = some s) : s.location = location := by
  simp only [scheduleOf, mapEventToSpecSchedule] at h
  cases ha : AsCronSpec e with
  | value c =>
    rw [ha] at h
    simp only [Ending.andThen] at h
    cases hp : lib.parseStandard c with
    | error err => rw [hp] at h; simp at h
    | ok r =>
      rw [hp] at h
      cases r with
      | none => simp at h
      | some s0 =>
        simp only [Option.some.injEq] at h
        rw [← h]
  | error msg => rw [ha] at h; simp [Ending.andThen] at h
  | panic => rw [ha] at h; simp [Ending.andThen] at h
  | unfinished => rw [ha] at h; simp [Ending.andThen] at h

/-- In a location without zone transitions a candidate of an event, looking backward, is not
later than the instant of the search. -/
theorem eventCandidate_previous_le (lib : CronLib) (fuel : Nat) (location : Location)
    (now : ZonedTime) (o : Int) (e : EventSpec) (c : ZonedTime)
    (hfixed : location.transitions = [] ∧ now.loc.transitions = [])
    (ho : -2 ^ 31 < o ∧ o < 2 ^ 31)
    (hadj : adjacentEventTime lib fuel (scheduleOf lib location e) (now.Add (Second * o))
      .directionPrevious = .value (adjacentOf lib fuel (now.Add (Second * o))
        .directionPrevious (scheduleOf lib location e)))
    (h : eventCandidate lib fuel location now .directionPrevious o e = some c) :
    c.unixNano ≤ now.unixNano := by
  obtain ⟨s, hs, hprev⟩ := adjacentEventTime_previous lib _ _ _ _ hadj
  have hsl := scheduleOf_location lib location e s hs
  have hloc : (searchLocation s (now.Add (Second * o))).transitions = [] := by
    simp only [searchLocation, hsl]
    split
    · exact hfixed.2
    · exact hfixed.1
  simp only [eventCandidate, candidate] at h
  split at h
  · simp at h
  · rename_i hne
    have hc : c = _ := (Option.some.inj h).symm
    have hle := (cronPrev_result fuel s _ _ hloc hprev (by simpa using hne)).2.1
    rw [hc, wrapInt32_of_range (-o) (by omega) (by omega)]
    simp only [ZonedTime.Add] at hle ⊢
    linarith

/-- Where no stop event is due at the instant of the previous event. In a location without
zone transitions, whenever `StateFor` returns a state with `ShouldBeRunning() = true` and the
most recent stop time is earlier than the previous event, `StartOfCurrentRunPeriod()` is not
nil, strictly after `LastStopTime()` and not later than `now`. The cron library's `Next` is
taken to return the first activation after its argument: the next activation of a start event
after the stop time is after it, and it is not later than an activation that `cronPrev` finds
after the stop time. The additional offset is an `int32` other than the least one, and no
candidate of the searches made (backward from `now`, forward from the most recent stop time)
is the zero time. -/
theorem start_of_run_period_not_in_future (lib : CronLib) (fuel : Nat) (cj : ControlledJob)
    (now : ZonedTime) (st : ScheduleState) (location : Location)
    (h : StateFor lib fuel cj now = .value st)
    (hsbr : st.ShouldBeRunning = true)
    (hl : lib.loadLocation cj.spec.timezone.name = .ok location)
    (hfixed : location.transitions = [] ∧ now.loc.transitions = [])
    (ho : -2 ^ 31 < cj.spec.timezone.offsetSeconds ∧ cj.spec.timezone.offsetSeconds < 2 ^ 31)
    (hz : ∀ t direction e c,
      ((t = now ∧ direction = .directionPrevious) ∨ (direction = .directionNext ∧
        findMostRecentStopTime lib fuel cj.spec.events location cj.spec.timezone.offsetSeconds
          now = .value (some t))) →
      eventCandidate lib fuel location t direction cj.spec.timezone.offsetSeconds e = some c →
        c.IsZero = false)
    (htie : ∀ e L, st.previousEvent = some e → st.LastStopTime = some L →
      L.unixNano < e.scheduledTimeUTC.unixNano)
    (hafter : ∀ e ∈ cj.spec.events, ∀ L c, e.action = EventTypeStart →
      findMostRecentStopTime lib fuel cj.spec.events location cj.spec.timezone.offsetSeconds
        now = .value (some L) →
      eventCandidate lib fuel location L .directionNext cj.spec.timezone.offsetSeconds e =
        some c →
      L.unixNano < c.unixNano)
    (hfirst : ∀ e ∈ cj.spec.events, ∀ L c, e.action = EventTypeStart →
      findMostRecentStopTime lib fuel cj.spec.events location cj.spec.timezone.offsetSeconds
        now = .value (some L) →
      eventCandidate lib fuel location now .directionPrevious cj.spec.timezone.offsetSeconds e =
        some c →
      L.unixNano < c.unixNano →
      ∃ c2, eventCandidate lib fuel location L .directionNext cj.spec.timezone.offsetSeconds
          e = some c2 ∧ c2.unixNano ≤ c.unixNano) :
    ∃ S L, st.StartOfCurrentRunPeriod = some S ∧ st.LastStopTime = some L ∧
      L.unixNano < S.unixNano ∧ S.unixNano ≤ now.unixNano := by
  obtain ⟨location2, pe, ne, ls, sp, hl2, h1, h2, h3, h4, hst⟩ :=
    StateFor_value lib fuel cj now st h
  rw [hl] at hl2
  have hloc : location = location2 := by injection hl2
  subst hloc
  -- the previous event
  obtain ⟨hw1, hadj1, -⟩ := findNearestEvent_inv lib fuel _ now location _ .directionPrevious
    _ pe h1
  rcases findNearestEvent_of_candidates lib fuel cj.spec.events now location
      cj.spec.timezone.offsetSeconds .directionPrevious (fun _ => true) hw1 hadj1
      (fun e _ _ c hc => hz now .directionPrevious e c (Or.inl ⟨rfl, rfl⟩) hc) with
    ⟨hnone, -⟩ | ⟨e0, P, he0, -, hcP, hev, -⟩
  · rw [hnone] at h1
    have hpe : pe = none := by injection h1 with e; exact e.symm
    rw [hst, hpe] at hsbr
    simp [ScheduleState.ShouldBeRunning] at hsbr
  rw [hev] at h1
  have hpe : pe = some { type := e0.action, scheduledTimeUTC := P } := by
    injection h1 with e; exact e.symm
  have hstart0 : e0.action = EventTypeStart := by
    rw [hst, hpe] at hsbr
    simpa [ScheduleState.ShouldBeRunning, ZonedScheduledEvent.toScheduledEvent] using hsbr
  have hPnow : P.unixNano ≤ now.unixNano :=
    eventCandidate_previous_le lib fuel location now _ e0 P hfixed ho (hadj1 e0 he0 rfl) hcP
  -- the most recent stop time
  cases ls with
  | none =>
    have hany : cj.spec.events.any (fun event => event.action == EventTypeStart) = true :=
      List.any_eq_true.mpr ⟨e0, he0, by rw [hstart0]; rfl⟩
    simp only [findStartOfCurrentRunPeriod, h3, Ending.andThen, hany, Bool.not_true,
      Bool.false_eq_true, if_false] at h4
    simp at h4
  | some L =>
    have hLP : L.unixNano < P.unixNano :=
      htie { type := e0.action, scheduledTimeUTC := P.toTime } L.toTime (by rw [hst, hpe]; rfl)
        (by rw [hst]; rfl)
    obtain ⟨c2, hc2, hc2P⟩ := hfirst e0 he0 L P hstart0 h3 hcP hLP
    -- the next start event after the stop time
    unfold findStartOfCurrentRunPeriod at h4
    rw [h3] at h4
    simp only [Ending.andThen] at h4
    obtain ⟨nse, hnse, hrest⟩ := andThen_value _ _ _ h4
    obtain ⟨hw2, hadj2, -⟩ := findNearestEvent_inv lib fuel _ L location _ .directionNext _ nse
      hnse
    rcases findNearestEvent_of_candidates lib fuel cj.spec.events L location
        cj.spec.timezone.offsetSeconds .directionNext
        (fun es => es.action == EventTypeStart) hw2 hadj2
        (fun e _ _ c hc => hz L .directionNext e c (Or.inr ⟨rfl, h3⟩) hc) with
      ⟨-, hall⟩ | ⟨e2, S, he2, hf2, hcS, hev2, hbest⟩
    · have := hall e0 he0 (by rw [hstart0]; rfl)
      rw [this] at hc2
      simp at hc2
    · rw [hev2] at hnse
      have hn : nse = some { type := e2.action, scheduledTimeUTC := S } := by
        injection hnse with e; exact e.symm
      rw [hn] at hrest
      simp only [Ending.value.injEq] at hrest
      have hstart2 : e2.action = EventTypeStart := by simpa using hf2
      have hLS := hafter e2 he2 L S hstart2 h3 hcS
      have hSc : ¬ nearerThan .directionNext c2 S :=
        hbest e0 he0 (by rw [hstart0]; rfl) c2 hc2
      have hSle : S.unixNano ≤ c2.unixNano := by
        simp only [nearerThan, if_true] at hSc
        omega
      refine ⟨S.toTime, L.toTime, ?_, ?_, hLS, ?_⟩
      · rw [hst, ← hrest]; rfl
      · rw [hst]; rfl
      · show S.unixNano ≤ now.unixNano
        omega

set_option maxRecDepth 100000 in
/-- An example: the example ControlledJob ("start 09:00, stop 17:00 every day", UTC, no
additional offset) at 2022-12-12T12:12:00Z. The most recent stop time is 2022-12-11T17:00:00Z,
the previous event is the start event of 09:00, and the start of the current run period is
2022-12-12T09:00:00Z. -/
theorem start_of_run_period_not_in_future_example :
    StateFor exampleLib 200 exampleControlledJob exampleNoon =
      .value { lastStopTime := some exampleLastStop,
               startOfCurrentRunPeriod := some exampleStart,
               previousEvent := some { type := EventTypeStart,
                                       scheduledTimeUTC := exampleStart },
               nextEvent := some { type := EventTypeStop,
                                   scheduledTimeUTC := exampleNextStop } } ∧
    ∃ S L, (some exampleStart : Option Time) = some S ∧
      (some exampleLastStop : Option Time) = some L ∧
      L.unixNano < S.unixNano ∧ S.unixNano ≤ exampleNoon.unixNano := by
  have hstop : findMostRecentStopTime exampleLib 200 exampleControlledJob.spec.events
      Location.UTC exampleControlledJob.spec.timezone.offsetSeconds exampleNoon =
      .value (some (atSecond 1670778000 Location.UTC)) := by rfl
  have hnine : eventCandidate exampleLib 200 Location.UTC (atSecond 1670778000 Location.UTC)
      .directionNext exampleControlledJob.spec.timezone.offsetSeconds startAtNine =
      some exampleNine := by rfl
  refine ⟨by rfl, ?_⟩
  refine start_of_run_period_not_in_future exampleLib 200 exampleControlledJob exampleNoon _
    Location.UTC (by rfl) (by rfl) (by rfl) ⟨rfl, rfl⟩ (by constructor <;> decide)
    (fun t direction e c _ h => eventCandidate_not_zero exampleLib 200 Location.UTC t
      direction e c h)
    ?_ ?_ ?_
  · intro e L he hL
    injection he with he
    injection hL with hL
    rw [← he, ← hL]
    decide
  · intro e he L c ha hL hc
    rw [hstop] at hL
    injection hL with hL
    injection hL with hL
    subst hL
    have hmem : e = startAtNine ∨ e = stopAtFive := by simpa [exampleControlledJob, startAtNine,
      stopAtFive] using he
    rcases hmem with rfl | rfl
    · rw [hnine] at hc
      injection hc with hc
      rw [← hc]
      decide
    · exact absurd ha (by decide)
  · intro e he L c ha hL hc hlt
    rw [hstop] at hL
    injection hL with hL
    injection hL with hL
    subst hL
    have hmem : e = startAtNine ∨ e = stopAtFive := by simpa [exampleControlledJob, startAtNine,
      stopAtFive] using he
    rcases hmem with rfl | rfl
    · have hprev : eventCandidate exampleLib 200 Location.UTC exampleNoon .directionPrevious
          exampleControlledJob.spec.timezone.offsetSeconds startAtNine = some exampleNine := by
        rfl
      rw [hprev] at hc
      injection hc with hc
      exact ⟨exampleNine, hnine, by rw [← hc]⟩
    · exact absurd ha (by decide)

/-! ## C38: the shape of the plan -/

theorem recreateIfOutOfDate_suspend (env : Env) (state : State) (restart : Bool) (maxId : Int)
    (l : Locals) :
    (recreateIfOutOfDate env state restart maxId l).1.decision.JobsToSuspend =
      l.decision.JobsToSuspend := by
  unfold recreateIfOutOfDate
  repeat' split
  all_goals rfl

theorem startIfAbsent_suspend (env : Env) (state : State) (now : Time) (sbr : Bool)
    (l : Locals) :
    (startIfAbsent env state now sbr l).1.decision.JobsToSuspend = l.decision.JobsToSuspend := by
  unfold startIfAbsent
  split
  · split
    · rfl
    · simp only []
      split
      · rfl
      · split <;> rfl
  · rfl

theorem unsuspendIfSafe_suspend (l : Locals) :
    (unsuspendIfSafe l).decision.JobsToSuspend = l.decision.JobsToSuspend := by
  unfold unsuspendIfSafe
  repeat' split
  all_goals rfl

theorem decideForJobs_suspend (env : Env) (state : State) (now : Time) (sbr restart : Bool)
    (maxId : Int) (l : Locals) :
    (decideForJobs env state now sbr restart maxId l).decision.JobsToSuspend =
      l.decision.JobsToSuspend := by
  have h0 : (stopOutsideRunPeriod sbr l).decision.JobsToSuspend = l.decision.JobsToSuspend := by
    unfold stopOutsideRunPeriod
    simp only []
    split <;> rfl
  have h1 := recreateIfOutOfDate_suspend env state restart maxId (stopOutsideRunPeriod sbr l)
  unfold decideForJobs
  simp only []
  generalize recreateIfOutOfDate env state restart maxId (stopOutsideRunPeriod sbr l) = r1 at h1 ⊢
  obtain ⟨l1, e1⟩ := r1
  cases e1 with
  | some e => exact h1.trans h0
  | none =>
    simp only []
    have h2 := startIfAbsent_suspend env state now sbr l1
    generalize startIfAbsent env state now sbr l1 = r2 at h2 ⊢
    obtain ⟨l2, e2⟩ := r2
    cases e2 with
    | some e => exact h2.trans (h1.trans h0)
    | none =>
      simp only []
      have h3 : (setRequeueAt state (unsuspendIfSafe (deleteOthers l2))).decision.JobsToSuspend =
          l2.decision.JobsToSuspend := by
        have : (setRequeueAt state (unsuspendIfSafe (deleteOthers l2))).decision.JobsToSuspend =
            (unsuspendIfSafe (deleteOthers l2)).decision.JobsToSuspend := by
          unfold setRequeueAt
          split <;> rfl
        rw [this, unsuspendIfSafe_suspend]
        rfl
      exact h3.trans (h2.trans (h1.trans h0))

/-- No path of `makeDecision` puts a Job in `JobsToSuspend`. -/
theorem makeDecision_suspend_empty (env : Env) (scheduleState : Except String ScheduleState)
    (cj : ControlledJob) (childJobs : List Job) (now : Time) (enable : Bool) :
    (makeDecision env scheduleState cj childJobs now enable).decision.JobsToSuspend = [] := by
  unfold makeDecision
  cases buildState env scheduleState cj childJobs with
  | error e => rfl
  | ok state =>
    simp only []
    split
    · rfl
    · exact decideForJobs_suspend env state now _ _ _ _

/-- The Job that is emitted for a Job as built does not wait to be unsuspended: if the test of
lines 317-321 holds of the Job as built, its suspend flag has been cleared. -/
theorem safeToUnsuspend_emittedRef (n : Nat) (built : Job) :
    safeToUnsuspend n (emittedRef n built).job = false := by
  unfold emittedRef
  by_cases hs : safeToUnsuspend n built = true
  · rw [if_pos hs]
    simp [safeToUnsuspend, clearSuspendOf, createdRef, JobRef.same, IsJobSuspended]
  · rw [if_neg hs]
    simpa [createdRef] using hs

/-- The chosen child of a decision is not in its deletion set. -/
theorem chosen_not_deleted (env : Env) (state : State) (childJobs : List Job) (c d : JobRef)
    (hall : state.AllJobs = pointersFrom 0 childJobs)
    (hsel : (classifyJobs env state state.AllJobs).chosenJob = some c)
    (hd : d ∈ deletionsFor (classifyJobs env state state.AllJobs).expiredJobs
      (classifyJobs env state state.AllJobs).nonExpiredJobs (some c)) : d.ptr ≠ c.ptr := by
  intro hptr
  obtain ⟨hc, hexp⟩ := classifyJobs_chosen_mem env state state.AllJobs c hsel
  have hdm := deletionsFor_subset_plain env state state.AllJobs (some c) d hd
  have hdc : d = c := by
    rw [hall] at hc hdm
    exact pointersFrom_ptr_inj 0 childJobs d c hdm hc hptr
  subst hdc
  have hmem := (mem_deletionsFor_child env state state.AllJobs (some d) [] d hc
    (List.not_mem_nil d)).mp (by simpa using hd)
  rcases hmem.2 with h | ⟨-, h, -⟩
  · rw [hexp] at h; simp at h
  · simp [isChosen, JobRef.same] at h

/-- C38: no path of `makeDecision` puts a Job in `JobsToSuspend`. A successful `makeDecision`
plans at most one create, and the Job to create is the final chosen job; no Job (as a pointer)
is in more than one of `JobsToCreate`, `JobsToDelete` and `JobsToUnsuspend`; and when a Job is
created nothing is unsuspended: the created Job is emitted so that the test for unsuspending
no longer holds of it (its suspend flag is cleared when it is safe to run it). -/
theorem plan_lists_disjoint (env : Env) (scheduleState : Except String ScheduleState)
    (cj : ControlledJob) (childJobs : List Job) (now : Time) (enable : Bool) :
    (makeDecision env scheduleState cj childJobs now enable).decision.JobsToSuspend = [] ∧
    ((makeDecision env scheduleState cj childJobs now enable).err = none →
      (makeDecision env scheduleState cj childJobs now enable).decision.JobsToCreate.length ≤ 1 ∧
      (∀ J ∈ (makeDecision env scheduleState cj childJobs now enable).decision.JobsToCreate,
        (makeDecision env scheduleState cj childJobs now enable).chosenJob = some J ∧
        safeToUnsuspend
          (makeDecision env scheduleState cj childJobs now enable).numberOfPotentiallyRunningJobs
          J.job = false) ∧
      (∀ a ∈ (makeDecision env scheduleState cj childJobs now enable).decision.JobsToCreate,
        ∀ b ∈ (makeDecision env scheduleState cj childJobs now enable).decision.JobsToDelete,
          a.ptr ≠ b.ptr) ∧
      (∀ a ∈ (makeDecision env scheduleState cj childJobs now enable).decision.JobsToCreate,
        ∀ b ∈ (makeDecision env scheduleState cj childJobs now enable).decision.JobsToUnsuspend,
          a.ptr ≠ b.ptr) ∧
      (∀ a ∈ (makeDecision env scheduleState cj childJobs now enable).decision.JobsToDelete,
        ∀ b ∈ (makeDecision env scheduleState cj childJobs now enable).decision.JobsToUnsuspend,
          a.ptr ≠ b.ptr) ∧
      ((makeDecision env scheduleState cj childJobs now enable).decision.JobsToCreate ≠ [] →
        (makeDecision env scheduleState cj childJobs now enable).decision.JobsToUnsuspend =
          [])) := by
  refine ⟨makeDecision_suspend_empty env scheduleState cj childJobs now enable, fun hok => ?_⟩
  cases hstate : buildState env scheduleState cj childJobs with
  | error e =>
    rw [makeDecision_schedule_error env scheduleState cj childJobs now enable e hstate] at hok
    exact absurd hok (by simp)
  | ok state =>
    obtain ⟨ss, _, hall, _⟩ := buildState_ok hstate
    have hcreated : ∀ (n : Nat) (built : Job) (chosen : Option JobRef) (b : JobRef),
        b ∈ deletionsFor (classifyJobs env state state.AllJobs).expiredJobs
          ((classifyJobs env state state.AllJobs).nonExpiredJobs ++ [createdRef built])
          (some (createdRef built)) →
        (emittedRef n built).ptr ≠ b.ptr := by
      intro n built chosen b hb hptr
      have hbm := deletionsFor_subset env state state.AllJobs (createdRef built) b hb
      rw [hall] at hbm
      obtain ⟨k, _, hk⟩ := pointersFrom_ptr_ge 0 childJobs b hbm
      rw [emittedRef_ptr, hk] at hptr
      simp at hptr
    cases hsus : state.IsSuspended with
    | true =>
      obtain ⟨_, hdec, _⟩ := makeDecision_suspended env scheduleState cj childJobs now enable
        state hstate hsus
      rw [hdec]
      simp [Decision.zero]
    | false =>
      rcases makeDecision_cases env scheduleState cj childJobs now enable state hstate hsus with
        ⟨_, _, hp⟩ | ⟨c, hsel, _, _, hp⟩ | ⟨_, _, _, _, _, _, he⟩ |
        ⟨c, built, _, _, _, _, hp⟩ | ⟨_, _, _, he, _⟩ | ⟨_, _, _, _, he⟩ |
        ⟨_, _, _, _, _, _, _, he⟩ | ⟨start, built, _, _, _, _, _, hp⟩
      · rw [hp.create, hp.unsuspend]
        simp
      · rw [hp.create, hp.unsuspend, hp.delete]
        refine ⟨by simp, by simp, by simp, by simp, ?_, by simp⟩
        intro a ha b hb
        split at hb
        · rw [List.mem_singleton.mp hb]
          exact chosen_not_deleted env state childJobs c a hall hsel ha
        · simp at hb
      · rw [he] at hok; simp at hok
      · rw [hp.create, hp.unsuspend, hp.delete, hp.chosen, hp.count]
        refine ⟨by simp, ?_, ?_, by simp, by simp, by simp⟩
        · intro J hJ
          rw [List.mem_singleton.mp hJ]
          exact ⟨rfl, safeToUnsuspend_emittedRef _ built⟩
        · intro a ha b hb
          rw [List.mem_singleton.mp ha]
          exact hcreated _ built none b hb
      · rw [he] at hok; simp at hok
      · rw [he] at hok; simp at hok
      · rw [he] at hok; simp at hok
      · rw [hp.create, hp.unsuspend, hp.delete, hp.chosen, hp.count]
        refine ⟨by simp, ?_, ?_, by simp, by simp, by simp⟩
        · intro J hJ
          rw [List.mem_singleton.mp hJ]
          exact ⟨rfl, safeToUnsuspend_emittedRef _ built⟩
        · intro a ha b hb
          rw [List.mem_singleton.mp ha]
          exact hcreated _ built none b hb

set_option maxRecDepth 100000 in
/-- C38 at work: the example ControlledJob at 2022-12-12T12:12:00Z, inside its run period, with
yesterday's Job. The decision deletes yesterday's Job and creates today's, which is the chosen
job; it is emitted suspended, since yesterday's Job may still be running. Nothing is suspended
or unsuspended. -/
theorem plan_lists_disjoint_witness :
    (makeDecision exampleEnv insideRunPeriod exampleControlledJob [yesterdaysJob] exampleNow
      false).err = none ∧
    (makeDecision exampleEnv insideRunPeriod exampleControlledJob [yesterdaysJob] exampleNow
      false).decision.JobsToCreate.map (fun J => (J.job.name, J.job.spec.suspend)) =
      [("basic-job-1670835600-0", some true)] ∧
    (makeDecision exampleEnv insideRunPeriod exampleControlledJob [yesterdaysJob] exampleNow
      false).decision.JobsToDelete.map (fun J => J.job.name) = ["basic-job-1670749200-0"] ∧
    (makeDecision exampleEnv insideRunPeriod exampleControlledJob [yesterdaysJob] exampleNow
      false).decision.JobsToSuspend = [] ∧
    (makeDecision exampleEnv insideRunPeriod exampleControlledJob [yesterdaysJob] exampleNow
      false).decision.JobsToCreate.length ≤ 1 ∧
    (∀ a ∈ (makeDecision exampleEnv insideRunPeriod exampleControlledJob [yesterdaysJob]
        exampleNow false).decision.JobsToCreate,
      ∀ b ∈ (makeDecision exampleEnv insideRunPeriod exampleControlledJob [yesterdaysJob]
        exampleNow false).decision.JobsToDelete, a.ptr ≠ b.ptr) ∧
    (makeDecision exampleEnv insideRunPeriod exampleControlledJob [yesterdaysJob] exampleNow
      false).decision.JobsToUnsuspend = [] :=
  ⟨by rfl, by rfl, by rfl,
    (plan_lists_disjoint exampleEnv insideRunPeriod exampleControlledJob [yesterdaysJob]
      exampleNow false).1,
    ((plan_lists_disjoint exampleEnv insideRunPeriod exampleControlledJob [yesterdaysJob]
      exampleNow false).2 (by rfl)).1,
    ((plan_lists_disjoint exampleEnv insideRunPeriod exampleControlledJob [yesterdaysJob]
      exampleNow false).2 (by rfl)).2.2.1,
    ((plan_lists_disjoint exampleEnv insideRunPeriod exampleControlledJob [yesterdaysJob]
      exampleNow false).2 (by rfl)).2.2.2.2.2 (by decide)⟩

/-! ## C39: the branch for a missing start of the run period -/

/-- The errors that `makeDecision` returns: the schedule could not be calculated, the starting
deadline is exceeded, or the Job could not be built. -/
theorem makeDecision_err_kinds (env : Env) (scheduleState : Except String ScheduleState)
    (cj : ControlledJob) (childJobs : List Job) (now : Time) (enable : Bool)
    (e : DecisionError)
    (herr : (makeDecision env scheduleState cj childJobs now enable).err = some e) :
    (∃ cause, e = DecisionError.failedToCalculateSchedule cause) ∨
      e = DecisionError.startingDeadlineExceeded ∨
      ∃ cause, e = DecisionError.failedToCreateJob cause := by
  cases hstate : buildState env scheduleState cj childJobs with
  | error e2 =>
    rw [makeDecision_schedule_error _ _ _ _ _ _ _ hstate] at herr
    obtain ⟨cause, hc⟩ := buildState_error hstate
    simp only [Option.some.injEq] at herr
    exact Or.inl ⟨cause, by rw [← herr, hc]⟩
  | ok st =>
    cases hsus : st.IsSuspended with
    | true =>
      rw [(makeDecision_suspended env scheduleState cj childJobs now enable st hstate hsus).1]
        at herr
      simp at herr
    | false =>
      rcases makeDecision_cases env scheduleState cj childJobs now enable st hstate hsus with
        ⟨_, _, hp⟩ | ⟨_, _, _, _, hp⟩ | ⟨_, c, _, _, _, _, he⟩ | ⟨_, _, _, _, _, _, hp⟩ |
        ⟨_, _, _, he, _⟩ | ⟨hs, _, _, hnone, _⟩ | ⟨_, c, _, _, _, _, _, he⟩ |
        ⟨_, _, _, _, _, _, _, hp⟩
      · rw [hp.err] at herr; simp at herr
      · rw [hp.err] at herr; simp at herr
      · rw [he] at herr
        simp only [Option.some.injEq] at herr
        exact Or.inr (Or.inr ⟨c, herr.symm⟩)
      · rw [hp.err] at herr; simp at herr
      · rw [he] at herr
        simp only [Option.some.injEq] at herr
        exact Or.inr (Or.inl herr.symm)
      · obtain ⟨start, hs2⟩ := start_of_shouldBeRunning hstate hs
        rw [hs2] at hnone
        simp at hnone
      · rw [he] at herr
        simp only [Option.some.injEq] at herr
        exact Or.inr (Or.inr ⟨c, herr.symm⟩)
      · rw [hp.err] at herr; simp at herr

/-- C39: `makeDecision` never returns the error "Tried to create a job, but the
StartOfCurrentRunPeriod is nil, which was unexpected"; and in the state that it builds, whenever
`shouldBeRunning` is true the start of the current run period is not nil. -/
theorem invariant_violation_unreachable (env : Env)
    (scheduleState : Except String ScheduleState) (cj : ControlledJob) (childJobs : List Job)
    (now : Time) (enable : Bool) (state : State) :
    (makeDecision env scheduleState cj childJobs now enable).err ≠
      some DecisionError.startOfCurrentRunPeriodIsNil ∧
    (buildState env scheduleState cj childJobs = .ok state →
      shouldBeRunningOf state = true → state.StartOfCurrentRunPeriod ≠ none) := by
  constructor
  · intro herr
    rcases makeDecision_err_kinds env scheduleState cj childJobs now enable _ herr with
      ⟨_, h⟩ | h | ⟨_, h⟩ <;> simp at h
  · intro hstate h hnone
    obtain ⟨start, hs⟩ := start_of_shouldBeRunning hstate h
    rw [hs] at hnone
    simp at hnone

/-! ## C40: an error of the decision changes nothing in the cluster -/

/-- C40: when `Reconcile` has loaded the ControlledJob and its Jobs and `makeDecision` returns
an error (the schedule cannot be calculated, the starting deadline is exceeded, or the Job
cannot be built), the only call of the reconcile is the status update: no Job is created,
deleted, suspended or unsuspended, so no child is deleted, expired or not. -/
theorem decision_error_makes_no_job_call (env : Env) (lib : CronLib) (fuel : Nat)
    (cluster : Cluster) (name ns : String) (now : ZonedTime) (options : ReconcileOptions)
    (cj : ControlledJob) (jobs : List Job) (ss : Except String ScheduleState)
    (e : DecisionError)
    (hload : loadFromCluster cluster name ns = some (some cj, jobs, none))
    (hss : (StateFor lib fuel cj now).toExcept = some ss)
    (herr : (makeDecision env ss cj jobs now.toTime
      options.EnableAutoRecreateJobsOnSpecChange).err = some e) :
    ((∃ cause, e = DecisionError.failedToCalculateSchedule cause) ∨
      e = DecisionError.startingDeadlineExceeded ∨
      ∃ cause, e = DecisionError.failedToCreateJob cause) ∧
    ∃ run written,
      Reconcile env lib fuel cluster name ns now options = some run ∧
      run.calls = [ClusterCall.updateStatus written] ∧
      (∀ c ∈ run.calls, c.isJobCall = false) ∧
      (∀ job, ClusterCall.deleteJob job ∉ run.calls) := by
  have hcalls : (reconcileBody env cluster ss cj jobs now.toTime options).1.calls = [] := by
    simp only [reconcileBody_calls, herr]
  refine ⟨makeDecision_err_kinds env ss cj jobs now.toTime _ e herr, _,
    calculateOverallConditions env
      (reconcileBody env cluster ss cj jobs now.toTime options).1.controlledJob
      (reconcileBody env cluster ss cj jobs now.toTime options).1.err,
    Reconcile_loaded env lib fuel cluster name ns now options cj jobs ss hload hss, ?_, ?_, ?_⟩
  · simp only [hcalls, List.nil_append]
  · simp only [hcalls, List.nil_append]
    intro c hc
    rw [List.mem_singleton.mp hc]
    rfl
  · simp only [hcalls, List.nil_append]
    intro job hj
    simp at hj

set_option maxRecDepth 100000 in
/-- C40 at work: the example ControlledJob with the annotation `apply-mutations=true` at
2022-12-12T12:12:00Z, with a mutator that fails. Yesterday's Job is expired, and a successful
decision would delete it; the Job for today cannot be built, and the reconcile neither deletes
yesterday's Job nor creates one. -/
theorem decision_error_makes_no_job_call_witness :
    ∃ ss cause,
      loadFromCluster mutatedCluster "basic-job" "default" =
        some (some mutatedControlledJob, [yesterdaysJob], none) ∧
      (StateFor exampleLib 200 mutatedControlledJob exampleNoon).toExcept = some ss ∧
      (makeDecision failingMutatorEnv ss mutatedControlledJob [yesterdaysJob] exampleNoon.toTime
        defaultOptions.EnableAutoRecreateJobsOnSpecChange).err =
        some (DecisionError.failedToCreateJob cause) ∧
      (((∃ c, DecisionError.failedToCreateJob cause = DecisionError.failedToCalculateSchedule c) ∨
        DecisionError.failedToCreateJob cause = DecisionError.startingDeadlineExceeded ∨
        ∃ c, DecisionError.failedToCreateJob cause = DecisionError.failedToCreateJob c) ∧
      ∃ run written,
        Reconcile failingMutatorEnv exampleLib 200 mutatedCluster "basic-job" "default"
          exampleNoon defaultOptions = some run ∧
        run.calls = [ClusterCall.updateStatus written] ∧
        (∀ c ∈ run.calls, c.isJobCall = false) ∧
        (∀ job, ClusterCall.deleteJob job ∉ run.calls)) :=
  ⟨_, _, by rfl, by rfl, by rfl,
    decision_error_makes_no_job_call failingMutatorEnv exampleLib 200 mutatedCluster "basic-job"
      "default" exampleNoon defaultOptions mutatedControlledJob [yesterdaysJob] _ _ (by rfl)
      (by rfl) (by rfl)⟩

/-! ## C8: the replacement of an out-of-date job -/

/-- C8 (amended). Recreate on spec change: when a successful `makeDecision` replaces the
selected child (it creates a Job while a non-expired child is selected), the one created Job is
the new chosen job, nothing is unsuspended in the same reconcile, and the replaced job, which
was out of date and potentially running, is queued in `JobsToDelete`. If no mutator applies,
the created Job carries the scheduled-at of the replaced job, is created with `suspend = true`
and, when the greatest run id is below the greatest `int`, has the job-run-id one more than the
greatest readable run id of the children (counted from -1); if moreover the template does not
itself carry the `is-manually-scheduled` annotation, it has the manual flag of the replaced
job. -/
theorem recreate_on_spec_change (env : Env) (scheduleState : Except String ScheduleState)
    (cj : ControlledJob) (childJobs : List Job) (now : Time) (enable : Bool) (state : State)
    (c : JobRef)
    (hstate : buildState env scheduleState cj childJobs = .ok state)
    (hok : (makeDecision env scheduleState cj childJobs now enable).err = none)
    (hsel : (classifyJobs env state state.AllJobs).chosenJob = some c)
    (hcreate : (makeDecision env scheduleState cj childJobs now enable).decision.JobsToCreate ≠ []) :
    ∃ J t m, GetScheduledTime env c.job = some t ∧
      (makeDecision env scheduleState cj childJobs now enable).decision.JobsToCreate = [J] ∧
      (makeDecision env scheduleState cj childJobs now enable).chosenJob = some J ∧
      (makeDecision env scheduleState cj childJobs now enable).decision.JobsToUnsuspend = [] ∧
      c ∈ (makeDecision env scheduleState cj childJobs now enable).decision.JobsToDelete ∧
      isOutOfDate c.job state = true ∧ IsJobPotentiallyRunning c.job = true ∧
      (∀ j ∈ childJobs, ∀ id, GetJobRunId j = some id → id ≤ m) ∧
      (m = -1 ∨ ∃ j ∈ childJobs, GetJobRunId j = some m) ∧
      (noMutatorApplies env cj = true →
        J.job.annotations.get ScheduledTimeAnnotation = env.formatRFC3339 t ∧
        J.job.spec.suspend = some true ∧
        (m + 1 < 2 ^ 63 → J.job.annotations.get JobRunIdAnnotation = formatInt (m + 1)) ∧
        (templateLacks cj ManualJobAnnotation = true →
          IsManuallyScheduledJob J.job = IsManuallyScheduledJob c.job)) := by
  have hsus : state.IsSuspended = false := by
    cases hs : state.IsSuspended with
    | false => rfl
    | true =>
      have h2 := (makeDecision_suspended env scheduleState cj childJobs now enable state hstate
        hs).2.1
      rw [h2] at hcreate
      exact absurd rfl hcreate
  obtain ⟨ss, _, hall, _⟩ := buildState_ok hstate
  have hmem := classifyJobs_chosen_mem env state _ c hsel
  have hkey := (JobsToDelete_characterised env scheduleState cj childJobs now enable state
    hstate hsus hok).1 c (hall ▸ hmem.1)
  have hch := chosenJob_child env scheduleState cj childJobs now enable state hstate hsus hok
    c (hall ▸ hmem.1)
  obtain ⟨hmax1, hmax2⟩ := scanRunIds_max state state.AllJobs
  have hge := scanRunIds_ge state state.AllJobs
  rcases makeDecision_cases env scheduleState cj childJobs now enable state hstate hsus with
    ⟨_, _, hp⟩ | ⟨_, _, _, _, hp⟩ | ⟨_, _, _, _, _, _, herr⟩ |
    ⟨c0, built, hsel2, _, hre, hb, hp⟩ |
    ⟨_, _, _, herr, _⟩ | ⟨_, _, _, _, herr⟩ | ⟨_, _, _, _, _, _, _, herr⟩ |
    ⟨_, _, _, hsel2, _⟩
  · exact absurd hp.create hcreate
  · exact absurd hp.create hcreate
  · rw [herr] at hok; exact absurd hok (by simp)
  · rw [hsel] at hsel2
    have e : c = c0 := by simpa using hsel2
    subst e
    have hre2 := hre
    unfold shouldRecreate at hre2
    simp only [Bool.and_eq_true, Bool.not_eq_true'] at hre2
    obtain ⟨⟨⟨⟨hout, hrun⟩, _⟩, hdel⟩, _⟩ := hre2
    have hem := emittedRef_of_running _ built (count_pos_of_running env state c hmem.1 hrun)
    obtain ⟨t, ht, hbuild⟩ := RecreateJobWithNewSpec_ok env _ cj _ true built hb
    refine ⟨createdRef built, t, (scanRunIds state state.AllJobs).maxJobRunId, ht, ?_, ?_,
      hp.unsuspend, ?_, hout, hrun, ?_, ?_, ?_⟩
    · rw [hp.create, hem]
    · rw [hp.chosen, hem]
    · rw [hkey]
      refine ⟨hdel, Or.inr ⟨hmem.2, ?_, by simpa [IsJobPotentiallyRunning] using hrun⟩⟩
      intro h
      have := (hch.mp h).2.2
      rw [hre] at this
      exact absurd this (by simp)
    · intro j hj id hid
      obtain ⟨p, hp1, hp2⟩ := exists_pointer_of_mem (i := 0) hj
      exact hmax1 p (hall ▸ hp1) id (by rw [hp2]; exact hid)
    · rcases hmax2 with h | ⟨p, hp1, hp2⟩
      · exact Or.inl h
      · exact Or.inr ⟨p.job, mem_pointersFrom_job (hall ▸ hp1), hp2⟩
    · intro hmut
      obtain ⟨job, h1, _, _, _, _, h6, h7, _⟩ := buildJob_plain env cj t
        (wrapInt64 ((scanRunIds state state.AllJobs).maxJobRunId + 1))
        (IsManuallyScheduledJob c.job) true hmut
      have e : job = built := by
        rw [h1] at hbuild
        simpa using hbuild
      subst e
      refine ⟨h6, buildJob_suspended env cj t _ _ job hmut h1, ?_, ?_⟩
      · intro hlt
        rw [← wrapInt64_of_fits _ (by omega) hlt]
        exact h7
      · intro hman
        exact buildJob_manual env cj t _ _ true job hmut hman h1
  · rw [herr] at hok; exact absurd hok (by simp)
  · rw [herr] at hok; exact absurd hok (by simp)
  · rw [herr] at hok; exact absurd hok (by simp)
  · rw [hsel] at hsel2; exact absurd hsel2 (by simp)

/-- C8 as stated fails, by the design of the builder. With the annotation `apply-mutations`
and a registered mutator that removes the suspend flag, the replacement of the out-of-date
child is created without `suspend = true`. With a job template that itself carries the
annotation `is-manually-scheduled=true`, the replacement of a child that was not manually
scheduled counts as manually scheduled. -/
theorem recreate_on_spec_change_counterexample :
    ((makeDecision resumingMutatorEnv insideRunPeriod mutatedRecreatingControlledJob
        [outdatedJob] exampleNow true).err = none ∧
      (makeDecision resumingMutatorEnv insideRunPeriod mutatedRecreatingControlledJob
        [outdatedJob] exampleNow true).decision.JobsToDelete =
        [{ ptr := JobPtr.child 0, job := outdatedJob }] ∧
      (makeDecision resumingMutatorEnv insideRunPeriod mutatedRecreatingControlledJob
        [outdatedJob] exampleNow true).decision.JobsToCreate.map
          (fun J => (J.job.name, J.job.spec.suspend)) = [("basic-job-1670835600-1", none)]) ∧
    ((makeDecision exampleEnv insideRunPeriod manualTemplateControlledJob [outdatedJob]
        exampleNow true).err = none ∧
      (makeDecision exampleEnv insideRunPeriod manualTemplateControlledJob [outdatedJob]
        exampleNow true).decision.JobsToDelete =
        [{ ptr := JobPtr.child 0, job := outdatedJob }] ∧
      (makeDecision exampleEnv insideRunPeriod manualTemplateControlledJob [outdatedJob]
        exampleNow true).decision.JobsToCreate.map
          (fun J => (J.job.name, IsManuallyScheduledJob J.job)) =
        [("basic-job-1670835600-1", true)] ∧
      IsManuallyScheduledJob outdatedJob = false) := by
  refine ⟨⟨?_, ?_, ?_⟩, ⟨?_, ?_, ?_, ?_⟩⟩ <;> decide

/-- C8 (amended) at work: the out-of-date running child with run id 0 is replaced by a Job
with run id 1 that is created suspended, and is queued for deletion. -/
theorem recreate_on_spec_change_witness :
    (makeDecision exampleEnv insideRunPeriod recreatingControlledJob [outdatedJob] exampleNow
      true).err = none ∧
    ∃ J t m, GetScheduledTime exampleEnv outdatedJob = some t ∧
      (makeDecision exampleEnv insideRunPeriod recreatingControlledJob [outdatedJob] exampleNow
        true).decision.JobsToCreate = [J] ∧
      { ptr := JobPtr.child 0, job := outdatedJob } ∈
        (makeDecision exampleEnv insideRunPeriod recreatingControlledJob [outdatedJob] exampleNow
          true).decision.JobsToDelete ∧
      (m + 1 < 2 ^ 63 → J.job.annotations.get JobRunIdAnnotation = formatInt (m + 1)) :=
  ⟨by decide, (recreate_on_spec_change exampleEnv insideRunPeriod recreatingControlledJob
    [outdatedJob] exampleNow true (recreateState [outdatedJob])
    { ptr := JobPtr.child 0, job := outdatedJob } rfl (by decide) (by decide)
    (by decide)).elim
      fun J h => h.elim fun t h2 => h2.elim fun m h3 =>
        ⟨J, t, m, h3.1, h3.2.1, h3.2.2.2.2.1, (h3.2.2.2.2.2.2.2.2.2 (by decide)).2.2.1⟩⟩

/-! ## C27: the derived flags -/

theorem adjacentEventTime_more_fuel (lib : CronLib) (fuel k : Nat) (s : Option SpecSchedule)
    (now : ZonedTime) (direction : EventDirection) (a : ZonedTime)
    (h : adjacentEventTime lib fuel s now direction = .value a) :
    adjacentEventTime lib (fuel + k) s now direction = .value a := by
  cases s with
  | none => simp [adjacentEventTime] at h
  | some s' =>
    simp only [adjacentEventTime] at h ⊢
    by_cases hd : direction = .directionNext
    · simp only [hd, if_true] at h ⊢
      exact h
    · simp only [hd, if_false] at h ⊢
      cases hc : cronPrev fuel s' now with
      | none => rw [hc] at h; simp at h
      | some t =>
        rw [hc] at h
        rw [cronPrev_more_fuel fuel k s' now t hc]
        exact h

theorem nearestScheduleLoop_more_fuel (lib : CronLib) (fuel k : Nat) (now : ZonedTime)
    (direction : EventDirection) (o : Int) :
    ∀ (schedules : List (Option SpecSchedule)) (idx : Int) (nearest r : ZonedTime × Int),
      nearestScheduleLoop lib fuel now direction o schedules idx nearest = .value r →
      nearestScheduleLoop lib (fuel + k) now direction o schedules idx nearest = .value r
  | [], _, _, _, h => h
  | x :: rest, idx, nearest, r, h => by
    simp only [nearestScheduleLoop] at h ⊢
    obtain ⟨a, ha, h⟩ := andThen_value _ _ _ h
    rw [adjacentEventTime_more_fuel lib fuel k x now direction a ha]
    simp only [Ending.andThen]
    split at h
    · rename_i hz
      rw [if_pos hz]
      exact nearestScheduleLoop_more_fuel lib fuel k now direction o rest (idx + 1) _ r h
    · rename_i hz
      rw [if_neg hz]
      split at h
      · rename_i hn
        rw [if_pos hn]
        exact nearestScheduleLoop_more_fuel lib fuel k now direction o rest (idx + 1) _ r h
      · rename_i hn
        rw [if_neg hn]
        exact nearestScheduleLoop_more_fuel lib fuel k now direction o rest (idx + 1) _ r h

theorem findNearestEvent_more_fuel (lib : CronLib) (fuel k : Nat) (events : List EventSpec)
    (now : ZonedTime) (location : Location) (o : Int) (direction : EventDirection)
    (filter : EventSpec → Bool) (ev : Option ZonedScheduledEvent)
    (h : findNearestEvent lib fuel events now location o direction filter = .value ev) :
    findNearestEvent lib (fuel + k) events now location o direction filter = .value ev := by
  simp only [findNearestEvent] at h ⊢
  obtain ⟨found, hS, h⟩ := andThen_value _ _ _ h
  obtain ⟨r, hr, h⟩ := andThen_value _ _ _ h
  rw [hS]
  simp only [Ending.andThen]
  have hr' : findNearestScheduleTime lib (fuel + k) found.1 now direction o = .value r :=
    nearestScheduleLoop_more_fuel lib fuel k _ direction o _ _ _ _ hr
  rw [hr']
  exact h

theorem findMostRecentStopTime_more_fuel (lib : CronLib) (fuel k : Nat)
    (events : List EventSpec) (location : Location) (o : Int) (now : ZonedTime)
    (ls : Option ZonedTime)
    (h : findMostRecentStopTime lib fuel events location o now = .value ls) :
    findMostRecentStopTime lib (fuel + k) events location o now = .value ls := by
  simp only [findMostRecentStopTime] at h ⊢
  obtain ⟨ev, hev, h⟩ := andThen_value _ _ _ h
  rw [findNearestEvent_more_fuel lib fuel k _ _ _ _ _ _ ev hev]
  exact h

theorem findStartOfCurrentRunPeriod_more_fuel (lib : CronLib) (fuel k : Nat)
    (events : List EventSpec) (location : Location) (o : Int) (now : ZonedTime)
    (sp : Option ZonedTime)
    (h : findStartOfCurrentRunPeriod lib fuel events location o now = .value sp) :
    findStartOfCurrentRunPeriod lib (fuel + k) events location o now = .value sp := by
  simp only [findStartOfCurrentRunPeriod] at h ⊢
  obtain ⟨ls, hls, h⟩ := andThen_value _ _ _ h
  rw [findMostRecentStopTime_more_fuel lib fuel k _ _ _ _ ls hls]
  simp only [Ending.andThen]
  cases ls with
  | none => exact h
  | some stop =>
    simp only at h ⊢
    obtain ⟨ev, hev, h⟩ := andThen_value _ _ _ h
    rw [findNearestEvent_more_fuel lib fuel k _ _ _ _ _ _ ev hev]
    exact h

/-- A state that `StateFor` returns within some number of steps is the state it returns within
any greater number. -/
theorem StateFor_more_fuel (lib : CronLib) (fuel k : Nat) (controlledJob : ControlledJob)
    (now : ZonedTime) (st : ScheduleState)
    (h : StateFor lib fuel controlledJob now = .value st) :
    StateFor lib (fuel + k) controlledJob now = .value st := by
  obtain ⟨location, pe, ne, ls, sp, hl, h1, h2, h3, h4, hst⟩ :=
    StateFor_value lib fuel controlledJob now st h
  simp only [StateFor, hl]
  rw [wrapError_of_value _ _ _ (findNearestEvent_more_fuel lib fuel k _ _ _ _ _ _ pe h1),
    wrapError_of_value _ _ _ (findNearestEvent_more_fuel lib fuel k _ _ _ _ _ _ ne h2),
    wrapError_of_value _ _ _ (findMostRecentStopTime_more_fuel lib fuel k _ _ _ _ ls h3),
    wrapError_of_value _ _ _ (findStartOfCurrentRunPeriod_more_fuel lib fuel k _ _ _ _ sp h4)]
  rw [hst]
  rfl

theorem findNearestScheduleTime_more_fuel (lib : CronLib) (fuel k : Nat)
    (schedules : List (Option SpecSchedule)) (now : ZonedTime) (direction : EventDirection)
    (o : Int) (r : ZonedTime × Int)
    (h : findNearestScheduleTime lib fuel schedules now direction o = .value r) :
    findNearestScheduleTime lib (fuel + k) schedules now direction o = .value r :=
  nearestScheduleLoop_more_fuel lib fuel k _ direction o _ _ _ _ h

/-! ## What `cronPrev` returns in a location without zone transitions -/

set_option maxRecDepth 100000 in
/-- C15 at the failing input: the schedule "every day at 09:00" in UTC, looked at backward from
2022-12-12T12:12:00Z with the additional offset -2147483648, the least `int32`. The candidate
of the claim, `cronPrev(s, now + o) - o`, is 2022-12-11T12:14:08Z, the last 09:00 of the clock
moved by the offset. The code negates the offset as an `int32`, which yields the offset again,
and returns the time 2^32 seconds before the candidate, 1886-11-04T05:45:52Z, whatever the
number of steps allowed to `cronPrev` from 200 on. -/
theorem nearest_schedule_time_least_offset :
    (∀ k : Nat, cronPrev (200 + k) dailyAtNine (exampleNoon.Add (Second * -2147483648)) =
        some (atSecond (-476722800) Location.UTC)) ∧
      candidate (-2147483648) (atSecond (-476722800) Location.UTC) =
        some (atSecond 1670760848 Location.UTC) ∧
      wrapInt32 (- -2147483648) = -2147483648 ∧
      (∀ k : Nat, findNearestScheduleTime exampleLib (200 + k) [some dailyAtNine] exampleNoon
        .directionPrevious (-2147483648) =
          .value (atSecond (-2624206448) Location.UTC, 0)) ∧
      (1670760848 : Int) - -2624206448 = 2 ^ 32 :=
  ⟨fun k => cronPrev_more_fuel 200 k _ _ _ (by decide), by decide, by decide,
    fun k => findNearestScheduleTime_more_fuel exampleLib 200 k _ _ _ _ _ (by decide),
    by norm_num⟩

/-! ## C17: the start of the current run period where the clocks go forward -/

set_option maxRecDepth 100000 in
/-- C17 at the failing input: the events "start every day at 09:00, stop on Saturdays at 23:30"
in America/Asuncion, at 2017-10-01T13:00:00Z, the Sunday morning after the clocks went forward
at midnight. The stop event was due at 2017-10-01T03:30:00Z (Saturday 23:30 in Asuncion), before
`now`; `findMostRecentStopTime` returns the stop of the Saturday before, 2017-09-24T03:30:00Z,
and `findStartOfCurrentRunPeriod` returns the first start after that, 2017-09-24T13:00:00Z,
which is earlier than the most recent stop event, whatever the number of steps allowed to
`cronPrev` from 400 on. -/
theorem start_of_run_period_before_last_stop :
    scheduleOf exampleLib asuncion stopSaturdayNight = some saturdayNight ∧
      fieldsMatch saturdayNight (atSecond 1506828600 asuncion) = true ∧
      (atSecond 1506828600 asuncion).unixNano ≤ gapSunday.unixNano ∧
      (∀ k : Nat, findMostRecentStopTime exampleLib (400 + k) weekEvents asuncion 0 gapSunday =
        .value (some (atSecond 1506223800 Location.UTC))) ∧
      (∀ k : Nat, findStartOfCurrentRunPeriod exampleLib (400 + k) weekEvents asuncion 0
        gapSunday = .value (some (atSecond 1506258000 Location.UTC))) ∧
      (atSecond 1506258000 Location.UTC).unixNano < (atSecond 1506828600 asuncion).unixNano :=
  ⟨by decide, by decide, by decide,
    fun k => findMostRecentStopTime_more_fuel exampleLib 400 k _ _ _ _ _ (by rfl),
    fun k => findStartOfCurrentRunPeriod_more_fuel exampleLib 400 k _ _ _ _ _ (by rfl),
    by decide⟩


/-! ## C37: the start of the current run period while the schedule says to run -/

set_option maxRecDepth 100000 in
/-- C37 at the failing input: a start event and a stop event are both due every day at 09:00,
the start event listed first. At 2022-12-12T12:12:00Z the previous event is the start event of
09:00, so the state says to run; the most recent stop time is 09:00 as well, and the start of
the current run period is the first start event after it, 2022-12-13T09:00:00Z, which is later
than `now`, whatever the number of steps allowed to `cronPrev` from 200 on. The reconcile
creates a Job whose `scheduled-at` is that instant of the day after. -/
theorem start_of_run_period_in_future_while_running :
    ∃ st run,
      (∀ k : Nat, StateFor exampleLib (200 + k) startThenStop exampleNoon = .value st) ∧
      st.ShouldBeRunning = true ∧
      st.LastStopTime = some (Time.ofUnix 1670835600) ∧
      st.StartOfCurrentRunPeriod = some (Time.ofUnix 1670922000) ∧
      exampleNoon.unixNano < (Time.ofUnix 1670922000).unixNano ∧
      Reconcile exampleEnv exampleLib 200 tieCluster "basic-job" "default" exampleNoon
        defaultOptions = some run ∧
      (jobsCalled JobCallKind.create run.calls).map
          (fun J => (J.job.name, J.job.annotations.find ScheduledTimeAnnotation)) =
        [("basic-job-1670922000-0", some "2022-12-13T09:00:00Z")] :=
  ⟨_, _, fun k => StateFor_more_fuel exampleLib 200 k _ _ _ (by rfl), by rfl, by rfl, by rfl,
    by decide, by rfl, by rfl⟩

end CJ
